import Mathlib

/-! brickd: packet headers, buffered writer and client authentication

A shallow embedding of parts of `daemonlib` (`packet.c`, `queue.c`, `writer.c`) and of
`brickd/client.c`, with the properties proved about them.

Conventions of the embedding:

* a `uint8_t` is a `Byte` (`Fin 256`); arithmetic is done on the underlying naturals and
  truncated with `u8` where the C code stores into a `uint8_t`;
* a `uint32_t` that is only copied and compared (the `uid` of a header, the nonce of a
  client) is kept as its four bytes in memory order (`Word`);
* C functions that mutate an object through a pointer return the new object.
-/

namespace Brickd

/-! ## Machine integers -/

/-- One `uint8_t`. -/
abbrev Byte := Fin 256

/-- Truncation of an `int` value to `uint8_t`. -/
def u8 (n : Nat) : Byte := ⟨n % 256, Nat.mod_lt _ (by decide)⟩

/-- Bitwise complement of a (non-negative) `int` constant, as a 32 bit pattern. -/
def bnot32 (n : Nat) : Nat := 0xFFFFFFFF ^^^ n

/-- The four bytes of a `uint32_t` object, in memory order. -/
structure Word where
  b0 : Byte
  b1 : Byte
  b2 : Byte
  b3 : Byte
  deriving DecidableEq, Repr

/-- The bytes of a `Word`, in memory order. -/
def Word.bytes (w : Word) : List Byte := [w.b0, w.b1, w.b2, w.b3]

/-- `uint32_from_le` (utils.c): the value of a little endian stored `uint32_t`. -/
def uint32_from_le (value : Word) : Nat :=
  (value.b3.val <<< 24) ||| (value.b2.val <<< 16) ||| (value.b1.val <<< 8) |||
    (value.b0.val <<< 0)

/-! ## packet.h / packet.c -/

/-- `sizeof(PacketHeader)`. -/
def sizeof_PacketHeader : Nat := 8

/-- `sizeof(Packet)`. -/
def sizeof_Packet : Nat := 80

/-- `FUNCTION_DISCONNECT_PROBE` of `CommonBrickFunctionID`. -/
def FUNCTION_DISCONNECT_PROBE : Nat := 128

/-- `FUNCTION_GET_AUTHENTICATION_NONCE` of `BrickDaemonFunctionID`. -/
def FUNCTION_GET_AUTHENTICATION_NONCE : Nat := 1

/-- `FUNCTION_AUTHENTICATE` of `BrickDaemonFunctionID`. -/
def FUNCTION_AUTHENTICATE : Nat := 2

/-- `PACKET_E_SUCCESS` of `PacketE`. -/
def PACKET_E_SUCCESS : Nat := 0

/-- `PACKET_E_INVALID_PARAMETER` of `PacketE`. -/
def PACKET_E_INVALID_PARAMETER : Nat := 1

/-- `PACKET_E_FUNCTION_NOT_SUPPORTED` of `PacketE`. -/
def PACKET_E_FUNCTION_NOT_SUPPORTED : Nat := 2

/-- `PACKET_E_UNKNOWN_ERROR` of `PacketE`. -/
def PACKET_E_UNKNOWN_ERROR : Nat := 3

/-- `PacketHeader` (packed, 8 bytes). -/
structure PacketHeader where
  /-- always little endian -/
  uid : Word
  /-- packet length including header -/
  length : Byte
  function_id : Byte
  /-- 4 bit sequence number, 1 bit response expected, 3 bit unused -/
  sequence_number_and_options : Byte
  /-- 2 bit error code, 6 bit unused -/
  error_code_and_future_use : Byte
  deriving DecidableEq, Repr

/-- The 8 bytes of a header, in memory (and wire) order. -/
def PacketHeader.bytes (h : PacketHeader) : List Byte :=
  h.uid.bytes ++ [h.length, h.function_id, h.sequence_number_and_options,
    h.error_code_and_future_use]

/-- `Packet`: the header and the bytes that follow it (`payload[64]` and
`optional_data[8]`), in memory order. -/
structure Packet where
  header : PacketHeader
  payload : List Byte
  deriving DecidableEq, Repr

/-- The bytes of a packet object, in memory order. -/
def Packet.bytes (p : Packet) : List Byte := p.header.bytes ++ p.payload

/-- `packet_header_get_sequence_number`. -/
def packet_header_get_sequence_number (header : PacketHeader) : Byte :=
  u8 ((header.sequence_number_and_options.val >>> 4) &&& 0x0F)

/-- `packet_header_set_sequence_number`. -/
def packet_header_set_sequence_number (header : PacketHeader) (sequence_number : Byte) :
    PacketHeader :=
  let h1 := { header with
    sequence_number_and_options := u8 (header.sequence_number_and_options.val &&& bnot32 0xF0) }
  { h1 with
    sequence_number_and_options :=
      u8 (h1.sequence_number_and_options.val ||| ((sequence_number.val <<< 4) &&& 0xF0)) }

/-- `packet_header_get_response_expected`. -/
def packet_header_get_response_expected (header : PacketHeader) : Bool :=
  ((header.sequence_number_and_options.val >>> 3) &&& 0x01) == 0x01

/-- `packet_header_set_response_expected`. -/
def packet_header_set_response_expected (header : PacketHeader) (response_expected : Bool) :
    PacketHeader :=
  if response_expected then
    { header with
      sequence_number_and_options := u8 (header.sequence_number_and_options.val ||| (0x01 <<< 3)) }
  else
    { header with
      sequence_number_and_options :=
        u8 (header.sequence_number_and_options.val &&& bnot32 (0x01 <<< 3)) }

/-- `packet_header_get_error_code`. -/
def packet_header_get_error_code (header : PacketHeader) : Nat :=
  (header.error_code_and_future_use.val >>> 6) &&& 0x03

/-- `packet_header_set_error_code`. -/
def packet_header_set_error_code (header : PacketHeader) (error_code : Nat) : PacketHeader :=
  let h1 := { header with
    error_code_and_future_use := u8 (header.error_code_and_future_use.val &&& bnot32 0xC0) }
  { h1 with
    error_code_and_future_use :=
      u8 (h1.error_code_and_future_use.val ||| ((error_code <<< 6) &&& 0xC0)) }

/-- `packet_header_is_valid_request`: the return value and the text stored through
`message` (when one is stored). -/
def packet_header_is_valid_request (header : PacketHeader) : Bool × Option String :=
  if header.length.val < sizeof_PacketHeader then
    (false, some "Length is too small")
  else if header.length.val > sizeof_Packet then
    (false, some "Length is too big")
  else if header.function_id.val == 0 then
    (false, some "Invalid function ID")
  else if (packet_header_get_sequence_number header).val == 0 then
    (false, some "Invalid sequence number")
  else
    (true, none)

/-- `packet_is_matching_response`. -/
def packet_is_matching_response (packet : Packet) (pending_request : PacketHeader) : Bool :=
  if packet.header.uid != pending_request.uid then
    false
  else if packet.header.function_id != pending_request.function_id then
    false
  else if packet_header_get_sequence_number packet.header !=
      packet_header_get_sequence_number pending_request then
    false
  else
    true

/-- The three header setters of packet.c, with their arguments. -/
inductive HeaderSetter where
  | sequence_number (s : Byte)
  | response_expected (r : Bool)
  | error_code (e : Nat)
  deriving DecidableEq, Repr

/-- One call of a header setter. -/
def HeaderSetter.apply (header : PacketHeader) : HeaderSetter → PacketHeader
  | .sequence_number s => packet_header_set_sequence_number header s
  | .response_expected r => packet_header_set_response_expected header r
  | .error_code e => packet_header_set_error_code header e

/-- A sequence of setter calls, first call first. -/
def apply_setters (header : PacketHeader) (calls : List HeaderSetter) : PacketHeader :=
  calls.foldl HeaderSetter.apply header

/-! ## Copying bytes -/

/-- The object that starts with the bytes `bytes[0..8)` as a header and continues with the
rest as payload (a missing byte reads as 0). -/
def Packet.of_bytes (bytes : List Byte) : Packet :=
  { header :=
      { uid := ⟨bytes.getD 0 0, bytes.getD 1 0, bytes.getD 2 0, bytes.getD 3 0⟩
        length := bytes.getD 4 0
        function_id := bytes.getD 5 0
        sequence_number_and_options := bytes.getD 6 0
        error_code_and_future_use := bytes.getD 7 0 }
    payload := bytes.drop 8 }

/-- `memcpy(destination, source, length)` on the bytes of two objects: the first `length`
bytes of the destination are replaced by those of the source. -/
def memcpy (destination source : List Byte) (length : Nat) : List Byte :=
  source.take length ++ destination.drop length

/-! ## io.h

An `IO` object is a sink of bytes. What one call of its `write` function does is not
decided by the daemon; it is an input of the embedding (`IOWrite`). -/

/-- The possible behaviours of one `io_write` call: the sink takes up to `n` of the
offered bytes, or the call fails with an errno for which `errno_would_block()` holds, or
it fails with any other errno. -/
inductive IOWrite where
  | accept (n : Nat)
  | would_block
  | error
  deriving DecidableEq, Repr

/-- The `IO` struct, as far as the writer is concerned: the bytes the object has accepted
so far, oldest first. -/
structure IOObject where
  written : List Byte
  deriving DecidableEq, Repr

/-- `io_write(io, buffer, length)`: the new sink, the return value and whether
`errno_would_block()` holds afterwards. `buffer` are the bytes found at the pointer that
is passed. The sink never takes more than `length` bytes. -/
def io_write (io : IOObject) (buffer : List Byte) (length : Nat) (outcome : IOWrite) :
    IOObject × Int × Bool :=
  match outcome with
  | IOWrite.accept n =>
    ({ written := io.written ++ buffer.take (min n length) }, ((min n length : Nat) : Int), false)
  | IOWrite.would_block => (io, -1, true)
  | IOWrite.error => (io, -1, false)

/-! ## queue.c

The single linked list of a `Queue` is kept as the list of its items, head first; `count`
is the number of nodes of that list. `calloc` is taken to succeed. -/

/-- `Queue`. -/
structure Queue (α : Type) where
  items : List α
  deriving DecidableEq, Repr

/-- `queue->count`. -/
def Queue.count {α : Type} (queue : Queue α) : Nat := queue.items.length

/-- `queue_create`. -/
def queue_create {α : Type} : Queue α := { items := [] }

/-- `queue_push`: a new node is linked in at the tail. The C function returns a pointer to
the zeroed item of the node and the caller writes the item through it; here the item as
the caller leaves it is an argument. -/
def queue_push {α : Type} (queue : Queue α) (item : α) : Queue α :=
  { items := queue.items ++ [item] }

/-- `queue_pop(queue, NULL)`. -/
def queue_pop {α : Type} (queue : Queue α) : Queue α :=
  if queue.count == 0 then queue else { items := queue.items.tail }

/-- `queue_peek`. -/
def queue_peek {α : Type} (queue : Queue α) : Option α :=
  if queue.count == 0 then none else queue.items.head?

/-! ## writer.h / writer.c -/

/-- `MAX_QUEUED_WRITES`. -/
def MAX_QUEUED_WRITES : Nat := 32768

/-- `PartialPacket`. -/
structure PartialPacket where
  packet : Packet
  written : Nat
  deriving DecidableEq, Repr

/-- `Writer`. `io` is the object behind the pointer; `write_event` tells whether
`writer_handle_write` is registered for `EVENT_WRITE` on `io->write_handle`
(`event_modify_source`, which is taken to succeed). The display strings and the function
pointers are left out; `recipient_disconnect` is reported by the functions that call it. -/
structure Writer where
  io : IOObject
  dropped_packets : Nat
  backlog : Queue PartialPacket
  write_event : Bool
  deriving DecidableEq, Repr

/-- `writer_create`. -/
def writer_create (io : IOObject) : Writer :=
  { io := io, dropped_packets := 0, backlog := queue_create, write_event := false }

/-- The loop `while (writer->backlog.count >= MAX_QUEUED_WRITES) queue_pop(...)` of
`writer_push_packet_to_backlog`. -/
def writer_drop_queued (backlog : Queue PartialPacket) : Queue PartialPacket :=
  if backlog.count ≥ MAX_QUEUED_WRITES then
    writer_drop_queued (queue_pop backlog)
  else
    backlog
termination_by backlog.items.length
decreasing_by
  rename_i h
  have h0 : backlog.items.length ≠ 0 := by
    simp only [Queue.count, MAX_QUEUED_WRITES] at h
    omega
  simp only [queue_pop, Queue.count, beq_iff_eq, h0, if_false, List.length_tail]
  omega

/-- The item that `writer_push_packet_to_backlog` writes into the zeroed node:
`memcpy(&queued->packet, packet, packet->header.length)` and `queued->written = written`. -/
def writer_queued_packet (packet : Packet) (written : Nat) : PartialPacket :=
  { packet := Packet.of_bytes
      (memcpy (List.replicate sizeof_Packet 0) packet.bytes packet.header.length.val)
    written := written }

/-- `writer_push_packet_to_backlog`: the new writer and the return value. -/
def writer_push_packet_to_backlog (writer : Writer) (packet : Packet) (written : Nat) :
    Writer × Int :=
  let writer1 : Writer :=
    if writer.backlog.count ≥ MAX_QUEUED_WRITES then
      let packets_to_drop := (writer.backlog.count - MAX_QUEUED_WRITES + 1) % 2 ^ 32
      { writer with
        dropped_packets := (writer.dropped_packets + packets_to_drop) % 2 ^ 32
        backlog := writer_drop_queued writer.backlog }
    else
      writer
  let writer2 : Writer :=
    { writer1 with backlog := queue_push writer1.backlog (writer_queued_packet packet written) }
  if writer2.backlog.count == 1 then
    ({ writer2 with write_event := true }, 0)
  else
    (writer2, 0)

/-- `writer_handle_write`: the new writer and whether `recipient_disconnect` was called. -/
def writer_handle_write (writer : Writer) (outcome : IOWrite) : Writer × Bool :=
  if writer.backlog.count == 0 then
    (writer, false)
  else
    match queue_peek writer.backlog with
    | none => (writer, false)
    | some partial_packet =>
      let remaining_data := partial_packet.packet.bytes.drop partial_packet.written
      let remaining_length : Int :=
        (partial_packet.packet.header.length.val : Int) - (partial_packet.written : Int)
      let written : IOObject × Option Nat :=
        if remaining_length > 0 then
          match io_write writer.io remaining_data remaining_length.toNat outcome with
          | (io, rc, _) =>
            if rc < 0 then (io, none) else (io, some (partial_packet.written + rc.toNat))
        else
          (writer.io, some partial_packet.written)
      match written with
      | (io, none) => ({ writer with io := io }, true)
      | (io, some new_written) =>
        let head : PartialPacket := { partial_packet with written := new_written }
        let writer1 : Writer :=
          { writer with io := io, backlog := { items := head :: writer.backlog.items.tail } }
        if new_written < partial_packet.packet.header.length.val then
          (writer1, false)
        else
          let writer2 : Writer := { writer1 with backlog := queue_pop writer1.backlog }
          if writer2.backlog.count == 0 then
            ({ writer2 with write_event := false }, false)
          else
            (writer2, false)

/-- What `writer_write` hands back: the new writer, the return value and whether
`recipient_disconnect` was called. -/
structure WriterResult where
  writer : Writer
  rc : Int
  recipient_disconnect : Bool
  deriving DecidableEq, Repr

/-- `writer_write`. `outcome` is the behaviour of the `io_write` call, if one is made. -/
def writer_write (writer : Writer) (packet : Packet) (outcome : IOWrite) : WriterResult :=
  if writer.backlog.count > 0 then
    match writer_push_packet_to_backlog writer packet 0 with
    | (writer1, rc) =>
      if rc < 0 then ⟨writer1, -1, false⟩ else ⟨writer1, 1, false⟩
  else
    match io_write writer.io packet.bytes packet.header.length.val outcome with
    | (io, rc, would_block) =>
      let writer1 : Writer := { writer with io := io }
      if rc < 0 then
        if would_block then
          match writer_push_packet_to_backlog writer1 packet 0 with
          | (writer2, rc2) =>
            if rc2 < 0 then ⟨writer2, -1, false⟩ else ⟨writer2, 1, false⟩
        else
          ⟨writer1, -1, true⟩
      else if rc < (packet.header.length.val : Int) then
        match writer_push_packet_to_backlog writer1 packet rc.toNat with
        | (writer2, rc2) =>
          if rc2 < 0 then ⟨writer2, -1, false⟩ else ⟨writer2, 1, false⟩
      else
        ⟨writer1, 0, false⟩

/-- One use of a writer: a `writer_write` call or a write readiness event, each with the
behaviour of the `io_write` call it may make. -/
inductive WriterEvent where
  | write (packet : Packet) (outcome : IOWrite)
  | handle_write (outcome : IOWrite)
  deriving DecidableEq, Repr

/-- The writer after one event. -/
def writer_step (writer : Writer) : WriterEvent → Writer
  | WriterEvent.write packet outcome => (writer_write writer packet outcome).writer
  | WriterEvent.handle_write outcome => (writer_handle_write writer outcome).1

/-- The writer after a sequence of events, first event first. -/
def writer_run (writer : Writer) (events : List WriterEvent) : Writer :=
  events.foldl writer_step writer

/-- The packets passed to `writer_write` in a sequence of events, in call order. -/
def written_packets : List WriterEvent → List Packet
  | [] => []
  | WriterEvent.write packet _ :: events => packet :: written_packets events
  | WriterEvent.handle_write _ :: events => written_packets events

/-- The `header.length` bytes of a packet that go over the wire. -/
def Packet.wire (packet : Packet) : List Byte := packet.bytes.take packet.header.length.val

/-- In-order delivery of complete packets: `sent` is a prefix of the concatenation of the
wire bytes of some of the `packets`, taken in their order. -/
def complete_packets_prefix (sent : List Byte) (packets : List Packet) : Prop :=
  ∃ delivered : List Packet, delivered.Sublist packets ∧
    sent <+: (delivered.map Packet.wire).flatten

/-- The `writer_write` calls that pass `packets`, one after the other, to a writer whose
sink reports would-block at every `io_write`. -/
def would_block_writes (packets : List Packet) : List WriterEvent :=
  packets.map (fun packet => WriterEvent.write packet IOWrite.would_block)

/-- A response of 8 bytes, the first packet of `overflow_events`. -/
def overflow_first : Packet := ⟨⟨⟨0x11, 0, 0, 0⟩, 8, 1, 0x18, 0⟩, []⟩

/-- A response of 8 bytes to another UID, the packet that follows in `overflow_events`. -/
def overflow_next : Packet := ⟨⟨⟨0x22, 0, 0, 0⟩, 8, 1, 0x18, 0⟩, []⟩

/-- A backlog that overflows while its head is partially written: the sink takes 3 of the
8 bytes of `overflow_first`, 32768 more packets are passed to `writer_write` while the sink
is not ready, then a write readiness event finds the sink ready for 8 bytes. -/
def overflow_events : List WriterEvent :=
  WriterEvent.write overflow_first (IOWrite.accept 3) ::
    (would_block_writes (List.replicate 32768 overflow_next)
      ++ [WriterEvent.handle_write (IOWrite.accept 8)])

/-- The writer after the first event of `overflow_events`. -/
def overflow_writer : Writer :=
  { io := { written := [0x11, 0, 0] }
    dropped_packets := 0
    backlog := { items := [writer_queued_packet overflow_first 3] }
    write_event := true }

/-! ## client.h / client.c

`client.h`, `network.c`, `hardware.c` and `hmac.c` are not among the sources. The fields
of `Client` and `PendingRequest` are those that `client.c` uses; the lists that hang off a
sentinel `Node` are kept as the list of their nodes, first node first. -/

/-- `UID_BRICK_DAEMON`. -/
def UID_BRICK_DAEMON : Nat := 1

/-- `SHA1_DIGEST_LENGTH`. -/
def SHA1_DIGEST_LENGTH : Nat := 20

/-- `sizeof(GetAuthenticationNonceRequest)`. -/
def sizeof_GetAuthenticationNonceRequest : Nat := 8

/-- `sizeof(GetAuthenticationNonceResponse)`. -/
def sizeof_GetAuthenticationNonceResponse : Nat := 12

/-- `sizeof(AuthenticateRequest)`. -/
def sizeof_AuthenticateRequest : Nat := 32

/-- `sizeof(AuthenticateResponse)`. -/
def sizeof_AuthenticateResponse : Nat := 8

/-- `sizeof(EmptyResponse)`. -/
def sizeof_EmptyResponse : Nat := 8

/-- `ClientAuthenticationState` (`CLIENT_AUTHENTICATION_STATE_...`). -/
inductive ClientAuthenticationState where
  | DISABLED
  | ENABLED
  | NONCE_SEND
  | DONE
  deriving DecidableEq, Repr

/-- `PendingRequest`: `id` stands for the address of the object, which tells the nodes of
the lists apart; `header` is the header of the request. -/
structure PendingRequest where
  id : Nat
  header : PacketHeader
  deriving DecidableEq, Repr

/-- `Client`. `pending_requests` is the list at `pending_request_sentinel`. -/
structure Client where
  disconnected : Bool
  request_buffer : List Byte
  request_buffer_used : Nat
  request_header_checked : Bool
  pending_requests : List PendingRequest
  pending_request_count : Int
  authentication_state : ClientAuthenticationState
  authentication_nonce : Word
  response_writer : Writer
  deriving DecidableEq, Repr

/-- One client and what the functions of client.c reach from it: the global list of
pending requests of network.c, the number of `PendingRequest` objects allocated so far
(the next one gets this number as `id`), and two records of calls: the packets passed to
`writer_write` on the response writer of the client and the requests passed to
`hardware_dispatch_request`, oldest first. -/
structure Daemon where
  client : Client
  pending_requests : List PendingRequest
  allocated : Nat
  writer_writes : List Packet
  hardware_requests : List Packet
  deriving DecidableEq, Repr

/-- Modelled from the spec: `network_client_expects_response` of network.c, which is not
among the sources. Section 4.5: "create `PendingRequest{header = request.header}`, link
into global list and client's list, increment `client.pending_request_count`". The new node
is linked in at the tail of both lists. -/
def network_client_expects_response (daemon : Daemon) (request : Packet) : Daemon :=
  let pending_request : PendingRequest := { id := daemon.allocated, header := request.header }
  { daemon with
    client :=
      { daemon.client with
        pending_requests := daemon.client.pending_requests ++ [pending_request]
        pending_request_count := daemon.client.pending_request_count + 1 }
    pending_requests := daemon.pending_requests ++ [pending_request]
    allocated := daemon.allocated + 1 }

/-- `pending_request_remove_and_free`, for a pending request of the client
(`pending_request->client` is the client, `pending_request->zombie` is `NULL`). -/
def pending_request_remove_and_free (daemon : Daemon) (pending_request : PendingRequest) :
    Daemon :=
  { daemon with
    pending_requests := daemon.pending_requests.erase pending_request
    client :=
      { daemon.client with
        pending_requests := daemon.client.pending_requests.erase pending_request
        pending_request_count := daemon.client.pending_request_count - 1 } }

/-- The statements at the label `cleanup` of `client_dispatch_response`. -/
def client_dispatch_response_cleanup (daemon : Daemon)
    (pending_request : Option PendingRequest) : Daemon :=
  match pending_request with
  | some pending_request => pending_request_remove_and_free daemon pending_request
  | none => daemon

/-- `client_dispatch_response`. `outcome` is the behaviour of the `io_write` call that
`writer_write` may make. `client_recipient_disconnect`, the `recipient_disconnect` function
of the response writer, sets `client->disconnected`. -/
def client_dispatch_response (daemon : Daemon) (pending_request : Option PendingRequest)
    (response : Packet) (force ignore_authentication : Bool) (outcome : IOWrite) : Daemon :=
  if !ignore_authentication &&
      daemon.client.authentication_state != ClientAuthenticationState.DISABLED &&
      daemon.client.authentication_state != ClientAuthenticationState.DONE then
    client_dispatch_response_cleanup daemon pending_request
  else
    let search : Option PendingRequest × Bool :=
      if !force && pending_request.isNone then
        match daemon.client.pending_requests.find?
            (fun candidate => packet_is_matching_response response candidate.header) with
        | some found => (some found, false)
        | none => (none, true)
      else
        (pending_request, false)
    match search with
    | (pending_request1, true) => client_dispatch_response_cleanup daemon pending_request1
    | (pending_request1, false) =>
      if daemon.client.disconnected then
        client_dispatch_response_cleanup daemon pending_request1
      else if force || pending_request1.isSome then
        let result := writer_write daemon.client.response_writer response outcome
        let daemon1 : Daemon :=
          { daemon with
            client :=
              { daemon.client with
                response_writer := result.writer
                disconnected := daemon.client.disconnected || result.recipient_disconnect }
            writer_writes := daemon.writer_writes ++ [response] }
        client_dispatch_response_cleanup daemon1 pending_request1
      else
        client_dispatch_response_cleanup daemon pending_request1

/-- `client->disconnected = true`. -/
def Daemon.disconnect (daemon : Daemon) : Daemon :=
  { daemon with client := { daemon.client with disconnected := true } }

/-- `client->authentication_state = state`. -/
def Daemon.set_authentication_state (daemon : Daemon) (state : ClientAuthenticationState) :
    Daemon :=
  { daemon with client := { daemon.client with authentication_state := state } }

/-- The union `u` of `client_handle_get_authentication_nonce_request`, as far as it is
written: the header of the request with `sizeof(GetAuthenticationNonceResponse)` as length,
and the bytes of the nonce of the client. -/
def get_authentication_nonce_response (client : Client) (request : Packet) : Packet :=
  { header := { request.header with length := u8 sizeof_GetAuthenticationNonceResponse }
    payload := client.authentication_nonce.bytes }

/-- The union `u` of `client_handle_authenticate_request`, as far as it is written: the
header of the request with `sizeof(AuthenticateResponse)` as length and `PACKET_E_SUCCESS`
as error code. -/
def authenticate_response (request : Packet) : Packet :=
  { header := packet_header_set_error_code
      { request.header with length := u8 sizeof_AuthenticateResponse } PACKET_E_SUCCESS
    payload := [] }

/-- The union `u` of `client_handle_request`, as far as it is written: the header of the
request with `sizeof(EmptyResponse)` as length and `PACKET_E_FUNCTION_NOT_SUPPORTED` as
error code. -/
def function_not_supported_response (request : Packet) : Packet :=
  { header := packet_header_set_error_code
      { request.header with length := u8 sizeof_EmptyResponse }
      PACKET_E_FUNCTION_NOT_SUPPORTED
    payload := [] }

/-- `client_handle_get_authentication_nonce_request`. -/
def client_handle_get_authentication_nonce_request (daemon : Daemon) (request : Packet)
    (outcome : IOWrite) : Daemon :=
  if daemon.client.authentication_state == ClientAuthenticationState.DISABLED then
    daemon.disconnect
  else
    let daemon1 :=
      if daemon.client.authentication_state == ClientAuthenticationState.DONE then
        daemon.set_authentication_state ClientAuthenticationState.ENABLED
      else
        daemon
    if daemon1.client.authentication_state != ClientAuthenticationState.ENABLED then
      daemon1.disconnect
    else
      let response := get_authentication_nonce_response daemon1.client request
      let daemon2 := client_dispatch_response daemon1 none response false true outcome
      daemon2.set_authentication_state ClientAuthenticationState.NONCE_SEND

/-- `memcmp(a, b, length) != 0`. -/
def memcmp_ne (a b : List Byte) (length : Nat) : Bool := a.take length != b.take length

/-- `client_handle_authenticate_request`. `hmac_sha1 key data` is the digest that the
function `hmac_sha1` of hmac.c stores; `secret` are the bytes of the string
`config_get_option_value("authentication.secret")->string`. -/
def client_handle_authenticate_request (hmac_sha1 : List Byte → List Byte → List Byte)
    (secret : List Byte) (daemon : Daemon) (request : Packet) (outcome : IOWrite) : Daemon :=
  if daemon.client.authentication_state == ClientAuthenticationState.DISABLED then
    daemon.disconnect
  else if daemon.client.authentication_state != ClientAuthenticationState.NONCE_SEND then
    daemon.disconnect
  else
    let nonces : List Byte := daemon.client.authentication_nonce.bytes ++ request.payload.take 4
    let digest : List Byte := hmac_sha1 secret nonces
    if memcmp_ne ((request.payload.drop 4).take SHA1_DIGEST_LENGTH) digest
        SHA1_DIGEST_LENGTH then
      daemon.disconnect
    else
      let daemon1 := daemon.set_authentication_state ClientAuthenticationState.DONE
      if packet_header_get_response_expected request.header then
        client_dispatch_response daemon1 none (authenticate_response request) false false
          outcome
      else
        daemon1

/-- `hardware_dispatch_request(request)`, the last statement of its branch of
`client_handle_request`: the call is recorded, the function itself is not among the
sources. -/
def hardware_dispatch_request (daemon : Daemon) (request : Packet) : Daemon :=
  { daemon with hardware_requests := daemon.hardware_requests ++ [request] }

/-- `client_handle_request`. -/
def client_handle_request (hmac_sha1 : List Byte → List Byte → List Byte)
    (secret : List Byte) (daemon : Daemon) (request : Packet) (outcome : IOWrite) : Daemon :=
  if uint32_from_le request.header.uid == UID_BRICK_DAEMON then
    let daemon1 :=
      if packet_header_get_response_expected request.header then
        network_client_expects_response daemon request
      else
        daemon
    if request.header.function_id.val == FUNCTION_GET_AUTHENTICATION_NONCE then
      if request.header.length.val != sizeof_GetAuthenticationNonceRequest then
        daemon1.disconnect
      else
        client_handle_get_authentication_nonce_request daemon1 request outcome
    else if request.header.function_id.val == FUNCTION_AUTHENTICATE then
      if request.header.length.val != sizeof_AuthenticateRequest then
        daemon1.disconnect
      else
        client_handle_authenticate_request hmac_sha1 secret daemon1 request outcome
    else if packet_header_get_response_expected request.header then
      client_dispatch_response daemon1 none (function_not_supported_response request) false
        false outcome
    else
      daemon1
  else if daemon.client.authentication_state == ClientAuthenticationState.DISABLED ||
      daemon.client.authentication_state == ClientAuthenticationState.DONE then
    let daemon1 :=
      if packet_header_get_response_expected request.header then
        network_client_expects_response daemon request
      else
        daemon
    hardware_dispatch_request daemon1 request
  else
    daemon

/-- `client_create`, as far as the fields of the embedding go; `secret` is the string of
the option `authentication.secret` (`none` for `NULL`). The request buffer is not
initialised by the C function; it is zeroed here. -/
def client_create (io : IOObject) (authentication_nonce : Word)
    (secret : Option (List Byte)) : Client :=
  { disconnected := false
    request_buffer := List.replicate sizeof_Packet 0
    request_buffer_used := 0
    request_header_checked := false
    pending_requests := []
    pending_request_count := 0
    authentication_state :=
      if secret.isSome then ClientAuthenticationState.ENABLED
      else ClientAuthenticationState.DISABLED
    authentication_nonce := authentication_nonce
    response_writer := writer_create io }

/-- A daemon with one client, no pending request and no call recorded. -/
def daemon_of (client : Client) : Daemon :=
  { client := client
    pending_requests := []
    allocated := 0
    writer_writes := []
    hardware_requests := [] }

/-- A daemon whose client has just been created with nonce 04 03 02 01 and secret "s", and
has then reached the authentication state `state`. -/
def example_daemon (state : ClientAuthenticationState) : Daemon :=
  daemon_of { client_create ⟨[]⟩ ⟨4, 3, 2, 1⟩ (some [115]) with authentication_state := state }

/-- A GET_AUTH_NONCE request (UID 1, length 8, function 1) with the given option byte. -/
def example_get_nonce_request (sequence_number_and_options : Byte) : Packet :=
  ⟨⟨⟨1, 0, 0, 0⟩, 8, 1, sequence_number_and_options, 0⟩, []⟩

/-- A stand-in for `hmac_sha1` in examples: the digest is 20 zero bytes. -/
def example_hmac_sha1 : List Byte → List Byte → List Byte := fun _ _ => List.replicate 20 0

/-- An AUTHENTICATE request (UID 1, length 32, function 2) with the given option byte,
client nonce 10 11 12 13 and the given digest. -/
def example_authenticate_request (sequence_number_and_options : Byte) (digest : List Byte) :
    Packet :=
  ⟨⟨⟨1, 0, 0, 0⟩, 32, 2, sequence_number_and_options, 0⟩, [0x10, 0x11, 0x12, 0x13] ++ digest⟩

/-- A request to the daemon (UID 1, length 8) with function ID 3, which the daemon does not
know, with the given option byte. -/
def example_unknown_request (sequence_number_and_options : Byte) : Packet :=
  ⟨⟨⟨1, 0, 0, 0⟩, 8, 3, sequence_number_and_options, 0⟩, []⟩

/-- A client in state ENABLED for which the request `example_unknown_request 0x18` has
been registered as pending. -/
def example_daemon_with_pending : Daemon :=
  network_client_expects_response (example_daemon ClientAuthenticationState.ENABLED)
    (example_unknown_request 0x18)

/-! ## array.c

An `Array` of items that are not relocatable is kept as the list of its items, in index
order; `count` is the length of that list. `calloc` and `realloc` are taken to succeed. -/

/-- `array_get(array, index)`; there is no item outside `0 <= index < count`. -/
def array_get {α : Type} (items : List α) (index : Int) : Option α :=
  if index < 0 then none else items[index.toNat]?

/-- `array_append`: the new item is zeroed, the caller fills it in through the pointer that
is returned; here the item as the caller leaves it is an argument. -/
def array_append {α : Type} (items : List α) (item : α) : List α := items ++ [item]

/-- `array_remove(array, index, NULL)`: the items behind `index` move down by one. -/
def array_remove {α : Type} (items : List α) (index : Nat) : List α := items.eraseIdx index

/-! ## event.h / event.c -/

/-- `EVENT_READ` (`POLLIN`, `EPOLLIN`). -/
def EVENT_READ : Nat := 0x0001

/-- `EVENT_PRIO` (`POLLPRI`, `EPOLLPRI`). -/
def EVENT_PRIO : Nat := 0x0002

/-- `EVENT_WRITE` (`POLLOUT`, `EPOLLOUT`). -/
def EVENT_WRITE : Nat := 0x0004

/-- `EVENT_ERROR` (`POLLERR`, `EPOLLERR`). -/
def EVENT_ERROR : Nat := 0x0008

/-- `EventSourceType`. -/
inductive EventSourceType where
  | GENERIC
  | USB
  deriving DecidableEq, Repr

/-- `EventSourceState`. -/
inductive EventSourceState where
  | NORMAL
  | ADDED
  | REMOVED
  | READDED
  | MODIFIED
  deriving DecidableEq, Repr

/-- `EventSource`. An `EventFunction` and a `void *` are kept as the address they hold;
`0` is `NULL`. The fields `read_data`, `write_data`, `prio_data` and `error_data` are the
`void *` arguments that go with the four event functions. -/
structure EventSource where
  handle : Int
  type : EventSourceType
  name : String
  events : Nat
  state : EventSourceState
  read : Nat
  read_data : Nat
  write : Nat
  write_data : Nat
  prio : Nat
  prio_data : Nat
  error : Nat
  error_data : Nat
  deriving DecidableEq, Repr

/-- The loop of `event_find_source`, with `remaining` iterations to go before `i == end`. -/
def event_find_source_loop (sources : List EventSource) (handle : Int)
    (type : EventSourceType) (step : Int) : (remaining : Nat) → (i : Int) →
    Option (EventSource × Int)
  | 0, _ => none
  | remaining + 1, i =>
    match array_get sources i with
    | some event_source =>
      if event_source.handle == handle && event_source.type == type then
        some (event_source, i)
      else
        event_find_source_loop sources handle type step remaining (i + step)
    | none => event_find_source_loop sources handle type step remaining (i + step)

/-- `event_find_source`: the event source found and the value stored through `index`, or
`none` for `NULL`. The loop runs from `start` towards `end` in steps of one, which takes
`|end - start|` iterations. -/
def event_find_source (sources : List EventSource) (start end_ : Int) (handle : Int)
    (type : EventSourceType) : Option (EventSource × Int) :=
  let step : Int := if start < end_ then 1 else -1
  event_find_source_loop sources handle type step (end_ - start).natAbs start

/-- The four blocks `if ((events & EVENT_...) != 0) { event_source->... = function; ... }`
of `event_add_source` and `event_modify_source`. -/
def event_source_set_functions (event_source : EventSource) (events function data : Nat) :
    EventSource :=
  let s1 := if events &&& EVENT_READ != 0 then
    { event_source with read := function, read_data := data } else event_source
  let s2 := if events &&& EVENT_WRITE != 0 then
    { s1 with write := function, write_data := data } else s1
  let s3 := if events &&& EVENT_PRIO != 0 then
    { s2 with prio := function, prio_data := data } else s2
  if events &&& EVENT_ERROR != 0 then
    { s3 with error := function, error_data := data } else s3

/-- The zeroed item that `array_append` hands out. -/
def EventSource.zero : EventSource :=
  { handle := 0, type := EventSourceType.GENERIC, name := "", events := 0,
    state := EventSourceState.NORMAL, read := 0, read_data := 0, write := 0,
    write_data := 0, prio := 0, prio_data := 0, error := 0, error_data := 0 }

/-- `event_add_source`: the new table `_event_sources` and the return value.
`event_source_added_platform` is the function of that name of the platform
(`event_posix.c`, `event_linux.c`), as far as its return value goes. -/
def event_add_source (event_source_added_platform : EventSource → Int)
    (sources : List EventSource) (handle : Int) (type : EventSourceType) (name : String)
    (events function data : Nat) : List EventSource × Int :=
  match event_find_source sources 0 sources.length handle type with
  | some (event_source, index) =>
    if event_source.state == EventSourceState.REMOVED then
      let backup := event_source
      let event_source1 := event_source_set_functions
        { event_source with
          name := name, events := events, state := EventSourceState.READDED }
        events function data
      if event_source_added_platform event_source1 < 0 then
        (sources.set index.toNat backup, -1)
      else
        (sources.set index.toNat event_source1, 0)
    else
      (sources, -1)
  | none =>
    let event_source := event_source_set_functions
      { EventSource.zero with
        handle := handle, type := type, name := name, events := events,
        state := EventSourceState.ADDED }
      events function data
    let sources1 := array_append sources event_source
    if event_source_added_platform event_source < 0 then
      (array_remove sources1 (sources1.length - 1), -1)
    else
      (sources1, 0)

/-- `~events_to_remove` on a `uint32_t`. -/
def bnot_u32 (n : Nat) : Nat := 0xFFFFFFFF ^^^ (n % 2 ^ 32)

/-- The four blocks `if ((events_to_remove & EVENT_...) != 0) { event_source->... = NULL;
... }` of `event_modify_source`. -/
def event_source_unset_functions (event_source : EventSource) (events_to_remove : Nat) :
    EventSource :=
  let s1 := if events_to_remove &&& EVENT_READ != 0 then
    { event_source with read := 0, read_data := 0 } else event_source
  let s2 := if events_to_remove &&& EVENT_WRITE != 0 then
    { s1 with write := 0, write_data := 0 } else s1
  let s3 := if events_to_remove &&& EVENT_PRIO != 0 then
    { s2 with prio := 0, prio_data := 0 } else s2
  if events_to_remove &&& EVENT_ERROR != 0 then
    { s3 with error := 0, error_data := 0 } else s3

/-- `event_modify_source`: the new table and the return value.
`event_source_modified_platform` is the function of that name of the platform, as far as
its return value goes. -/
def event_modify_source (event_source_modified_platform : EventSource → Int)
    (sources : List EventSource) (handle : Int) (type : EventSourceType)
    (events_to_remove events_to_add function data : Nat) : List EventSource × Int :=
  match event_find_source sources 0 sources.length handle type with
  | none => (sources, -1)
  | some (event_source, index) =>
    if event_source.state == EventSourceState.REMOVED then
      (sources, -1)
    else
      let backup := event_source
      let s1 := { event_source with events := event_source.events &&& bnot_u32 events_to_remove }
      let s2 := { s1 with events := s1.events ||| events_to_add }
      let s3 := event_source_unset_functions s2 events_to_remove
      let s4 := event_source_set_functions s3 events_to_add function data
      let s5 := { s4 with state := EventSourceState.MODIFIED }
      if event_source_modified_platform s5 < 0 then
        (sources.set index.toNat backup, -1)
      else
        (sources.set index.toNat s5, 0)

/-- `event_remove_source`: the new table. `event_source_removed_platform` does not touch
the table. -/
def event_remove_source (sources : List EventSource) (handle : Int)
    (type : EventSourceType) : List EventSource :=
  match event_find_source sources ((sources.length : Int) - 1) (-1) handle type with
  | none => sources
  | some (event_source, index) =>
    if event_source.state == EventSourceState.REMOVED then
      sources
    else
      sources.set index.toNat { event_source with state := EventSourceState.REMOVED }

/-- The loop `for (i = count - 1; i >= 0; --i)` of `event_cleanup_sources`; the argument is
`i + 1`. -/
def event_cleanup_sources_loop (sources : List EventSource) : Nat → List EventSource
  | 0 => sources
  | i + 1 =>
    match array_get sources i with
    | some event_source =>
      if event_source.state == EventSourceState.REMOVED then
        event_cleanup_sources_loop (array_remove sources i) i
      else
        event_cleanup_sources_loop
          (sources.set i { event_source with state := EventSourceState.NORMAL }) i
    | none => event_cleanup_sources_loop sources i

/-- `event_cleanup_sources`: the new table. -/
def event_cleanup_sources (sources : List EventSource) : List EventSource :=
  event_cleanup_sources_loop sources sources.length

/-- One of the blocks of `event_handle_source` for WRITE, PRIO and ERROR:
`if ((received_events & EVENT_...) != 0 && event_source->... != NULL) { if
(event_source->state == EVENT_SOURCE_STATE_REMOVED) return; ...(..._opaque); }`.
`invoke function data` is what the call of `function` with argument `data` does to the event source.
The result is the event source, the calls made so far and whether the function has
returned. -/
def event_handle_source_block (invoke : Nat → Nat → EventSource → EventSource)
    (received_events event : Nat) (function data : EventSource → Nat)
    (current : EventSource × List (Nat × Nat)) : (EventSource × List (Nat × Nat)) × Bool :=
  if received_events &&& event != 0 && function current.1 != 0 then
    if current.1.state == EventSourceState.REMOVED then
      (current, true)
    else
      ((invoke (function current.1) (data current.1) current.1,
        current.2 ++ [(function current.1, data current.1)]), false)
  else
    (current, false)

/-- `event_handle_source`: the event source after the call and the calls of event
functions that were made, as pairs of function and argument, first call first.
`invoke function data` is what the call of `function` with argument `data` does to the event source. -/
def event_handle_source (invoke : Nat → Nat → EventSource → EventSource)
    (event_source : EventSource) (received_events : Nat) :
    EventSource × List (Nat × Nat) :=
  if event_source.state != EventSourceState.NORMAL then
    (event_source, [])
  else if event_source.prio != 0 && event_source.prio == event_source.error &&
      event_source.prio_data == event_source.error_data then
    if received_events &&& ( EVENT_PRIO ||| EVENT_ERROR) != 0 then
      (invoke event_source.prio event_source.prio_data event_source,
        [(event_source.prio, event_source.prio_data)])
    else
      (event_source, [])
  else if event_source.read != 0 && event_source.read == event_source.write &&
      event_source.read_data == event_source.write_data then
    if received_events &&& (EVENT_READ ||| EVENT_WRITE) != 0 then
      (invoke event_source.read event_source.read_data event_source,
        [(event_source.read, event_source.read_data)])
    else
      (event_source, [])
  else
    let after_read : EventSource × List (Nat × Nat) :=
      if received_events &&& EVENT_READ != 0 && event_source.read != 0 then
        (invoke event_source.read event_source.read_data event_source,
          [(event_source.read, event_source.read_data)])
      else
        (event_source, [])
    match event_handle_source_block invoke received_events EVENT_WRITE EventSource.write
        EventSource.write_data after_read with
    | (after_write, true) => after_write
    | (after_write, false) =>
      match event_handle_source_block invoke received_events EVENT_PRIO EventSource.prio
          EventSource.prio_data after_write with
      | (after_prio, true) => after_prio
      | (after_prio, false) =>
        (event_handle_source_block invoke received_events EVENT_ERROR EventSource.error
          EventSource.error_data after_prio).1
/-- The pair `(handle, type)` of an event source. -/
def EventSource.key (event_source : EventSource) : Int × EventSourceType :=
  (event_source.handle, event_source.type)
/-- The event source that `event_add_source` makes of a removed one when it adds it
again. -/
def event_source_readded (event_source : EventSource) (name : String)
    (events function data : Nat) : EventSource :=
  event_source_set_functions
    { event_source with name := name, events := events, state := EventSourceState.READDED }
    events function data

/-- The event source that `event_add_source` appends to the table. -/
def event_source_added (handle : Int) (type : EventSourceType) (name : String)
    (events function data : Nat) : EventSource :=
  event_source_set_functions
    { EventSource.zero with
      handle := handle, type := type, name := name, events := events,
      state := EventSourceState.ADDED }
    events function data

/-- The platform function of event_posix.c: `event_source_added_platform` returns 0. -/
def event_posix_source_added_platform : EventSource → Int := fun _ => 0

/-- A platform function that fails, as that of event_linux.c does when `epoll_ctl`
fails. -/
def event_platform_failure : EventSource → Int := fun _ => -1

/-- An event source for handle 5 in the given state, added for `EVENT_READ` with event
function 7 and argument 9. -/
def example_event_source (state : EventSourceState) : EventSource :=
  { event_source_added 5 EventSourceType.GENERIC "old" EVENT_READ 7 9 with state := state }
/-- The calls that change the table of event sources, with their arguments. -/
inductive EventCall where
  | add_source (handle : Int) (type : EventSourceType) (name : String)
      (events function data : Nat)
  | modify_source (handle : Int) (type : EventSourceType)
      (events_to_remove events_to_add function data : Nat)
  | remove_source (handle : Int) (type : EventSourceType)
  | cleanup_sources
  deriving DecidableEq, Repr

/-- One call on the table. -/
def event_call (event_source_added_platform event_source_modified_platform :
    EventSource → Int) (sources : List EventSource) : EventCall → List EventSource
  | .add_source handle type name events function data =>
    (event_add_source event_source_added_platform sources handle type name events function
      data).1
  | .modify_source handle type events_to_remove events_to_add function data =>
    (event_modify_source event_source_modified_platform sources handle type events_to_remove
      events_to_add function data).1
  | .remove_source handle type => event_remove_source sources handle type
  | .cleanup_sources => event_cleanup_sources sources

/-- A sequence of calls on the table, first call first. -/
def event_calls (event_source_added_platform event_source_modified_platform :
    EventSource → Int) (sources : List EventSource) (calls : List EventCall) :
    List EventSource :=
  calls.foldl (event_call event_source_added_platform event_source_modified_platform) sources
/-- The event source after the calls `calls` of event functions, first call first. -/
def invoke_all (invoke : Nat → Nat → EventSource → EventSource)
    (event_source : EventSource) (calls : List (Nat × Nat)) : EventSource :=
  calls.foldl (fun current call => invoke call.1 call.2 current) event_source

/-- The calls that are due for READ and WRITE: the event function for READ if READ is
among the received events, then that for WRITE if WRITE is among them, each only if it is
not `NULL`; one call for the pair if the two are the same function with the same
argument. -/
def expected_read_write_calls (event_source : EventSource) (received_events : Nat) :
    List (Nat × Nat) :=
  if event_source.read != 0 && event_source.read == event_source.write &&
      event_source.read_data == event_source.write_data then
    if received_events &&& (EVENT_READ ||| EVENT_WRITE) != 0 then
      [(event_source.read, event_source.read_data)]
    else []
  else
    (if received_events &&& EVENT_READ != 0 && event_source.read != 0 then
      [(event_source.read, event_source.read_data)] else []) ++
    (if received_events &&& EVENT_WRITE != 0 && event_source.write != 0 then
      [(event_source.write, event_source.write_data)] else [])

/-- The calls that are due for PRIO and ERROR, in the same way. -/
def expected_prio_error_calls (event_source : EventSource) (received_events : Nat) :
    List (Nat × Nat) :=
  if event_source.prio != 0 && event_source.prio == event_source.error &&
      event_source.prio_data == event_source.error_data then
    if received_events &&& ( EVENT_PRIO ||| EVENT_ERROR) != 0 then
      [(event_source.prio, event_source.prio_data)]
    else []
  else
    (if received_events &&& EVENT_PRIO != 0 && event_source.prio != 0 then
      [(event_source.prio, event_source.prio_data)] else []) ++
    (if received_events &&& EVENT_ERROR != 0 && event_source.error != 0 then
      [(event_source.error, event_source.error_data)] else [])

/-- An event source in state NORMAL with event function 7 (argument 9) for READ and event
function 11 (argument 13) for both PRIO and ERROR. -/
def example_mixed_event_source : EventSource :=
  { handle := 5, type := EventSourceType.GENERIC, name := "mixed",
    events := EVENT_READ ||| EVENT_PRIO ||| EVENT_ERROR, state := EventSourceState.NORMAL,
    read := 7, read_data := 9, write := 0, write_data := 0, prio := 11, prio_data := 13,
    error := 11, error_data := 13 }

/-- Event functions that leave the event source as it is. -/
def invoke_nothing : Nat → Nat → EventSource → EventSource := fun _ _ event_source =>
  event_source

/-- Event functions that remove the event source they are called for: the call
`event_remove_source` in them sets the state to REMOVED. -/
def invoke_remove : Nat → Nat → EventSource → EventSource := fun _ _ event_source =>
  { event_source with state := EventSourceState.REMOVED }

/-- An event source in state NORMAL with the event functions 7, 8, 11 and 12 for READ,
WRITE, PRIO and ERROR. -/
def example_plain_event_source : EventSource :=
  { handle := 5, type := EventSourceType.GENERIC, name := "plain",
    events := EVENT_READ ||| EVENT_WRITE ||| EVENT_PRIO ||| EVENT_ERROR,
    state := EventSourceState.NORMAL,
    read := 7, read_data := 9, write := 8, write_data := 9, prio := 11, prio_data := 13,
    error := 12, error_data := 13 }
/-- What C19 asks of the calls made for an event source: the event source is what the
calls have made of it, and each call but the last one has left it in another state than
REMOVED. -/
def removal_respected (invoke : Nat → Nat → EventSource → EventSource)
    (event_source : EventSource) (current : EventSource × List (Nat × Nat)) : Prop :=
  current.1 = invoke_all invoke event_source current.2 ∧
  ∀ before call after, current.2 = before ++ call :: after → after ≠ [] →
    (invoke_all invoke event_source (before ++ [call])).state ≠ EventSourceState.REMOVED

/-! ## red_rs485_extension.c

The frame that the RS485 master sends for the packet at the head of the queue of a slave,
and the checksum test that `verify_buffer` makes on a received frame. -/

/-- `RS485_EXTENSION_FUNCTION_CODE`. -/
def RS485_EXTENSION_FUNCTION_CODE : Nat := 100

/-- `RECEIVE_BUFFER_SIZE`. -/
def RECEIVE_BUFFER_SIZE : Nat := 1024

/-- `RS485_FRAME_HEADER_LENGTH`. -/
def RS485_FRAME_HEADER_LENGTH : Nat := 3

/-- `RS485_FRAME_FOOTER_LENGTH`. -/
def RS485_FRAME_FOOTER_LENGTH : Nat := 2

/-- `RS485_FRAME_OVERHEAD`. -/
def RS485_FRAME_OVERHEAD : Nat := RS485_FRAME_HEADER_LENGTH + RS485_FRAME_FOOTER_LENGTH

/-- `table_crc_hi`: table of CRC values for the high-order byte. -/
def table_crc_hi : List Byte := [
    0x00, 0xC1, 0x81, 0x40, 0x01, 0xC0, 0x80, 0x41, 0x01, 0xC0,
    0x80, 0x41, 0x00, 0xC1, 0x81, 0x40, 0x01, 0xC0, 0x80, 0x41,
    0x00, 0xC1, 0x81, 0x40, 0x00, 0xC1, 0x81, 0x40, 0x01, 0xC0,
    0x80, 0x41, 0x01, 0xC0, 0x80, 0x41, 0x00, 0xC1, 0x81, 0x40,
    0x00, 0xC1, 0x81, 0x40, 0x01, 0xC0, 0x80, 0x41, 0x00, 0xC1,
    0x81, 0x40, 0x01, 0xC0, 0x80, 0x41, 0x01, 0xC0, 0x80, 0x41,
    0x00, 0xC1, 0x81, 0x40, 0x01, 0xC0, 0x80, 0x41, 0x00, 0xC1,
    0x81, 0x40, 0x00, 0xC1, 0x81, 0x40, 0x01, 0xC0, 0x80, 0x41,
    0x00, 0xC1, 0x81, 0x40, 0x01, 0xC0, 0x80, 0x41, 0x01, 0xC0,
    0x80, 0x41, 0x00, 0xC1, 0x81, 0x40, 0x00, 0xC1, 0x81, 0x40,
    0x01, 0xC0, 0x80, 0x41, 0x01, 0xC0, 0x80, 0x41, 0x00, 0xC1,
    0x81, 0x40, 0x01, 0xC0, 0x80, 0x41, 0x00, 0xC1, 0x81, 0x40,
    0x00, 0xC1, 0x81, 0x40, 0x01, 0xC0, 0x80, 0x41, 0x01, 0xC0,
    0x80, 0x41, 0x00, 0xC1, 0x81, 0x40, 0x00, 0xC1, 0x81, 0x40,
    0x01, 0xC0, 0x80, 0x41, 0x00, 0xC1, 0x81, 0x40, 0x01, 0xC0,
    0x80, 0x41, 0x01, 0xC0, 0x80, 0x41, 0x00, 0xC1, 0x81, 0x40,
    0x00, 0xC1, 0x81, 0x40, 0x01, 0xC0, 0x80, 0x41, 0x01, 0xC0,
    0x80, 0x41, 0x00, 0xC1, 0x81, 0x40, 0x01, 0xC0, 0x80, 0x41,
    0x00, 0xC1, 0x81, 0x40, 0x00, 0xC1, 0x81, 0x40, 0x01, 0xC0,
    0x80, 0x41, 0x00, 0xC1, 0x81, 0x40, 0x01, 0xC0, 0x80, 0x41,
    0x01, 0xC0, 0x80, 0x41, 0x00, 0xC1, 0x81, 0x40, 0x01, 0xC0,
    0x80, 0x41, 0x00, 0xC1, 0x81, 0x40, 0x00, 0xC1, 0x81, 0x40,
    0x01, 0xC0, 0x80, 0x41, 0x01, 0xC0, 0x80, 0x41, 0x00, 0xC1,
    0x81, 0x40, 0x00, 0xC1, 0x81, 0x40, 0x01, 0xC0, 0x80, 0x41,
    0x00, 0xC1, 0x81, 0x40, 0x01, 0xC0, 0x80, 0x41, 0x01, 0xC0,
    0x80, 0x41, 0x00, 0xC1, 0x81, 0x40]

/-- `table_crc_lo`: table of CRC values for the low-order byte. -/
def table_crc_lo : List Byte := [
    0x00, 0xC0, 0xC1, 0x01, 0xC3, 0x03, 0x02, 0xC2, 0xC6, 0x06,
    0x07, 0xC7, 0x05, 0xC5, 0xC4, 0x04, 0xCC, 0x0C, 0x0D, 0xCD,
    0x0F, 0xCF, 0xCE, 0x0E, 0x0A, 0xCA, 0xCB, 0x0B, 0xC9, 0x09,
    0x08, 0xC8, 0xD8, 0x18, 0x19, 0xD9, 0x1B, 0xDB, 0xDA, 0x1A,
    0x1E, 0xDE, 0xDF, 0x1F, 0xDD, 0x1D, 0x1C, 0xDC, 0x14, 0xD4,
    0xD5, 0x15, 0xD7, 0x17, 0x16, 0xD6, 0xD2, 0x12, 0x13, 0xD3,
    0x11, 0xD1, 0xD0, 0x10, 0xF0, 0x30, 0x31, 0xF1, 0x33, 0xF3,
    0xF2, 0x32, 0x36, 0xF6, 0xF7, 0x37, 0xF5, 0x35, 0x34, 0xF4,
    0x3C, 0xFC, 0xFD, 0x3D, 0xFF, 0x3F, 0x3E, 0xFE, 0xFA, 0x3A,
    0x3B, 0xFB, 0x39, 0xF9, 0xF8, 0x38, 0x28, 0xE8, 0xE9, 0x29,
    0xEB, 0x2B, 0x2A, 0xEA, 0xEE, 0x2E, 0x2F, 0xEF, 0x2D, 0xED,
    0xEC, 0x2C, 0xE4, 0x24, 0x25, 0xE5, 0x27, 0xE7, 0xE6, 0x26,
    0x22, 0xE2, 0xE3, 0x23, 0xE1, 0x21, 0x20, 0xE0, 0xA0, 0x60,
    0x61, 0xA1, 0x63, 0xA3, 0xA2, 0x62, 0x66, 0xA6, 0xA7, 0x67,
    0xA5, 0x65, 0x64, 0xA4, 0x6C, 0xAC, 0xAD, 0x6D, 0xAF, 0x6F,
    0x6E, 0xAE, 0xAA, 0x6A, 0x6B, 0xAB, 0x69, 0xA9, 0xA8, 0x68,
    0x78, 0xB8, 0xB9, 0x79, 0xBB, 0x7B, 0x7A, 0xBA, 0xBE, 0x7E,
    0x7F, 0xBF, 0x7D, 0xBD, 0xBC, 0x7C, 0xB4, 0x74, 0x75, 0xB5,
    0x77, 0xB7, 0xB6, 0x76, 0x72, 0xB2, 0xB3, 0x73, 0xB1, 0x71,
    0x70, 0xB0, 0x50, 0x90, 0x91, 0x51, 0x93, 0x53, 0x52, 0x92,
    0x96, 0x56, 0x57, 0x97, 0x55, 0x95, 0x94, 0x54, 0x9C, 0x5C,
    0x5D, 0x9D, 0x5F, 0x9F, 0x9E, 0x5E, 0x5A, 0x9A, 0x9B, 0x5B,
    0x99, 0x59, 0x58, 0x98, 0x88, 0x48, 0x49, 0x89, 0x4B, 0x8B,
    0x8A, 0x4A, 0x4E, 0x8E, 0x8F, 0x4F, 0x8D, 0x4D, 0x4C, 0x8C,
    0x44, 0x84, 0x85, 0x45, 0x87, 0x47, 0x46, 0x86, 0x82, 0x42,
    0x43, 0x83, 0x41, 0x81, 0x80, 0x40]

/-- One pass of the loop of `crc16`: `crc` holds `crc_hi` and `crc_lo`. -/
def crc16_step (crc : Byte × Byte) (byte : Byte) : Byte × Byte :=
  let i := crc.1.val ^^^ byte.val
  (u8 (crc.2.val ^^^ (table_crc_hi.getD i 0).val), table_crc_lo.getD i 0)

/-- `crc16(buffer, buffer_length)`: the loop runs over the first `buffer_length` bytes of
the buffer, starting with `crc_hi = crc_lo = 0xFF`; the result is a `uint16_t`. -/
def crc16 (buffer : List Byte) (buffer_length : Nat) : Nat :=
  let crc := (buffer.take buffer_length).foldl crc16_step (0xFF, 0xFF)
  ((crc.1.val <<< 8) ||| crc.2.val) % 2 ^ 16

/-- `RS485ExtensionPacket`. -/
structure RS485ExtensionPacket where
  packet : Packet
  tries_left : Byte
  deriving DecidableEq, Repr

/-- The bytes of an `RS485ExtensionPacket` object, in memory order. -/
def RS485ExtensionPacket.bytes (p : RS485ExtensionPacket) : List Byte :=
  p.packet.bytes ++ [p.tries_left]

/-- `RS485Slave`. -/
structure RS485Slave where
  address : Byte
  sequence : Byte
  packet_queue : Queue RS485ExtensionPacket
  deriving DecidableEq, Repr

/-- `send_packet`, up to the call of `robust_write`: the bytes of `rs485_packet` that are
passed to that call, or `none` if the queue of the slave is empty and nothing is sent.
`current_slave` is `_red_rs485_extension.slaves[master_current_slave_to_process]`. The
array `rs485_packet` is not initialised by the C function; it is zeroed here. -/
def send_packet (current_slave : RS485Slave) : Option (List Byte) :=
  match queue_peek current_slave.packet_queue with
  | none => none
  | some packet_to_send =>
    let length := packet_to_send.packet.header.length.val
    let rs485_packet : List Byte := List.replicate (length + RS485_FRAME_OVERHEAD) 0
    let rs485_packet := rs485_packet.set 0 current_slave.address
    let rs485_packet := rs485_packet.set 1 (u8 RS485_EXTENSION_FUNCTION_CODE)
    let rs485_packet := rs485_packet.set 2 current_slave.sequence
    let rs485_packet := rs485_packet.take 3 ++
      memcpy (rs485_packet.drop 3) packet_to_send.bytes length
    let packet_crc16 := crc16 rs485_packet (length + RS485_FRAME_HEADER_LENGTH)
    let crc16_first_byte_index := u8 (length + RS485_FRAME_HEADER_LENGTH)
    let rs485_packet := rs485_packet.set crc16_first_byte_index.val (u8 (packet_crc16 >>> 8))
    let crc16_first_byte_index := u8 (crc16_first_byte_index.val + 1)
    let rs485_packet :=
      rs485_packet.set crc16_first_byte_index.val (u8 (packet_crc16 &&& 0x00FF))
    some rs485_packet

/-- What a call of `verify_buffer` with `send_verify_flag == 0` finds. -/
inductive VerifyBuffer where
  /-- the frame is not complete yet: return and wait for more bytes -/
  | incomplete
  /-- "CRC-16 mismatch" -/
  | crc_mismatch (crc16_calculated crc16_on_packet : Nat)
  /-- "address mismatch" -/
  | address_mismatch
  /-- the checks are passed -/
  | verified
  deriving DecidableEq, Repr

/-- `verify_buffer` with `send_verify_flag == 0`. `receive_buffer` is `_receive.buffer`,
whose byte 7 is `_receive.packet.header.length`; `expected_address` is
`current_request_as_byte_array[0]`. -/
def verify_buffer (receive_buffer : List Byte) (receive_buffer_used : Nat)
    (expected_address : Byte) : VerifyBuffer :=
  if receive_buffer_used < 8 then
    VerifyBuffer.incomplete
  else
    let frame_length := RS485_FRAME_HEADER_LENGTH + (receive_buffer.getD 7 0).val +
      RS485_FRAME_FOOTER_LENGTH
    if receive_buffer_used < frame_length then
      VerifyBuffer.incomplete
    else
      let crc16_calculated := crc16 receive_buffer (frame_length - RS485_FRAME_FOOTER_LENGTH)
      let crc16_on_packet :=
        (((receive_buffer.getD (frame_length - 2) 0).val <<< 8) |||
          (receive_buffer.getD (frame_length - 1) 0).val) % 2 ^ 16
      if crc16_calculated != crc16_on_packet then
        VerifyBuffer.crc_mismatch crc16_calculated crc16_on_packet
      else if receive_buffer.getD 0 0 != expected_address then
        VerifyBuffer.address_mismatch
      else
        VerifyBuffer.verified

/-- A packet object of 80 bytes with length 8 in its header. -/
def example_rs485_packet : Packet :=
  ⟨⟨⟨0x11, 0x22, 0x33, 0x44⟩, 8, 1, 0x18, 0⟩, List.replicate 72 0⟩
/-- The frame of C20 without its checksum: the address of the slave, the function code
100, the sequence byte of the slave and the first `header.length` bytes of the packet. -/
def rs485_frame_body (address sequence : Byte) (packet : Packet) : List Byte :=
  [address, 100, sequence] ++ packet.bytes.take packet.header.length.val

/-- The frame of C20: the body, then the high byte and the low byte of the `crc16` of the
body. -/
def rs485_frame (address sequence : Byte) (packet : Packet) : List Byte :=
  rs485_frame_body address sequence packet ++
    [u8 (crc16 (rs485_frame_body address sequence packet)
        (packet.header.length.val + 3) >>> 8),
      u8 (crc16 (rs485_frame_body address sequence packet)
        (packet.header.length.val + 3) &&& 0xFF)]

/-! ## node.h / node.c

The `Node` objects are kept in a memory that maps the address of a `Node` to its two
pointers. -/

/-- `Node`: the pointers `prev` and `next`, as addresses. -/
structure Node where
  prev : Nat
  next : Nat
  deriving DecidableEq, Repr

/-- The assignment `address->prev = value`. -/
def store_prev (memory : Nat → Node) (address value : Nat) : Nat → Node :=
  Function.update memory address { memory address with prev := value }

/-- The assignment `address->next = value`. -/
def store_next (memory : Nat → Node) (address value : Nat) : Nat → Node :=
  Function.update memory address { memory address with next := value }

/-- `node_reset`. -/
def node_reset (memory : Nat → Node) (node : Nat) : Nat → Node :=
  let memory := store_prev memory node node
  store_next memory node node

/-- `node_insert_before`. -/
def node_insert_before (memory : Nat → Node) (node insert : Nat) : Nat → Node :=
  let memory := store_prev memory insert (memory node).prev
  let memory := store_prev memory node insert
  let memory := store_next memory insert (memory (memory insert).prev).next
  store_next memory (memory insert).prev insert

/-- `node_remove`. -/
def node_remove (memory : Nat → Node) (node : Nat) : Nat → Node :=
  let memory := store_prev memory (memory node).next (memory node).prev
  let memory := store_next memory (memory node).prev (memory node).next
  node_reset memory node

/-- `a->next == b` and `b->prev == a`. -/
def linked (memory : Nat → Node) (a b : Nat) : Prop :=
  (memory a).next = b ∧ (memory b).prev = a

instance (memory : Nat → Node) : DecidableRel (linked memory) := fun a b =>
  inferInstanceAs (Decidable ((memory a).next = b ∧ (memory b).prev = a))

/-- The nodes `nodes`, in this order, are the circular doubly linked list at the sentinel
`sentinel`: all these `Node` objects are different, and following `next` from the sentinel
leads through the nodes and back to the sentinel, and following `prev` leads the other way
round. -/
def is_list (memory : Nat → Node) (sentinel : Nat) (nodes : List Nat) : Prop :=
  (sentinel :: nodes).Nodup ∧ List.Chain' (linked memory) (sentinel :: nodes ++ [sentinel])

instance (memory : Nat → Node) (sentinel : Nat) (nodes : List Nat) :
    Decidable (is_list memory sentinel nodes) :=
  inferInstanceAs (Decidable (_ ∧ _))

/-- A `PendingRequest` object as `pending_request_remove_and_free` sees it: the addresses
of its `global_node` and its `client_node`, and its pointers `client` and `zombie`
(`none` is `NULL`). -/
structure PendingRequestObject where
  global_node : Nat
  client_node : Nat
  client : Option Nat
  zombie : Option Nat
  deriving DecidableEq, Repr

/-- The memory that `pending_request_remove_and_free` works on: the `Node` objects, and
the field `pending_request_count` of the `Client` or `Zombie` object at an address. -/
structure PendingMemory where
  node : Nat → Node
  pending_request_count : Nat → Int

/-- `pending_request_remove_and_free` on the memory (`free` is left out). -/
def pending_request_remove_and_free_nodes (memory : PendingMemory)
    (pending_request : PendingRequestObject) : PendingMemory :=
  let node := node_remove memory.node pending_request.global_node
  let node := node_remove node pending_request.client_node
  let count := memory.pending_request_count
  let count :=
    match pending_request.client with
    | some client => Function.update count client (count client - 1)
    | none => count
  let count :=
    match pending_request.zombie with
    | some zombie => Function.update count zombie (count zombie - 1)
    | none => count
  { node := node, pending_request_count := count }

/-- A memory with the global list `[1, 2]` at the sentinel 0 and the list `[11, 12]` of a
client at the sentinel 10; the client, at address 100, has two pending requests. -/
def example_pending_memory : PendingMemory :=
  { node := fun address =>
      match address with
      | 0 => ⟨2, 1⟩
      | 1 => ⟨0, 2⟩
      | 2 => ⟨1, 0⟩
      | 10 => ⟨12, 11⟩
      | 11 => ⟨10, 12⟩
      | 12 => ⟨11, 10⟩
      | _ => ⟨0, 0⟩
    pending_request_count := fun address => if address = 100 then 2 else 0 }

/-! ## client.c: reading requests

What one call of the `read` function of an `IO` object does is an input of the embedding
(`IORead`), as for `io_write`. -/

/-- `IO_CONTINUE`. -/
def IO_CONTINUE : Int := -2

/-- The possible behaviours of one `io_read` call: bytes have arrived, of which the call
stores as many as fit into the memory it is given (no bytes means that the peer has
closed the connection: the call returns 0); or the call returns `IO_CONTINUE`; or it fails
with an errno for which `errno_interrupted()`, `errno_would_block()`,
`errno_connection_reset()` or none of them holds. -/
inductive IORead where
  | data (bytes : List Byte)
  | io_continue
  | interrupted
  | would_block
  | connection_reset
  | error
  deriving DecidableEq, Repr

/-- `io_read(io, buffer + offset, length)`: the buffer afterwards and the return value. -/
def io_read (buffer : List Byte) (offset length : Nat) (outcome : IORead) :
    List Byte × Int :=
  match outcome with
  | IORead.data bytes =>
    (buffer.take offset ++ bytes.take length
        ++ buffer.drop (offset + (bytes.take length).length),
      ((bytes.take length).length : Int))
  | IORead.io_continue => (buffer, IO_CONTINUE)
  | _ => (buffer, -1)

/-- `memmove(buffer, buffer + offset, length)` on a buffer. -/
def memmove (buffer : List Byte) (offset length : Nat) : List Byte :=
  (buffer.drop offset).take length ++ buffer.drop length

/-- A client as `client_handle_read` sees it, with a record of the requests that have been
passed to `client_handle_request`, oldest first. -/
structure ClientSession where
  daemon : Daemon
  requests : List Packet
  deriving DecidableEq, Repr

/-- The call `client_handle_request(client, &request)` in `client_handle_read`.
`write_outcome n` is the behaviour of the `io_write` call that the handling of the request
number `n` of the session may make. -/
def ClientSession.handle_request (hmac_sha1 : List Byte → List Byte → List Byte)
    (secret : List Byte) (write_outcome : Nat → IOWrite) (session : ClientSession)
    (request : Packet) : ClientSession :=
  { daemon := client_handle_request hmac_sha1 secret session.daemon request
      (write_outcome session.requests.length)
    requests := session.requests ++ [request] }

/-- The fields of the client that belong to the request buffer are set. -/
def Daemon.set_request_buffer (daemon : Daemon) (request_buffer : List Byte)
    (request_buffer_used : Nat) (request_header_checked : Bool) : Daemon :=
  { daemon with
    client :=
      { daemon.client with
        request_buffer := request_buffer
        request_buffer_used := request_buffer_used
        request_header_checked := request_header_checked } }

/-- The loop `while (!client->disconnected && client->request_buffer_used > 0)` of
`client_handle_read`, run for at most `fuel` passes: `none` if the loop has not come to
its end by then. The header `client->request.header` is read from the first bytes of the
request buffer. The local variable `request` is not initialised; of its bytes only those
that `memcpy` stores are kept. -/
def client_handle_read_loop (hmac_sha1 : List Byte → List Byte → List Byte)
    (secret : List Byte) (write_outcome : Nat → IOWrite) :
    (fuel : Nat) → ClientSession → Option ClientSession
  | 0, _ => none
  | fuel + 1, session =>
    let client := session.daemon.client
    if !client.disconnected && client.request_buffer_used > 0 then
      if client.request_buffer_used < sizeof_PacketHeader then
        some session
      else
        let header := (Packet.of_bytes client.request_buffer).header
        if !client.request_header_checked && !(packet_header_is_valid_request header).1 then
          some { session with daemon := session.daemon.disconnect }
        else
          let session1 : ClientSession :=
            { session with
              daemon := session.daemon.set_request_buffer client.request_buffer
                client.request_buffer_used true }
          let length := header.length.val
          if client.request_buffer_used < length then
            some session1
          else
            let session2 :=
              if header.function_id.val == FUNCTION_DISCONNECT_PROBE then
                session1
              else
                session1.handle_request hmac_sha1 secret write_outcome
                  (Packet.of_bytes (memcpy [] client.request_buffer length))
            let client2 := session2.daemon.client
            let session3 : ClientSession :=
              { session2 with
                daemon := session2.daemon.set_request_buffer
                  (memmove client2.request_buffer length (client2.request_buffer_used - length))
                  (client2.request_buffer_used - length) false }
            client_handle_read_loop hmac_sha1 secret write_outcome fuel session3
    else
      some session

/-- `client_handle_read`, with at most `fuel` passes through its loop. `read` is the
behaviour of the `io_read` call. -/
def client_handle_read (hmac_sha1 : List Byte → List Byte → List Byte)
    (secret : List Byte) (write_outcome : Nat → IOWrite) (fuel : Nat)
    (session : ClientSession) (read : IORead) : Option ClientSession :=
  let client := session.daemon.client
  let result := io_read client.request_buffer client.request_buffer_used
    (sizeof_Packet - client.request_buffer_used) read
  let length := result.2
  if length == 0 then
    some { session with daemon := session.daemon.disconnect }
  else if length < 0 then
    match read with
    | IORead.connection_reset => some { session with daemon := session.daemon.disconnect }
    | IORead.error => some { session with daemon := session.daemon.disconnect }
    | _ => some session
  else
    let session1 : ClientSession :=
      { session with
        daemon := session.daemon.set_request_buffer result.1
          (client.request_buffer_used + length.toNat) client.request_header_checked }
    client_handle_read_loop hmac_sha1 secret write_outcome fuel session1
/-- The bytes of the request buffer that are in use: those that have been received and not
yet been handled. -/
def Client.pending_bytes (client : Client) : List Byte :=
  client.request_buffer.take client.request_buffer_used

/-- A frame: bytes that start with a valid request header whose `length` is the number of
the bytes. -/
def valid_frame (frame : List Byte) : Bool :=
  (packet_header_is_valid_request (Packet.of_bytes frame).header).1 &&
    frame.length == (Packet.of_bytes frame).header.length.val

/-- What holds of the request buffer of a client between the calls of `client_handle_read`:
the buffer has `sizeof(Packet)` bytes, not more than those are in use, and if the header
is marked as checked, a whole header is in the buffer and is a valid request header. -/
def request_buffer_invariant (client : Client) : Prop :=
  client.request_buffer.length = sizeof_Packet ∧
  client.request_buffer_used ≤ sizeof_Packet ∧
  (client.request_header_checked = true →
    sizeof_PacketHeader ≤ client.request_buffer_used ∧
    (packet_header_is_valid_request (Packet.of_bytes client.request_buffer).header).1 = true)

/-- The request buffer holds less than one frame: less than a header, or a header that has
been checked and less than `header.length` bytes. -/
def awaits_bytes (client : Client) : Prop :=
  client.request_buffer_used < sizeof_PacketHeader ∨
  (client.request_header_checked = true ∧
    client.request_buffer_used < (Packet.of_bytes client.request_buffer).header.length.val)

/-- The session after one frame at the front of the request buffer has been taken out of
the buffer: it has been passed to `client_handle_request` unless it is a disconnect
probe. -/
def ClientSession.take_frame (hmac_sha1 : List Byte → List Byte → List Byte)
    (secret : List Byte) (write_outcome : Nat → IOWrite) (session : ClientSession) :
    ClientSession :=
  let client := session.daemon.client
  let header := (Packet.of_bytes client.request_buffer).header
  let length := header.length.val
  let handled :=
    if header.function_id.val == FUNCTION_DISCONNECT_PROBE then session
    else session.handle_request hmac_sha1 secret write_outcome
      (Packet.of_bytes (client.request_buffer.take length))
  { handled with
    daemon := handled.daemon.set_request_buffer
      (memmove client.request_buffer length (client.request_buffer_used - length))
      (client.request_buffer_used - length) false }

/-- Successive calls of `client_handle_read`, one for each of `reads`. -/
def client_handle_reads (hmac_sha1 : List Byte → List Byte → List Byte)
    (secret : List Byte) (write_outcome : Nat → IOWrite) (fuel : Nat)
    (session : ClientSession) : List IORead → Option ClientSession
  | [] => some session
  | read :: reads =>
    match client_handle_read hmac_sha1 secret write_outcome fuel session read with
    | none => none
    | some session1 =>
      client_handle_reads hmac_sha1 secret write_outcome fuel session1 reads

/-- The calls of `client_handle_read` that take the byte stream `stream` from the socket:
when call number `i` is made, `available[i]` bytes of the stream have arrived that have
not been read yet, and `io_read` stores as many of them as it is asked for. No call is
made when the stream is used up. -/
def client_read_stream (hmac_sha1 : List Byte → List Byte → List Byte)
    (secret : List Byte) (write_outcome : Nat → IOWrite) (fuel : Nat)
    (session : ClientSession) (stream : List Byte) : List Nat → Option ClientSession
  | [] => some session
  | available :: rest =>
    if stream.isEmpty then
      some session
    else
      match client_handle_read hmac_sha1 secret write_outcome fuel session
          (IORead.data (stream.take available)) with
      | none => none
      | some session1 =>
        client_read_stream hmac_sha1 secret write_outcome fuel session1
          (stream.drop (min available
            (sizeof_Packet - session.daemon.client.request_buffer_used))) rest

/-- The frames of a stream handled one after the other, as C12 describes it: a disconnect
probe is left out, every other frame is passed to `client_handle_request` with exactly
its bytes, and nothing is passed on once the client is marked disconnected. -/
def dispatch_frames (hmac_sha1 : List Byte → List Byte → List Byte)
    (secret : List Byte) (write_outcome : Nat → IOWrite) (session : ClientSession) :
    List (List Byte) → ClientSession
  | [] => session
  | frame :: rest =>
    if session.daemon.client.disconnected then
      session
    else if (Packet.of_bytes frame).header.function_id.val == FUNCTION_DISCONNECT_PROBE then
      dispatch_frames hmac_sha1 secret write_outcome session rest
    else
      dispatch_frames hmac_sha1 secret write_outcome
        (session.handle_request hmac_sha1 secret write_outcome (Packet.of_bytes frame)) rest

/-- A session for a client that has just been created, without pending requests. -/
def example_session (state : ClientAuthenticationState) : ClientSession :=
  { daemon := example_daemon state, requests := [] }
/-- Two sessions differ in the request buffer of the client at most. -/
def ClientSession.same_handling (a b : ClientSession) : Prop :=
  a.requests = b.requests ∧
  a.daemon.set_request_buffer [] 0 false = b.daemon.set_request_buffer [] 0 false

/-- Bytes that are less than one frame: less than a header, or a valid request header and
less than `header.length` bytes. -/
def incomplete_frame (bytes : List Byte) : Prop :=
  bytes.length < sizeof_PacketHeader ∨
  ((packet_header_is_valid_request (Packet.of_bytes bytes).header).1 = true ∧
    bytes.length < (Packet.of_bytes bytes).header.length.val)
/-- The frame is not a disconnect probe. -/
def is_request_frame (frame : List Byte) : Bool :=
  !((Packet.of_bytes frame).header.function_id.val == FUNCTION_DISCONNECT_PROBE)

/-- A disconnect probe (function 128) of 8 bytes. -/
def example_probe_frame : List Byte := [0, 0, 0, 0, 8, 128, 0x10, 0]

/-- A request of 10 bytes to the device with UID 2 (function 1, sequence number 2). -/
def example_request_frame : List Byte := [2, 0, 0, 0, 10, 1, 0x20, 0, 0xAA, 0xBB]

/-! ## base58.c -/

/-- `_base58_alphabet`. -/
def _base58_alphabet : List Char :=
  "123456789abcdefghijkmnopqrstuvwxyzABCDEFGHJKLMNPQRSTUVWXYZ".toList

/-- `UINT32_MAX`. -/
def UINT32_MAX : Nat := 4294967295

/-- The character that ends a C string. -/
def NUL : Char := Char.ofNat 0

/-- `strlen`: the number of characters in front of the first NUL of a buffer. The end of
the list stands for a NUL too. -/
def strlen (buffer : List Char) : Nat := (buffer.takeWhile (fun c => c != NUL)).length

/-- `strchr(s, c)`, as the offset of the character found in `s` (`none` for `NULL`). The
NUL that ends `s` is found at offset `strlen(s)`. -/
def strchr (s : List Char) (c : Char) : Option Nat :=
  if c == NUL then some (strlen s)
  else if s.indexOf c < strlen s then some (s.indexOf c) else none

/-- The `while` loop of `base58_encode`: `reverse` holds the characters `reverse[0..i)`
stored so far. The result is the value and `reverse` after the loop. -/
def base58_encode_loop (value : Nat) (reverse : List Char) : Nat × List Char :=
  if value ≥ 58 then
    let digit := value % 58
    base58_encode_loop (value / 58) (reverse ++ [_base58_alphabet.getD digit NUL])
  else
    (value, reverse)
termination_by value
decreasing_by omega

/-- `base58_encode(base58, value)`: the first `BASE58_MAX_LENGTH` characters of `base58`
after the call (`i + 1` characters if that is more). The constant `BASE58_MAX_LENGTH` of
base58.h is a parameter. -/
def base58_encode (BASE58_MAX_LENGTH : Nat) (value : Nat) : List Char :=
  let loop := base58_encode_loop value []
  let i := loop.2.length
  let reverse := loop.2 ++ [_base58_alphabet.getD loop.1 NUL]
  let base58 := (List.range (i + 1)).map (fun k => reverse.getD (i - k) NUL)
  base58 ++ List.replicate (BASE58_MAX_LENGTH - (i + 1)) NUL

/-- The two values of `errno` that `base58_decode` sets. -/
inductive Base58Errno where
  | EINVAL
  | ERANGE
  deriving DecidableEq, Repr

/-- What a call of `base58_decode` leaves: the return value, the `errno` it has set (if
any) and `*value`. -/
structure Base58Decode where
  rc : Int
  errno : Option Base58Errno
  value : Nat
  deriving DecidableEq, Repr

/-- The `for` loop of `base58_decode`. The first argument is `i + 1` for the loop variable
`i`, so that the loop ends when it is 0. `k * base`, `*value += ...` and `base *= 58` are
`uint32_t` operations. -/
def base58_decode_loop (base58 : List Char) : Nat → Nat → Nat → Base58Decode
  | 0, value, _ => { rc := 0, errno := none, value := value }
  | i + 1, value, base =>
    match strchr _base58_alphabet (base58.getD i NUL) with
    | none => { rc := -1, errno := some Base58Errno.EINVAL, value := value }
    | some k =>
      if value > UINT32_MAX - (k * base) % 2 ^ 32 then
        { rc := -1, errno := some Base58Errno.ERANGE, value := value }
      else
        base58_decode_loop base58 i ((value + (k * base) % 2 ^ 32) % 2 ^ 32)
          ((base * 58) % 2 ^ 32)

/-- `base58_decode(value, base58)`. -/
def base58_decode (base58 : List Char) : Base58Decode :=
  let i : Int := (strlen base58 : Int) - 1
  if i < 0 then
    { rc := -1, errno := some Base58Errno.EINVAL, value := 0 }
  else
    base58_decode_loop base58 (i.toNat + 1) 0 1

/-- The value of a string as a big-endian base-58 number: the digit of a character is its
offset in the alphabet. -/
def base58_number : List Char → Nat
  | [] => 0
  | c :: rest => _base58_alphabet.indexOf c * 58 ^ rest.length + base58_number rest

/-! ## conf_file.h / conf_file.c

The array `conf_file->lines` is kept as the list of its `ConfFileLine` items, in index
order. A `char *` is an `Option String`, `none` for `NULL`. -/

/-- `ConfFileLine`: `raw` is only not `NULL` if there is no name/value pair in the line. -/
structure ConfFileLine where
  raw : Option String
  name : Option String
  value : Option String
  deriving DecidableEq, Repr

/-- `strcasecmp(a, b) == 0`: the two strings are equal when the letters A to Z are taken
as a to z. -/
def strcasecmp_equal (a b : String) : Bool :=
  a.toList.map Char.toLower == b.toList.map Char.toLower

/-- The test `line->name != NULL && strcasecmp(line->name, name) == 0`. -/
def ConfFileLine.has_name (line : ConfFileLine) (name : String) : Bool :=
  match line.name with
  | some line_name => strcasecmp_equal line_name name
  | none => false

/-- The three allocations that `conf_file_set_option_value` may make: whether the first
`strdup` call, the second `strdup` call and `array_append` succeed. -/
structure ConfFileAllocation where
  strdup1 : Bool
  strdup2 : Bool
  array_append : Bool
  deriving DecidableEq, Repr

/-- The `for` loop of `conf_file_set_option_value`, which runs backwards; the first
argument is `i + 1` for the loop variable `i`. The result is `none` if the loop ends
without a `return`. -/
def conf_file_set_option_value_loop (lines : List ConfFileLine) (name value : String)
    (allocation : ConfFileAllocation) : Nat → Option (List ConfFileLine × Int)
  | 0 => none
  | i + 1 =>
    match array_get lines (i : Int) with
    | none => conf_file_set_option_value_loop lines name value allocation i
    | some line =>
      if line.has_name name then
        if !allocation.strdup1 then
          some (lines, -1)
        else
          some (lines.set i { line with value := some value }, 0)
      else
        conf_file_set_option_value_loop lines name value allocation i

/-- `conf_file_set_option_value(conf_file, name, value)`: the lines afterwards and the
return value. -/
def conf_file_set_option_value (lines : List ConfFileLine) (name value : String)
    (allocation : ConfFileAllocation) : List ConfFileLine × Int :=
  match conf_file_set_option_value_loop lines name value allocation lines.length with
  | some result => result
  | none =>
    if !allocation.strdup1 || !allocation.strdup2 then
      (lines, -1)
    else if !allocation.array_append then
      (lines, -1)
    else
      (array_append lines { raw := none, name := some name, value := some value }, 0)

/-- `conf_file_get_option_value(conf_file, name)`; the first argument is `i + 1` for the
loop variable `i` of the `for` loop, which runs backwards. -/
def conf_file_get_option_value_loop (lines : List ConfFileLine) (name : String) :
    Nat → Option String
  | 0 => none
  | i + 1 =>
    match array_get lines (i : Int) with
    | none => conf_file_get_option_value_loop lines name i
    | some line =>
      if line.has_name name then
        line.value
      else
        conf_file_get_option_value_loop lines name i

/-- `conf_file_get_option_value(conf_file, name)`. -/
def conf_file_get_option_value (lines : List ConfFileLine) (name : String) : Option String :=
  conf_file_get_option_value_loop lines name lines.length

/-- A file of four lines: a comment, the option `a`, the option `B` and the option `A`. -/
def example_conf_file : List ConfFileLine :=
  [⟨some "# comment", none, none⟩, ⟨none, some "a", some "1"⟩, ⟨none, some "B", some "2"⟩,
    ⟨none, some "A", some "3"⟩]

/-! ## array.c: the memory block of an array of relocatable items

For an `Array` with `relocatable == true` the items lie in the block `array->bytes`, item
`i` at offset `size * i`. `calloc` and `realloc` are taken to succeed. -/

/-- `GROW_ALLOCATION(size)` of macros.h: `size` rounded up to the next multiple of 16, in
`int` arithmetic (the division truncates). -/
def GROW_ALLOCATION (size : Int) : Int := (Int.tdiv (size - 1) 16 + 1) * 16

/-- `Array`, for `relocatable == true`; `bytes` is the block of memory at `array->bytes`. -/
structure ArrayObject where
  allocated : Int
  count : Int
  size : Int
  bytes : List Byte
  deriving DecidableEq, Repr

/-- `memset(bytes + offset, 0, length)` on the block `bytes`. -/
def memset_zero (bytes : List Byte) (offset length : Nat) : List Byte :=
  bytes.take offset ++ List.replicate (min length (bytes.length - offset)) 0
    ++ bytes.drop (offset + length)

/-- `array_create(array, reserve, size, true)`: `calloc` gives a zeroed block. -/
def array_create (reserve size : Int) : ArrayObject :=
  let reserve := GROW_ALLOCATION reserve
  { allocated := reserve
    count := 0
    size := size
    bytes := List.replicate (reserve * size).toNat 0 }

/-- `array_reserve(array, reserve)`. `realloc` keeps the `allocated * size` bytes of the
block and adds bytes behind them (zero bytes here, whatever they are), which `memset` sets
to zero. -/
def ArrayObject.array_reserve (array : ArrayObject) (reserve : Int) : ArrayObject × Int :=
  let size := array.size
  if array.allocated ≥ reserve then
    (array, 0)
  else
    let reserve := GROW_ALLOCATION reserve
    let bytes := array.bytes.take (array.allocated * size).toNat ++
      List.replicate ((reserve * size).toNat - (array.allocated * size).toNat) 0
    let bytes := memset_zero bytes (array.allocated * size).toNat
      ((reserve - array.allocated) * size).toNat
    ({ array with allocated := reserve, bytes := bytes }, 0)

/-- `array_resize(array, count, destroy)`, where `destroy` is `NULL` or a function that
leaves the block as it is. -/
def ArrayObject.array_resize (array : ArrayObject) (count : Int) : ArrayObject × Int :=
  if array.count < count then
    let reserved := array.array_reserve count
    if reserved.2 < 0 then
      (reserved.1, reserved.2)
    else
      ({ reserved.1 with count := count }, 0)
  else
    ({ array with count := count }, 0)

/-- `array_append(array)`: the array afterwards; the new item is the one at index
`count - 1`. -/
def ArrayObject.array_append (array : ArrayObject) : ArrayObject :=
  let reserved := array.array_reserve (array.count + 1)
  if reserved.2 < 0 then
    reserved.1
  else
    { reserved.1 with count := reserved.1.count + 1 }

/-- `array_remove(array, index, NULL)`. -/
def ArrayObject.array_remove (array : ArrayObject) (index : Int) : ArrayObject :=
  let size := array.size
  let tail := (array.count - index - 1) * size
  let bytes :=
    if tail > 0 then
      array.bytes.take (size * index).toNat ++
        (array.bytes.drop (size * (index + 1)).toNat).take tail.toNat ++
        array.bytes.drop ((size * index).toNat + tail.toNat)
    else
      array.bytes
  let bytes := memset_zero bytes (size * (array.count - 1)).toNat size.toNat
  { array with bytes := bytes, count := array.count - 1 }

/-- `array_get(array, index)`: the bytes of the item at `array->bytes + array->size * index`. -/
def ArrayObject.array_get (array : ArrayObject) (index : Int) : List Byte :=
  (array.bytes.drop (array.size * index).toNat).take array.size.toNat

/-- A caller writes `item` (`size` bytes) through the pointer `array_get(array, index)`. -/
def ArrayObject.write_item (array : ArrayObject) (index : Int) (item : List Byte) :
    ArrayObject :=
  { array with
    bytes := array.bytes.take (array.size * index).toNat ++ item.take array.size.toNat ++
      array.bytes.drop ((array.size * index).toNat + array.size.toNat) }

/-- An operation on an array: one of the functions of array.c, or a write to an item. -/
inductive ArrayOperation where
  | reserve (reserve : Int)
  | resize (count : Int)
  | append
  | remove (index : Int)
  | write (index : Int) (item : List Byte)
  deriving DecidableEq, Repr

/-- The array after an operation. `array_remove` and the write to an item are made for an
index of the array (`0 <= index < count`) only. -/
def ArrayObject.apply (array : ArrayObject) : ArrayOperation → ArrayObject
  | ArrayOperation.reserve reserve => (array.array_reserve reserve).1
  | ArrayOperation.resize count => if 0 ≤ count then (array.array_resize count).1 else array
  | ArrayOperation.append => array.array_append
  | ArrayOperation.remove index =>
    if 0 ≤ index ∧ index < array.count then array.array_remove index else array
  | ArrayOperation.write index item =>
    if 0 ≤ index ∧ index < array.count then array.write_item index item else array

/-- An array of items of one byte: created, one item appended and set to 0xAA, resized to
no item. -/
def example_shrunk_array : ArrayObject :=
  [ArrayOperation.append, ArrayOperation.write 0 [0xAA], ArrayOperation.resize 0].foldl
    ArrayObject.apply (array_create 0 1)

/-- The invariant that the functions of array.c keep, but for an `array_resize` that
removes items: the block has `allocated * size` bytes, the items are within it, and the
bytes behind the items are zero. -/
def ArrayObject.zero_behind_items (array : ArrayObject) : Prop :=
  0 < array.size ∧ 0 ≤ array.count ∧ array.count ≤ array.allocated ∧
  array.bytes.length = (array.allocated * array.size).toNat ∧
  ∀ byte ∈ array.bytes.drop (array.size * array.count).toNat, byte = 0

/-- What is asked of an operation on `array` here: an item is written with `size` bytes,
and `array_resize` is not used to remove items. -/
def ArrayOperation.grows (array : ArrayObject) : ArrayOperation → Prop
  | ArrayOperation.reserve _ => True
  | ArrayOperation.resize number => array.count ≤ number
  | ArrayOperation.append => True
  | ArrayOperation.remove _ => True
  | ArrayOperation.write _ item => item.length = array.size.toNat

/-- A sequence of operations on `array` in which `array_resize` removes no item. -/
def ArrayObject.grows (array : ArrayObject) : List ArrayOperation → Prop
  | [] => True
  | operation :: rest => operation.grows array ∧ (array.apply operation).grows rest

/-! ## red_rs485_extension.c: the master

The static variables of the file are the fields of `RS485State`. What `microtime()` and
`robust_write` return are inputs of the functions. `queue_push` is taken to succeed. -/

/-- `RS485_FRAME_TRIES_DATA`. -/
def RS485_FRAME_TRIES_DATA : Nat := 10

/-- `RS485_FRAME_TRIES_EMPTY`. -/
def RS485_FRAME_TRIES_EMPTY : Nat := 1

/-- `Recipient` (stack.h); `data` is the member `opaque`. -/
structure Recipient where
  /-- always little endian -/
  uid : Word
  data : Nat
  deriving DecidableEq, Repr

/-- The static variables of red_rs485_extension.c. `slaves` are the first `slave_num`
entries of `_red_rs485_extension.slaves`. `master_timer` is the `it_value.tv_nsec` of the
last `timerfd_settime` call on `_master_timer_event` (0 disarms the timer). The last four
fields are records: the arguments of the calls of `stack_add_recipient` and of
`network_dispatch_response`, the frames that `robust_write` has taken, and the indices at
which the send verification of `verify_buffer` has read `_receive.buffer` and
`current_request_as_byte_array`, all oldest first. -/
structure RS485State where
  slaves : List RS485Slave
  master_current_slave_to_process : Int
  current_request_as_byte_array : List Byte
  receive_buffer : List Byte
  receive_buffer_used : Nat
  sent_ack_of_data_packet : Nat
  send_verify_flag : Nat
  master_poll_interval : Bool
  crc_error_count_value : Nat
  TIMEOUT : Nat
  MASTER_POLL_SLAVE_INTERVAL : Nat
  master_timer : Nat
  last_timer_enable_at_us : Nat
  added_recipients : List (Word × Byte)
  dispatched_responses : List Packet
  written_frames : List (List Byte)
  compared : List Nat
  deriving DecidableEq, Repr

/-- `_red_rs485_extension.slave_num`. -/
def RS485State.slave_num (state : RS485State) : Int := state.slaves.length

/-- `_red_rs485_extension.slaves[master_current_slave_to_process]`, if the index is one of
a configured slave. -/
def RS485State.current_slave (state : RS485State) : Option RS485Slave :=
  if state.master_current_slave_to_process < 0 then none
  else state.slaves[state.master_current_slave_to_process.toNat]?

/-- A change of `_red_rs485_extension.slaves[master_current_slave_to_process]`. With an
index that is not one of a configured slave the C code reaches outside the configured
slaves; the state is left as it is then. -/
def RS485State.update_current_slave (state : RS485State) (update : RS485Slave → RS485Slave) :
    RS485State :=
  match state.current_slave with
  | some slave =>
    { state with
      slaves := state.slaves.set state.master_current_slave_to_process.toNat (update slave) }
  | none => state

/-- The item that `red_rs485_extension_dispatch_to_rs485` leaves in the queue: `queue_push`
gives a zeroed `RS485ExtensionPacket` (a packet of `sizeof(Packet)` bytes and the byte
`tries_left`), then `tries_left` is set and the first `header.length` bytes of the request
are copied over the item. -/
def queued_request (request : Packet) : RS485ExtensionPacket :=
  let item : List Byte := List.replicate (sizeof_Packet + 1) 0
  let item := item.set sizeof_Packet (u8 RS485_FRAME_TRIES_DATA)
  let item := memcpy item request.bytes request.header.length.val
  { packet := Packet.of_bytes (item.take sizeof_Packet)
    tries_left := item.getD sizeof_Packet 0 }

/-- The second loop of `red_rs485_extension_dispatch_to_rs485`, from the slave at the head
of the list on: the request is queued for the first slave whose address is
`recipient->opaque`, where the loop ends with `break`. -/
def dispatch_to_recipient (request : Packet) (data : Nat) : List RS485Slave → List RS485Slave
  | [] => []
  | slave :: rest =>
    if slave.address.val == data then
      { slave with packet_queue := queue_push slave.packet_queue (queued_request request) }
        :: rest
    else
      slave :: dispatch_to_recipient request data rest

/-- `red_rs485_extension_dispatch_to_rs485(stack, request, recipient)`: the slaves
afterwards and the return value. -/
def red_rs485_extension_dispatch_to_rs485 (slaves : List RS485Slave) (request : Packet)
    (recipient : Option Recipient) : List RS485Slave × Int :=
  if uint32_from_le request.header.uid == 0 || recipient.isNone then
    (slaves.map (fun slave =>
      { slave with packet_queue := queue_push slave.packet_queue (queued_request request) }),
      0)
  else
    match recipient with
    | some recipient => (dispatch_to_recipient request recipient.data slaves, 0)
    | none => (slaves, 0)

/-- `disable_master_timer`. -/
def RS485State.disable_master_timer (state : RS485State) : RS485State :=
  { state with master_timer := 0 }

/-- `arm_master_poll_slave_interval_timer`; `now` is what `microtime()` returns. -/
def RS485State.arm_master_poll_slave_interval_timer (state : RS485State) (now : Nat) :
    RS485State :=
  { state with
    master_poll_interval := true
    master_timer := state.MASTER_POLL_SLAVE_INTERVAL
    last_timer_enable_at_us := now }

/-- `is_current_request_empty`. -/
def RS485State.is_current_request_empty (state : RS485State) : Bool :=
  let request := state.current_request_as_byte_array
  let uid := uint32_from_le
    ⟨request.getD 3 0, request.getD 4 0, request.getD 5 0, request.getD 6 0⟩
  if uid == 0 && request.getD 7 0 == 8 && request.getD 8 0 == 0 then true else false

/-- `pop_packet_from_slave_queue`, as the change of the current slave: `--tries_left` is
made on the item at the head of the queue. -/
def pop_packet_from_slave_queue (slave : RS485Slave) : RS485Slave :=
  match queue_peek slave.packet_queue with
  | none => slave
  | some current_slave_queue_packet =>
    let tries_left := u8 (current_slave_queue_packet.tries_left.val + 255)
    let packet_queue : Queue RS485ExtensionPacket :=
      { items := { current_slave_queue_packet with tries_left := tries_left }
          :: slave.packet_queue.items.tail }
    if tries_left == 0 then
      { slave with packet_queue := queue_pop packet_queue }
    else
      { slave with packet_queue := packet_queue }

/-- `++_red_rs485_extension.slaves[master_current_slave_to_process].sequence`, as the
change of the current slave. -/
def increment_sequence (slave : RS485Slave) : RS485Slave :=
  { slave with sequence := u8 (slave.sequence.val + 1) }

/-- `seq_pop_poll`. -/
def RS485State.seq_pop_poll (state : RS485State) (now : Nat) : RS485State :=
  let state :=
    if state.is_current_request_empty then state.update_current_slave increment_sequence
    else state
  let state := state.update_current_slave pop_packet_from_slave_queue
  state.arm_master_poll_slave_interval_timer now

/-- `send_packet`, as a function of the state: `send_packet current_slave` is the frame
that is passed to `robust_write`; `written` tells whether that call returns more than 0,
`now` is what `microtime()` returns. -/
def RS485State.send_packet (state : RS485State) (written : Bool) (now : Nat) : RS485State :=
  match state.current_slave with
  | none => state
  | some current_slave =>
    match Brickd.send_packet current_slave with
    | none => state.arm_master_poll_slave_interval_timer now
    | some rs485_packet =>
      if !written then
        state.arm_master_poll_slave_interval_timer now
      else
        { state with
          written_frames := state.written_frames ++ [rs485_packet]
          current_request_as_byte_array :=
            memcpy state.current_request_as_byte_array rs485_packet rs485_packet.length
          send_verify_flag := 1
          master_timer := state.TIMEOUT
          last_timer_enable_at_us := now }

/-- The item that `master_poll_slave` and `verify_buffer` leave at the head of the queue
for an empty request or an ACK: all bytes zero but `tries_left` and `header.length`. -/
def empty_request : RS485ExtensionPacket :=
  { packet :=
      { (Packet.of_bytes (List.replicate sizeof_Packet 0)) with
        header :=
          { (Packet.of_bytes (List.replicate sizeof_Packet 0)).header with length := 8 } }
    tries_left := u8 RS485_FRAME_TRIES_EMPTY }

/-- `master_poll_slave`. -/
def RS485State.master_poll_slave (state : RS485State) (written : Bool) (now : Nat) :
    RS485State :=
  let state :=
    { state with
      sent_ack_of_data_packet := 0
      receive_buffer_used := 0
      receive_buffer := List.replicate RECEIVE_BUFFER_SIZE 0 }
  let next := state.master_current_slave_to_process + 1
  let state :=
    { state with
      master_current_slave_to_process := if next ≥ state.slave_num then 0 else next }
  match state.current_slave with
  | none => state
  | some slave =>
    if slave.packet_queue.count == 0 then
      let state := state.update_current_slave
        (fun slave => { slave with packet_queue := queue_push slave.packet_queue empty_request })
      state.send_packet written now
    else
      state.send_packet written now

/-- `time_passed_from_last_timer_enable = (microtime() - last_timer_enable_at_us) * 1000`,
in `uint64_t` arithmetic. -/
def RS485State.time_passed (state : RS485State) (now : Nat) : Nat :=
  ((((now : Int) - state.last_timer_enable_at_us) % 2 ^ 64).toNat * 1000) % 2 ^ 64

/-- `master_timeout_handler`. `now` is what the first call of `microtime()` returns,
`later` what the one behind the next `timerfd_settime` call returns. -/
def RS485State.master_timeout_handler (state : RS485State) (now later : Nat)
    (written : Bool) : RS485State :=
  let state := state.disable_master_timer
  if state.master_poll_interval then
    if state.time_passed now < state.MASTER_POLL_SLAVE_INTERVAL then
      { state with
        master_timer := state.MASTER_POLL_SLAVE_INTERVAL
        last_timer_enable_at_us := later }
    else
      RS485State.master_poll_slave { state with master_poll_interval := false } written later
  else
    if state.time_passed now < state.TIMEOUT then
      { state with master_timer := state.TIMEOUT, last_timer_enable_at_us := later }
    else
      let state :=
        if state.is_current_request_empty then state.update_current_slave increment_sequence
        else state
      let state := state.update_current_slave pop_packet_from_slave_queue
      state.arm_master_poll_slave_interval_timer later

/-- The loop of the send verification of `verify_buffer`, from the loop variable `i` on,
with `steps` passes left: the offset of the first byte of `_receive.buffer` that is not the
byte of `current_request_as_byte_array` (`none` if the loop ends without one), and the
indices at which the two arrays have been read. -/
def send_verify_loop (receive_buffer current_request : List Byte) :
    Nat → Nat → Option Nat × List Nat
  | _, 0 => (none, [])
  | i, steps + 1 =>
    if receive_buffer.getD i 0 != current_request.getD i 0 then
      (some i, [i])
    else
      let rest := send_verify_loop receive_buffer current_request (i + 1) steps
      (rest.1, i :: rest.2)

/-- `_receive.packet`: the bytes of `_receive.buffer` behind the three bytes of
`_receive.frame`. -/
def RS485State.receive_packet (state : RS485State) : Packet :=
  Packet.of_bytes ((state.receive_buffer.drop RS485_FRAME_HEADER_LENGTH).take sizeof_Packet)

/-- The statements of `verify_buffer` behind the send verification, from "Checking the
CRC16 checksum" on. -/
def RS485State.verify_response (state : RS485State) (frame_length : Nat) (written : Bool)
    (now : Nat) : RS485State :=
  let receive_buffer := state.receive_buffer
  let current_request := state.current_request_as_byte_array
  let crc16_calculated := crc16 receive_buffer (frame_length - RS485_FRAME_FOOTER_LENGTH)
  let crc16_on_packet :=
    (((receive_buffer.getD (frame_length - 2) 0).val <<< 8) |||
      (receive_buffer.getD (frame_length - 1) 0).val) % 2 ^ 16
  if crc16_calculated != crc16_on_packet then
    let state :=
      { state with crc_error_count_value := (state.crc_error_count_value + 1) % 2 ^ 64 }
    state.disable_master_timer.seq_pop_poll now
  else if receive_buffer.getD 0 0 != current_request.getD 0 0 then
    state.disable_master_timer.seq_pop_poll now
  else if receive_buffer.getD 1 0 != current_request.getD 1 0 then
    state.disable_master_timer.seq_pop_poll now
  else
    let packet := state.receive_packet
    if uint32_from_le packet.header.uid == 0 && packet.header.function_id == 0 then
      if receive_buffer.getD 2 0 != current_request.getD 2 0 then
        state.disable_master_timer.seq_pop_poll now
      else
        let state := state.disable_master_timer
        let state := state.update_current_slave increment_sequence
        let state := state.update_current_slave
          (fun slave => { slave with packet_queue := queue_pop slave.packet_queue })
        state.arm_master_poll_slave_interval_timer now
    else if uint32_from_le packet.header.uid != 0 && packet.header.function_id != 0 then
      let state :=
        if receive_buffer.getD 2 0 != current_request.getD 2 0 then
          state
        else
          { state with
            added_recipients :=
              state.added_recipients ++ [(packet.header.uid, receive_buffer.getD 0 0)]
            dispatched_responses := state.dispatched_responses ++ [packet] }
      match state.current_slave with
      | none => state
      | some slave =>
        let state :=
          match queue_peek slave.packet_queue with
          | none =>
            { state.update_current_slave
                (fun slave =>
                  { slave with packet_queue := queue_push slave.packet_queue empty_request })
              with sent_ack_of_data_packet := 2 }
          | some _ =>
            { state.update_current_slave
                (fun slave =>
                  { slave with
                    packet_queue := { items := empty_request :: slave.packet_queue.items.tail } })
              with sent_ack_of_data_packet := 1 }
        let state :=
          { state with
            receive_buffer_used := 0
            receive_buffer := List.replicate RECEIVE_BUFFER_SIZE 0 }
        state.send_packet written now
    else
      state.disable_master_timer.seq_pop_poll now

/-- `verify_buffer`, as a function of the state. The first argument bounds the depth of
the recursion: it is the number of nested calls that may be made, and the result is `none`
if more would be needed. `written` and `now` are what `robust_write` and `microtime()` give
to the call of `send_packet` or of `arm_master_poll_slave_interval_timer`, if one is
made. -/
def RS485State.verify_buffer (written : Bool) (now : Nat) :
    Nat → RS485State → Option RS485State
  | 0, _ => none
  | depth + 1, state =>
    if state.receive_buffer_used < 8 then
      some state
    else
      let frame_length := RS485_FRAME_HEADER_LENGTH +
        state.receive_packet.header.length.val + RS485_FRAME_FOOTER_LENGTH
      if state.receive_buffer_used < frame_length then
        some state
      else if state.send_verify_flag != 0 then
        let loop := send_verify_loop state.receive_buffer state.current_request_as_byte_array
          0 frame_length
        let state := { state with compared := state.compared ++ loop.2 }
        match loop.1 with
        | some _ => some (state.disable_master_timer.seq_pop_poll now)
        | none =>
          let state := { state with send_verify_flag := 0 }
          if state.sent_ack_of_data_packet > 0 then
            let state := state.disable_master_timer
            let state :=
              if state.sent_ack_of_data_packet == 1 then
                (state.update_current_slave increment_sequence).update_current_slave
                  (fun slave => { slave with packet_queue := queue_pop slave.packet_queue })
              else
                state
            some (state.arm_master_poll_slave_interval_timer now)
          else if state.receive_buffer_used == frame_length then
            some
              { state with
                receive_buffer_used := 0
                receive_buffer := List.replicate RECEIVE_BUFFER_SIZE 0 }
          else if state.receive_buffer_used > frame_length then
            let state :=
              { state with
                receive_buffer := memmove state.receive_buffer frame_length
                  (state.receive_buffer_used - frame_length)
                receive_buffer_used := state.receive_buffer_used - frame_length }
            if state.receive_buffer_used ≥ 8 then
              RS485State.verify_buffer written now depth state
            else
              some state
          else
            some (state.disable_master_timer.seq_pop_poll now)
      else
        some (state.verify_response frame_length written now)

/-- A master with the two slaves 4 and 5, of which slave 4 (index 0) has been sent an
empty request with sequence number 0, whose echo has been verified. The receive buffer
holds a frame of 13 bytes from slave 4 whose last two bytes are not its checksum. -/
def example_rs485_state : RS485State :=
  { slaves := [⟨4, 0, ⟨[empty_request]⟩⟩, ⟨5, 0, ⟨[]⟩⟩]
    master_current_slave_to_process := 0
    current_request_as_byte_array :=
      memcpy (List.replicate 85 0) (rs485_frame 4 0 empty_request.packet) 13
    receive_buffer :=
      memcpy (List.replicate RECEIVE_BUFFER_SIZE 0) [4, 100, 0, 0, 0, 0, 0, 8, 0, 0, 0, 1, 2] 13
    receive_buffer_used := 13
    sent_ack_of_data_packet := 0
    send_verify_flag := 0
    master_poll_interval := false
    crc_error_count_value := 0
    TIMEOUT := 36666666
    MASTER_POLL_SLAVE_INTERVAL := 40000000
    master_timer := 36666666
    last_timer_enable_at_us := 1000
    added_recipients := []
    dispatched_responses := []
    written_frames := [rs485_frame 4 0 empty_request.packet]
    compared := [] }

/-- The master of `example_rs485_state` right after it has sent the empty request to slave
4: the send verification is pending, and the receive buffer holds the 13 bytes of the
request as they were sent, followed by an empty response of slave 4, which is the same 13
bytes. -/
def example_rs485_echo_state : RS485State :=
  { example_rs485_state with
    send_verify_flag := 1
    receive_buffer :=
      memcpy (List.replicate RECEIVE_BUFFER_SIZE 0)
        (rs485_frame 4 0 empty_request.packet ++ rs485_frame 4 0 empty_request.packet) 26
    receive_buffer_used := 26 }


/-! ## Byte level facts about the option bytes -/

set_option maxRecDepth 100000 in
theorem get_sequence_bits (x : Byte) : (u8 ((x.val >>> 4) &&& 0x0F)).val = x.val / 16 := by
  revert x; decide

set_option maxRecDepth 100000 in
theorem set_sequence_bits (x s : Byte) :
    (u8 ((u8 (x.val &&& bnot32 0xF0)).val ||| ((s.val <<< 4) &&& 0xF0))).val
      = x.val % 16 + 16 * (s.val % 16) := by
  have h1 : ∀ x : Byte, (u8 (x.val &&& bnot32 0xF0)).val = x.val % 16 := by decide
  have h2 : ∀ s : Byte, ((s.val <<< 4) &&& 0xF0) = 16 * (s.val % 16) := by decide
  have h3 : ∀ a b : Fin 16, (u8 (a.val ||| (16 * b.val))).val = a.val + 16 * b.val := by decide
  rw [h1, h2]
  exact h3 ⟨x.val % 16, Nat.mod_lt _ (by decide)⟩ ⟨s.val % 16, Nat.mod_lt _ (by decide)⟩

set_option maxRecDepth 100000 in
theorem get_response_expected_bit (x : Byte) :
    (((x.val >>> 3) &&& 0x01) == 0x01) = decide (x.val / 8 % 2 = 1) := by
  revert x; decide

set_option maxRecDepth 100000 in
theorem set_response_expected_bit (x : Byte) :
    (u8 (x.val ||| (0x01 <<< 3))).val = x.val / 16 * 16 + 8 + x.val % 8 := by
  revert x; decide

set_option maxRecDepth 100000 in
theorem clear_response_expected_bit (x : Byte) :
    (u8 (x.val &&& bnot32 (0x01 <<< 3))).val = x.val / 16 * 16 + x.val % 8 := by
  revert x; decide

set_option maxRecDepth 100000 in
theorem get_error_bits (x : Byte) : ((x.val >>> 6) &&& 0x03) = x.val / 64 := by
  revert x; decide

set_option maxRecDepth 100000 in
theorem set_error_bits (x : Byte) (e : Nat) (he : e < 4) :
    (u8 ((u8 (x.val &&& bnot32 0xC0)).val ||| ((e <<< 6) &&& 0xC0))).val
      = x.val % 64 + 64 * e := by
  have h : ∀ x : Byte, ∀ e : Fin 4,
      (u8 ((u8 (x.val &&& bnot32 0xC0)).val ||| ((e.val <<< 6) &&& 0xC0))).val
        = x.val % 64 + 64 * e.val := by decide
  exact h x ⟨e, he⟩

theorem byte_eq_of_val {a b : Byte} (h : a.val = b.val) : a = b := Fin.ext h

/-! ## Field level description of the getters and setters -/

theorem get_sequence_number_val (h : PacketHeader) :
    (packet_header_get_sequence_number h).val = h.sequence_number_and_options.val / 16 :=
  get_sequence_bits _

theorem get_response_expected_eq (h : PacketHeader) :
    packet_header_get_response_expected h
      = decide (h.sequence_number_and_options.val / 8 % 2 = 1) :=
  get_response_expected_bit _

theorem get_error_code_eq (h : PacketHeader) :
    packet_header_get_error_code h = h.error_code_and_future_use.val / 64 :=
  get_error_bits _

theorem set_sequence_number_fields (h : PacketHeader) (s : Byte) :
    (packet_header_set_sequence_number h s).uid = h.uid ∧
    (packet_header_set_sequence_number h s).length = h.length ∧
    (packet_header_set_sequence_number h s).function_id = h.function_id ∧
    (packet_header_set_sequence_number h s).sequence_number_and_options.val
      = h.sequence_number_and_options.val % 16 + 16 * (s.val % 16) ∧
    (packet_header_set_sequence_number h s).error_code_and_future_use
      = h.error_code_and_future_use :=
  ⟨rfl, rfl, rfl, set_sequence_bits _ _, rfl⟩

theorem set_response_expected_fields (h : PacketHeader) (r : Bool) :
    (packet_header_set_response_expected h r).uid = h.uid ∧
    (packet_header_set_response_expected h r).length = h.length ∧
    (packet_header_set_response_expected h r).function_id = h.function_id ∧
    (packet_header_set_response_expected h r).sequence_number_and_options.val
      = h.sequence_number_and_options.val / 16 * 16 + (if r then 8 else 0)
        + h.sequence_number_and_options.val % 8 ∧
    (packet_header_set_response_expected h r).error_code_and_future_use
      = h.error_code_and_future_use := by
  cases r
  · refine ⟨rfl, rfl, rfl, ?_, rfl⟩
    simpa [packet_header_set_response_expected] using clear_response_expected_bit _
  · refine ⟨rfl, rfl, rfl, ?_, rfl⟩
    simpa [packet_header_set_response_expected] using set_response_expected_bit _

theorem set_error_code_fields (h : PacketHeader) (e : Nat) (he : e < 4) :
    (packet_header_set_error_code h e).uid = h.uid ∧
    (packet_header_set_error_code h e).length = h.length ∧
    (packet_header_set_error_code h e).function_id = h.function_id ∧
    (packet_header_set_error_code h e).sequence_number_and_options
      = h.sequence_number_and_options ∧
    (packet_header_set_error_code h e).error_code_and_future_use.val
      = h.error_code_and_future_use.val % 64 + 64 * e :=
  ⟨rfl, rfl, rfl, rfl, set_error_bits _ _ he⟩

/-! ## Request validation (C3) -/

/-- C3: `packet_header_is_valid_request` returns true exactly when the length is in
[8, 80], the function ID is not 0 and the sequence number (bits 7..4 of the option byte,
that is the byte divided by 16) is not 0; two headers that agree on the length, the
function ID and the bits 7..4 of the option byte get the same result, whatever their UID,
response expected bit, other option bits and error byte are. -/
theorem packet_header_is_valid_request_iff (h : PacketHeader) :
    ((packet_header_is_valid_request h).1 = true ↔
      (8 ≤ h.length.val ∧ h.length.val ≤ 80 ∧ h.function_id.val ≠ 0 ∧
        h.sequence_number_and_options.val / 16 ≠ 0)) ∧
    (∀ h' : PacketHeader, h'.length = h.length → h'.function_id = h.function_id →
      h'.sequence_number_and_options.val / 16 = h.sequence_number_and_options.val / 16 →
      (packet_header_is_valid_request h').1 = (packet_header_is_valid_request h).1) := by
  have key : ∀ g : PacketHeader, ((packet_header_is_valid_request g).1 = true ↔
      (8 ≤ g.length.val ∧ g.length.val ≤ 80 ∧ g.function_id.val ≠ 0 ∧
        g.sequence_number_and_options.val / 16 ≠ 0)) := by
    intro g
    unfold packet_header_is_valid_request
    simp only [sizeof_PacketHeader, sizeof_Packet, get_sequence_number_val, beq_iff_eq]
    split_ifs <;> simp <;> omega
  refine ⟨key h, ?_⟩
  intro h' hl hf hs
  have k1 := key h
  have k2 := key h'
  rw [hl, hf, hs] at k2
  rw [Bool.eq_iff_iff]
  exact k2.trans k1.symm

/-- C3, at concrete headers: a valid request header and a second header that differs
from it in the UID, the response expected bit and the error byte only. -/
theorem packet_header_is_valid_request_iff_witness :
    (packet_header_is_valid_request ⟨⟨7, 0, 0, 0⟩, 8, 3, 0x18, 0x40⟩).1
      = (packet_header_is_valid_request ⟨⟨1, 2, 3, 4⟩, 8, 3, 0x10, 0⟩).1 :=
  (packet_header_is_valid_request_iff ⟨⟨1, 2, 3, 4⟩, 8, 3, 0x10, 0⟩).2
    ⟨⟨7, 0, 0, 0⟩, 8, 3, 0x18, 0x40⟩ rfl rfl (by decide)

/-! ## Header codec round trip (C4) -/

/-- C4: after the three header setters have been called with a sequence number `s` in
0..15, a flag `r` and an error code `e` in 0..3, in any order, the three getters return
`s`, `r` and `e`; `uid`, `length`, `function_id`, the bits 2..0 of the option byte and
the bits 5..0 of the error byte are those of the header before the calls. -/
theorem packet_header_set_get_roundtrip (h : PacketHeader) (s : Byte) (r : Bool) (e : Nat)
    (hs : s.val < 16) (he : e < 4) (calls : List HeaderSetter)
    (hcalls : calls.Perm [HeaderSetter.sequence_number s, HeaderSetter.response_expected r,
      HeaderSetter.error_code e]) :
    packet_header_get_sequence_number (apply_setters h calls) = s ∧
    packet_header_get_response_expected (apply_setters h calls) = r ∧
    packet_header_get_error_code (apply_setters h calls) = e ∧
    (apply_setters h calls).uid = h.uid ∧
    (apply_setters h calls).length = h.length ∧
    (apply_setters h calls).function_id = h.function_id ∧
    (apply_setters h calls).sequence_number_and_options.val % 8
      = h.sequence_number_and_options.val % 8 ∧
    (apply_setters h calls).error_code_and_future_use.val % 64
      = h.error_code_and_future_use.val % 64 := by
  have hm := List.mem_permutations'.2 hcalls
  simp only [List.permutations', List.permutations'Aux, List.foldr, List.map, List.flatMap,
    List.flatten, List.cons_append, List.nil_append, List.mem_cons, List.mem_singleton,
    List.not_mem_nil, or_false, List.append_nil] at hm
  have hx := h.sequence_number_and_options.isLt
  have hy := h.error_code_and_future_use.isLt
  rcases hm with hm | hm | hm | hm | hm | hm <;> subst hm <;>
    simp only [apply_setters, List.foldl, HeaderSetter.apply] <;>
    (refine ⟨byte_eq_of_val ?_, ?_, ?_, ?_, ?_, ?_, ?_, ?_⟩) <;>
    simp only [get_sequence_number_val, get_response_expected_eq, get_error_code_eq,
      (set_sequence_number_fields _ _).1, (set_sequence_number_fields _ _).2.1,
      (set_sequence_number_fields _ _).2.2.1, (set_sequence_number_fields _ _).2.2.2.1,
      (set_sequence_number_fields _ _).2.2.2.2,
      (set_response_expected_fields _ _).1, (set_response_expected_fields _ _).2.1,
      (set_response_expected_fields _ _).2.2.1, (set_response_expected_fields _ _).2.2.2.1,
      (set_response_expected_fields _ _).2.2.2.2,
      (set_error_code_fields _ _ he).1, (set_error_code_fields _ _ he).2.1,
      (set_error_code_fields _ _ he).2.2.1, (set_error_code_fields _ _ he).2.2.2.1,
      (set_error_code_fields _ _ he).2.2.2.2] <;>
    first
      | omega
      | (cases r <;> simp <;> omega)

/-- C4, at a concrete header: error code, sequence number and flag set in that order. -/
theorem packet_header_set_get_roundtrip_witness :
    packet_header_get_sequence_number
        (apply_setters ⟨⟨1, 2, 3, 4⟩, 8, 3, 0xA7, 0xFF⟩
          [HeaderSetter.error_code 2, HeaderSetter.sequence_number 5,
            HeaderSetter.response_expected true]) = 5 ∧
    packet_header_get_response_expected
        (apply_setters ⟨⟨1, 2, 3, 4⟩, 8, 3, 0xA7, 0xFF⟩
          [HeaderSetter.error_code 2, HeaderSetter.sequence_number 5,
            HeaderSetter.response_expected true]) = true ∧
    packet_header_get_error_code
        (apply_setters ⟨⟨1, 2, 3, 4⟩, 8, 3, 0xA7, 0xFF⟩
          [HeaderSetter.error_code 2, HeaderSetter.sequence_number 5,
            HeaderSetter.response_expected true]) = 2 :=
  have h := packet_header_set_get_roundtrip ⟨⟨1, 2, 3, 4⟩, 8, 3, 0xA7, 0xFF⟩ 5 true 2
    (by decide) (by decide)
    [HeaderSetter.error_code 2, HeaderSetter.sequence_number 5,
      HeaderSetter.response_expected true]
    ((List.Perm.swap _ _ _).trans (List.Perm.cons _ (List.Perm.swap _ _ _)))
  ⟨h.1, h.2.1, h.2.2.1⟩

/-! ## Response matching (C5) -/

/-- C5: `packet_is_matching_response` returns true exactly when the UIDs are equal, the
function IDs are equal and the sequence numbers (bits 7..4 of the option bytes) are equal;
a second packet and pending header that agree with the first ones on these three fields
get the same result, whatever their length, other option bits, error byte and payload. -/
theorem packet_is_matching_response_iff (packet : Packet) (pending_request : PacketHeader) :
    (packet_is_matching_response packet pending_request = true ↔
      (packet.header.uid = pending_request.uid ∧
        packet.header.function_id = pending_request.function_id ∧
        packet.header.sequence_number_and_options.val / 16
          = pending_request.sequence_number_and_options.val / 16)) ∧
    (∀ (packet' : Packet) (pending_request' : PacketHeader),
      packet'.header.uid = packet.header.uid →
      packet'.header.function_id = packet.header.function_id →
      packet'.header.sequence_number_and_options.val / 16
        = packet.header.sequence_number_and_options.val / 16 →
      pending_request'.uid = pending_request.uid →
      pending_request'.function_id = pending_request.function_id →
      pending_request'.sequence_number_and_options.val / 16
        = pending_request.sequence_number_and_options.val / 16 →
      packet_is_matching_response packet' pending_request'
        = packet_is_matching_response packet pending_request) := by
  have key : ∀ (p : Packet) (q : PacketHeader),
      (packet_is_matching_response p q = true ↔
        (p.header.uid = q.uid ∧ p.header.function_id = q.function_id ∧
          p.header.sequence_number_and_options.val / 16
            = q.sequence_number_and_options.val / 16)) := by
    intro p q
    have hseq : (packet_header_get_sequence_number p.header
        = packet_header_get_sequence_number q) ↔
        p.header.sequence_number_and_options.val / 16
          = q.sequence_number_and_options.val / 16 := by
      rw [← get_sequence_number_val, ← get_sequence_number_val]
      exact ⟨fun h => by rw [h], fun h => Fin.ext h⟩
    unfold packet_is_matching_response
    simp only [bne_iff_ne, ne_eq, ite_not]
    rw [← hseq]
    split_ifs <;> simp_all
  refine ⟨key _ _, ?_⟩
  intro p' q' a1 a2 a3 b1 b2 b3
  have k1 := key packet pending_request
  have k2 := key p' q'
  rw [a1, a2, a3, b1, b2, b3] at k2
  rw [Bool.eq_iff_iff]
  exact k2.trans k1.symm

/-- C5, at a concrete response and pending header that differ in length, response
expected bit, error byte and payload but agree on UID, function ID and sequence number. -/
theorem packet_is_matching_response_iff_witness :
    packet_is_matching_response ⟨⟨⟨9, 0, 0, 0⟩, 12, 7, 0x38, 0x40⟩, [1, 2, 3, 4]⟩
        ⟨⟨9, 0, 0, 0⟩, 8, 7, 0x30, 0⟩
      = packet_is_matching_response ⟨⟨⟨9, 0, 0, 0⟩, 8, 7, 0x30, 0⟩, []⟩
        ⟨⟨9, 0, 0, 0⟩, 8, 7, 0x38, 0⟩ :=
  (packet_is_matching_response_iff ⟨⟨⟨9, 0, 0, 0⟩, 8, 7, 0x30, 0⟩, []⟩
      ⟨⟨9, 0, 0, 0⟩, 8, 7, 0x38, 0⟩).2
    ⟨⟨⟨9, 0, 0, 0⟩, 12, 7, 0x38, 0x40⟩, [1, 2, 3, 4]⟩ ⟨⟨9, 0, 0, 0⟩, 8, 7, 0x30, 0⟩
    rfl rfl (by decide) rfl rfl (by decide)

/-! ## The backlog of a writer -/

theorem MAX_QUEUED_WRITES_pos : 1 < MAX_QUEUED_WRITES := by decide

theorem writer_drop_queued_items (backlog : Queue PartialPacket) :
    (writer_drop_queued backlog).items
      = backlog.items.drop (backlog.count + 1 - MAX_QUEUED_WRITES) := by
  have hM := MAX_QUEUED_WRITES_pos
  induction backlog using writer_drop_queued.induct with
  | case1 q h ih =>
    rw [writer_drop_queued, if_pos h, ih]
    have h' : MAX_QUEUED_WRITES ≤ q.items.length := h
    have h0 : q.items.length ≠ 0 := by omega
    have hq : (queue_pop q).items = q.items.tail := by
      simp [queue_pop, Queue.count, h0]
    simp only [Queue.count]
    rw [hq, List.length_tail, ← List.drop_one, List.drop_drop]
    have e : 1 + (q.items.length - 1 + 1 - MAX_QUEUED_WRITES)
        = q.items.length + 1 - MAX_QUEUED_WRITES := by omega
    rw [e]
  | case2 q h =>
    rw [writer_drop_queued, if_neg h]
    have : q.count + 1 - MAX_QUEUED_WRITES = 0 := by omega
    rw [this, List.drop_zero]

/-- The writer that `writer_push_packet_to_backlog` leaves. -/
theorem push_writer (writer : Writer) (packet : Packet) (written : Nat) :
    (writer_push_packet_to_backlog writer packet written).1
      = { io := writer.io
          dropped_packets :=
            if writer.backlog.count ≥ MAX_QUEUED_WRITES then
              (writer.dropped_packets
                + (writer.backlog.count - MAX_QUEUED_WRITES + 1) % 2 ^ 32) % 2 ^ 32
            else writer.dropped_packets
          backlog :=
            { items := writer.backlog.items.drop (writer.backlog.count + 1 - MAX_QUEUED_WRITES)
                ++ [writer_queued_packet packet written] }
          write_event :=
            if writer.backlog.count = 0 then true else writer.write_event } := by
  have hM := MAX_QUEUED_WRITES_pos
  unfold writer_push_packet_to_backlog
  by_cases h : writer.backlog.count ≥ MAX_QUEUED_WRITES
  · simp only [h, if_true, queue_push, writer_drop_queued_items, beq_iff_eq]
    simp only [Queue.count, List.length_append, List.length_drop, List.length_singleton,
      ge_iff_le] at h ⊢
    split_ifs <;> first | rfl | (exfalso; omega)
  · have h0 : writer.backlog.count + 1 - MAX_QUEUED_WRITES = 0 := by omega
    simp only [h, if_false, queue_push, beq_iff_eq, h0, List.drop_zero]
    simp only [Queue.count, List.length_append, List.length_singleton, ge_iff_le] at h ⊢
    split_ifs <;> first | rfl | (exfalso; omega)

theorem push_backlog_items (writer : Writer) (packet : Packet) (written : Nat) :
    (writer_push_packet_to_backlog writer packet written).1.backlog.items
      = writer.backlog.items.drop (writer.backlog.count + 1 - MAX_QUEUED_WRITES)
        ++ [writer_queued_packet packet written] := by
  rw [push_writer]

theorem push_dropped_packets (writer : Writer) (packet : Packet) (written : Nat) :
    (writer_push_packet_to_backlog writer packet written).1.dropped_packets
      = if writer.backlog.count ≥ MAX_QUEUED_WRITES then
          (writer.dropped_packets + (writer.backlog.count - MAX_QUEUED_WRITES + 1) % 2 ^ 32)
            % 2 ^ 32
        else writer.dropped_packets := by
  rw [push_writer]

theorem push_io (writer : Writer) (packet : Packet) (written : Nat) :
    (writer_push_packet_to_backlog writer packet written).1.io = writer.io := by
  rw [push_writer]

theorem push_rc (writer : Writer) (packet : Packet) (written : Nat) :
    (writer_push_packet_to_backlog writer packet written).2 = 0 := by
  unfold writer_push_packet_to_backlog
  dsimp only
  split_ifs <;> simp only

theorem push_backlog_count (writer : Writer) (packet : Packet) (written : Nat) :
    (writer_push_packet_to_backlog writer packet written).1.backlog.count
      = min writer.backlog.count (MAX_QUEUED_WRITES - 1) + 1 := by
  have hM := MAX_QUEUED_WRITES_pos
  simp only [Queue.count, push_backlog_items, List.length_append, List.length_drop,
    List.length_singleton]
  omega

/-- `writer_write` on a writer with a backlog pushes the packet, whatever the sink would
do. -/
theorem writer_write_of_backlog (writer : Writer) (packet : Packet) (outcome : IOWrite)
    (h : 0 < writer.backlog.count) :
    (writer_write writer packet outcome).writer
      = (writer_push_packet_to_backlog writer packet 0).1 := by
  unfold writer_write
  rw [if_pos h]
  have := push_rc writer packet 0
  rcases hp : writer_push_packet_to_backlog writer packet 0 with ⟨w1, rc⟩
  rw [hp] at this
  simp only at this
  simp [this]

/-- `writer_write` on a writer without backlog whose sink reports would-block pushes the
packet. -/
theorem writer_write_would_block (writer : Writer) (packet : Packet)
    (h : writer.backlog.count = 0) :
    (writer_write writer packet IOWrite.would_block).writer
      = (writer_push_packet_to_backlog writer packet 0).1 := by
  unfold writer_write
  have h' : ¬ (writer.backlog.count > 0) := by omega
  rw [if_neg h']
  have := push_rc writer packet 0
  rcases hp : writer_push_packet_to_backlog writer packet 0 with ⟨w1, rc⟩
  rw [hp] at this
  simp only at this
  simp [io_write, hp, this]

/-- The two ways `writer_write` leaves a writer: only the sink has changed, or the packet
has been pushed to the backlog. -/
theorem writer_write_cases (writer : Writer) (packet : Packet) (outcome : IOWrite) :
    (∃ io, (writer_write writer packet outcome).writer = { writer with io := io }) ∨
    (∃ io written, (writer_write writer packet outcome).writer
      = (writer_push_packet_to_backlog { writer with io := io } packet written).1) := by
  by_cases h : 0 < writer.backlog.count
  · right
    exact ⟨writer.io, 0, writer_write_of_backlog writer packet outcome h⟩
  · unfold writer_write
    rw [if_neg h]
    rcases hio : io_write writer.io packet.bytes packet.header.length.val outcome
      with ⟨io, rc, would_block⟩
    simp only
    have hp0 := push_rc { writer with io := io } packet 0
    have hp1 := push_rc { writer with io := io } packet rc.toNat
    rcases hpa : writer_push_packet_to_backlog { writer with io := io } packet 0
      with ⟨wa, rca⟩
    rcases hpb : writer_push_packet_to_backlog { writer with io := io } packet rc.toNat
      with ⟨wb, rcb⟩
    rw [hpa] at hp0
    rw [hpb] at hp1
    simp only at hp0 hp1
    subst hp0
    subst hp1
    simp only [lt_self_iff_false, if_false]
    split_ifs
    · exact Or.inr ⟨io, 0, by rw [hpa]⟩
    · exact Or.inl ⟨io, rfl⟩
    · exact Or.inr ⟨io, rc.toNat, by rw [hpb]⟩
    · exact Or.inl ⟨io, rfl⟩

theorem writer_write_count_le (writer : Writer) (packet : Packet) (outcome : IOWrite) :
    (writer_write writer packet outcome).writer.backlog.count
      ≤ max writer.backlog.count MAX_QUEUED_WRITES := by
  have hM := MAX_QUEUED_WRITES_pos
  rcases writer_write_cases writer packet outcome with ⟨io, h⟩ | ⟨io, written, h⟩
  · rw [h]
    exact le_max_left _ _
  · rw [h, push_backlog_count]
    simp only [le_max_iff]
    omega

theorem queue_pop_cons {α : Type} (item : α) (items : List α) :
    queue_pop { items := item :: items } = { items := items } := by
  simp [queue_pop, Queue.count]

theorem writer_handle_write_count_le (writer : Writer) (outcome : IOWrite) :
    (writer_handle_write writer outcome).1.backlog.count ≤ writer.backlog.count := by
  unfold writer_handle_write
  split_ifs with h0
  · exact le_refl _
  · have hne : writer.backlog.items ≠ [] := by
      intro he
      simp [Queue.count, he] at h0
    obtain ⟨head, tail, hitems⟩ := List.exists_cons_of_ne_nil hne
    have hpeek : queue_peek writer.backlog = some head := by
      simp [queue_peek, Queue.count, hitems]
    rw [hpeek]
    simp only
    split
    · exact le_refl _
    · rw [queue_pop_cons]
      split_ifs <;> simp [Queue.count, hitems]

theorem writer_step_count_le (writer : Writer) (event : WriterEvent) :
    (writer_step writer event).backlog.count ≤ max writer.backlog.count MAX_QUEUED_WRITES := by
  cases event with
  | write packet outcome => exact writer_write_count_le writer packet outcome
  | handle_write outcome =>
    exact le_trans (writer_handle_write_count_le writer outcome) (le_max_left _ _)

theorem writer_run_count_le (events : List WriterEvent) (writer : Writer) :
    (writer_run writer events).backlog.count ≤ max writer.backlog.count MAX_QUEUED_WRITES := by
  induction events generalizing writer with
  | nil => exact le_max_left _ _
  | cons event events ih =>
    have h1 := ih (writer_step writer event)
    have h2 := writer_step_count_le writer event
    simp only [writer_run, List.foldl_cons] at h1 ⊢
    simp only [le_max_iff] at h1 h2 ⊢
    omega

/-- A `writer_write` call against a sink that reports would-block pushes the packet. -/
theorem writer_step_would_block (writer : Writer) (packet : Packet) :
    writer_step writer (WriterEvent.write packet IOWrite.would_block)
      = (writer_push_packet_to_backlog writer packet 0).1 := by
  by_cases h : 0 < writer.backlog.count
  · exact writer_write_of_backlog writer packet _ h
  · exact writer_write_would_block writer packet (by omega)

/-- The writer after `packets` have been passed to a writer whose sink reports would-block
at every `io_write`: the backlog holds the last `MAX_QUEUED_WRITES` of the entries it held
and of the packets, the counter has counted the others modulo 2^32. -/
theorem writer_run_would_block_from (writer : Writer) (packets : List Packet)
    (hcount : writer.backlog.count ≤ MAX_QUEUED_WRITES)
    (hdropped : writer.dropped_packets < 2 ^ 32) :
    (writer_run writer (would_block_writes packets)).backlog.items
      = (writer.backlog.items ++ packets.map (fun packet => writer_queued_packet packet 0)).drop
          (writer.backlog.count + packets.length - MAX_QUEUED_WRITES) ∧
    (writer_run writer (would_block_writes packets)).dropped_packets
      = (writer.dropped_packets
          + (writer.backlog.count + packets.length - MAX_QUEUED_WRITES)) % 2 ^ 32 ∧
    (writer_run writer (would_block_writes packets)).io = writer.io := by
  have hM := MAX_QUEUED_WRITES_pos
  induction packets using List.reverseRecOn with
  | nil =>
    have e : writer.backlog.count - MAX_QUEUED_WRITES = 0 := by omega
    simp only [would_block_writes, writer_run, List.map_nil, List.foldl_nil, List.append_nil,
      List.length_nil, e, List.drop_zero, Nat.add_zero, true_and, and_true]
    exact (Nat.mod_eq_of_lt hdropped).symm
  | append_singleton ps p ih =>
    obtain ⟨ih1, ih2, ih3⟩ := ih
    have hrun : writer_run writer (would_block_writes (ps ++ [p]))
        = (writer_push_packet_to_backlog (writer_run writer (would_block_writes ps)) p 0).1 := by
      simp only [would_block_writes, writer_run, List.map_append, List.map_cons, List.map_nil,
        List.foldl_append, List.foldl_cons, List.foldl_nil]
      exact writer_step_would_block _ _
    have hlength : (writer.backlog.items
        ++ ps.map (fun packet => writer_queued_packet packet 0)).length
        = writer.backlog.count + ps.length := by
      simp only [List.length_append, List.length_map, Queue.count]
    have hcount' : (writer_run writer (would_block_writes ps)).backlog.count
        = min (writer.backlog.count + ps.length) MAX_QUEUED_WRITES := by
      have : (writer_run writer (would_block_writes ps)).backlog.count
          = (writer_run writer (would_block_writes ps)).backlog.items.length := rfl
      rw [this, ih1, List.length_drop, hlength]
      omega
    rw [hrun, push_writer]
    simp only [hcount', ih1, ih2, ih3, List.length_append, List.length_singleton]
    refine ⟨?_, ?_, trivial⟩
    · by_cases hlen : writer.backlog.count + ps.length < MAX_QUEUED_WRITES
      · have e1 : writer.backlog.count + ps.length - MAX_QUEUED_WRITES = 0 := by omega
        have e2 : min (writer.backlog.count + ps.length) MAX_QUEUED_WRITES + 1
            - MAX_QUEUED_WRITES = 0 := by omega
        have e3 : writer.backlog.count + (ps.length + 1) - MAX_QUEUED_WRITES = 0 := by
          omega
        simp only [e1, e2, e3, List.drop_zero, List.map_append, List.map_cons, List.map_nil,
          List.append_assoc]
      · have e2 : min (writer.backlog.count + ps.length) MAX_QUEUED_WRITES + 1
            - MAX_QUEUED_WRITES = 1 := by omega
        have e3 : writer.backlog.count + (ps.length + 1) - MAX_QUEUED_WRITES
            = 1 + (writer.backlog.count + ps.length - MAX_QUEUED_WRITES) := by omega
        have e4 : 1 + (writer.backlog.count + ps.length - MAX_QUEUED_WRITES)
            ≤ (writer.backlog.items
                ++ ps.map (fun packet => writer_queued_packet packet 0)).length := by
          rw [hlength]
          omega
        rw [e2, e3, List.map_append, ← List.append_assoc, List.drop_append_of_le_length e4,
          List.drop_drop]
        simp only [List.map_cons, List.map_nil, Nat.add_comm]
    · by_cases hlen : writer.backlog.count + ps.length < MAX_QUEUED_WRITES
      · have e1 : ¬ (min (writer.backlog.count + ps.length) MAX_QUEUED_WRITES
            ≥ MAX_QUEUED_WRITES) := by omega
        have e3 : writer.backlog.count + (ps.length + 1) - MAX_QUEUED_WRITES = 0 := by
          omega
        have e4 : writer.backlog.count + ps.length - MAX_QUEUED_WRITES = 0 := by omega
        simp only [e1, if_false, e3, e4, Nat.add_zero, Nat.mod_mod]
      · have e1 : min (writer.backlog.count + ps.length) MAX_QUEUED_WRITES
            ≥ MAX_QUEUED_WRITES := by omega
        have e2 : min (writer.backlog.count + ps.length) MAX_QUEUED_WRITES
            - MAX_QUEUED_WRITES + 1 = 1 := by omega
        have e3 : writer.backlog.count + (ps.length + 1) - MAX_QUEUED_WRITES
            = writer.backlog.count + ps.length - MAX_QUEUED_WRITES + 1 := by omega
        simp only [e1, if_true, e2, e3]
        norm_num
        omega

/-- The writer after `packets` have been passed to a new writer whose sink always reports
would-block. -/
theorem writer_run_would_block (io : IOObject) (packets : List Packet) :
    (writer_run (writer_create io) (would_block_writes packets)).backlog.items
      = (packets.drop (packets.length - MAX_QUEUED_WRITES)).map
          (fun packet => writer_queued_packet packet 0) ∧
    (writer_run (writer_create io) (would_block_writes packets)).dropped_packets
      = (packets.length - MAX_QUEUED_WRITES) % 2 ^ 32 ∧
    (writer_run (writer_create io) (would_block_writes packets)).io = io := by
  have h := writer_run_would_block_from (writer_create io) packets (Nat.zero_le _)
    (by norm_num [writer_create])
  simpa [writer_create, queue_create, Queue.count, List.map_drop] using h

/-! ## Bounded backlog (C2) -/

/-- C2 as stated fails at N = 2^32 + 32768: after that many packets have been passed to a
new writer whose sink always reports would-block, the 32 bit counter `dropped_packets`
is not N - 32768 (it has wrapped around to 0). -/
theorem writer_dropped_packets_wraps :
    (writer_run (writer_create ⟨[]⟩)
        (would_block_writes
          (List.replicate (2 ^ 32 + 32768) ⟨⟨⟨2, 0, 0, 0⟩, 8, 1, 0x18, 0⟩, []⟩))).dropped_packets
      ≠ 2 ^ 32 + 32768 - 32768 := by
  rw [(writer_run_would_block _ _).2.1, List.length_replicate]
  decide

/-- C2, amended: (1) along every sequence of `writer_write` calls and write events on a
writer whose backlog holds at most 32768 entries, `backlog.count` stays at most 32768;
(2) a `writer_write` call made while `backlog.count >= 32768` pops the oldest entries
until 32767 remain, appends the new packet at the tail and adds the number of popped
entries to `dropped_packets` modulo 2^32; (3) after N > 32768 packets have been passed
to a new writer whose sink always reports would-block, the backlog holds the newest 32768
of them in order and `dropped_packets` is (N - 32768) mod 2^32, which is N - 32768 as
long as N - 32768 < 2^32. -/
theorem writer_backlog_bounded_drops_oldest :
    (∀ (writer : Writer) (events : List WriterEvent), writer.backlog.count ≤ 32768 →
      (writer_run writer events).backlog.count ≤ 32768) ∧
    (∀ (writer : Writer) (packet : Packet) (outcome : IOWrite),
      writer.backlog.count ≥ 32768 →
      (writer.backlog.items.drop (writer.backlog.count - 32767)).length = 32767 ∧
      (writer_write writer packet outcome).writer.backlog.items
        = writer.backlog.items.drop (writer.backlog.count - 32767)
          ++ [writer_queued_packet packet 0] ∧
      (writer_write writer packet outcome).writer.backlog.count = 32768 ∧
      (writer_write writer packet outcome).writer.dropped_packets
        = (writer.dropped_packets + (writer.backlog.count - 32767)) % 2 ^ 32) ∧
    (∀ (io : IOObject) (packets : List Packet), packets.length > 32768 →
      (writer_run (writer_create io) (would_block_writes packets)).backlog.items
        = (packets.drop (packets.length - 32768)).map
            (fun packet => writer_queued_packet packet 0) ∧
      (writer_run (writer_create io) (would_block_writes packets)).backlog.count = 32768 ∧
      (writer_run (writer_create io) (would_block_writes packets)).dropped_packets
        = (packets.length - 32768) % 2 ^ 32 ∧
      (packets.length - 32768 < 2 ^ 32 →
        (writer_run (writer_create io) (would_block_writes packets)).dropped_packets
          = packets.length - 32768)) := by
  have hmax : MAX_QUEUED_WRITES = 32768 := rfl
  refine ⟨?_, ?_, ?_⟩
  · intro writer events h
    have := writer_run_count_le events writer
    rw [hmax] at this
    simp only [le_max_iff] at this
    omega
  · intro writer packet outcome h
    have hlen : writer.backlog.items.length = writer.backlog.count := rfl
    rw [writer_write_of_backlog writer packet outcome (by omega), push_writer]
    simp only [hmax, Queue.count, List.length_append, List.length_drop, List.length_singleton]
    simp only [Queue.count] at h
    have e1 : writer.backlog.items.length + 1 - 32768 = writer.backlog.items.length - 32767 := by
      omega
    have e2 : writer.backlog.items.length - 32768 + 1 = writer.backlog.items.length - 32767 := by
      omega
    rw [e1, e2, if_pos h]
    refine ⟨by omega, rfl, by omega, ?_⟩
    norm_num
  · intro io packets h
    obtain ⟨h1, h2, _⟩ := writer_run_would_block io packets
    rw [hmax] at h1 h2
    refine ⟨h1, ?_, h2, ?_⟩
    · have : (writer_run (writer_create io) (would_block_writes packets)).backlog.count
          = (writer_run (writer_create io) (would_block_writes packets)).backlog.items.length :=
        rfl
      rw [this, h1, List.length_map, List.length_drop]
      omega
    · intro hlt
      rw [h2]
      exact Nat.mod_eq_of_lt hlt

/-- C2, amended, at 32769 packets: the oldest one is dropped and counted. -/
theorem writer_backlog_bounded_drops_oldest_witness :
    (writer_run (writer_create ⟨[]⟩)
        (would_block_writes
          (List.replicate 32769 ⟨⟨⟨2, 0, 0, 0⟩, 8, 1, 0x18, 0⟩, []⟩))).backlog.count = 32768 ∧
    (writer_run (writer_create ⟨[]⟩)
        (would_block_writes
          (List.replicate 32769 ⟨⟨⟨2, 0, 0, 0⟩, 8, 1, 0x18, 0⟩, []⟩))).dropped_packets = 1 := by
  have h := writer_backlog_bounded_drops_oldest.2.2 ⟨[]⟩
    (List.replicate 32769 ⟨⟨⟨2, 0, 0, 0⟩, 8, 1, 0x18, 0⟩, []⟩)
    (by rw [List.length_replicate]; decide)
  refine ⟨h.2.1, ?_⟩
  have h3 := h.2.2.2
  rw [List.length_replicate] at h3
  exact h3 (by decide)

/-! ## In-order delivery of complete packets (C1) -/

/-- A partial write: the sink takes `n` bytes, fewer than the packet has, and the packet is
pushed to the backlog with `written = n`. -/
theorem writer_write_partial (writer : Writer) (packet : Packet) (n : Nat)
    (h0 : writer.backlog.count = 0) (hn : n < packet.header.length.val) :
    (writer_write writer packet (IOWrite.accept n)).writer
      = (writer_push_packet_to_backlog
          { writer with io := { written := writer.io.written ++ packet.bytes.take n } }
          packet n).1 := by
  unfold writer_write
  have h' : ¬ (writer.backlog.count > 0) := by omega
  rw [if_neg h']
  have hmin : min n packet.header.length.val = n := min_eq_left (le_of_lt hn)
  have hp := push_rc
    { writer with io := { written := writer.io.written ++ packet.bytes.take n } } packet n
  rcases hpa : writer_push_packet_to_backlog
    { writer with io := { written := writer.io.written ++ packet.bytes.take n } } packet n
    with ⟨wa, rca⟩
  rw [hpa] at hp
  simp only at hp
  subst hp
  have hlt : ((n : Nat) : Int) < ((packet.header.length.val : Nat) : Int) := by omega
  have hnn : ¬ (((n : Nat) : Int) < 0) := by omega
  simp only [io_write, hmin, hnn, if_false, hlt, if_true, Int.toNat_ofNat, hpa,
    lt_self_iff_false]

/-- A write readiness event whose sink takes all the remaining bytes of the head of the
backlog: these bytes are what the sink receives. -/
theorem writer_handle_write_head (writer : Writer) (head : PartialPacket)
    (rest : List PartialPacket) (n : Nat)
    (hitems : writer.backlog.items = head :: rest)
    (hwritten : head.written < head.packet.header.length.val)
    (hn : head.packet.header.length.val - head.written ≤ n) :
    (writer_handle_write writer (IOWrite.accept n)).1.io.written
      = writer.io.written
        ++ (head.packet.bytes.drop head.written).take
            (head.packet.header.length.val - head.written) := by
  unfold writer_handle_write
  have h0 : ¬ ((writer.backlog.count == 0) = true) := by
    simp [Queue.count, hitems]
  rw [if_neg h0]
  have hpeek : queue_peek writer.backlog = some head := by
    simp [queue_peek, Queue.count, hitems]
  rw [hpeek]
  have hpos : ((head.packet.header.length.val : Nat) : Int) - ((head.written : Nat) : Int) > 0 := by
    omega
  have htonat : (((head.packet.header.length.val : Nat) : Int)
      - ((head.written : Nat) : Int)).toNat = head.packet.header.length.val - head.written := by
    omega
  have hmin : min n (head.packet.header.length.val - head.written)
      = head.packet.header.length.val - head.written := min_eq_right hn
  have hnn : ¬ (((head.packet.header.length.val - head.written : Nat) : Int) < 0) := by omega
  simp only [hpos, if_true, htonat, io_write, hmin, hnn, if_false]
  split_ifs <;> rfl

theorem written_packets_append (events events' : List WriterEvent) :
    written_packets (events ++ events') = written_packets events ++ written_packets events' := by
  induction events with
  | nil => rfl
  | cons event events ih =>
    cases event <;> simp [written_packets, ih]

theorem written_packets_would_block_writes (packets : List Packet) :
    written_packets (would_block_writes packets) = packets := by
  induction packets with
  | nil => rfl
  | cons packet packets ih =>
    simp only [would_block_writes, List.map_cons, written_packets] at ih ⊢
    rw [ih]

/-- A sequence of bytes whose first `n` bytes are not the wire bytes of any of the packets
is not a prefix of a concatenation of such wire bytes of `n` bytes each. -/
theorem not_prefix_of_flatten (sent : List Byte) (delivered : List Packet) (n : Nat)
    (hsent : n ≤ sent.length) (hpos : 0 < n)
    (hlength : ∀ packet ∈ delivered, packet.wire.length = n)
    (hne : ∀ packet ∈ delivered, sent.take n ≠ packet.wire) :
    ¬ sent <+: (delivered.map Packet.wire).flatten := by
  intro hfront
  cases delivered with
  | nil =>
    have : sent = [] := by simpa using hfront
    rw [this] at hsent
    simp only [List.length_nil] at hsent
    omega
  | cons packet packets =>
    have h1 := hlength packet (List.mem_cons_self _ _)
    have h2 := hne packet (List.mem_cons_self _ _)
    apply h2
    obtain ⟨suffix, hsuffix⟩ := hfront
    simp only [List.map_cons, List.flatten_cons] at hsuffix
    have h3 : (sent ++ suffix).take n = sent.take n := by
      rw [List.take_append_of_le_length hsent]
    rw [← h3, hsuffix, List.take_append_of_le_length (by omega),
      List.take_of_length_le (by omega)]

theorem overflow_first_step :
    writer_step (writer_create ⟨[]⟩) (WriterEvent.write overflow_first (IOWrite.accept 3))
      = overflow_writer := by
  have h := writer_write_partial (writer_create ⟨[]⟩) overflow_first 3 rfl (by decide)
  simp only [writer_step]
  rw [h, push_writer]
  simp only [writer_create, queue_create, Queue.count, List.length_nil, overflow_writer]
  rfl

theorem overflow_backlog :
    (writer_run overflow_writer
        (would_block_writes (List.replicate 32768 overflow_next))).backlog.items
      = writer_queued_packet overflow_next 0
        :: List.replicate 32767 (writer_queued_packet overflow_next 0) ∧
    (writer_run overflow_writer
        (would_block_writes (List.replicate 32768 overflow_next))).io = overflow_writer.io := by
  obtain ⟨h1, _, h3⟩ := writer_run_would_block_from overflow_writer
    (List.replicate 32768 overflow_next) (by decide) (by decide)
  refine ⟨?_, h3⟩
  rw [h1, List.map_replicate, List.length_replicate]
  have e : overflow_writer.backlog.count + 32768 - MAX_QUEUED_WRITES = 1 := by decide
  rw [e]
  simp only [overflow_writer, List.singleton_append, List.drop_one, List.tail_cons]
  exact List.replicate_succ _ 32767

theorem writer_step_handle_write (writer : Writer) (outcome : IOWrite) :
    writer_step writer (WriterEvent.handle_write outcome)
      = (writer_handle_write writer outcome).1 := rfl

theorem writer_run_cons_append (writer : Writer) (first : WriterEvent)
    (events : List WriterEvent) (last : WriterEvent) :
    writer_run writer (first :: (events ++ [last]))
      = writer_step (writer_run (writer_step writer first) events) last := by
  simp only [writer_run, List.foldl_cons, List.foldl_append, List.foldl_nil]

theorem written_packets_cons_append (packet : Packet) (outcome outcome' : IOWrite)
    (packets : List Packet) :
    written_packets (WriterEvent.write packet outcome ::
        (would_block_writes packets ++ [WriterEvent.handle_write outcome']))
      = packet :: packets := by
  simp only [written_packets, written_packets_append, written_packets_would_block_writes,
    List.append_nil]

/-- The bytes the sink has received at the end of `overflow_events`. -/
theorem overflow_events_written :
    (writer_run (writer_create ⟨[]⟩) overflow_events).io.written
      = [0x11, 0, 0, 0x22, 0, 0, 0, 8, 1, 0x18, 0] := by
  have hrun : writer_run (writer_create ⟨[]⟩) overflow_events
      = writer_step
          (writer_run overflow_writer (would_block_writes (List.replicate 32768 overflow_next)))
          (WriterEvent.handle_write (IOWrite.accept 8)) := by
    rw [← overflow_first_step]
    exact writer_run_cons_append _ _ _ _
  rw [hrun, writer_step_handle_write,
    writer_handle_write_head _ _ _ 8 overflow_backlog.1 (by decide) (by decide),
    overflow_backlog.2]
  rfl

/-- C1 fails on the code: at the end of `overflow_events` the sink has received the first 3
bytes of `overflow_first` followed by the 8 bytes of `overflow_next`, which is not a
prefix of any concatenation of complete packets passed to `writer_write`. -/
theorem writer_overflow_truncates_packet :
    (writer_run (writer_create ⟨[]⟩) overflow_events).io.written
      = [0x11, 0, 0, 0x22, 0, 0, 0, 8, 1, 0x18, 0] ∧
    ¬ complete_packets_prefix (writer_run (writer_create ⟨[]⟩) overflow_events).io.written
        (written_packets overflow_events) := by
  refine ⟨overflow_events_written, ?_⟩
  rw [overflow_events_written]
  rintro ⟨delivered, hsub, hfront⟩
  have hpackets : written_packets overflow_events
      = overflow_first :: List.replicate 32768 overflow_next := by
    exact written_packets_cons_append _ _ _ _
  rw [hpackets] at hsub
  have hmem : ∀ packet ∈ delivered, packet = overflow_first ∨ packet = overflow_next := by
    intro packet hp
    have := hsub.subset hp
    rcases List.mem_cons.1 this with h | h
    · exact Or.inl h
    · exact Or.inr (List.eq_of_mem_replicate h)
  refine not_prefix_of_flatten _ delivered 8 (by decide) (by decide) ?_ ?_ hfront
  · intro packet hp
    rcases hmem packet hp with h | h <;> subst h <;> rfl
  · intro packet hp
    rcases hmem packet hp with h | h <;> subst h <;> decide

/-! ## Responses of the daemon to a client -/

/-- `writer_write` calls `recipient_disconnect` only when it has called `io_write` and the
call has failed with an errno other than would-block. -/
theorem writer_write_recipient_disconnect (writer : Writer) (packet : Packet)
    (outcome : IOWrite)
    (h : (writer_write writer packet outcome).recipient_disconnect = true) :
    outcome = IOWrite.error ∧ writer.backlog.count = 0 := by
  unfold writer_write at h
  by_cases hc : writer.backlog.count > 0
  · rw [if_pos hc] at h
    rcases hp : writer_push_packet_to_backlog writer packet 0 with ⟨w1, rc⟩
    rw [hp] at h
    simp only at h
    split_ifs at h
  · rw [if_neg hc] at h
    refine ⟨?_, by omega⟩
    cases outcome with
    | accept n =>
      simp only [io_write] at h
      have hnn : ¬ (((min n packet.header.length.val : Nat) : Int) < 0) := by omega
      rw [if_neg hnn] at h
      rcases hp : writer_push_packet_to_backlog
        { writer with io := { written := writer.io.written
            ++ packet.bytes.take (min n packet.header.length.val) } } packet
        ((min n packet.header.length.val : Nat) : Int).toNat with ⟨w1, rc⟩
      rw [hp] at h
      simp only at h
      split_ifs at h
    | would_block =>
      simp only [io_write] at h
      rcases hp : writer_push_packet_to_backlog { writer with io := writer.io } packet 0
        with ⟨w1, rc⟩
      rw [hp] at h
      simp only at h
      split_ifs at h
    | error => rfl

theorem matching_of_same_fields (packet : Packet) (header : PacketHeader)
    (huid : packet.header.uid = header.uid)
    (hfunction : packet.header.function_id = header.function_id)
    (hoptions : packet.header.sequence_number_and_options
      = header.sequence_number_and_options) :
    packet_is_matching_response packet header = true := by
  simp [packet_is_matching_response, packet_header_get_sequence_number, huid, hfunction,
    hoptions]

/-- `client_dispatch_response(client, NULL, response, false, ...)` when the client may
receive the response, is not marked disconnected and has a pending request that matches:
`response` is passed to `writer_write` and the first matching pending request is removed. -/
theorem client_dispatch_response_found (daemon : Daemon) (response : Packet)
    (ignore_authentication : Bool) (outcome : IOWrite) (found : PendingRequest)
    (hauth : ignore_authentication = true ∨
      daemon.client.authentication_state = ClientAuthenticationState.DISABLED ∨
      daemon.client.authentication_state = ClientAuthenticationState.DONE)
    (hfind : daemon.client.pending_requests.find?
      (fun candidate => packet_is_matching_response response candidate.header) = some found)
    (hconnected : daemon.client.disconnected = false) :
    client_dispatch_response daemon none response false ignore_authentication outcome
      = pending_request_remove_and_free
          { daemon with
            client :=
              { daemon.client with
                response_writer :=
                  (writer_write daemon.client.response_writer response outcome).writer
                disconnected :=
                  (writer_write daemon.client.response_writer response
                    outcome).recipient_disconnect }
            writer_writes := daemon.writer_writes ++ [response] }
          found := by
  unfold client_dispatch_response
  have h1 : (!ignore_authentication &&
      daemon.client.authentication_state != ClientAuthenticationState.DISABLED &&
      daemon.client.authentication_state != ClientAuthenticationState.DONE) = false := by
    rcases hauth with h | h | h <;> simp [h]
  simp [h1, hfind, hconnected, client_dispatch_response_cleanup]

/-- `client_dispatch_response(client, NULL, response, false, ...)` when no pending request
of the client matches: nothing happens. -/
theorem client_dispatch_response_not_found (daemon : Daemon) (response : Packet)
    (ignore_authentication : Bool) (outcome : IOWrite)
    (hfind : daemon.client.pending_requests.find?
      (fun candidate => packet_is_matching_response response candidate.header) = none) :
    client_dispatch_response daemon none response false ignore_authentication outcome
      = daemon := by
  unfold client_dispatch_response
  by_cases h : (!ignore_authentication &&
      daemon.client.authentication_state != ClientAuthenticationState.DISABLED &&
      daemon.client.authentication_state != ClientAuthenticationState.DONE) = true
  · rw [if_pos h]
    rfl
  · rw [if_neg h]
    simp [hfind, client_dispatch_response_cleanup]

/-- `client_dispatch_response(client, NULL, response, false, false)` for a client in state
ENABLED or NONCE_SEND: nothing happens. -/
theorem client_dispatch_response_unauthenticated (daemon : Daemon) (response : Packet)
    (outcome : IOWrite)
    (hstate : daemon.client.authentication_state = ClientAuthenticationState.ENABLED ∨
      daemon.client.authentication_state = ClientAuthenticationState.NONCE_SEND) :
    client_dispatch_response daemon none response false false outcome = daemon := by
  unfold client_dispatch_response
  rcases hstate with h | h <;> simp [h, client_dispatch_response_cleanup]

/-- A list that ends with an element for which `p` holds has a first such element. -/
theorem find_append_last {α : Type} (p : α → Bool) (items : List α) (last : α)
    (h : p last = true) : ∃ found, (items ++ [last]).find? p = some found := by
  have : ((items ++ [last]).find? p).isSome = true := by
    rw [List.find?_isSome]
    exact ⟨last, by simp, h⟩
  exact Option.isSome_iff_exists.1 this

/-! ## Authentication handshake: GET_AUTH_NONCE in state ENABLED (C6) -/

theorem get_authentication_nonce_response_matches (client : Client) (request : Packet) :
    packet_is_matching_response (get_authentication_nonce_response client request)
      request.header = true :=
  matching_of_same_fields _ _ rfl rfl rfl

/-- `client_handle_request` for a request to the daemon with function ID 1 and length 8. -/
theorem client_handle_request_get_nonce (hmac_sha1 : List Byte → List Byte → List Byte)
    (secret : List Byte) (daemon : Daemon) (request : Packet) (outcome : IOWrite)
    (huid : uint32_from_le request.header.uid = 1)
    (hfunction : request.header.function_id.val = 1)
    (hlength : request.header.length.val = 8) :
    client_handle_request hmac_sha1 secret daemon request outcome
      = client_handle_get_authentication_nonce_request
          (if packet_header_get_response_expected request.header then
            network_client_expects_response daemon request
          else daemon)
          request outcome := by
  unfold client_handle_request
  simp [huid, hfunction, hlength, UID_BRICK_DAEMON, FUNCTION_GET_AUTHENTICATION_NONCE,
    sizeof_GetAuthenticationNonceRequest]

/-- `client_handle_get_authentication_nonce_request` in state ENABLED. -/
theorem get_nonce_enabled (daemon : Daemon) (request : Packet) (outcome : IOWrite)
    (hstate : daemon.client.authentication_state = ClientAuthenticationState.ENABLED) :
    client_handle_get_authentication_nonce_request daemon request outcome
      = (client_dispatch_response daemon none
          (get_authentication_nonce_response daemon.client request) false true
          outcome).set_authentication_state ClientAuthenticationState.NONCE_SEND := by
  unfold client_handle_get_authentication_nonce_request
  simp [hstate]

/-- C6 as stated fails for a request whose response-expected bit is clear: a client in
state ENABLED without pending requests gets a GET_AUTH_NONCE request with sequence number 1
and the bit clear; nothing is passed to the response writer, which is left as it was, and
the state still becomes NONCE_SEND. -/
theorem get_nonce_without_response_expected_sends_nothing :
    (client_handle_request example_hmac_sha1 [115]
        (example_daemon ClientAuthenticationState.ENABLED) (example_get_nonce_request 0x10)
        (IOWrite.accept 80)).writer_writes = [] ∧
    (client_handle_request example_hmac_sha1 [115]
        (example_daemon ClientAuthenticationState.ENABLED) (example_get_nonce_request 0x10)
        (IOWrite.accept 80)).client.response_writer = writer_create ⟨[]⟩ ∧
    (client_handle_request example_hmac_sha1 [115]
        (example_daemon ClientAuthenticationState.ENABLED) (example_get_nonce_request 0x10)
        (IOWrite.accept 80)).client.authentication_state
      = ClientAuthenticationState.NONCE_SEND :=
  ⟨rfl, rfl, rfl⟩

/-- C6, amended: for a client in state ENABLED that is not marked disconnected and a
GET_AUTH_NONCE request (UID 1, function 1, length 8), `client_handle_request` leaves the
client in state NONCE_SEND. If the response-expected bit of the request is set, the 12-byte
response whose payload is the nonce of the client is passed to `writer_write` on the
response writer, and the client is marked disconnected only if that call reports a fatal
error of the IO object (never when `io_write` does not fail that way). If the bit is clear
and no pending request of the client matches the response, nothing is passed to the
response writer and the client is not marked disconnected. -/
theorem get_nonce_in_state_enabled (hmac_sha1 : List Byte → List Byte → List Byte)
    (secret : List Byte) (daemon : Daemon) (request : Packet) (outcome : IOWrite)
    (hstate : daemon.client.authentication_state = ClientAuthenticationState.ENABLED)
    (hconnected : daemon.client.disconnected = false)
    (huid : uint32_from_le request.header.uid = 1)
    (hfunction : request.header.function_id.val = 1)
    (hlength : request.header.length.val = 8) :
    (client_handle_request hmac_sha1 secret daemon request outcome).client.authentication_state
      = ClientAuthenticationState.NONCE_SEND ∧
    (get_authentication_nonce_response daemon.client request).header.length.val = 12 ∧
    (get_authentication_nonce_response daemon.client request).payload
      = daemon.client.authentication_nonce.bytes ∧
    (packet_header_get_response_expected request.header = true →
      (client_handle_request hmac_sha1 secret daemon request outcome).writer_writes
        = daemon.writer_writes ++ [get_authentication_nonce_response daemon.client request] ∧
      (client_handle_request hmac_sha1 secret daemon request outcome).client.response_writer
        = (writer_write daemon.client.response_writer
            (get_authentication_nonce_response daemon.client request) outcome).writer ∧
      (client_handle_request hmac_sha1 secret daemon request outcome).client.disconnected
        = (writer_write daemon.client.response_writer
            (get_authentication_nonce_response daemon.client request)
            outcome).recipient_disconnect ∧
      (outcome ≠ IOWrite.error →
        (client_handle_request hmac_sha1 secret daemon request outcome).client.disconnected
          = false)) ∧
    (packet_header_get_response_expected request.header = false →
      (∀ pending ∈ daemon.client.pending_requests,
        packet_is_matching_response (get_authentication_nonce_response daemon.client request)
          pending.header = false) →
      (client_handle_request hmac_sha1 secret daemon request outcome).writer_writes
        = daemon.writer_writes ∧
      (client_handle_request hmac_sha1 secret daemon request outcome).client.response_writer
        = daemon.client.response_writer ∧
      (client_handle_request hmac_sha1 secret daemon request outcome).client.disconnected
        = false) := by
  rw [client_handle_request_get_nonce hmac_sha1 secret daemon request outcome huid hfunction
    hlength]
  refine ⟨?_, rfl, rfl, ?_, ?_⟩
  · rw [get_nonce_enabled _ _ _ (by split_ifs <;> exact hstate)]
    rfl
  · intro hbit
    have hstate1 : (network_client_expects_response daemon request).client.authentication_state
        = ClientAuthenticationState.ENABLED := hstate
    have hconnected1 : (network_client_expects_response daemon request).client.disconnected
        = false := hconnected
    rw [if_pos hbit, get_nonce_enabled _ _ _ hstate1]
    obtain ⟨found, hfound⟩ := find_append_last
      (fun candidate : PendingRequest => packet_is_matching_response
        (get_authentication_nonce_response daemon.client request) candidate.header)
      daemon.client.pending_requests ⟨daemon.allocated, request.header⟩
      (get_authentication_nonce_response_matches _ _)
    have hfound1 : (network_client_expects_response daemon request).client.pending_requests.find?
        (fun candidate => packet_is_matching_response
          (get_authentication_nonce_response
            (network_client_expects_response daemon request).client request)
          candidate.header) = some found := hfound
    rw [client_dispatch_response_found _ _ _ _ found (Or.inl rfl) hfound1 hconnected1]
    refine ⟨rfl, rfl, rfl, ?_⟩
    intro hne
    by_contra hd
    have hd' : (writer_write daemon.client.response_writer
        (get_authentication_nonce_response daemon.client request)
        outcome).recipient_disconnect = true := by
      simpa [pending_request_remove_and_free, Daemon.set_authentication_state,
        network_client_expects_response, get_authentication_nonce_response] using hd
    exact hne (writer_write_recipient_disconnect _ _ _ hd').1
  · intro hbit hnone
    have hbit' : ¬ (packet_header_get_response_expected request.header = true) := by
      simp [hbit]
    rw [if_neg hbit', get_nonce_enabled _ _ _ hstate,
      client_dispatch_response_not_found _ _ _ _ (List.find?_eq_none.2 (by simpa using hnone))]
    exact ⟨rfl, rfl, hconnected⟩

/-- C6, amended, at a client just created with a secret and a GET_AUTH_NONCE request with
sequence number 1 and the response-expected bit set: the response 01 00 00 00 0C 01 18 00
04 03 02 01 is passed to the response writer. -/
theorem get_nonce_in_state_enabled_witness :
    (client_handle_request example_hmac_sha1 [115]
        (example_daemon ClientAuthenticationState.ENABLED) (example_get_nonce_request 0x18)
        (IOWrite.accept 80)).writer_writes
      = [] ++ [get_authentication_nonce_response
          (example_daemon ClientAuthenticationState.ENABLED).client
          (example_get_nonce_request 0x18)] :=
  ((get_nonce_in_state_enabled example_hmac_sha1 [115]
      (example_daemon ClientAuthenticationState.ENABLED) (example_get_nonce_request 0x18)
      (IOWrite.accept 80) rfl rfl (by decide) rfl rfl).2.2.2.1 (by decide)).1

/-! ## Authentication handshake: AUTHENTICATE in state NONCE_SEND (C7) -/

theorem authenticate_response_matches (request : Packet) :
    packet_is_matching_response (authenticate_response request) request.header = true :=
  matching_of_same_fields _ _ rfl rfl rfl

theorem authenticate_response_error_code (request : Packet) :
    packet_header_get_error_code (authenticate_response request).header = PACKET_E_SUCCESS := by
  have h := (set_error_code_fields
    { request.header with length := u8 sizeof_AuthenticateResponse } PACKET_E_SUCCESS
    (by decide)).2.2.2.2
  rw [get_error_code_eq]
  simp only [authenticate_response, PACKET_E_SUCCESS] at h ⊢
  rw [h]
  omega

/-- `client_handle_request` for a request to the daemon with function ID 2 and length 32. -/
theorem client_handle_request_authenticate (hmac_sha1 : List Byte → List Byte → List Byte)
    (secret : List Byte) (daemon : Daemon) (request : Packet) (outcome : IOWrite)
    (huid : uint32_from_le request.header.uid = 1)
    (hfunction : request.header.function_id.val = 2)
    (hlength : request.header.length.val = 32) :
    client_handle_request hmac_sha1 secret daemon request outcome
      = client_handle_authenticate_request hmac_sha1 secret
          (if packet_header_get_response_expected request.header then
            network_client_expects_response daemon request
          else daemon)
          request outcome := by
  unfold client_handle_request
  simp [huid, hfunction, hlength, UID_BRICK_DAEMON, FUNCTION_GET_AUTHENTICATION_NONCE,
    FUNCTION_AUTHENTICATE, sizeof_AuthenticateRequest]

/-- `client_handle_authenticate_request` in state NONCE_SEND with the expected digest. -/
theorem authenticate_accepted (hmac_sha1 : List Byte → List Byte → List Byte)
    (secret : List Byte) (daemon : Daemon) (request : Packet) (outcome : IOWrite)
    (hstate : daemon.client.authentication_state = ClientAuthenticationState.NONCE_SEND)
    (hdigest : (request.payload.drop 4).take 20
      = hmac_sha1 secret (daemon.client.authentication_nonce.bytes ++ request.payload.take 4)) :
    client_handle_authenticate_request hmac_sha1 secret daemon request outcome
      = if packet_header_get_response_expected request.header then
          client_dispatch_response
            (daemon.set_authentication_state ClientAuthenticationState.DONE) none
            (authenticate_response request) false false outcome
        else daemon.set_authentication_state ClientAuthenticationState.DONE := by
  unfold client_handle_authenticate_request
  have hcmp : memcmp_ne ((request.payload.drop 4).take SHA1_DIGEST_LENGTH)
      (hmac_sha1 secret (daemon.client.authentication_nonce.bytes ++ request.payload.take 4))
      SHA1_DIGEST_LENGTH = false := by
    simp only [memcmp_ne, SHA1_DIGEST_LENGTH, ← hdigest, List.take_take, min_self, bne_self_eq_false]
  simp [hstate, hcmp]

/-- C7 as stated fails when the write of the response fails: a client in state NONCE_SEND
gets an AUTHENTICATE request with the expected digest and the response-expected bit set,
and `io_write` fails with a fatal error; the client is in state DONE and marked
disconnected. -/
theorem authenticate_with_failing_write_disconnects :
    (client_handle_request example_hmac_sha1 [115]
        (example_daemon ClientAuthenticationState.NONCE_SEND)
        (example_authenticate_request 0x28 (List.replicate 20 0))
        IOWrite.error).client.authentication_state = ClientAuthenticationState.DONE ∧
    (client_handle_request example_hmac_sha1 [115]
        (example_daemon ClientAuthenticationState.NONCE_SEND)
        (example_authenticate_request 0x28 (List.replicate 20 0))
        IOWrite.error).client.disconnected = true :=
  ⟨rfl, rfl⟩

/-- C7, amended: for a client in state NONCE_SEND that is not marked disconnected and an
AUTHENTICATE request (UID 1, function 2) of length 32 whose digest is
`hmac_sha1 secret (server_nonce ++ client_nonce)`, `client_handle_request` moves the client
to state DONE; the 8-byte response with error code SUCCESS is passed to `writer_write` on
the response writer if and only if the response-expected bit of the request is set; the
client is marked disconnected only if that call reports a fatal error of the IO object
(never when the bit is clear or `io_write` does not fail that way). -/
theorem authenticate_in_state_nonce_send (hmac_sha1 : List Byte → List Byte → List Byte)
    (secret : List Byte) (daemon : Daemon) (request : Packet) (outcome : IOWrite)
    (hstate : daemon.client.authentication_state = ClientAuthenticationState.NONCE_SEND)
    (hconnected : daemon.client.disconnected = false)
    (huid : uint32_from_le request.header.uid = 1)
    (hfunction : request.header.function_id.val = 2)
    (hlength : request.header.length.val = 32)
    (hdigest : (request.payload.drop 4).take 20
      = hmac_sha1 secret (daemon.client.authentication_nonce.bytes ++ request.payload.take 4)) :
    (client_handle_request hmac_sha1 secret daemon request outcome).client.authentication_state
      = ClientAuthenticationState.DONE ∧
    (authenticate_response request).header.length.val = 8 ∧
    packet_header_get_error_code (authenticate_response request).header = PACKET_E_SUCCESS ∧
    (client_handle_request hmac_sha1 secret daemon request outcome).writer_writes
      = (if packet_header_get_response_expected request.header then
          daemon.writer_writes ++ [authenticate_response request]
        else daemon.writer_writes) ∧
    (client_handle_request hmac_sha1 secret daemon request outcome).client.response_writer
      = (if packet_header_get_response_expected request.header then
          (writer_write daemon.client.response_writer (authenticate_response request)
            outcome).writer
        else daemon.client.response_writer) ∧
    (client_handle_request hmac_sha1 secret daemon request outcome).client.disconnected
      = (if packet_header_get_response_expected request.header then
          (writer_write daemon.client.response_writer (authenticate_response request)
            outcome).recipient_disconnect
        else false) ∧
    (outcome ≠ IOWrite.error →
      (client_handle_request hmac_sha1 secret daemon request outcome).client.disconnected
        = false) := by
  rw [client_handle_request_authenticate hmac_sha1 secret daemon request outcome huid hfunction
    hlength]
  by_cases hbit : packet_header_get_response_expected request.header = true
  · have hstate1 : (network_client_expects_response daemon request).client.authentication_state
        = ClientAuthenticationState.NONCE_SEND := hstate
    have hdigest1 : (request.payload.drop 4).take 20
        = hmac_sha1 secret
          ((network_client_expects_response daemon request).client.authentication_nonce.bytes
            ++ request.payload.take 4) := hdigest
    rw [if_pos hbit, authenticate_accepted _ _ _ _ _ hstate1 hdigest1, if_pos hbit]
    obtain ⟨found, hfound⟩ := find_append_last
      (fun candidate : PendingRequest => packet_is_matching_response
        (authenticate_response request) candidate.header)
      daemon.client.pending_requests ⟨daemon.allocated, request.header⟩
      (authenticate_response_matches _)
    have hfound1 : ((network_client_expects_response daemon request).set_authentication_state
        ClientAuthenticationState.DONE).client.pending_requests.find?
        (fun candidate => packet_is_matching_response (authenticate_response request)
          candidate.header) = some found := hfound
    rw [client_dispatch_response_found _ _ _ _ found (Or.inr (Or.inr rfl)) hfound1 hconnected]
    refine ⟨rfl, rfl, authenticate_response_error_code request, ?_, ?_, ?_, ?_⟩
    · rw [if_pos hbit]
      rfl
    · rw [if_pos hbit]
      rfl
    · rw [if_pos hbit]
      rfl
    · intro hne
      by_contra hd
      have hd' : (writer_write daemon.client.response_writer (authenticate_response request)
          outcome).recipient_disconnect = true := by
        simpa [pending_request_remove_and_free, Daemon.set_authentication_state,
          network_client_expects_response] using hd
      exact hne (writer_write_recipient_disconnect _ _ _ hd').1
  · rw [if_neg hbit, authenticate_accepted _ _ _ _ _ hstate hdigest, if_neg hbit]
    refine ⟨rfl, rfl, authenticate_response_error_code request, ?_, ?_, ?_, ?_⟩
    · rw [if_neg hbit]
      rfl
    · rw [if_neg hbit]
      rfl
    · rw [if_neg hbit]
      exact hconnected
    · intro _
      exact hconnected

/-- C7, amended, at a client in state NONCE_SEND and an AUTHENTICATE request with the
expected digest, sequence number 2 and the response-expected bit set: the client is in
state DONE and not marked disconnected when `io_write` takes the response. -/
theorem authenticate_in_state_nonce_send_witness :
    (client_handle_request example_hmac_sha1 [115]
        (example_daemon ClientAuthenticationState.NONCE_SEND)
        (example_authenticate_request 0x28 (List.replicate 20 0))
        (IOWrite.accept 80)).client.authentication_state = ClientAuthenticationState.DONE ∧
    (client_handle_request example_hmac_sha1 [115]
        (example_daemon ClientAuthenticationState.NONCE_SEND)
        (example_authenticate_request 0x28 (List.replicate 20 0))
        (IOWrite.accept 80)).client.disconnected = false :=
  have h := authenticate_in_state_nonce_send example_hmac_sha1 [115]
    (example_daemon ClientAuthenticationState.NONCE_SEND)
    (example_authenticate_request 0x28 (List.replicate 20 0)) (IOWrite.accept 80)
    rfl rfl (by decide) rfl rfl (by decide)
  ⟨h.1, h.2.2.2.2.2.2 (by decide)⟩

/-! ## Invalid authentication sequences (C8) -/

/-- An AUTHENTICATE request that is not accepted marks the client disconnected. -/
theorem authenticate_rejected (hmac_sha1 : List Byte → List Byte → List Byte)
    (secret : List Byte) (daemon : Daemon) (request : Packet) (outcome : IOWrite)
    (hcase : daemon.client.authentication_state ≠ ClientAuthenticationState.NONCE_SEND ∨
      (request.payload.drop 4).take 20
        ≠ (hmac_sha1 secret
            (daemon.client.authentication_nonce.bytes ++ request.payload.take 4)).take 20) :
    client_handle_authenticate_request hmac_sha1 secret daemon request outcome
      = daemon.disconnect := by
  unfold client_handle_authenticate_request
  by_cases h1 : daemon.client.authentication_state = ClientAuthenticationState.DISABLED
  · simp [h1]
  · by_cases h2 : daemon.client.authentication_state = ClientAuthenticationState.NONCE_SEND
    · rcases hcase with hc | hc
      · exact absurd h2 hc
      · have hcmp : memcmp_ne ((request.payload.drop 4).take SHA1_DIGEST_LENGTH)
            (hmac_sha1 secret
              (daemon.client.authentication_nonce.bytes ++ request.payload.take 4))
            SHA1_DIGEST_LENGTH = true := by
          simp only [memcmp_ne, SHA1_DIGEST_LENGTH, List.take_take, min_self, bne_iff_ne]
          exact hc
        simp [h2, hcmp]
    · simp [h1, h2]

/-- A GET_AUTH_NONCE request in state DISABLED or NONCE_SEND marks the client
disconnected. -/
theorem get_nonce_rejected (daemon : Daemon) (request : Packet) (outcome : IOWrite)
    (hcase : daemon.client.authentication_state = ClientAuthenticationState.DISABLED ∨
      daemon.client.authentication_state = ClientAuthenticationState.NONCE_SEND) :
    client_handle_get_authentication_nonce_request daemon request outcome
      = daemon.disconnect := by
  unfold client_handle_get_authentication_nonce_request
  rcases hcase with h | h <;> simp [h]

/-- C8: a request to the daemon (UID 1) that is an AUTHENTICATE request (function 2)
received in a state other than NONCE_SEND, or received with a digest whose 20 bytes are not
those of the expected HMAC, or that is a GET_AUTH_NONCE request (function 1) received in
state DISABLED or NONCE_SEND, sets `client.disconnected`, leaves `authentication_state` as
it was and passes nothing to the response writer, which is left as it was. -/
theorem invalid_authentication_sequence_disconnects
    (hmac_sha1 : List Byte → List Byte → List Byte) (secret : List Byte) (daemon : Daemon)
    (request : Packet) (outcome : IOWrite)
    (huid : uint32_from_le request.header.uid = 1)
    (hcase :
      (request.header.function_id.val = 2 ∧
        (daemon.client.authentication_state ≠ ClientAuthenticationState.NONCE_SEND ∨
          (request.payload.drop 4).take 20
            ≠ (hmac_sha1 secret
                (daemon.client.authentication_nonce.bytes ++ request.payload.take 4)).take 20)) ∨
      (request.header.function_id.val = 1 ∧
        (daemon.client.authentication_state = ClientAuthenticationState.DISABLED ∨
          daemon.client.authentication_state = ClientAuthenticationState.NONCE_SEND))) :
    (client_handle_request hmac_sha1 secret daemon request outcome).client.disconnected = true ∧
    (client_handle_request hmac_sha1 secret daemon request outcome).client.authentication_state
      = daemon.client.authentication_state ∧
    (client_handle_request hmac_sha1 secret daemon request outcome).writer_writes
      = daemon.writer_writes ∧
    (client_handle_request hmac_sha1 secret daemon request outcome).client.response_writer
      = daemon.client.response_writer := by
  have key : client_handle_request hmac_sha1 secret daemon request outcome
      = (if packet_header_get_response_expected request.header then
          network_client_expects_response daemon request
        else daemon).disconnect := by
    unfold client_handle_request
    have hstate1 : (if packet_header_get_response_expected request.header then
          network_client_expects_response daemon request
        else daemon).client.authentication_state = daemon.client.authentication_state := by
      split_ifs <;> rfl
    have hnonce1 : (if packet_header_get_response_expected request.header then
          network_client_expects_response daemon request
        else daemon).client.authentication_nonce = daemon.client.authentication_nonce := by
      split_ifs <;> rfl
    rcases hcase with ⟨hfunction, hc⟩ | ⟨hfunction, hc⟩
    · simp only [huid, hfunction, UID_BRICK_DAEMON, FUNCTION_GET_AUTHENTICATION_NONCE,
        FUNCTION_AUTHENTICATE, beq_self_eq_true, if_true]
      rw [if_neg (by decide)]
      generalize (if packet_header_get_response_expected request.header then
          network_client_expects_response daemon request
        else daemon) = daemon1 at hstate1 hnonce1 ⊢
      by_cases hlength : (request.header.length.val != sizeof_AuthenticateRequest) = true
      · rw [if_pos hlength]
      · rw [if_neg hlength,
          authenticate_rejected _ _ _ _ _ (by rw [hstate1, hnonce1]; exact hc)]
    · simp only [huid, hfunction, UID_BRICK_DAEMON, FUNCTION_GET_AUTHENTICATION_NONCE,
        beq_self_eq_true, if_true]
      generalize (if packet_header_get_response_expected request.header then
          network_client_expects_response daemon request
        else daemon) = daemon1 at hstate1 hnonce1 ⊢
      by_cases hlength :
          (request.header.length.val != sizeof_GetAuthenticationNonceRequest) = true
      · rw [if_pos hlength]
      · rw [if_neg hlength, get_nonce_rejected _ _ _ (by rw [hstate1]; exact hc)]
  rw [key]
  split_ifs <;> exact ⟨rfl, rfl, rfl, rfl⟩

/-- C8, at a client in state NONCE_SEND and an AUTHENTICATE request whose digest is 20
bytes 01 where the expected digest is 20 bytes 00: the client is marked disconnected and
nothing is passed to the response writer. -/
theorem invalid_authentication_sequence_disconnects_witness :
    (client_handle_request example_hmac_sha1 [115]
        (example_daemon ClientAuthenticationState.NONCE_SEND)
        (example_authenticate_request 0x28 (List.replicate 20 1))
        (IOWrite.accept 80)).client.disconnected = true ∧
    (client_handle_request example_hmac_sha1 [115]
        (example_daemon ClientAuthenticationState.NONCE_SEND)
        (example_authenticate_request 0x28 (List.replicate 20 1))
        (IOWrite.accept 80)).writer_writes = [] :=
  have h := invalid_authentication_sequence_disconnects example_hmac_sha1 [115]
    (example_daemon ClientAuthenticationState.NONCE_SEND)
    (example_authenticate_request 0x28 (List.replicate 20 1)) (IOWrite.accept 80)
    (by decide) (Or.inl ⟨rfl, Or.inr (by decide)⟩)
  ⟨h.1, h.2.2.1⟩

/-! ## What `client_dispatch_response` leaves alone -/

theorem cleanup_client_flags (daemon : Daemon) (pending_request : Option PendingRequest) :
    (client_dispatch_response_cleanup daemon pending_request).client.disconnected
      = daemon.client.disconnected ∧
    (client_dispatch_response_cleanup daemon pending_request).client.authentication_state
      = daemon.client.authentication_state ∧
    (client_dispatch_response_cleanup daemon pending_request).hardware_requests
      = daemon.hardware_requests := by
  cases pending_request <;> exact ⟨rfl, rfl, rfl⟩

/-- `client_dispatch_response` does not change the authentication state and records no
call of `hardware_dispatch_request`; it marks the client disconnected only when
`io_write` fails with a fatal error. -/
theorem dispatch_client_flags (daemon : Daemon) (pending_request : Option PendingRequest)
    (response : Packet) (force ignore_authentication : Bool) (outcome : IOWrite) :
    ((client_dispatch_response daemon pending_request response force ignore_authentication
        outcome).client.disconnected = true →
      daemon.client.disconnected = true ∨ outcome = IOWrite.error) ∧
    (client_dispatch_response daemon pending_request response force ignore_authentication
        outcome).client.authentication_state = daemon.client.authentication_state ∧
    (client_dispatch_response daemon pending_request response force ignore_authentication
        outcome).hardware_requests = daemon.hardware_requests := by
  have hc : ∀ pending_request1 : Option PendingRequest,
      ((client_dispatch_response_cleanup daemon pending_request1).client.disconnected = true →
        daemon.client.disconnected = true ∨ outcome = IOWrite.error) ∧
      (client_dispatch_response_cleanup daemon pending_request1).client.authentication_state
        = daemon.client.authentication_state ∧
      (client_dispatch_response_cleanup daemon pending_request1).hardware_requests
        = daemon.hardware_requests := by
    intro pending_request1
    obtain ⟨c1, c2, c3⟩ := cleanup_client_flags daemon pending_request1
    exact ⟨fun h => Or.inl (c1 ▸ h), c2, c3⟩
  unfold client_dispatch_response
  by_cases h1 : (!ignore_authentication &&
      daemon.client.authentication_state != ClientAuthenticationState.DISABLED &&
      daemon.client.authentication_state != ClientAuthenticationState.DONE) = true
  · rw [if_pos h1]
    exact hc _
  · rw [if_neg h1]
    dsimp only
    generalize (if (!force && pending_request.isNone) = true then
        match daemon.client.pending_requests.find?
            (fun candidate => packet_is_matching_response response candidate.header) with
        | some found => (some found, false)
        | none => (none, true)
      else (pending_request, false)) = search
    obtain ⟨pending_request1, flag⟩ := search
    cases flag
    · dsimp only
      by_cases h2 : daemon.client.disconnected = true
      · rw [if_pos h2]
        exact hc _
      · rw [if_neg h2]
        by_cases h3 : (force || pending_request1.isSome) = true
        · rw [if_pos h3]
          refine ⟨?_, ?_, ?_⟩
          · intro h
            rw [(cleanup_client_flags _ pending_request1).1] at h
            simp only [Bool.or_eq_true] at h
            rcases h with h | h
            · exact Or.inl h
            · exact Or.inr (writer_write_recipient_disconnect _ _ _ h).1
          · rw [(cleanup_client_flags _ pending_request1).2.1]
          · rw [(cleanup_client_flags _ pending_request1).2.2]
        · rw [if_neg h3]
          exact hc _
    · exact hc _

/-! ## Two GET_AUTH_NONCE requests in a row (C9) -/

/-- `client_handle_get_authentication_nonce_request` in state DONE: the state is reset to
ENABLED and the request is then handled as in state ENABLED. -/
theorem get_nonce_done (daemon : Daemon) (request : Packet) (outcome : IOWrite)
    (hstate : daemon.client.authentication_state = ClientAuthenticationState.DONE) :
    client_handle_get_authentication_nonce_request daemon request outcome
      = (client_dispatch_response
          (daemon.set_authentication_state ClientAuthenticationState.ENABLED) none
          (get_authentication_nonce_response daemon.client request) false true
          outcome).set_authentication_state ClientAuthenticationState.NONCE_SEND := by
  unfold client_handle_get_authentication_nonce_request
  simp [hstate, Daemon.set_authentication_state, get_authentication_nonce_response]

/-- A GET_AUTH_NONCE request handled by `client_handle_request` in state DONE leaves the
client in state NONCE_SEND, and marks it disconnected only if `io_write` fails with a
fatal error. -/
theorem get_nonce_from_done (hmac_sha1 : List Byte → List Byte → List Byte)
    (secret : List Byte) (daemon : Daemon) (request : Packet) (outcome : IOWrite)
    (hstate : daemon.client.authentication_state = ClientAuthenticationState.DONE)
    (hconnected : daemon.client.disconnected = false)
    (huid : uint32_from_le request.header.uid = 1)
    (hfunction : request.header.function_id.val = 1)
    (hlength : request.header.length.val = 8) :
    (client_handle_request hmac_sha1 secret daemon request outcome).client.authentication_state
      = ClientAuthenticationState.NONCE_SEND ∧
    ((client_handle_request hmac_sha1 secret daemon request outcome).client.disconnected = true →
      outcome = IOWrite.error) := by
  rw [client_handle_request_get_nonce _ _ _ _ _ huid hfunction hlength]
  have hstate1 : (if packet_header_get_response_expected request.header = true then
      network_client_expects_response daemon request else daemon).client.authentication_state
      = ClientAuthenticationState.DONE := by
    split_ifs <;> exact hstate
  have hconnected1 : (if packet_header_get_response_expected request.header = true then
      network_client_expects_response daemon request else daemon).client.disconnected
      = false := by
    split_ifs <;> exact hconnected
  generalize (if packet_header_get_response_expected request.header = true then
      network_client_expects_response daemon request else daemon) = daemon1
    at hstate1 hconnected1 ⊢
  rw [get_nonce_done _ _ _ hstate1]
  refine ⟨rfl, ?_⟩
  intro h
  rcases (dispatch_client_flags _ _ _ _ _ _).1 h with h1 | h1
  · have h2 : daemon1.client.disconnected = true := h1
    rw [hconnected1] at h2
    exact absurd h2 (by decide)
  · exact h1

/-- A GET_AUTH_NONCE request handled by `client_handle_request` in state NONCE_SEND marks
the client disconnected, leaves it in state NONCE_SEND and passes nothing to the response
writer. -/
theorem get_nonce_from_nonce_send (hmac_sha1 : List Byte → List Byte → List Byte)
    (secret : List Byte) (daemon : Daemon) (request : Packet) (outcome : IOWrite)
    (hstate : daemon.client.authentication_state = ClientAuthenticationState.NONCE_SEND)
    (huid : uint32_from_le request.header.uid = 1)
    (hfunction : request.header.function_id.val = 1)
    (hlength : request.header.length.val = 8) :
    (client_handle_request hmac_sha1 secret daemon request outcome).client.disconnected = true ∧
    (client_handle_request hmac_sha1 secret daemon request outcome).client.authentication_state
      = ClientAuthenticationState.NONCE_SEND ∧
    (client_handle_request hmac_sha1 secret daemon request outcome).writer_writes
      = daemon.writer_writes := by
  rw [client_handle_request_get_nonce _ _ _ _ _ huid hfunction hlength]
  by_cases hbit : packet_header_get_response_expected request.header = true
  · rw [if_pos hbit, get_nonce_rejected _ _ _ (Or.inr (by exact hstate))]
    exact ⟨rfl, hstate, rfl⟩
  · rw [if_neg hbit, get_nonce_rejected _ _ _ (Or.inr hstate)]
    exact ⟨rfl, hstate, rfl⟩

/-- C9 as stated fails: a client in state DONE gets two GET_AUTH_NONCE requests with
sequence numbers 1 and 2 and the response-expected bit set, and every write succeeds.
After the first the client is in state NONCE_SEND and not marked disconnected; the second
marks it disconnected. -/
theorem second_get_nonce_disconnects :
    (client_handle_request example_hmac_sha1 [115]
        (example_daemon ClientAuthenticationState.DONE) (example_get_nonce_request 0x18)
        (IOWrite.accept 80)).client.authentication_state
      = ClientAuthenticationState.NONCE_SEND ∧
    (client_handle_request example_hmac_sha1 [115]
        (example_daemon ClientAuthenticationState.DONE) (example_get_nonce_request 0x18)
        (IOWrite.accept 80)).client.disconnected = false ∧
    (client_handle_request example_hmac_sha1 [115]
        (client_handle_request example_hmac_sha1 [115]
          (example_daemon ClientAuthenticationState.DONE) (example_get_nonce_request 0x18)
          (IOWrite.accept 80))
        (example_get_nonce_request 0x28) (IOWrite.accept 80)).client.disconnected = true :=
  ⟨rfl, rfl, rfl⟩

/-- C9, amended: starting from a client in state DONE that is not marked disconnected, of
two consecutive GET_AUTH_NONCE requests (UID 1, function 1, length 8) the first leaves the
client in state NONCE_SEND, and not marked disconnected unless `io_write` fails with a
fatal error; the second marks the client disconnected, leaves it in state NONCE_SEND and
passes nothing to the response writer. -/
theorem get_nonce_twice_from_done (hmac_sha1 : List Byte → List Byte → List Byte)
    (secret : List Byte) (daemon : Daemon) (request1 request2 : Packet)
    (outcome1 outcome2 : IOWrite)
    (hstate : daemon.client.authentication_state = ClientAuthenticationState.DONE)
    (hconnected : daemon.client.disconnected = false)
    (huid1 : uint32_from_le request1.header.uid = 1)
    (hfunction1 : request1.header.function_id.val = 1)
    (hlength1 : request1.header.length.val = 8)
    (huid2 : uint32_from_le request2.header.uid = 1)
    (hfunction2 : request2.header.function_id.val = 1)
    (hlength2 : request2.header.length.val = 8) :
    (client_handle_request hmac_sha1 secret daemon request1
        outcome1).client.authentication_state = ClientAuthenticationState.NONCE_SEND ∧
    (outcome1 ≠ IOWrite.error →
      (client_handle_request hmac_sha1 secret daemon request1
        outcome1).client.disconnected = false) ∧
    (client_handle_request hmac_sha1 secret
        (client_handle_request hmac_sha1 secret daemon request1 outcome1)
        request2 outcome2).client.disconnected = true ∧
    (client_handle_request hmac_sha1 secret
        (client_handle_request hmac_sha1 secret daemon request1 outcome1)
        request2 outcome2).client.authentication_state
      = ClientAuthenticationState.NONCE_SEND ∧
    (client_handle_request hmac_sha1 secret
        (client_handle_request hmac_sha1 secret daemon request1 outcome1)
        request2 outcome2).writer_writes
      = (client_handle_request hmac_sha1 secret daemon request1 outcome1).writer_writes := by
  obtain ⟨h1, h2⟩ := get_nonce_from_done hmac_sha1 secret daemon request1 outcome1 hstate
    hconnected huid1 hfunction1 hlength1
  refine ⟨h1, ?_, get_nonce_from_nonce_send hmac_sha1 secret _ request2 outcome2 h1 huid2
    hfunction2 hlength2⟩
  intro houtcome
  cases hd : (client_handle_request hmac_sha1 secret daemon request1
      outcome1).client.disconnected
  · rfl
  · exact absurd (h2 hd) houtcome

/-- C9, amended, at a client in state DONE and the requests with sequence numbers 1 and 2,
the response-expected bit set in both, every write succeeding. -/
theorem get_nonce_twice_from_done_witness :
    (client_handle_request example_hmac_sha1 [115]
        (example_daemon ClientAuthenticationState.DONE) (example_get_nonce_request 0x18)
        (IOWrite.accept 80)).client.disconnected = false ∧
    (client_handle_request example_hmac_sha1 [115]
        (client_handle_request example_hmac_sha1 [115]
          (example_daemon ClientAuthenticationState.DONE) (example_get_nonce_request 0x18)
          (IOWrite.accept 80))
        (example_get_nonce_request 0x28) (IOWrite.accept 80)).client.authentication_state
      = ClientAuthenticationState.NONCE_SEND :=
  have h := get_nonce_twice_from_done example_hmac_sha1 [115]
    (example_daemon ClientAuthenticationState.DONE) (example_get_nonce_request 0x18)
    (example_get_nonce_request 0x28) (IOWrite.accept 80) (IOWrite.accept 80)
    rfl rfl (by decide) (by decide) (by decide) (by decide) (by decide) (by decide)
  ⟨h.2.1 (by simp), h.2.2.2.1⟩

/-! ## Which requests reach `hardware_dispatch_request` (C10) -/

theorem get_nonce_hardware_requests (daemon : Daemon) (request : Packet)
    (outcome : IOWrite) :
    (client_handle_get_authentication_nonce_request daemon request outcome).hardware_requests
      = daemon.hardware_requests := by
  unfold client_handle_get_authentication_nonce_request
  by_cases h1 : (daemon.client.authentication_state == ClientAuthenticationState.DISABLED)
      = true
  · rw [if_pos h1]
    rfl
  · rw [if_neg h1]
    dsimp only
    by_cases h2 : (daemon.client.authentication_state == ClientAuthenticationState.DONE)
        = true
    · rw [if_pos h2]
      split_ifs
      · rfl
      · exact (dispatch_client_flags _ _ _ _ _ _).2.2
    · rw [if_neg h2]
      split_ifs
      · rfl
      · exact (dispatch_client_flags _ _ _ _ _ _).2.2

theorem authenticate_hardware_requests (hmac_sha1 : List Byte → List Byte → List Byte)
    (secret : List Byte) (daemon : Daemon) (request : Packet) (outcome : IOWrite) :
    (client_handle_authenticate_request hmac_sha1 secret daemon request
        outcome).hardware_requests = daemon.hardware_requests := by
  unfold client_handle_authenticate_request
  dsimp only
  split_ifs
  · rfl
  · rfl
  · rfl
  · exact (dispatch_client_flags _ _ _ _ _ _).2.2
  · rfl

/-- A request to the daemon itself (UID 1) never reaches `hardware_dispatch_request`. -/
theorem daemon_request_hardware_requests (hmac_sha1 : List Byte → List Byte → List Byte)
    (secret : List Byte) (daemon : Daemon) (request : Packet) (outcome : IOWrite)
    (huid : uint32_from_le request.header.uid = 1) :
    (client_handle_request hmac_sha1 secret daemon request outcome).hardware_requests
      = daemon.hardware_requests := by
  unfold client_handle_request
  have huid1 : (uint32_from_le request.header.uid == UID_BRICK_DAEMON) = true := by
    simp [huid, UID_BRICK_DAEMON]
  rw [if_pos huid1]
  have hexpects : (if packet_header_get_response_expected request.header = true then
      network_client_expects_response daemon request else daemon).hardware_requests
      = daemon.hardware_requests := by
    split_ifs <;> rfl
  dsimp only
  generalize (if packet_header_get_response_expected request.header = true then
      network_client_expects_response daemon request else daemon) = daemon1 at hexpects ⊢
  rw [← hexpects]
  split_ifs
  · rfl
  · exact get_nonce_hardware_requests _ _ _
  · rfl
  · exact authenticate_hardware_requests _ _ _ _ _
  · exact (dispatch_client_flags _ _ _ _ _ _).2.2
  · rfl

/-- C10: `client_handle_request` passes the request to `hardware_dispatch_request` exactly
when its UID is not 1 and the client is in state DISABLED or DONE, and in no other case
calls that function. For a client in state ENABLED or NONCE_SEND a request with a UID other
than 1 changes nothing at all: no pending request is added, nothing is passed to the
response writer, no call of `hardware_dispatch_request` is made, and the authentication
state and the disconnected flag stay as they are. -/
theorem hardware_dispatch_only_when_authenticated
    (hmac_sha1 : List Byte → List Byte → List Byte) (secret : List Byte) (daemon : Daemon)
    (request : Packet) (outcome : IOWrite) :
    ((client_handle_request hmac_sha1 secret daemon request outcome).hardware_requests
      = if uint32_from_le request.header.uid ≠ 1 ∧
            (daemon.client.authentication_state = ClientAuthenticationState.DISABLED ∨
              daemon.client.authentication_state = ClientAuthenticationState.DONE) then
          daemon.hardware_requests ++ [request]
        else daemon.hardware_requests) ∧
    (uint32_from_le request.header.uid ≠ 1 →
      daemon.client.authentication_state = ClientAuthenticationState.ENABLED ∨
        daemon.client.authentication_state = ClientAuthenticationState.NONCE_SEND →
      client_handle_request hmac_sha1 secret daemon request outcome = daemon) := by
  constructor
  · by_cases huid : uint32_from_le request.header.uid = 1
    · rw [daemon_request_hardware_requests _ _ _ _ _ huid, if_neg (fun h => h.1 huid)]
    · unfold client_handle_request
      have huid1 : ¬ (uint32_from_le request.header.uid == UID_BRICK_DAEMON) = true := by
        simpa [UID_BRICK_DAEMON] using huid
      rw [if_neg huid1]
      by_cases hstate :
          daemon.client.authentication_state = ClientAuthenticationState.DISABLED ∨
            daemon.client.authentication_state = ClientAuthenticationState.DONE
      · have hcode : (daemon.client.authentication_state == ClientAuthenticationState.DISABLED ||
            daemon.client.authentication_state == ClientAuthenticationState.DONE) = true := by
          simpa using hstate
        have hclaim : uint32_from_le request.header.uid ≠ 1 ∧
            (daemon.client.authentication_state = ClientAuthenticationState.DISABLED ∨
              daemon.client.authentication_state = ClientAuthenticationState.DONE) :=
          ⟨huid, hstate⟩
        simp only [if_pos hcode, if_pos hclaim]
        split_ifs <;> rfl
      · have hcode : ¬ (daemon.client.authentication_state
              == ClientAuthenticationState.DISABLED ||
            daemon.client.authentication_state == ClientAuthenticationState.DONE) = true := by
          simpa using hstate
        have hclaim : ¬ (uint32_from_le request.header.uid ≠ 1 ∧
            (daemon.client.authentication_state = ClientAuthenticationState.DISABLED ∨
              daemon.client.authentication_state = ClientAuthenticationState.DONE)) :=
          fun h => hstate h.2
        simp only [if_neg hcode, if_neg hclaim]
  · intro huid hstate
    unfold client_handle_request
    have huid1 : ¬ (uint32_from_le request.header.uid == UID_BRICK_DAEMON) = true := by
      simpa [UID_BRICK_DAEMON] using huid
    rw [if_neg huid1]
    rcases hstate with h | h <;> simp [h]

/-- C10, at a client in state ENABLED and a request with UID 2: nothing changes. At a
client in state DONE the same request is the one call of `hardware_dispatch_request`. -/
theorem hardware_dispatch_only_when_authenticated_witness :
    client_handle_request example_hmac_sha1 [115]
        (example_daemon ClientAuthenticationState.ENABLED)
        ⟨⟨⟨2, 0, 0, 0⟩, 8, 1, 0x18, 0⟩, []⟩ (IOWrite.accept 80)
      = example_daemon ClientAuthenticationState.ENABLED ∧
    (client_handle_request example_hmac_sha1 [115]
        (example_daemon ClientAuthenticationState.DONE)
        ⟨⟨⟨2, 0, 0, 0⟩, 8, 1, 0x18, 0⟩, []⟩ (IOWrite.accept 80)).hardware_requests
      = [⟨⟨⟨2, 0, 0, 0⟩, 8, 1, 0x18, 0⟩, []⟩] :=
  ⟨(hardware_dispatch_only_when_authenticated example_hmac_sha1 [115]
      (example_daemon ClientAuthenticationState.ENABLED)
      ⟨⟨⟨2, 0, 0, 0⟩, 8, 1, 0x18, 0⟩, []⟩ (IOWrite.accept 80)).2 (by decide) (Or.inl rfl),
    rfl⟩

/-! ## Requests to the daemon with an unknown function ID (C11) -/

theorem function_not_supported_response_matches (request : Packet) :
    packet_is_matching_response (function_not_supported_response request) request.header
      = true :=
  matching_of_same_fields _ _ rfl rfl rfl

theorem function_not_supported_response_error_code (request : Packet) :
    packet_header_get_error_code (function_not_supported_response request).header
      = PACKET_E_FUNCTION_NOT_SUPPORTED := by
  have h := (set_error_code_fields
    { request.header with length := u8 sizeof_EmptyResponse } PACKET_E_FUNCTION_NOT_SUPPORTED
    (by decide)).2.2.2.2
  rw [get_error_code_eq]
  simp only [function_not_supported_response, PACKET_E_FUNCTION_NOT_SUPPORTED] at h ⊢
  rw [h]
  omega

/-- `client_handle_request` for a request to the daemon whose function ID is neither 1
nor 2. -/
theorem client_handle_request_unknown (hmac_sha1 : List Byte → List Byte → List Byte)
    (secret : List Byte) (daemon : Daemon) (request : Packet) (outcome : IOWrite)
    (huid : uint32_from_le request.header.uid = 1)
    (hfunction1 : request.header.function_id.val ≠ 1)
    (hfunction2 : request.header.function_id.val ≠ 2) :
    client_handle_request hmac_sha1 secret daemon request outcome
      = if packet_header_get_response_expected request.header then
          client_dispatch_response (network_client_expects_response daemon request) none
            (function_not_supported_response request) false false outcome
        else daemon := by
  unfold client_handle_request
  simp only [huid, hfunction1, hfunction2, UID_BRICK_DAEMON,
    FUNCTION_GET_AUTHENTICATION_NONCE, FUNCTION_AUTHENTICATE, beq_self_eq_true, if_true,
    beq_iff_eq, if_false]
  by_cases hbit : packet_header_get_response_expected request.header = true
  · simp only [if_pos hbit]
  · simp only [if_neg hbit]

/-- C11 as stated fails for a client that has not authenticated: a client in state ENABLED
gets a request to the daemon with function ID 3, sequence number 1 and the
response-expected bit set; nothing is passed to the response writer, and the pending
request that was registered for the request stays in the list of the client. -/
theorem unknown_function_unauthenticated_sends_nothing :
    (client_handle_request example_hmac_sha1 [115]
        (example_daemon ClientAuthenticationState.ENABLED) (example_unknown_request 0x18)
        (IOWrite.accept 80)).writer_writes = [] ∧
    (client_handle_request example_hmac_sha1 [115]
        (example_daemon ClientAuthenticationState.ENABLED) (example_unknown_request 0x18)
        (IOWrite.accept 80)).client.response_writer = writer_create ⟨[]⟩ ∧
    (client_handle_request example_hmac_sha1 [115]
        (example_daemon ClientAuthenticationState.ENABLED) (example_unknown_request 0x18)
        (IOWrite.accept 80)).client.pending_requests
      = [⟨0, (example_unknown_request 0x18).header⟩] :=
  ⟨rfl, rfl, rfl⟩

/-- C11, amended: for a client that is not marked disconnected and a request to the daemon
(UID 1) whose function ID is neither 1 nor 2, the response built by `client_handle_request`
is 8 bytes long, has the UID, function ID and sequence number of the request and the error
code FUNCTION_NOT_SUPPORTED. If the response-expected bit is clear, nothing changes. If it
is set and the client is in state DISABLED or DONE, the response is passed to
`writer_write` on the response writer and the client is marked disconnected only if that
call reports a fatal error of the IO object. If it is set and the client is in state
ENABLED or NONCE_SEND, the request is registered as pending and nothing else happens:
nothing is passed to the response writer and the client is not marked disconnected. -/
theorem unknown_function_response (hmac_sha1 : List Byte → List Byte → List Byte)
    (secret : List Byte) (daemon : Daemon) (request : Packet) (outcome : IOWrite)
    (hconnected : daemon.client.disconnected = false)
    (huid : uint32_from_le request.header.uid = 1)
    (hfunction1 : request.header.function_id.val ≠ 1)
    (hfunction2 : request.header.function_id.val ≠ 2) :
    ((function_not_supported_response request).header.length.val = 8 ∧
      (function_not_supported_response request).header.uid = request.header.uid ∧
      (function_not_supported_response request).header.function_id
        = request.header.function_id ∧
      packet_header_get_sequence_number (function_not_supported_response request).header
        = packet_header_get_sequence_number request.header ∧
      packet_header_get_error_code (function_not_supported_response request).header
        = PACKET_E_FUNCTION_NOT_SUPPORTED) ∧
    (packet_header_get_response_expected request.header = false →
      client_handle_request hmac_sha1 secret daemon request outcome = daemon) ∧
    (packet_header_get_response_expected request.header = true →
      daemon.client.authentication_state = ClientAuthenticationState.DISABLED ∨
        daemon.client.authentication_state = ClientAuthenticationState.DONE →
      (client_handle_request hmac_sha1 secret daemon request outcome).writer_writes
        = daemon.writer_writes ++ [function_not_supported_response request] ∧
      (client_handle_request hmac_sha1 secret daemon request outcome).client.response_writer
        = (writer_write daemon.client.response_writer
            (function_not_supported_response request) outcome).writer ∧
      (client_handle_request hmac_sha1 secret daemon request outcome).client.disconnected
        = (writer_write daemon.client.response_writer
            (function_not_supported_response request) outcome).recipient_disconnect ∧
      (outcome ≠ IOWrite.error →
        (client_handle_request hmac_sha1 secret daemon request outcome).client.disconnected
          = false)) ∧
    (packet_header_get_response_expected request.header = true →
      daemon.client.authentication_state = ClientAuthenticationState.ENABLED ∨
        daemon.client.authentication_state = ClientAuthenticationState.NONCE_SEND →
      client_handle_request hmac_sha1 secret daemon request outcome
        = network_client_expects_response daemon request) := by
  rw [client_handle_request_unknown hmac_sha1 secret daemon request outcome huid hfunction1
    hfunction2]
  refine ⟨⟨rfl, rfl, rfl, rfl, function_not_supported_response_error_code request⟩, ?_, ?_, ?_⟩
  · intro hbit
    simp [hbit]
  · intro hbit hstate
    rw [if_pos hbit]
    obtain ⟨found, hfound⟩ := find_append_last
      (fun candidate : PendingRequest => packet_is_matching_response
        (function_not_supported_response request) candidate.header)
      daemon.client.pending_requests ⟨daemon.allocated, request.header⟩
      (function_not_supported_response_matches _)
    have hfound1 : (network_client_expects_response daemon request).client.pending_requests.find?
        (fun candidate => packet_is_matching_response (function_not_supported_response request)
          candidate.header) = some found := hfound
    have hstate1 :
        (network_client_expects_response daemon request).client.authentication_state
          = ClientAuthenticationState.DISABLED ∨
        (network_client_expects_response daemon request).client.authentication_state
          = ClientAuthenticationState.DONE := hstate
    have hconnected1 : (network_client_expects_response daemon request).client.disconnected
        = false := hconnected
    rw [client_dispatch_response_found _ _ _ _ found (Or.inr hstate1) hfound1 hconnected1]
    refine ⟨rfl, rfl, rfl, ?_⟩
    intro hne
    by_contra hd
    have hd' : (writer_write daemon.client.response_writer
        (function_not_supported_response request) outcome).recipient_disconnect = true := by
      simpa [pending_request_remove_and_free, network_client_expects_response] using hd
    exact hne (writer_write_recipient_disconnect _ _ _ hd').1
  · intro hbit hstate
    rw [if_pos hbit]
    exact client_dispatch_response_unauthenticated _ _ _ hstate

/-- C11, amended, at a client in state DONE and a request with function ID 3, sequence
number 1 and the response-expected bit set, whose response `io_write` takes: the response
is the one packet passed to the response writer and the client is not marked
disconnected. -/
theorem unknown_function_response_witness :
    (client_handle_request example_hmac_sha1 [115]
        (example_daemon ClientAuthenticationState.DONE) (example_unknown_request 0x18)
        (IOWrite.accept 80)).writer_writes
      = [function_not_supported_response (example_unknown_request 0x18)] ∧
    (client_handle_request example_hmac_sha1 [115]
        (example_daemon ClientAuthenticationState.DONE) (example_unknown_request 0x18)
        (IOWrite.accept 80)).client.disconnected = false :=
  have h := (unknown_function_response example_hmac_sha1 [115]
    (example_daemon ClientAuthenticationState.DONE) (example_unknown_request 0x18)
    (IOWrite.accept 80) rfl (by decide) (by decide) (by decide)).2.2.1 (by decide)
    (Or.inr rfl)
  ⟨h.1, h.2.2.2 (by decide)⟩

/-! ## Pending requests consumed by `client_dispatch_response` (C14) -/

/-- `client_dispatch_response` with a pending request supplied: on every path the result
is `pending_request_remove_and_free` of that request, applied to the daemon as it was or as
`writer_write` left it. -/
theorem client_dispatch_response_supplied (daemon : Daemon) (supplied : PendingRequest)
    (response : Packet) (force ignore_authentication : Bool) (outcome : IOWrite) :
    (client_dispatch_response daemon (some supplied) response force ignore_authentication
        outcome).client.pending_requests = daemon.client.pending_requests.erase supplied ∧
    (client_dispatch_response daemon (some supplied) response force ignore_authentication
        outcome).pending_requests = daemon.pending_requests.erase supplied ∧
    (client_dispatch_response daemon (some supplied) response force ignore_authentication
        outcome).client.pending_request_count = daemon.client.pending_request_count - 1 := by
  unfold client_dispatch_response
  by_cases h1 : (!ignore_authentication &&
      daemon.client.authentication_state != ClientAuthenticationState.DISABLED &&
      daemon.client.authentication_state != ClientAuthenticationState.DONE) = true
  · rw [if_pos h1]
    exact ⟨rfl, rfl, rfl⟩
  · rw [if_neg h1]
    simp only [Option.isNone_some, Bool.and_false, Bool.false_eq_true, if_false,
      Option.isSome_some, Bool.or_true, if_true]
    by_cases h2 : daemon.client.disconnected = true
    · rw [if_pos h2]
      exact ⟨rfl, rfl, rfl⟩
    · rw [if_neg h2]
      exact ⟨rfl, rfl, rfl⟩

/-- Every path through `client_dispatch_response` ends at the label `cleanup`, either with
the daemon as it was, or, for a client that was not marked disconnected, with the daemon as
`writer_write` left it. -/
theorem client_dispatch_response_paths (motive : Daemon → Prop) (daemon : Daemon)
    (pending_request : Option PendingRequest) (response : Packet)
    (force ignore_authentication : Bool) (outcome : IOWrite)
    (hclean : ∀ pending_request1,
      motive (client_dispatch_response_cleanup daemon pending_request1))
    (hwrite : daemon.client.disconnected = false → ∀ pending_request1,
      motive (client_dispatch_response_cleanup
        { daemon with
          client :=
            { daemon.client with
              response_writer :=
                (writer_write daemon.client.response_writer response outcome).writer
              disconnected := daemon.client.disconnected ||
                (writer_write daemon.client.response_writer response
                  outcome).recipient_disconnect }
          writer_writes := daemon.writer_writes ++ [response] }
        pending_request1)) :
    motive (client_dispatch_response daemon pending_request response force
      ignore_authentication outcome) := by
  unfold client_dispatch_response
  by_cases h1 : (!ignore_authentication &&
      daemon.client.authentication_state != ClientAuthenticationState.DISABLED &&
      daemon.client.authentication_state != ClientAuthenticationState.DONE) = true
  · rw [if_pos h1]
    exact hclean _
  · rw [if_neg h1]
    have hrest : ∀ pending_request1 : Option PendingRequest,
        motive (if daemon.client.disconnected = true then
            client_dispatch_response_cleanup daemon pending_request1
          else if (force || pending_request1.isSome) = true then
            client_dispatch_response_cleanup
              { daemon with
                client :=
                  { daemon.client with
                    response_writer :=
                      (writer_write daemon.client.response_writer response outcome).writer
                    disconnected := daemon.client.disconnected ||
                      (writer_write daemon.client.response_writer response
                        outcome).recipient_disconnect }
                writer_writes := daemon.writer_writes ++ [response] }
              pending_request1
          else client_dispatch_response_cleanup daemon pending_request1) := by
      intro pending_request1
      by_cases h2 : daemon.client.disconnected = true
      · rw [if_pos h2]
        exact hclean _
      · rw [if_neg h2]
        by_cases h3 : (force || pending_request1.isSome) = true
        · rw [if_pos h3]
          exact hwrite (by simpa using h2) _
        · rw [if_neg h3]
          exact hclean _
    by_cases hs : (!force && pending_request.isNone) = true
    · simp only [if_pos hs]
      cases List.find? (fun candidate : PendingRequest =>
          packet_is_matching_response response candidate.header)
          daemon.client.pending_requests with
      | none => exact hclean _
      | some found => exact hrest _
    · simp only [if_neg hs]
      exact hrest _

/-- `client_dispatch_response` for a client that is marked disconnected passes nothing to
`writer_write`. -/
theorem client_dispatch_response_disconnected (daemon : Daemon)
    (pending_request : Option PendingRequest) (response : Packet)
    (force ignore_authentication : Bool) (outcome : IOWrite)
    (hdisconnected : daemon.client.disconnected = true) :
    (client_dispatch_response daemon pending_request response force ignore_authentication
        outcome).writer_writes = daemon.writer_writes ∧
    (client_dispatch_response daemon pending_request response force ignore_authentication
        outcome).client.response_writer = daemon.client.response_writer := by
  apply client_dispatch_response_paths
    (fun result => result.writer_writes = daemon.writer_writes ∧
      result.client.response_writer = daemon.client.response_writer)
  · intro pending_request1
    cases pending_request1 <;> exact ⟨rfl, rfl⟩
  · intro h
    rw [hdisconnected] at h
    exact absurd h (by decide)

/-- `client_dispatch_response(client, NULL, response, true, ...)`: no pending request is
removed. -/
theorem client_dispatch_response_forced (daemon : Daemon) (response : Packet)
    (ignore_authentication : Bool) (outcome : IOWrite) :
    (client_dispatch_response daemon none response true ignore_authentication
        outcome).client.pending_requests = daemon.client.pending_requests ∧
    (client_dispatch_response daemon none response true ignore_authentication
        outcome).pending_requests = daemon.pending_requests ∧
    (client_dispatch_response daemon none response true ignore_authentication
        outcome).client.pending_request_count = daemon.client.pending_request_count := by
  unfold client_dispatch_response
  by_cases h1 : (!ignore_authentication &&
      daemon.client.authentication_state != ClientAuthenticationState.DISABLED &&
      daemon.client.authentication_state != ClientAuthenticationState.DONE) = true
  · rw [if_pos h1]
    exact ⟨rfl, rfl, rfl⟩
  · rw [if_neg h1]
    simp only [Bool.not_true, Bool.false_and, Bool.false_eq_true, if_false, Bool.true_or,
      if_true]
    by_cases h2 : daemon.client.disconnected = true
    · rw [if_pos h2]
      exact ⟨rfl, rfl, rfl⟩
    · rw [if_neg h2]
      exact ⟨rfl, rfl, rfl⟩

/-- `client_dispatch_response(client, NULL, response, false, ...)` when the client may
receive the response, is marked disconnected and has a pending request that matches: the
first matching pending request is removed and nothing is passed to `writer_write`. -/
theorem client_dispatch_response_found_disconnected (daemon : Daemon) (response : Packet)
    (ignore_authentication : Bool) (outcome : IOWrite) (found : PendingRequest)
    (hauth : ignore_authentication = true ∨
      daemon.client.authentication_state = ClientAuthenticationState.DISABLED ∨
      daemon.client.authentication_state = ClientAuthenticationState.DONE)
    (hfind : daemon.client.pending_requests.find?
      (fun candidate => packet_is_matching_response response candidate.header) = some found)
    (hdisconnected : daemon.client.disconnected = true) :
    client_dispatch_response daemon none response false ignore_authentication outcome
      = pending_request_remove_and_free daemon found := by
  unfold client_dispatch_response
  have h1 : (!ignore_authentication &&
      daemon.client.authentication_state != ClientAuthenticationState.DISABLED &&
      daemon.client.authentication_state != ClientAuthenticationState.DONE) = false := by
    rcases hauth with h | h | h <;> simp [h]
  simp [h1, hfind, hdisconnected, client_dispatch_response_cleanup]

/-- C14 as stated fails for a client that has not authenticated: the client is in state
ENABLED and its one pending request matches the response; `client_dispatch_response` with
no pending request supplied and `force` and `ignore_authentication` false removes nothing
and passes nothing to the response writer. -/
theorem dispatch_to_unauthenticated_keeps_match :
    packet_is_matching_response
        (function_not_supported_response (example_unknown_request 0x18))
        (example_unknown_request 0x18).header = true ∧
    example_daemon_with_pending.client.pending_requests
      = [⟨0, (example_unknown_request 0x18).header⟩] ∧
    client_dispatch_response example_daemon_with_pending none
        (function_not_supported_response (example_unknown_request 0x18)) false false
        (IOWrite.accept 80) = example_daemon_with_pending :=
  ⟨by decide, rfl, rfl⟩

/-- C14, amended: a call of `client_dispatch_response` removes at most one pending request.
A pending request that is supplied is removed from the list of the client and from the
global list on every path. If none is supplied and `force` is false, then: if the client
may receive responses (`ignore_authentication`, or state DISABLED or DONE) the first entry
of the pending list of the client that matches the response is removed, and the response
is passed to `writer_write` unless the client is marked disconnected; if no entry matches,
or the client may not receive responses, nothing changes. If none is supplied and `force`
is true nothing is removed. For a client that is marked disconnected nothing is passed to
`writer_write`. -/
theorem client_dispatch_response_consumes_one (daemon : Daemon)
    (pending_request : Option PendingRequest) (response : Packet)
    (force ignore_authentication : Bool) (outcome : IOWrite) :
    (daemon.client.pending_requests.length
      ≤ (client_dispatch_response daemon pending_request response force
          ignore_authentication outcome).client.pending_requests.length + 1) ∧
    (∀ supplied, pending_request = some supplied →
      (client_dispatch_response daemon pending_request response force ignore_authentication
          outcome).client.pending_requests = daemon.client.pending_requests.erase supplied ∧
      (client_dispatch_response daemon pending_request response force ignore_authentication
          outcome).pending_requests = daemon.pending_requests.erase supplied ∧
      (client_dispatch_response daemon pending_request response force ignore_authentication
          outcome).client.pending_request_count
        = daemon.client.pending_request_count - 1) ∧
    (pending_request = none → force = false →
      (ignore_authentication = true ∨
        daemon.client.authentication_state = ClientAuthenticationState.DISABLED ∨
        daemon.client.authentication_state = ClientAuthenticationState.DONE) →
      ∀ found, daemon.client.pending_requests.find?
          (fun candidate => packet_is_matching_response response candidate.header)
          = some found →
        (client_dispatch_response daemon pending_request response force
            ignore_authentication outcome).client.pending_requests
          = daemon.client.pending_requests.erase found ∧
        (client_dispatch_response daemon pending_request response force
            ignore_authentication outcome).pending_requests
          = daemon.pending_requests.erase found ∧
        (client_dispatch_response daemon pending_request response force
            ignore_authentication outcome).writer_writes
          = if daemon.client.disconnected then daemon.writer_writes
            else daemon.writer_writes ++ [response]) ∧
    (pending_request = none → force = false →
      daemon.client.pending_requests.find?
          (fun candidate => packet_is_matching_response response candidate.header) = none →
      client_dispatch_response daemon pending_request response force ignore_authentication
        outcome = daemon) ∧
    (pending_request = none → force = false → ignore_authentication = false →
      daemon.client.authentication_state = ClientAuthenticationState.ENABLED ∨
        daemon.client.authentication_state = ClientAuthenticationState.NONCE_SEND →
      client_dispatch_response daemon pending_request response force ignore_authentication
        outcome = daemon) ∧
    (pending_request = none → force = true →
      (client_dispatch_response daemon pending_request response force ignore_authentication
          outcome).client.pending_requests = daemon.client.pending_requests ∧
      (client_dispatch_response daemon pending_request response force ignore_authentication
          outcome).pending_requests = daemon.pending_requests) ∧
    (daemon.client.disconnected = true →
      (client_dispatch_response daemon pending_request response force ignore_authentication
          outcome).writer_writes = daemon.writer_writes ∧
      (client_dispatch_response daemon pending_request response force ignore_authentication
          outcome).client.response_writer = daemon.client.response_writer) := by
  have hfound : pending_request = none → force = false →
      (ignore_authentication = true ∨
        daemon.client.authentication_state = ClientAuthenticationState.DISABLED ∨
        daemon.client.authentication_state = ClientAuthenticationState.DONE) →
      ∀ found, daemon.client.pending_requests.find?
          (fun candidate => packet_is_matching_response response candidate.header)
          = some found →
        (client_dispatch_response daemon pending_request response force
            ignore_authentication outcome).client.pending_requests
          = daemon.client.pending_requests.erase found ∧
        (client_dispatch_response daemon pending_request response force
            ignore_authentication outcome).pending_requests
          = daemon.pending_requests.erase found ∧
        (client_dispatch_response daemon pending_request response force
            ignore_authentication outcome).writer_writes
          = if daemon.client.disconnected then daemon.writer_writes
            else daemon.writer_writes ++ [response] := by
    intro hnone hforce hauth found hfind
    subst hnone hforce
    cases hd : daemon.client.disconnected
    · rw [client_dispatch_response_found daemon response ignore_authentication outcome found
        hauth hfind hd]
      exact ⟨rfl, rfl, by simp [pending_request_remove_and_free]⟩
    · rw [client_dispatch_response_found_disconnected daemon response ignore_authentication
        outcome found hauth hfind hd]
      exact ⟨rfl, rfl, by simp [pending_request_remove_and_free]⟩
  have hunauth : pending_request = none → force = false → ignore_authentication = false →
      daemon.client.authentication_state = ClientAuthenticationState.ENABLED ∨
        daemon.client.authentication_state = ClientAuthenticationState.NONCE_SEND →
      client_dispatch_response daemon pending_request response force ignore_authentication
        outcome = daemon := by
    intro hnone hforce hignore hstate
    subst hnone hforce hignore
    exact client_dispatch_response_unauthenticated daemon response outcome hstate
  have hmissing : pending_request = none → force = false →
      daemon.client.pending_requests.find?
          (fun candidate => packet_is_matching_response response candidate.header) = none →
      client_dispatch_response daemon pending_request response force ignore_authentication
        outcome = daemon := by
    intro hnone hforce hfind
    subst hnone hforce
    exact client_dispatch_response_not_found daemon response ignore_authentication outcome
      hfind
  have hforced : pending_request = none → force = true →
      (client_dispatch_response daemon pending_request response force ignore_authentication
          outcome).client.pending_requests = daemon.client.pending_requests ∧
      (client_dispatch_response daemon pending_request response force ignore_authentication
          outcome).pending_requests = daemon.pending_requests := by
    intro hnone hforce
    subst hnone hforce
    have h := client_dispatch_response_forced daemon response ignore_authentication outcome
    exact ⟨h.1, h.2.1⟩
  have hsupplied : ∀ supplied, pending_request = some supplied →
      (client_dispatch_response daemon pending_request response force ignore_authentication
          outcome).client.pending_requests = daemon.client.pending_requests.erase supplied ∧
      (client_dispatch_response daemon pending_request response force ignore_authentication
          outcome).pending_requests = daemon.pending_requests.erase supplied ∧
      (client_dispatch_response daemon pending_request response force ignore_authentication
          outcome).client.pending_request_count
        = daemon.client.pending_request_count - 1 := by
    intro supplied hsome
    subst hsome
    exact client_dispatch_response_supplied daemon supplied response force
      ignore_authentication outcome
  refine ⟨?_, hsupplied, hfound, hmissing, hunauth, hforced,
    client_dispatch_response_disconnected daemon pending_request response force
      ignore_authentication outcome⟩
  have herase : ∀ removed : PendingRequest,
      daemon.client.pending_requests.length
        ≤ (daemon.client.pending_requests.erase removed).length + 1 := by
    intro removed
    rw [List.length_erase]
    split_ifs <;> omega
  rcases Option.eq_none_or_eq_some pending_request with hp | ⟨supplied, hp⟩
  · rcases Bool.eq_false_or_eq_true force with hf | hf
    · rw [(hforced hp hf).1]
      omega
    · by_cases hauth : ignore_authentication = true ∨
          daemon.client.authentication_state = ClientAuthenticationState.DISABLED ∨
          daemon.client.authentication_state = ClientAuthenticationState.DONE
      · cases hfind : daemon.client.pending_requests.find?
            (fun candidate => packet_is_matching_response response candidate.header) with
        | none =>
          rw [hmissing hp hf hfind]
          omega
        | some found =>
          rw [(hfound hp hf hauth found hfind).1]
          exact herase found
      · have hignore : ignore_authentication = false := by
          cases ignore_authentication
          · rfl
          · exact absurd (Or.inl rfl) hauth
        have hstate : daemon.client.authentication_state = ClientAuthenticationState.ENABLED ∨
            daemon.client.authentication_state = ClientAuthenticationState.NONCE_SEND := by
          cases hs : daemon.client.authentication_state
          · exact absurd (Or.inr (Or.inl hs)) hauth
          · exact Or.inl rfl
          · exact Or.inr rfl
          · exact absurd (Or.inr (Or.inr hs)) hauth
        rw [hunauth hp hf hignore hstate]
        omega
  · rw [(hsupplied supplied hp).1]
    exact herase supplied

/-- C14, amended, at a client in state DONE whose one pending request matches the response:
the pending request is removed and the response is the one packet passed to the response
writer. -/
theorem client_dispatch_response_consumes_one_witness :
    (client_dispatch_response
        (network_client_expects_response (example_daemon ClientAuthenticationState.DONE)
          (example_unknown_request 0x18))
        none (function_not_supported_response (example_unknown_request 0x18)) false false
        (IOWrite.accept 80)).client.pending_requests = [] ∧
    (client_dispatch_response
        (network_client_expects_response (example_daemon ClientAuthenticationState.DONE)
          (example_unknown_request 0x18))
        none (function_not_supported_response (example_unknown_request 0x18)) false false
        (IOWrite.accept 80)).writer_writes
      = [function_not_supported_response (example_unknown_request 0x18)] :=
  have h := (client_dispatch_response_consumes_one
    (network_client_expects_response (example_daemon ClientAuthenticationState.DONE)
      (example_unknown_request 0x18))
    none (function_not_supported_response (example_unknown_request 0x18)) false false
    (IOWrite.accept 80)).2.2.1 rfl rfl (Or.inr (Or.inr rfl))
    ⟨0, (example_unknown_request 0x18).header⟩ (by decide)
  ⟨h.1, h.2.2⟩

/-! ## The table of event sources -/

theorem set_of_getElem? {α : Type} (items : List α) (index : Nat) (item : α)
    (h : items[index]? = some item) : items.set index item = items := by
  induction items generalizing index with
  | nil => rfl
  | cons head tail ih =>
    cases index with
    | zero =>
      simp only [List.getElem?_cons_zero, Option.some.injEq] at h
      simp [h]
    | succ index =>
      simp only [List.getElem?_cons_succ] at h
      simp [ih index h]

theorem array_get_natCast {α : Type} (items : List α) (index : Nat) :
    array_get items (index : Int) = items[index]? := by
  unfold array_get
  simp

/-- Searching forward from index `i`: what `event_find_source_loop` returns. -/
theorem event_find_source_loop_forward (sources : List EventSource) (handle : Int)
    (type : EventSourceType) :
    ∀ (remaining i : Nat), i + remaining = sources.length →
      (event_find_source_loop sources handle type 1 remaining i = none →
        ∀ s ∈ sources.drop i, ¬ (s.handle = handle ∧ s.type = type)) ∧
      (∀ found index, event_find_source_loop sources handle type 1 remaining i
          = some (found, index) →
        ∃ j : Nat, index = j ∧ sources[j]? = some found ∧ found.handle = handle ∧
          found.type = type) := by
  intro remaining
  induction remaining with
  | zero =>
    intro i hi
    constructor
    · intro _ s hs
      rw [List.drop_of_length_le (by omega)] at hs
      exact absurd hs (List.not_mem_nil s)
    · intro found index h
      simp [event_find_source_loop] at h
  | succ remaining ih =>
    intro i hi
    have hlt : i < sources.length := by omega
    have hget : sources[i]? = some sources[i] := List.getElem?_eq_getElem hlt
    have hnext : ((i : Int) + 1) = ((i + 1 : Nat) : Int) := by push_cast; rfl
    unfold event_find_source_loop
    rw [array_get_natCast, hget]
    simp only
    by_cases hmatch : (sources[i].handle == handle && sources[i].type == type) = true
    · rw [if_pos hmatch]
      constructor
      · intro h
        exact absurd h (by simp)
      · intro found index h
        simp only [Option.some.injEq, Prod.mk.injEq] at h
        refine ⟨i, h.2.symm, ?_, ?_⟩
        · rw [← h.1]
          exact hget
        · rw [← h.1]
          simpa using hmatch
    · rw [if_neg hmatch, hnext]
      obtain ⟨ih1, ih2⟩ := ih (i + 1) (by omega)
      constructor
      · intro h s hs
        rw [List.drop_eq_getElem_cons hlt] at hs
        rcases List.mem_cons.1 hs with hs | hs
        · rw [hs]
          simpa using hmatch
        · exact ih1 h s hs
      · exact ih2

/-- Searching backward from index `n - 1`: what `event_find_source_loop` returns. -/
theorem event_find_source_loop_backward (sources : List EventSource) (handle : Int)
    (type : EventSourceType) :
    ∀ (n : Nat), n ≤ sources.length →
      (event_find_source_loop sources handle type (-1) n ((n : Int) - 1) = none →
        ∀ s ∈ sources.take n, ¬ (s.handle = handle ∧ s.type = type)) ∧
      (∀ found index, event_find_source_loop sources handle type (-1) n ((n : Int) - 1)
          = some (found, index) →
        ∃ j : Nat, index = j ∧ sources[j]? = some found ∧ found.handle = handle ∧
          found.type = type) := by
  intro n
  induction n with
  | zero =>
    intro _
    constructor
    · intro _ s hs
      simp at hs
    · intro found index h
      simp [event_find_source_loop] at h
  | succ n ih =>
    intro hn
    have hlt : n < sources.length := by omega
    have hget : sources[n]? = some sources[n] := List.getElem?_eq_getElem hlt
    have hcur : (((n + 1 : Nat) : Int) - 1) = (n : Int) := by push_cast; omega
    have hnext : ((n : Int) + -1) = (n : Int) - 1 := by omega
    unfold event_find_source_loop
    rw [hcur, array_get_natCast, hget]
    simp only
    by_cases hmatch : (sources[n].handle == handle && sources[n].type == type) = true
    · rw [if_pos hmatch]
      constructor
      · intro h
        exact absurd h (by simp)
      · intro found index h
        simp only [Option.some.injEq, Prod.mk.injEq] at h
        refine ⟨n, h.2.symm, ?_, ?_⟩
        · rw [← h.1]
          exact hget
        · rw [← h.1]
          simpa using hmatch
    · rw [if_neg hmatch, hnext]
      obtain ⟨ih1, ih2⟩ := ih (by omega)
      constructor
      · intro h s hs
        rw [List.take_succ, hget] at hs
        simp only [Option.toList_some, List.mem_append, List.mem_singleton] at hs
        rcases hs with hs | hs
        · exact ih1 h s hs
        · rw [hs]
          simpa using hmatch
      · exact ih2

/-- `event_find_source(0, count, handle, type, &index)`. -/
theorem event_find_source_forward (sources : List EventSource) (handle : Int)
    (type : EventSourceType) :
    (event_find_source sources 0 sources.length handle type = none →
      ∀ s ∈ sources, ¬ (s.handle = handle ∧ s.type = type)) ∧
    (∀ found index, event_find_source sources 0 sources.length handle type
        = some (found, index) →
      ∃ j : Nat, index = j ∧ sources[j]? = some found ∧ found.handle = handle ∧
        found.type = type) := by
  unfold event_find_source
  have hfuel : ((sources.length : Int) - 0).natAbs = sources.length := by simp
  simp only [hfuel]
  by_cases hlength : sources.length = 0
  · have hnil : sources = [] := List.length_eq_zero.1 hlength
    subst hnil
    constructor
    · intro _ s hs
      exact absurd hs (List.not_mem_nil s)
    · intro found index h
      simp [event_find_source_loop] at h
  · have hstep : ((0 : Int) < (sources.length : Int)) := by omega
    rw [if_pos hstep]
    have h := event_find_source_loop_forward sources handle type sources.length 0 (by omega)
    simpa using h

/-- `event_find_source(count - 1, -1, handle, type, &index)`. -/
theorem event_find_source_backward (sources : List EventSource) (handle : Int)
    (type : EventSourceType) :
    (event_find_source sources ((sources.length : Int) - 1) (-1) handle type = none →
      ∀ s ∈ sources, ¬ (s.handle = handle ∧ s.type = type)) ∧
    (∀ found index, event_find_source sources ((sources.length : Int) - 1) (-1) handle type
        = some (found, index) →
      ∃ j : Nat, index = j ∧ sources[j]? = some found ∧ found.handle = handle ∧
        found.type = type) := by
  unfold event_find_source
  have hfuel : ((-1 : Int) - ((sources.length : Int) - 1)).natAbs = sources.length := by
    omega
  have hstep : ¬ ((sources.length : Int) - 1 < -1) := by omega
  simp only [hfuel, if_neg hstep]
  have h := event_find_source_loop_backward sources handle type sources.length (le_refl _)
  simpa using h
theorem event_source_set_functions_fields (event_source : EventSource)
    (events function data : Nat) :
    (event_source_set_functions event_source events function data).handle
      = event_source.handle ∧
    (event_source_set_functions event_source events function data).type
      = event_source.type ∧
    (event_source_set_functions event_source events function data).name
      = event_source.name ∧
    (event_source_set_functions event_source events function data).events
      = event_source.events ∧
    (event_source_set_functions event_source events function data).state
      = event_source.state := by
  unfold event_source_set_functions
  dsimp only
  split_ifs <;> exact ⟨rfl, rfl, rfl, rfl, rfl⟩

theorem event_source_unset_functions_fields (event_source : EventSource)
    (events_to_remove : Nat) :
    (event_source_unset_functions event_source events_to_remove).handle
      = event_source.handle ∧
    (event_source_unset_functions event_source events_to_remove).type
      = event_source.type := by
  unfold event_source_unset_functions
  dsimp only
  split_ifs <;> exact ⟨rfl, rfl⟩

/-- Replacing an item by one with the same key leaves the keys of the table as they
were. -/
theorem map_key_set (sources : List EventSource) (index : Nat) (old new : EventSource)
    (hold : sources[index]? = some old) (hkey : new.key = old.key) :
    (sources.set index new).map EventSource.key = sources.map EventSource.key := by
  rw [List.map_set, hkey]
  exact set_of_getElem? _ _ _ (by rw [List.getElem?_map, hold]; rfl)

/-- In a table without two entries of the same key, an entry is determined by its key. -/
theorem index_of_key (sources : List EventSource)
    (hkeys : (sources.map EventSource.key).Nodup) (i j : Nat) (a b : EventSource)
    (ha : sources[i]? = some a) (hb : sources[j]? = some b) (hkey : a.key = b.key) :
    i = j ∧ a = b := by
  have hi : i < (sources.map EventSource.key).length := by
    rw [List.length_map]
    exact (List.getElem?_eq_some_iff.1 ha).1
  have hj : j < (sources.map EventSource.key).length := by
    rw [List.length_map]
    exact (List.getElem?_eq_some_iff.1 hb).1
  have hai : (sources.map EventSource.key)[i] = a.key := by
    have : (sources.map EventSource.key)[i]? = some a.key := by
      rw [List.getElem?_map, ha]; rfl
    rw [List.getElem?_eq_getElem hi] at this
    exact Option.some.inj this
  have hbj : (sources.map EventSource.key)[j] = b.key := by
    have : (sources.map EventSource.key)[j]? = some b.key := by
      rw [List.getElem?_map, hb]; rfl
    rw [List.getElem?_eq_getElem hj] at this
    exact Option.some.inj this
  have hij : i = j := (List.Nodup.getElem_inj_iff hkeys).1 (by rw [hai, hbj, hkey])
  subst hij
  rw [ha] at hb
  exact ⟨rfl, Option.some.inj hb⟩

theorem eraseIdx_append_singleton {α : Type} (items : List α) (item : α) :
    (items ++ [item]).eraseIdx ((items ++ [item]).length - 1) = items := by
  have h : (items ++ [item]).length - 1 = items.length := by simp
  rw [h, List.eraseIdx_append_of_length_le (le_refl _)]
  simp
/-! ## The loop of `event_cleanup_sources` -/

/-- What `event_cleanup_sources` is to make of a table: the entries in state REMOVED are
left out, the others are in state NORMAL. -/
theorem event_cleanup_sources_loop_append (front back : List EventSource) :
    event_cleanup_sources_loop (front ++ back) front.length
      = ((front.filter (fun s => s.state != EventSourceState.REMOVED)).map
          (fun s => { s with state := EventSourceState.NORMAL })) ++ back := by
  induction front using List.reverseRecOn generalizing back with
  | nil => rfl
  | append_singleton front last ih =>
    have hget : (front ++ [last] ++ back)[front.length]? = some last := by
      rw [List.append_assoc, List.getElem?_append_right (le_refl _)]
      simp
    rw [List.length_append, List.length_singleton]
    unfold event_cleanup_sources_loop
    rw [array_get_natCast, hget]
    simp only
    by_cases hstate : last.state = EventSourceState.REMOVED
    · have herase : array_remove (front ++ [last] ++ back) front.length = front ++ back := by
        unfold array_remove
        rw [List.append_assoc, List.eraseIdx_append_of_length_le (le_refl _)]
        simp
      rw [if_pos (by simpa using hstate), herase, ih back]
      simp [List.filter_append, hstate]
    · have hset : (front ++ [last] ++ back).set front.length
          { last with state := EventSourceState.NORMAL }
          = front ++ ({ last with state := EventSourceState.NORMAL } :: back) := by
        rw [List.append_assoc, List.set_append_right _ _ (le_refl _)]
        simp
      rw [if_neg (by simpa using hstate), hset, ih]
      simp [List.filter_append, hstate]

/-! ## No two entries with the same (handle, type) -/

theorem event_remove_source_keys (sources : List EventSource) (handle : Int)
    (type : EventSourceType) :
    (event_remove_source sources handle type).map EventSource.key
      = sources.map EventSource.key := by
  obtain ⟨_, hsome⟩ := event_find_source_backward sources handle type
  unfold event_remove_source
  cases hfind : event_find_source sources ((sources.length : Int) - 1) (-1) handle type with
  | none => rfl
  | some result =>
    obtain ⟨found, index⟩ := result
    obtain ⟨j, hindex, hget, _, _⟩ := hsome found index hfind
    subst hindex
    dsimp only
    split_ifs
    · rfl
    · exact map_key_set sources j found _ hget rfl

theorem event_modify_source_keys (event_source_modified_platform : EventSource → Int)
    (sources : List EventSource) (handle : Int) (type : EventSourceType)
    (events_to_remove events_to_add function data : Nat) :
    (event_modify_source event_source_modified_platform sources handle type events_to_remove
        events_to_add function data).1.map EventSource.key
      = sources.map EventSource.key := by
  obtain ⟨_, hsome⟩ := event_find_source_forward sources handle type
  unfold event_modify_source
  cases hfind : event_find_source sources 0 sources.length handle type with
  | none => rfl
  | some result =>
    obtain ⟨found, index⟩ := result
    obtain ⟨j, hindex, hget, _, _⟩ := hsome found index hfind
    subst hindex
    dsimp only
    split_ifs
    · rfl
    · exact map_key_set sources j found _ hget rfl
    · refine map_key_set sources j found _ hget ?_
      simp only [EventSource.key]
      rw [(event_source_set_functions_fields _ _ _ _).1,
        (event_source_set_functions_fields _ _ _ _).2.1,
        (event_source_unset_functions_fields _ _).1,
        (event_source_unset_functions_fields _ _).2]

theorem event_cleanup_sources_keys (sources : List EventSource) :
    ((event_cleanup_sources sources).map EventSource.key).Sublist
      (sources.map EventSource.key) := by
  have h := event_cleanup_sources_loop_append sources []
  simp only [List.append_nil] at h
  unfold event_cleanup_sources
  rw [h, List.map_map]
  have hkey : (EventSource.key ∘ fun s : EventSource =>
      { s with state := EventSourceState.NORMAL }) = EventSource.key := rfl
  rw [hkey]
  exact (List.filter_sublist _).map _
/-! ## `event_add_source` (C16) -/

/-- `event_add_source` when `event_find_source` returns `NULL`. -/
theorem event_add_source_not_found (event_source_added_platform : EventSource → Int)
    (sources : List EventSource) (handle : Int) (type : EventSourceType) (name : String)
    (events function data : Nat)
    (hfind : event_find_source sources 0 sources.length handle type = none) :
    event_add_source event_source_added_platform sources handle type name events function
        data
      = if event_source_added_platform
            (event_source_added handle type name events function data) < 0 then
          (sources, -1)
        else
          (sources ++ [event_source_added handle type name events function data], 0) := by
  unfold event_add_source
  rw [hfind]
  simp only [array_append, array_remove, eraseIdx_append_singleton, event_source_added]

/-- `event_add_source` when `event_find_source` returns the event source at `index`. -/
theorem event_add_source_found (event_source_added_platform : EventSource → Int)
    (sources : List EventSource) (handle : Int) (type : EventSourceType) (name : String)
    (events function data : Nat) (found : EventSource) (index : Nat)
    (hfind : event_find_source sources 0 sources.length handle type
      = some (found, (index : Int)))
    (hfound : sources[index]? = some found) :
    event_add_source event_source_added_platform sources handle type name events function
        data
      = if found.state = EventSourceState.REMOVED then
          if event_source_added_platform
              (event_source_readded found name events function data) < 0 then
            (sources, -1)
          else
            (sources.set index (event_source_readded found name events function data), 0)
        else
          (sources, -1) := by
  unfold event_add_source
  rw [hfind]
  simp only [Int.toNat_ofNat, set_of_getElem? sources index found hfound, beq_iff_eq,
    event_source_readded]

/-- `event_add_source` keeps the table free of two entries with the same
(handle, type). -/
theorem event_add_source_keys (event_source_added_platform : EventSource → Int)
    (sources : List EventSource) (handle : Int) (type : EventSourceType) (name : String)
    (events function data : Nat)
    (hkeys : (sources.map EventSource.key).Nodup) :
    ((event_add_source event_source_added_platform sources handle type name events function
        data).1.map EventSource.key).Nodup := by
  obtain ⟨hnone, hsome⟩ := event_find_source_forward sources handle type
  cases hfind : event_find_source sources 0 sources.length handle type with
  | none =>
    have hno := hnone hfind
    rw [event_add_source_not_found event_source_added_platform sources handle type
      name events function data hfind]
    split_ifs
    · exact hkeys
    · rw [List.map_append, List.nodup_append]
      refine ⟨hkeys, List.nodup_singleton _, ?_⟩
      intro key hkey1 hkey2
      rw [List.map_singleton, List.mem_singleton] at hkey2
      obtain ⟨existing, hmem, hexisting⟩ := List.mem_map.1 hkey1
      apply hno existing hmem
      rw [hkey2] at hexisting
      have h1 : existing.handle = (event_source_added handle type name events function
          data).handle := congrArg Prod.fst hexisting
      have h2 : existing.type = (event_source_added handle type name events function
          data).type := congrArg Prod.snd hexisting
      have hfields := event_source_set_functions_fields
        { EventSource.zero with
          handle := handle, type := type, name := name, events := events,
          state := EventSourceState.ADDED }
        events function data
      exact ⟨h1.trans hfields.1, h2.trans hfields.2.1⟩
  | some result =>
    obtain ⟨found, index⟩ := result
    obtain ⟨j, hindex, hget, hh, ht⟩ := hsome found index hfind
    subst hindex
    rw [event_add_source_found event_source_added_platform sources handle type name
      events function data found j hfind hget]
    have hfields := event_source_set_functions_fields
      { found with name := name, events := events, state := EventSourceState.READDED }
      events function data
    split_ifs
    · exact hkeys
    · rw [map_key_set sources j found _ hget
        (by simp [EventSource.key, event_source_readded, hfields.1, hfields.2.1])]
      exact hkeys
    · exact hkeys

/-- Every table that a sequence of calls of `event_add_source`, `event_modify_source`,
`event_remove_source` and `event_cleanup_sources` makes of a table without two entries of
the same (handle, type) is such a table again. -/
theorem event_calls_keys (event_source_added_platform event_source_modified_platform :
    EventSource → Int) (calls : List EventCall) :
    ∀ sources : List EventSource, (sources.map EventSource.key).Nodup →
      ((event_calls event_source_added_platform event_source_modified_platform sources
        calls).map EventSource.key).Nodup := by
  induction calls with
  | nil =>
    intro sources hkeys
    exact hkeys
  | cons call calls ih =>
    intro sources hkeys
    unfold event_calls
    rw [List.foldl_cons]
    apply ih
    cases call with
    | add_source handle type name events function data =>
      exact event_add_source_keys _ _ _ _ _ _ _ _ hkeys
    | modify_source handle type events_to_remove events_to_add function data =>
      simp only [event_call]
      rw [event_modify_source_keys]
      exact hkeys
    | remove_source handle type =>
      simp only [event_call]
      rw [event_remove_source_keys]
      exact hkeys
    | cleanup_sources =>
      exact (event_cleanup_sources_keys sources).nodup hkeys

/-- C16 as stated fails when the platform cannot register the event source: for the empty
table and a platform function that fails, `event_add_source` returns -1 and appends
nothing. -/
theorem event_add_source_platform_failure :
    event_add_source event_platform_failure [] 5 EventSourceType.GENERIC "new" EVENT_READ 7 9
      = ([], -1) := by
  decide

/-- C16, amended: let the table hold no two entries with the same (handle, type). If it
holds an entry with the (handle, type) passed to `event_add_source` whose state is not
REMOVED, the function returns -1 and leaves the table as it is. If that entry is in state
REMOVED, the function keeps it at its index, with the new name and events and in state
READDED, and returns 0, provided `event_source_added_platform` does not fail; if it fails,
the function returns -1 and leaves the table as it is. If the table holds no such entry,
the function appends one entry in state ADDED and returns 0, again provided
`event_source_added_platform` does not fail, and returns -1 and leaves the table as it is
otherwise. In every case the new table holds no two entries with the same
(handle, type), and so does every table that a sequence of calls of `event_add_source`,
`event_modify_source`, `event_remove_source` and `event_cleanup_sources` makes of the
empty table. -/
theorem event_add_source_cases (event_source_added_platform : EventSource → Int)
    (sources : List EventSource) (handle : Int) (type : EventSourceType) (name : String)
    (events function data : Nat)
    (hkeys : (sources.map EventSource.key).Nodup) :
    (∀ existing ∈ sources, existing.handle = handle → existing.type = type →
      existing.state ≠ EventSourceState.REMOVED →
      event_add_source event_source_added_platform sources handle type name events function
        data = (sources, -1)) ∧
    (∀ index existing, sources[index]? = some existing → existing.handle = handle →
      existing.type = type → existing.state = EventSourceState.REMOVED →
      event_add_source event_source_added_platform sources handle type name events function
          data
        = if event_source_added_platform
              (event_source_readded existing name events function data) < 0 then
            (sources, -1)
          else
            (sources.set index (event_source_readded existing name events function data),
              0)) ∧
    ((∀ existing ∈ sources, ¬ (existing.handle = handle ∧ existing.type = type)) →
      event_add_source event_source_added_platform sources handle type name events function
          data
        = if event_source_added_platform
              (event_source_added handle type name events function data) < 0 then
            (sources, -1)
          else
            (sources ++ [event_source_added handle type name events function data], 0)) ∧
    (∀ existing, (event_source_readded existing name events function data).handle
        = existing.handle ∧
      (event_source_readded existing name events function data).type = existing.type ∧
      (event_source_readded existing name events function data).name = name ∧
      (event_source_readded existing name events function data).events = events ∧
      (event_source_readded existing name events function data).state
        = EventSourceState.READDED) ∧
    ((event_source_added handle type name events function data).handle = handle ∧
      (event_source_added handle type name events function data).type = type ∧
      (event_source_added handle type name events function data).name = name ∧
      (event_source_added handle type name events function data).events = events ∧
      (event_source_added handle type name events function data).state
        = EventSourceState.ADDED) ∧
    ((event_add_source event_source_added_platform sources handle type name events function
        data).1.map EventSource.key).Nodup ∧
    (∀ (event_source_modified_platform : EventSource → Int) (calls : List EventCall),
      ((event_calls event_source_added_platform event_source_modified_platform [] calls).map
        EventSource.key).Nodup) := by
  have hreadded : ∀ existing,
      (event_source_readded existing name events function data).handle = existing.handle ∧
      (event_source_readded existing name events function data).type = existing.type ∧
      (event_source_readded existing name events function data).name = name ∧
      (event_source_readded existing name events function data).events = events ∧
      (event_source_readded existing name events function data).state
        = EventSourceState.READDED := by
    intro existing
    obtain ⟨h1, h2, h3, h4, h5⟩ := event_source_set_functions_fields
      { existing with name := name, events := events, state := EventSourceState.READDED }
      events function data
    exact ⟨h1, h2, h3, h4, h5⟩
  have hadded :
      (event_source_added handle type name events function data).handle = handle ∧
      (event_source_added handle type name events function data).type = type ∧
      (event_source_added handle type name events function data).name = name ∧
      (event_source_added handle type name events function data).events = events ∧
      (event_source_added handle type name events function data).state
        = EventSourceState.ADDED := by
    obtain ⟨h1, h2, h3, h4, h5⟩ := event_source_set_functions_fields
      { EventSource.zero with
        handle := handle, type := type, name := name, events := events,
        state := EventSourceState.ADDED }
      events function data
    exact ⟨h1, h2, h3, h4, h5⟩
  have hunique := event_add_source_keys event_source_added_platform sources handle type
    name events function data hkeys
  have hnever : ∀ (event_source_modified_platform : EventSource → Int)
      (calls : List EventCall),
      ((event_calls event_source_added_platform event_source_modified_platform [] calls).map
        EventSource.key).Nodup :=
    fun event_source_modified_platform calls =>
      event_calls_keys event_source_added_platform event_source_modified_platform calls []
        List.nodup_nil
  obtain ⟨hnone, hsome⟩ := event_find_source_forward sources handle type
  cases hfind : event_find_source sources 0 sources.length handle type with
  | none =>
    have hno := hnone hfind
    have heq := event_add_source_not_found event_source_added_platform sources handle type
      name events function data hfind
    refine ⟨?_, ?_, fun _ => heq, hreadded, hadded, hunique, hnever⟩
    · intro existing hmem hh ht _
      exact absurd ⟨hh, ht⟩ (hno existing hmem)
    · intro index existing hget hh ht _
      exact absurd ⟨hh, ht⟩ (hno existing (List.getElem?_mem hget))
  | some result =>
    obtain ⟨found, index⟩ := result
    obtain ⟨j, hindex, hget, hh, ht⟩ := hsome found index hfind
    subst hindex
    have heq := event_add_source_found event_source_added_platform sources handle type name
      events function data found j hfind hget
    refine ⟨?_, ?_, ?_, hreadded, hadded, hunique, hnever⟩
    · intro existing hmem hh1 ht1 hstate
      obtain ⟨i, hi⟩ := List.getElem?_of_mem hmem
      have hsame := (index_of_key sources hkeys i j existing found hi hget
        (by simp [EventSource.key, hh, ht, hh1, ht1])).2
      rw [heq, if_neg (by rw [← hsame]; exact hstate)]
    · intro i existing hi hh1 ht1 hstate
      obtain ⟨hij, hsame⟩ := index_of_key sources hkeys i j existing found hi hget
        (by simp [EventSource.key, hh, ht, hh1, ht1])
      rw [heq, if_pos (by rw [← hsame]; exact hstate), hij, hsame]
    · intro hno
      exact absurd ⟨hh, ht⟩ (hno found (List.getElem?_mem hget))

/-- C16, amended, at the table with one event source for handle 5 in state REMOVED, with
the platform function of event_posix.c: adding handle 5 again returns 0 and puts the entry
into state READDED at index 0; adding handle 6 appends an entry. -/
theorem event_add_source_cases_witness :
    event_add_source event_posix_source_added_platform
        [example_event_source EventSourceState.REMOVED] 5 EventSourceType.GENERIC "new"
        EVENT_WRITE 8 10
      = ([event_source_readded (example_event_source EventSourceState.REMOVED) "new"
          EVENT_WRITE 8 10], 0) ∧
    event_add_source event_posix_source_added_platform
        [example_event_source EventSourceState.REMOVED] 6 EventSourceType.GENERIC "new"
        EVENT_WRITE 8 10
      = ([example_event_source EventSourceState.REMOVED,
          event_source_added 6 EventSourceType.GENERIC "new" EVENT_WRITE 8 10], 0) :=
  have h := event_add_source_cases event_posix_source_added_platform
    [example_event_source EventSourceState.REMOVED] 5 EventSourceType.GENERIC "new"
    EVENT_WRITE 8 10 (by decide)
  have h6 := event_add_source_cases event_posix_source_added_platform
    [example_event_source EventSourceState.REMOVED] 6 EventSourceType.GENERIC "new"
    EVENT_WRITE 8 10 (by decide)
  ⟨h.2.1 0 (example_event_source EventSourceState.REMOVED) rfl (by decide) (by decide) rfl,
    h6.2.2.1 (by decide)⟩
/-! ## `event_remove_source` and `event_cleanup_sources` (C17) -/

/-- C17: `event_remove_source` leaves the table as it is, or sets the state of one entry
with the (handle, type) passed to it, which was not in state REMOVED, to REMOVED and
changes nothing else, so that the number and the order of the entries stay; it changes the
table in that way if the table holds an entry with that (handle, type) and all such
entries are in another state than REMOVED. `event_cleanup_sources` yields the table
without its entries in state REMOVED, the other entries in their order and each of them in
state NORMAL. -/
theorem event_removal_is_deferred (sources : List EventSource) (handle : Int)
    (type : EventSourceType) :
    (event_remove_source sources handle type).length = sources.length ∧
    (event_remove_source sources handle type = sources ∨
      ∃ index entry, sources[index]? = some entry ∧ entry.handle = handle ∧
        entry.type = type ∧ entry.state ≠ EventSourceState.REMOVED ∧
        event_remove_source sources handle type
          = sources.set index { entry with state := EventSourceState.REMOVED }) ∧
    ((∃ entry ∈ sources, entry.handle = handle ∧ entry.type = type) →
      (∀ entry ∈ sources, entry.handle = handle → entry.type = type →
        entry.state ≠ EventSourceState.REMOVED) →
      event_remove_source sources handle type ≠ sources) ∧
    event_cleanup_sources sources
      = (sources.filter (fun s => s.state != EventSourceState.REMOVED)).map
          (fun s => { s with state := EventSourceState.NORMAL }) ∧
    (∀ entry ∈ event_cleanup_sources sources, entry.state = EventSourceState.NORMAL) := by
  have hcleanup : event_cleanup_sources sources
      = (sources.filter (fun s => s.state != EventSourceState.REMOVED)).map
          (fun s => { s with state := EventSourceState.NORMAL }) := by
    have h := event_cleanup_sources_loop_append sources []
    simpa [event_cleanup_sources] using h
  obtain ⟨hnone, hsome⟩ := event_find_source_backward sources handle type
  have hcases : event_remove_source sources handle type = sources ∨
      ∃ index entry, sources[index]? = some entry ∧ entry.handle = handle ∧
        entry.type = type ∧ entry.state ≠ EventSourceState.REMOVED ∧
        event_remove_source sources handle type
          = sources.set index { entry with state := EventSourceState.REMOVED } := by
    unfold event_remove_source
    cases hfind : event_find_source sources ((sources.length : Int) - 1) (-1) handle type with
    | none => exact Or.inl rfl
    | some result =>
      obtain ⟨found, index⟩ := result
      obtain ⟨j, hindex, hget, hh, ht⟩ := hsome found index hfind
      subst hindex
      by_cases hstate : found.state = EventSourceState.REMOVED
      · left
        simp [hstate]
      · right
        refine ⟨j, found, hget, hh, ht, hstate, ?_⟩
        simp [hstate]
  refine ⟨?_, hcases, ?_, hcleanup, ?_⟩
  · rcases hcases with h | ⟨index, entry, _, _, _, _, h⟩
    · rw [h]
    · rw [h, List.length_set]
  · intro ⟨entry, hmem, hh, ht⟩ hall
    unfold event_remove_source
    cases hfind : event_find_source sources ((sources.length : Int) - 1) (-1) handle type with
    | none => exact absurd ⟨hh, ht⟩ (hnone hfind entry hmem)
    | some result =>
      obtain ⟨found, index⟩ := result
      obtain ⟨j, hindex, hget, hh1, ht1⟩ := hsome found index hfind
      subst hindex
      have hstate := hall found (List.getElem?_mem hget) hh1 ht1
      simp only [beq_iff_eq, hstate, if_false, Int.toNat_ofNat]
      intro hsame
      have hj : j < sources.length := (List.getElem?_eq_some_iff.1 hget).1
      have h1 : (sources.set j { found with state := EventSourceState.REMOVED })[j]?
          = some { found with state := EventSourceState.REMOVED } := by
        rw [List.getElem?_set_self hj]
      rw [hsame, hget] at h1
      have h2 := congrArg EventSource.state (Option.some.inj h1)
      exact hstate h2
  · intro entry hmem
    rw [hcleanup] at hmem
    obtain ⟨s, _, hs⟩ := List.mem_map.1 hmem
    rw [← hs]

/-- C17, at a table with an entry in state REMOVED followed by one in state ADDED:
`event_cleanup_sources` leaves the second entry only, in state NORMAL. -/
theorem event_removal_is_deferred_witness :
    event_cleanup_sources
        [example_plain_event_source,
          { example_mixed_event_source with state := EventSourceState.REMOVED },
          example_event_source EventSourceState.ADDED]
      = [example_plain_event_source, example_event_source EventSourceState.NORMAL] :=
  (event_removal_is_deferred
    [example_plain_event_source,
      { example_mixed_event_source with state := EventSourceState.REMOVED },
      example_event_source EventSourceState.ADDED] 5 EventSourceType.GENERIC).2.2.2.1.trans
    (by decide)
/-! ## `event_handle_source` (C18, C19) -/

/-- One block of `event_handle_source` for an event source in state NORMAL whose event
functions leave it as it is. -/
theorem event_handle_source_block_unchanged
    (invoke : Nat → Nat → EventSource → EventSource) (received_events event : Nat)
    (function data : EventSource → Nat) (event_source : EventSource)
    (calls : List (Nat × Nat))
    (hnormal : event_source.state = EventSourceState.NORMAL)
    (hinvoke : ∀ f d, invoke f d event_source = event_source) :
    event_handle_source_block invoke received_events event function data
        (event_source, calls)
      = ((event_source,
          calls ++ if received_events &&& event != 0 && function event_source != 0 then
            [(function event_source, data event_source)] else []), false) := by
  unfold event_handle_source_block
  have hremoved : (event_source.state == EventSourceState.REMOVED) = false := by
    simp [hnormal]
  by_cases h : (received_events &&& event != 0 && function event_source != 0) = true
  · rw [if_pos h, if_pos h]
    simp only [hremoved, Bool.false_eq_true, if_false, hinvoke]
  · rw [if_neg h, if_neg h, List.append_nil]

/-- C18 as stated fails for an event source that has an event function for READ and one
event function for both PRIO and ERROR: when READ is received, `event_handle_source` calls
no event function, although the call of the event function for READ is due. -/
theorem event_handle_source_skips_read :
    event_handle_source invoke_nothing example_mixed_event_source EVENT_READ
      = (example_mixed_event_source, []) ∧
    expected_read_write_calls example_mixed_event_source EVENT_READ
      ++ expected_prio_error_calls example_mixed_event_source EVENT_READ = [(7, 9)] := by
  decide

/-- C18, amended: for an event source in state NORMAL whose event functions leave it as it
is, and every mask of received events: if the event functions for PRIO and ERROR are the
same with the same argument (and not `NULL`), `event_handle_source` makes the calls due for
PRIO and ERROR only, that is one call if PRIO or ERROR is received, and no call for READ
or WRITE; otherwise, if the event functions for READ and WRITE are the same with the same
argument (and not `NULL`), it makes the calls due for READ and WRITE only, that is one call
if READ or WRITE is received, and no call for PRIO or ERROR; otherwise it calls, in the
order READ, WRITE, PRIO, ERROR, the event function of each kind that is received and has
one, once. -/
theorem event_handle_source_calls (invoke : Nat → Nat → EventSource → EventSource)
    (event_source : EventSource) (received_events : Nat)
    (hnormal : event_source.state = EventSourceState.NORMAL)
    (hinvoke : ∀ f d, invoke f d event_source = event_source) :
    (event_handle_source invoke event_source received_events).2
      = if event_source.prio != 0 && event_source.prio == event_source.error &&
            event_source.prio_data == event_source.error_data then
          expected_prio_error_calls event_source received_events
        else if event_source.read != 0 && event_source.read == event_source.write &&
            event_source.read_data == event_source.write_data then
          expected_read_write_calls event_source received_events
        else
          expected_read_write_calls event_source received_events
            ++ expected_prio_error_calls event_source received_events := by
  unfold event_handle_source
  have hstate : ¬ (event_source.state != EventSourceState.NORMAL) = true := by
    simp [hnormal]
  rw [if_neg hstate]
  by_cases hpe : (event_source.prio != 0 && event_source.prio == event_source.error &&
      event_source.prio_data == event_source.error_data) = true
  · rw [if_pos hpe, if_pos hpe]
    unfold expected_prio_error_calls
    rw [if_pos hpe]
    by_cases hreceived : (received_events &&& ( EVENT_PRIO ||| EVENT_ERROR) != 0) = true
    · rw [if_pos hreceived, if_pos hreceived]
    · rw [if_neg hreceived, if_neg hreceived]
  · rw [if_neg hpe, if_neg hpe]
    by_cases hrw : (event_source.read != 0 && event_source.read == event_source.write &&
        event_source.read_data == event_source.write_data) = true
    · rw [if_pos hrw, if_pos hrw]
      unfold expected_read_write_calls
      rw [if_pos hrw]
      by_cases hreceived : (received_events &&& (EVENT_READ ||| EVENT_WRITE) != 0) = true
      · rw [if_pos hreceived, if_pos hreceived]
      · rw [if_neg hreceived, if_neg hreceived]
    · rw [if_neg hrw, if_neg hrw]
      unfold expected_read_write_calls expected_prio_error_calls
      rw [if_neg hrw, if_neg hpe]
      have hread : (if (received_events &&& EVENT_READ != 0 && event_source.read != 0) = true
          then (invoke event_source.read event_source.read_data event_source,
            [(event_source.read, event_source.read_data)])
          else (event_source, []))
          = (event_source,
            [] ++ if (received_events &&& EVENT_READ != 0 && event_source.read != 0) = true
              then [(event_source.read, event_source.read_data)] else []) := by
        split_ifs
        · rw [hinvoke]
          rfl
        · rfl
      dsimp only
      rw [hread, event_handle_source_block_unchanged invoke _ _ _ _ _ _ hnormal hinvoke]
      dsimp only
      rw [event_handle_source_block_unchanged invoke _ _ _ _ _ _ hnormal hinvoke]
      dsimp only
      rw [event_handle_source_block_unchanged invoke _ _ _ _ _ _ hnormal hinvoke]
      simp only [List.nil_append, List.append_assoc]

/-- C18, amended, at an event source with four different event functions, none of which
changes it, when all four kinds of events are received: the four are called in the order
READ, WRITE, PRIO, ERROR. -/
theorem event_handle_source_calls_witness :
    (event_handle_source invoke_nothing example_plain_event_source
        (EVENT_READ ||| EVENT_WRITE ||| EVENT_PRIO ||| EVENT_ERROR)).2
      = [(7, 9), (8, 9), (11, 13), (12, 13)] :=
  (event_handle_source_calls invoke_nothing example_plain_event_source
    (EVENT_READ ||| EVENT_WRITE ||| EVENT_PRIO ||| EVENT_ERROR) rfl (fun _ _ => rfl)).trans
    (by decide)
theorem invoke_all_concat (invoke : Nat → Nat → EventSource → EventSource)
    (event_source : EventSource) (calls : List (Nat × Nat)) (call : Nat × Nat) :
    invoke_all invoke event_source (calls ++ [call])
      = invoke call.1 call.2 (invoke_all invoke event_source calls) := by
  simp [invoke_all, List.foldl_append]

theorem removal_respected_nil (invoke : Nat → Nat → EventSource → EventSource)
    (event_source : EventSource) :
    removal_respected invoke event_source (event_source, []) := by
  refine ⟨rfl, ?_⟩
  intro before call after h
  simp at h

theorem removal_respected_single (invoke : Nat → Nat → EventSource → EventSource)
    (event_source : EventSource) (function data : Nat) :
    removal_respected invoke event_source
      (invoke function data event_source, [(function, data)]) := by
  refine ⟨rfl, ?_⟩
  intro before call after h hafter
  have h1 : [(function, data)] = before ++ call :: after := h
  have hlength : ([(function, data)] : List (Nat × Nat)).length
      = (before ++ call :: after).length := congrArg List.length h1
  simp only [List.length_append, List.length_cons, List.length_nil] at hlength
  have : after.length = 0 := by omega
  exact absurd (List.length_eq_zero.1 this) hafter

/-- A block of `event_handle_source` makes a call only for an event source that is not in
state REMOVED. -/
theorem removal_respected_block (invoke : Nat → Nat → EventSource → EventSource)
    (event_source : EventSource) (received_events event : Nat)
    (function data : EventSource → Nat) (current : EventSource × List (Nat × Nat))
    (hcurrent : removal_respected invoke event_source current) :
    removal_respected invoke event_source
      (event_handle_source_block invoke received_events event function data current).1 := by
  unfold event_handle_source_block
  by_cases h : (received_events &&& event != 0 && function current.1 != 0) = true
  · rw [if_pos h]
    by_cases hstate : (current.1.state == EventSourceState.REMOVED) = true
    · rw [if_pos hstate]
      exact hcurrent
    · rw [if_neg hstate]
      obtain ⟨hsource, hcalls⟩ := hcurrent
      refine ⟨?_, ?_⟩
      · show invoke (function current.1) (data current.1) current.1
          = invoke_all invoke event_source (current.2 ++ [(function current.1, data current.1)])
        rw [invoke_all_concat, ← hsource]
      · intro before call after hsplit hafter
        have hsplit1 : current.2 ++ [(function current.1, data current.1)]
            = before ++ call :: after := hsplit
        rcases List.eq_nil_or_concat after with hnil | ⟨front, last, hconcat⟩
        · exact absurd hnil hafter
        · rw [hconcat, List.concat_eq_append, ← List.cons_append, ← List.append_assoc]
            at hsplit1
          have hbody : current.2 = before ++ call :: front :=
            (List.append_inj' hsplit1 rfl).1
          rcases List.eq_nil_or_concat front with hfront | ⟨front1, last1, hfront⟩
          · rw [hfront] at hbody
            rw [← hbody, ← hsource]
            simpa using hstate
          · exact hcalls before call front hbody
              (by rw [hfront, List.concat_eq_append]; simp)
  · rw [if_neg h]
    exact hcurrent

/-- `event_handle_source` for an event source that is not in state NORMAL. -/
theorem event_handle_source_not_normal (invoke : Nat → Nat → EventSource → EventSource)
    (event_source : EventSource) (received_events : Nat)
    (hstate : event_source.state ≠ EventSourceState.NORMAL) :
    event_handle_source invoke event_source received_events = (event_source, []) := by
  unfold event_handle_source
  rw [if_pos (by simpa using hstate)]

/-- C19: `event_handle_source` calls no event function of an event source that is not in
state NORMAL on entry; and of the calls it makes, each but the last one has left the event
source in another state than REMOVED, that is, after a call that has set the state to
REMOVED no further call is made. -/
theorem event_handle_source_respects_removal
    (invoke : Nat → Nat → EventSource → EventSource) (event_source : EventSource)
    (received_events : Nat) :
    (event_source.state ≠ EventSourceState.NORMAL →
      event_handle_source invoke event_source received_events = (event_source, [])) ∧
    (event_handle_source invoke event_source received_events).1
      = invoke_all invoke event_source
          (event_handle_source invoke event_source received_events).2 ∧
    (∀ before call after,
      (event_handle_source invoke event_source received_events).2
          = before ++ call :: after →
      after ≠ [] →
      (invoke_all invoke event_source (before ++ [call])).state
        ≠ EventSourceState.REMOVED) := by
  refine ⟨event_handle_source_not_normal invoke event_source received_events, ?_⟩
  show removal_respected invoke event_source
    (event_handle_source invoke event_source received_events)
  unfold event_handle_source
  by_cases hstate : (event_source.state != EventSourceState.NORMAL) = true
  · rw [if_pos hstate]
    exact removal_respected_nil invoke event_source
  · rw [if_neg hstate]
    by_cases hpe : (event_source.prio != 0 && event_source.prio == event_source.error &&
        event_source.prio_data == event_source.error_data) = true
    · rw [if_pos hpe]
      split_ifs
      · exact removal_respected_single invoke event_source _ _
      · exact removal_respected_nil invoke event_source
    · rw [if_neg hpe]
      by_cases hrw : (event_source.read != 0 && event_source.read == event_source.write &&
          event_source.read_data == event_source.write_data) = true
      · rw [if_pos hrw]
        split_ifs
        · exact removal_respected_single invoke event_source _ _
        · exact removal_respected_nil invoke event_source
      · rw [if_neg hrw]
        dsimp only
        have hread : removal_respected invoke event_source
            (if (received_events &&& EVENT_READ != 0 && event_source.read != 0) = true then
              (invoke event_source.read event_source.read_data event_source,
                [(event_source.read, event_source.read_data)])
            else (event_source, [])) := by
          split_ifs
          · exact removal_respected_single invoke event_source _ _
          · exact removal_respected_nil invoke event_source
        generalize (if (received_events &&& EVENT_READ != 0 && event_source.read != 0) = true
            then (invoke event_source.read event_source.read_data event_source,
              [(event_source.read, event_source.read_data)])
            else (event_source, [])) = after_read at hread ⊢
        have hwrite := removal_respected_block invoke event_source received_events
          EVENT_WRITE EventSource.write EventSource.write_data after_read hread
        rcases hw : event_handle_source_block invoke received_events EVENT_WRITE
            EventSource.write EventSource.write_data after_read with ⟨after_write, returned⟩
        rw [hw] at hwrite
        cases returned
        · dsimp only
          have hprio := removal_respected_block invoke event_source received_events
            EVENT_PRIO EventSource.prio EventSource.prio_data after_write hwrite
          rcases hp : event_handle_source_block invoke received_events EVENT_PRIO
              EventSource.prio EventSource.prio_data after_write with ⟨after_prio, returned⟩
          rw [hp] at hprio
          cases returned
          · exact removal_respected_block invoke event_source received_events
              EVENT_ERROR EventSource.error EventSource.error_data after_prio hprio
          · exact hprio
        · exact hwrite

/-- C19, at an event source with four different event functions, each of which removes
the event source, when all four kinds of events are received: only the event function for
READ is called. -/
theorem event_handle_source_respects_removal_witness :
    (event_handle_source invoke_remove example_plain_event_source
        (EVENT_READ ||| EVENT_WRITE ||| EVENT_PRIO ||| EVENT_ERROR)).2 = [(7, 9)] ∧
    event_handle_source invoke_remove
        { example_plain_event_source with state := EventSourceState.ADDED }
        (EVENT_READ ||| EVENT_WRITE ||| EVENT_PRIO ||| EVENT_ERROR)
      = ({ example_plain_event_source with state := EventSourceState.ADDED }, []) :=
  ⟨by decide,
    (event_handle_source_respects_removal invoke_remove
      { example_plain_event_source with state := EventSourceState.ADDED }
      (EVENT_READ ||| EVENT_WRITE ||| EVENT_PRIO ||| EVENT_ERROR)).1 (by decide)⟩

/-! ## The RS485 frame and its checksum (C20) -/

theorem or_of_bytes (hi lo : Nat) (hlo : lo < 256) : hi <<< 8 ||| lo = 256 * hi + lo := by
  have h := Nat.mul_add_lt_is_or (show lo < 2 ^ 8 by simpa using hlo) hi
  rw [Nat.shiftLeft_eq, Nat.mul_comm]
  simpa using h.symm

/-- The value of `crc16` is made of the two bytes `crc_hi` and `crc_lo`. -/
theorem crc16_eq (buffer : List Byte) (buffer_length : Nat) :
    crc16 buffer buffer_length
      = 256 * ((buffer.take buffer_length).foldl crc16_step (0xFF, 0xFF)).1.val
        + ((buffer.take buffer_length).foldl crc16_step (0xFF, 0xFF)).2.val := by
  unfold crc16
  dsimp only
  rw [or_of_bytes _ _ (Fin.is_lt _)]
  have h1 := Fin.is_lt ((buffer.take buffer_length).foldl crc16_step (0xFF, 0xFF)).1
  have h2 := Fin.is_lt ((buffer.take buffer_length).foldl crc16_step (0xFF, 0xFF)).2
  omega

/-- Storing `crc >> 8` and `crc & 0x00FF` in two bytes and putting them together again as
`(high << 8) | low` gives `crc`. -/
theorem crc16_split (hi lo : Byte) :
    u8 ((256 * hi.val + lo.val) >>> 8) = hi ∧
    u8 ((256 * hi.val + lo.val) &&& 0xFF) = lo ∧
    ((hi.val <<< 8) ||| lo.val) % 2 ^ 16 = 256 * hi.val + lo.val := by
  have h1 := hi.is_lt
  have h2 := lo.is_lt
  refine ⟨?_, ?_, ?_⟩
  · apply Fin.ext
    simp only [u8, Nat.shiftRight_eq_div_pow]
    omega
  · apply Fin.ext
    have h := Nat.and_pow_two_sub_one_eq_mod (256 * hi.val + lo.val) 8
    simp only [Nat.reducePow, Nat.add_one_sub_one] at h
    simp only [u8]
    rw [h]
    omega
  · rw [or_of_bytes _ _ h2]
    omega

theorem crc16_take (buffer : List Byte) (buffer_length : Nat) :
    crc16 (buffer.take buffer_length) buffer_length = crc16 buffer buffer_length := by
  unfold crc16
  rw [List.take_take, min_self]

theorem crc16_append (buffer rest : List Byte) :
    crc16 (buffer ++ rest) buffer.length = crc16 buffer buffer.length := by
  rw [← crc16_take (buffer ++ rest), List.take_left']
  rfl

theorem set_last_two {α : Type} (body : List α) (a b x y : α) :
    ((body ++ [a, b]).set body.length x).set (body.length + 1) y = body ++ [x, y] := by
  induction body with
  | nil => rfl
  | cons head tail ih =>
    simp only [List.cons_append, List.length_cons, List.set_cons_succ, ih]

theorem packet_bytes_length (packet : Packet) (hsize : packet.payload.length = 72) :
    packet.bytes.length = 80 := by
  simp [Packet.bytes, PacketHeader.bytes, Word.bytes, hsize]

theorem rs485_frame_body_length (address sequence : Byte) (packet : Packet)
    (hhigh : packet.header.length.val ≤ 80) (hsize : packet.payload.length = 72) :
    (rs485_frame_body address sequence packet).length = packet.header.length.val + 3 := by
  simp only [rs485_frame_body, List.length_append, List.length_take,
    packet_bytes_length packet hsize, List.length_cons, List.length_nil]
  omega

theorem rs485_frame_body_getD (address sequence : Byte) (packet : Packet)
    (hlow : 8 ≤ packet.header.length.val) :
    (rs485_frame_body address sequence packet).getD 0 0 = address ∧
    (rs485_frame_body address sequence packet).getD 7 0 = packet.header.length := by
  obtain ⟨header, payload⟩ := packet
  obtain ⟨uid, length, function_id, options, error_code⟩ := header
  have h : ∃ n, length.val = n + 8 := ⟨length.val - 8, by simp only at hlow; omega⟩
  obtain ⟨n, hn⟩ := h
  simp [rs485_frame_body, Packet.bytes, PacketHeader.bytes, Word.bytes, hn]

/-- `send_packet` sends the frame of C20. -/
theorem send_packet_eq (address sequence : Byte) (head : RS485ExtensionPacket)
    (tail : List RS485ExtensionPacket)
    (hhigh : head.packet.header.length.val ≤ 80)
    (hsize : head.packet.payload.length = 72) :
    send_packet ⟨address, sequence, ⟨head :: tail⟩⟩
      = some (rs485_frame address sequence head.packet) := by
  have hpeek : queue_peek (⟨head :: tail⟩ : Queue RS485ExtensionPacket) = some head := by
    simp [queue_peek, Queue.count]
  have hbytes := packet_bytes_length head.packet hsize
  have hbody := rs485_frame_body_length address sequence head.packet hhigh hsize
  unfold send_packet
  rw [hpeek]
  dsimp only
  have hzero : List.replicate (head.packet.header.length.val + RS485_FRAME_OVERHEAD) (0 : Byte)
      = 0 :: 0 :: 0 :: List.replicate (head.packet.header.length.val + 2) 0 := by
    have e : head.packet.header.length.val + RS485_FRAME_OVERHEAD
        = head.packet.header.length.val + 2 + 1 + 1 + 1 := by
      simp only [RS485_FRAME_OVERHEAD, RS485_FRAME_HEADER_LENGTH, RS485_FRAME_FOOTER_LENGTH]
    rw [e, List.replicate_succ, List.replicate_succ, List.replicate_succ]
  have hcopy : memcpy (List.replicate (head.packet.header.length.val + 2) (0 : Byte))
      head.bytes head.packet.header.length.val
      = head.packet.bytes.take head.packet.header.length.val ++ [0, 0] := by
    unfold memcpy
    have h1 : head.bytes.take head.packet.header.length.val
        = head.packet.bytes.take head.packet.header.length.val := by
      unfold RS485ExtensionPacket.bytes
      rw [List.take_append_of_le_length (by omega)]
    rw [h1, List.drop_replicate]
    have h2 : head.packet.header.length.val + 2 - head.packet.header.length.val = 2 := by
      omega
    rw [h2]
    rfl
  have hindex : (u8 (head.packet.header.length.val + RS485_FRAME_HEADER_LENGTH)).val
      = (rs485_frame_body address sequence head.packet).length := by
    rw [hbody]
    simp only [u8, RS485_FRAME_HEADER_LENGTH]
    omega
  have hindex1 : (u8 ((u8 (head.packet.header.length.val + RS485_FRAME_HEADER_LENGTH)).val
      + 1)).val = (rs485_frame_body address sequence head.packet).length + 1 := by
    rw [hindex, hbody]
    simp only [u8]
    omega
  have hcode : u8 RS485_EXTENSION_FUNCTION_CODE = 100 := rfl
  have hassembled : (((List.replicate
      (head.packet.header.length.val + RS485_FRAME_OVERHEAD) (0 : Byte)).set 0 address).set 1
        (u8 RS485_EXTENSION_FUNCTION_CODE)).set 2 sequence
      = address :: 100 :: sequence :: List.replicate (head.packet.header.length.val + 2) 0 := by
    rw [hzero, hcode]
    rfl
  rw [hassembled]
  have htake : (address :: 100 :: sequence ::
      List.replicate (head.packet.header.length.val + 2) (0 : Byte)).take 3
      = [address, 100, sequence] := rfl
  have hdrop : (address :: 100 :: sequence ::
      List.replicate (head.packet.header.length.val + 2) (0 : Byte)).drop 3
      = List.replicate (head.packet.header.length.val + 2) 0 := rfl
  rw [htake, hdrop, hcopy, hindex1, hindex]
  have hframe : [address, 100, sequence] ++
      (head.packet.bytes.take head.packet.header.length.val ++ [0, 0])
      = rs485_frame_body address sequence head.packet ++ [0, 0] := by
    simp [rs485_frame_body]
  rw [hframe, set_last_two]
  have hcrc : crc16 (rs485_frame_body address sequence head.packet ++ [0, 0])
      (head.packet.header.length.val + RS485_FRAME_HEADER_LENGTH)
      = crc16 (rs485_frame_body address sequence head.packet)
        (head.packet.header.length.val + 3) := by
    have e : head.packet.header.length.val + RS485_FRAME_HEADER_LENGTH
        = (rs485_frame_body address sequence head.packet).length := by
      rw [hbody]
      rfl
    rw [e, crc16_append, hbody]
  rw [hcrc]
  rfl

/-- C20: for every slave address and sequence byte and every queued packet (an object of
80 bytes) whose `header.length` L is between 8 and 80, the frame that `send_packet`
assembles is the address, 100, the sequence byte, the first L bytes of the packet and the
high and the low byte of the `crc16` of these L + 3 bytes, L + 5 bytes in all; and for
the receive buffer that starts with this frame the two values that `verify_buffer`
compares are equal (`crc16` over the first `frame_length - 2` bytes, and the last two
bytes of the frame put together), so that `verify_buffer` does not find a CRC-16
mismatch. -/
theorem rs485_frame_crc16_round_trip (address sequence : Byte)
    (head : RS485ExtensionPacket) (tail : List RS485ExtensionPacket)
    (hlow : 8 ≤ head.packet.header.length.val)
    (hhigh : head.packet.header.length.val ≤ 80)
    (hsize : head.packet.payload.length = 72) :
    send_packet ⟨address, sequence, ⟨head :: tail⟩⟩
      = some (rs485_frame address sequence head.packet) ∧
    (rs485_frame address sequence head.packet).length
      = head.packet.header.length.val + 5 ∧
    RS485_FRAME_HEADER_LENGTH + ((rs485_frame address sequence head.packet).getD 7 0).val
        + RS485_FRAME_FOOTER_LENGTH
      = (rs485_frame address sequence head.packet).length ∧
    crc16 (rs485_frame address sequence head.packet)
        ((rs485_frame address sequence head.packet).length - 2)
      = (((rs485_frame address sequence head.packet).getD
            ((rs485_frame address sequence head.packet).length - 2) 0).val <<< 8) |||
          ((rs485_frame address sequence head.packet).getD
            ((rs485_frame address sequence head.packet).length - 1) 0).val ∧
    (∀ rest : List Byte,
      verify_buffer (rs485_frame address sequence head.packet ++ rest)
        (rs485_frame address sequence head.packet).length address
        = VerifyBuffer.verified) := by
  have hbody := rs485_frame_body_length address sequence head.packet hhigh hsize
  obtain ⟨haddress, hlength7⟩ := rs485_frame_body_getD address sequence head.packet hlow
  have hlength : (rs485_frame address sequence head.packet).length
      = head.packet.header.length.val + 5 := by
    simp only [rs485_frame, List.length_append, hbody, List.length_cons, List.length_nil]
  have hcrc := crc16_eq (rs485_frame_body address sequence head.packet)
    (head.packet.header.length.val + 3)
  obtain ⟨hhi, hlo, hjoin⟩ := crc16_split
    (((rs485_frame_body address sequence head.packet).take
      (head.packet.header.length.val + 3)).foldl crc16_step (0xFF, 0xFF)).1
    (((rs485_frame_body address sequence head.packet).take
      (head.packet.header.length.val + 3)).foldl crc16_step (0xFF, 0xFF)).2
  rw [← hcrc] at hhi hlo hjoin
  have hget : ∀ (rest : List Byte) (i : Nat), i < head.packet.header.length.val + 3 →
      (rs485_frame address sequence head.packet ++ rest).getD i 0
        = (rs485_frame_body address sequence head.packet).getD i 0 := by
    intro rest i hi
    simp only [rs485_frame, List.append_assoc, List.getD_eq_getElem?_getD]
    rw [List.getElem?_append_left (by omega)]
  have hhigh_byte : ∀ rest : List Byte,
      (rs485_frame address sequence head.packet ++ rest).getD
          (head.packet.header.length.val + 3) 0
        = u8 (crc16 (rs485_frame_body address sequence head.packet)
            (head.packet.header.length.val + 3) >>> 8) := by
    intro rest
    simp only [rs485_frame, List.append_assoc, List.getD_eq_getElem?_getD]
    rw [List.getElem?_append_right (by omega), hbody]
    simp
  have hlow_byte : ∀ rest : List Byte,
      (rs485_frame address sequence head.packet ++ rest).getD
          (head.packet.header.length.val + 4) 0
        = u8 (crc16 (rs485_frame_body address sequence head.packet)
            (head.packet.header.length.val + 3) &&& 0xFF) := by
    intro rest
    simp only [rs485_frame, List.append_assoc, List.getD_eq_getElem?_getD]
    rw [List.getElem?_append_right (by omega), hbody]
    have e : head.packet.header.length.val + 4 - (head.packet.header.length.val + 3) = 1 := by
      omega
    rw [e]
    simp
  have hcalculated : ∀ rest : List Byte,
      crc16 (rs485_frame address sequence head.packet ++ rest)
          (head.packet.header.length.val + 3)
        = crc16 (rs485_frame_body address sequence head.packet)
          (head.packet.header.length.val + 3) := by
    intro rest
    have h := crc16_append (rs485_frame_body address sequence head.packet)
      ([u8 (crc16 (rs485_frame_body address sequence head.packet)
          (head.packet.header.length.val + 3) >>> 8),
        u8 (crc16 (rs485_frame_body address sequence head.packet)
          (head.packet.header.length.val + 3) &&& 0xFF)] ++ rest)
    rw [hbody] at h
    simpa [rs485_frame, List.append_assoc] using h
  have hseven : ∀ rest : List Byte,
      RS485_FRAME_HEADER_LENGTH
          + ((rs485_frame address sequence head.packet ++ rest).getD 7 0).val
          + RS485_FRAME_FOOTER_LENGTH
        = head.packet.header.length.val + 5 := by
    intro rest
    rw [hget rest 7 (by omega), hlength7]
    simp only [RS485_FRAME_HEADER_LENGTH, RS485_FRAME_FOOTER_LENGTH]
    omega
  have hor : ((u8 (crc16 (rs485_frame_body address sequence head.packet)
        (head.packet.header.length.val + 3) >>> 8)).val <<< 8) |||
      (u8 (crc16 (rs485_frame_body address sequence head.packet)
        (head.packet.header.length.val + 3) &&& 0xFF)).val
      = crc16 (rs485_frame_body address sequence head.packet)
        (head.packet.header.length.val + 3) := by
    rw [hhi, hlo, or_of_bytes _ _ (Fin.is_lt _)]
    exact hcrc.symm
  refine ⟨send_packet_eq address sequence head tail hhigh hsize, hlength, ?_, ?_, ?_⟩
  · have h := hseven []
    rw [List.append_nil] at h
    rw [h, hlength]
  · have h1 := hcalculated []
    have h2 := hhigh_byte []
    have h3 := hlow_byte []
    rw [List.append_nil] at h1 h2 h3
    rw [hlength]
    have e1 : head.packet.header.length.val + 5 - 2 = head.packet.header.length.val + 3 := by
      omega
    have e2 : head.packet.header.length.val + 5 - 1 = head.packet.header.length.val + 4 := by
      omega
    rw [e1, e2, h1, h2, h3, hor]
  · intro rest
    unfold verify_buffer
    rw [hlength]
    have hused : ¬ head.packet.header.length.val + 5 < 8 := by omega
    rw [if_neg hused]
    dsimp only
    rw [hseven rest]
    have hcomplete : ¬ head.packet.header.length.val + 5 < head.packet.header.length.val + 5 :=
      lt_irrefl _
    rw [if_neg hcomplete]
    have e1 : head.packet.header.length.val + 5 - RS485_FRAME_FOOTER_LENGTH
        = head.packet.header.length.val + 3 := by
      simp only [RS485_FRAME_FOOTER_LENGTH]
      omega
    have e2 : head.packet.header.length.val + 5 - 2 = head.packet.header.length.val + 3 := by
      omega
    have e3 : head.packet.header.length.val + 5 - 1 = head.packet.header.length.val + 4 := by
      omega
    rw [e1, e2, e3, hcalculated rest, hhigh_byte rest, hlow_byte rest, hhi, hlo, hjoin,
      hget rest 0 (by omega), haddress]
    simp

/-- C20, at the slave with address 1 and sequence byte 2 and a queued packet of length 8:
the frame has 13 bytes and passes the checks of `verify_buffer`. -/
theorem rs485_frame_crc16_round_trip_witness :
    (rs485_frame 1 2 example_rs485_packet).length = 13 ∧
    verify_buffer (rs485_frame 1 2 example_rs485_packet ++ List.replicate 1011 0)
        (rs485_frame 1 2 example_rs485_packet).length 1 = VerifyBuffer.verified :=
  have h := rs485_frame_crc16_round_trip 1 2 ⟨example_rs485_packet, 10⟩ []
    (by decide) (by decide) (by decide)
  ⟨h.2.1, h.2.2.2.2 (List.replicate 1011 0)⟩

/-! ## Removing a node from a circular doubly linked list (C15) -/

/-- The memory after `node_remove`, for a node that is neither its own successor nor its
own predecessor. -/
theorem node_remove_apply (memory : Nat → Node) (node p q : Nat)
    (hnode : memory node = ⟨p, q⟩) (hnext : q ≠ node) (hprev : p ≠ node) (x : Nat) :
    node_remove memory node x
      = if x = node then ⟨node, node⟩
        else if x = p then
          { prev := if p = q then p else (memory p).prev, next := q }
        else if x = q then { memory q with prev := p }
        else memory x := by
  have h1 : store_prev memory q p node = ⟨p, q⟩ := by
    simp only [store_prev, Function.update_apply, if_neg hnext.symm, hnode]
  have h2 : store_next (store_prev memory q p) p q node = ⟨p, q⟩ := by
    simp only [store_next, Function.update_apply, if_neg hprev.symm, h1]
  unfold node_remove
  simp only [hnode, h1]
  by_cases hx : x = node
  · subst hx
    simp [node_reset, store_prev, store_next, Function.update_apply]
  · rw [if_neg hx]
    have h3 : node_reset (store_next (store_prev memory q p) p q) node x
        = store_next (store_prev memory q p) p q x := by
      simp only [node_reset, store_prev, store_next, Function.update_apply, if_neg hx]
    rw [h3]
    by_cases hxp : x = p
    · subst hxp
      rw [if_pos rfl]
      by_cases hpq : x = q
      · subst hpq
        simp [store_prev, store_next, Function.update_apply]
      · simp [store_prev, store_next, Function.update_apply, hpq]
    · rw [if_neg hxp]
      by_cases hxq : x = q
      · subst hxq
        simp [store_prev, store_next, Function.update_apply, hxp]
      · simp [store_prev, store_next, Function.update_apply, hxp, hxq]

/-- What `node_remove` does to the pointers, for a node that is neither its own successor
nor its own predecessor. -/
theorem node_remove_effect (memory : Nat → Node) (node : Nat)
    (hnext : (memory node).next ≠ node) (hprev : (memory node).prev ≠ node) :
    node_remove memory node node = ⟨node, node⟩ ∧
    (node_remove memory node (memory node).prev).next = (memory node).next ∧
    (node_remove memory node (memory node).next).prev = (memory node).prev ∧
    (∀ x, x ≠ node → x ≠ (memory node).prev →
      (node_remove memory node x).next = (memory x).next) ∧
    (∀ x, x ≠ node → x ≠ (memory node).next →
      (node_remove memory node x).prev = (memory x).prev) := by
  have happly := node_remove_apply memory node (memory node).prev (memory node).next rfl hnext
    hprev
  refine ⟨?_, ?_, ?_, ?_, ?_⟩
  · rw [happly, if_pos rfl]
  · rw [happly, if_neg hprev, if_pos rfl]
  · rw [happly, if_neg hnext]
    by_cases h : (memory node).next = (memory node).prev
    · rw [if_pos h, if_pos h.symm]
    · rw [if_neg h, if_pos rfl]
  · intro x hx1 hx2
    rw [happly, if_neg hx1, if_neg hx2]
    by_cases h : x = (memory node).next
    · rw [if_pos h, h]
    · rw [if_neg h]
  · intro x hx1 hx2
    rw [happly, if_neg hx1, if_neg hx2]
    by_cases h : x = (memory node).prev
    · rw [if_pos h]
      by_cases h2 : (memory node).prev = (memory node).next
      · exact absurd (h.trans h2) hx2
      · rw [if_neg h2, h]
    · rw [if_neg h]

/-- A chain of linked nodes stays one when the `next` of all nodes but the last and the
`prev` of all nodes but the first stay as they are. -/
theorem chain_linked_of_same (memory memory1 : Nat → Node) (nodes : List Nat)
    (hchain : List.Chain' (linked memory) nodes)
    (hnext : ∀ x ∈ nodes.dropLast, (memory1 x).next = (memory x).next)
    (hprev : ∀ x ∈ nodes.tail, (memory1 x).prev = (memory x).prev) :
    List.Chain' (linked memory1) nodes := by
  induction nodes with
  | nil => exact List.chain'_nil
  | cons a rest ih =>
    cases rest with
    | nil => exact List.chain'_singleton a
    | cons b rest =>
      rw [List.chain'_cons] at hchain ⊢
      refine ⟨⟨?_, ?_⟩, ?_⟩
      · rw [hnext a (by simp)]
        exact hchain.1.1
      · rw [hprev b (by simp)]
        exact hchain.1.2
      · apply ih hchain.2
        · intro x hx
          apply hnext
          rw [List.dropLast_cons₂]
          exact List.mem_cons_of_mem _ hx
        · intro x hx
          apply hprev
          exact List.mem_cons_of_mem _ hx

/-- A node of a list, its predecessor `p` and its successor `q`: the cycle through the
sentinel and the nodes reads `front ++ p :: node :: q :: back`, and without the node it
reads `front ++ p :: q :: back`. -/
theorem cycle_split (sentinel : Nat) (nodes : List Nat) (node : Nat)
    (hnodup : (sentinel :: nodes).Nodup) (hmem : node ∈ nodes) :
    ∃ (front back : List Nat) (p q : Nat),
      sentinel :: nodes ++ [sentinel] = front ++ p :: node :: q :: back ∧
      sentinel :: nodes.erase node ++ [sentinel] = front ++ p :: q :: back ∧
      (∀ x ∈ front, x ≠ p ∧ x ≠ node) ∧
      (∀ x ∈ (front ++ [p]).tail, x ≠ q ∧ x ≠ node) ∧
      (∀ x ∈ (q :: back).dropLast, x ≠ p ∧ x ≠ node) ∧
      (∀ x ∈ back, x ≠ q ∧ x ≠ node) ∧
      p ≠ node ∧ q ≠ node ∧
      p ∈ sentinel :: nodes ∧ q ∈ sentinel :: nodes := by
  obtain ⟨before, after, hsplit⟩ := List.append_of_mem hmem
  subst hsplit
  have hfront : ∃ front p, sentinel :: before = front ++ [p] :=
    ⟨(sentinel :: before).dropLast, (sentinel :: before).getLast (by simp),
      (List.dropLast_append_getLast _).symm⟩
  obtain ⟨front, p, hfront⟩ := hfront
  have hback : ∃ q back, after ++ [sentinel] = q :: back := by
    cases after with
    | nil => exact ⟨sentinel, [], rfl⟩
    | cons a rest => exact ⟨a, rest ++ [sentinel], rfl⟩
  obtain ⟨q, back, hback⟩ := hback
  have hnodup1 : (sentinel :: before ++ node :: after).Nodup := hnodup
  have hnode_before : node ∉ sentinel :: before := by
    intro h
    exact (List.nodup_append.1 hnodup1).2.2 h (List.mem_cons_self _ _)
  have hnode_after : node ∉ after :=
    (List.nodup_cons.1 (List.nodup_append.1 hnodup1).2.1).1
  have hnode_sentinel : node ≠ sentinel := by
    intro h
    exact hnode_before (by rw [h]; exact List.mem_cons_self _ _)
  have hbefore_nodup : (sentinel :: before).Nodup := (List.nodup_append.1 hnodup1).1
  have hafter_nodup : after.Nodup :=
    (List.nodup_cons.1 (List.nodup_append.1 hnodup1).2.1).2
  have hdisjoint : ∀ x ∈ sentinel :: before, x ∉ after := by
    intro x hx hx2
    exact (List.nodup_append.1 hnodup1).2.2 hx (List.mem_cons_of_mem _ hx2)
  have hsentinel_after : sentinel ∉ after := hdisjoint sentinel (List.mem_cons_self _ _)
  have hafter_sentinel_nodup : (after ++ [sentinel]).Nodup := by
    rw [List.nodup_append]
    refine ⟨hafter_nodup, List.nodup_singleton _, ?_⟩
    intro x hx1 hx2
    rw [List.mem_singleton] at hx2
    exact hsentinel_after (hx2 ▸ hx1)
  have herase : (before ++ node :: after).erase node = before ++ after := by
    rw [List.erase_append_right _ (fun h => hnode_before (List.mem_cons_of_mem _ h)),
      List.erase_cons_head]
  have hq_mem : ∀ x ∈ q :: back, x ∈ after ∨ x = sentinel := by
    intro x hx
    rw [← hback] at hx
    simpa using hx
  have hp_mem : p ∈ sentinel :: before := by
    rw [hfront]
    simp
  have hfront_nodup : (front ++ [p]).Nodup := hfront ▸ hbefore_nodup
  have hback_nodup : (q :: back).Nodup := hback ▸ hafter_sentinel_nodup
  have hp_node : p ≠ node := fun h => hnode_before (h ▸ hp_mem)
  have hq_node : q ≠ node := by
    intro h
    rcases hq_mem q (List.mem_cons_self _ _) with h1 | h1
    · exact hnode_after (h ▸ h1)
    · exact hnode_sentinel (h ▸ h1)
  refine ⟨front, back, p, q, ?_, ?_, ?_, ?_, ?_, ?_, hp_node, hq_node, ?_, ?_⟩
  · calc sentinel :: (before ++ node :: after) ++ [sentinel]
        = (sentinel :: before) ++ node :: (after ++ [sentinel]) := by simp
      _ = front ++ p :: node :: q :: back := by rw [hfront, hback]; simp
  · rw [herase]
    calc sentinel :: (before ++ after) ++ [sentinel]
        = (sentinel :: before) ++ (after ++ [sentinel]) := by simp
      _ = front ++ p :: q :: back := by rw [hfront, hback]; simp
  · intro x hx
    refine ⟨?_, ?_⟩
    · intro h
      have := (List.nodup_append.1 hfront_nodup).2.2
      exact this hx (by rw [h]; exact List.mem_singleton_self _)
    · intro h
      apply hnode_before
      rw [hfront, ← h]
      exact List.mem_append_left _ hx
  · intro x hx
    rw [← hfront, List.tail_cons] at hx
    refine ⟨?_, ?_⟩
    · intro h
      rcases hq_mem q (List.mem_cons_self _ _) with h1 | h1
      · exact hdisjoint x (List.mem_cons_of_mem _ hx) (h ▸ h1)
      · have := (List.nodup_cons.1 hbefore_nodup).1
        exact this (h1 ▸ h ▸ hx)
    · intro h
      exact hnode_before (List.mem_cons_of_mem _ (h ▸ hx))
  · intro x hx
    rw [← hback, List.dropLast_concat] at hx
    refine ⟨?_, ?_⟩
    · intro h
      exact hdisjoint p hp_mem (h ▸ hx)
    · intro h
      exact hnode_after (h ▸ hx)
  · intro x hx
    refine ⟨?_, ?_⟩
    · intro h
      exact (List.nodup_cons.1 hback_nodup).1 (h ▸ hx)
    · intro h
      rcases hq_mem x (List.mem_cons_of_mem _ hx) with h1 | h1
      · exact hnode_after (h ▸ h1)
      · exact hnode_sentinel (h ▸ h1)
  · rcases List.mem_cons.1 hp_mem with h | h
    · rw [h]
      exact List.mem_cons_self _ _
    · exact List.mem_cons_of_mem _ (List.mem_append_left _ h)
  · rcases hq_mem q (List.mem_cons_self _ _) with h | h
    · exact List.mem_cons_of_mem _ (List.mem_append_right _ (List.mem_cons_of_mem _ h))
    · rw [h]
      exact List.mem_cons_self _ _

/-- In a list, the predecessor and the successor of a node are the sentinel or nodes of
the list, and neither of them is the node itself. -/
theorem neighbours_of_node (memory : Nat → Node) (sentinel : Nat) (nodes : List Nat)
    (node : Nat) (hlist : is_list memory sentinel nodes) (hmem : node ∈ nodes) :
    (memory node).prev ∈ sentinel :: nodes ∧ (memory node).next ∈ sentinel :: nodes ∧
    (memory node).prev ≠ node ∧ (memory node).next ≠ node := by
  obtain ⟨hnodup, hchain⟩ := hlist
  obtain ⟨front, back, p, q, hcycle, _, _, _, _, _, hp, hq, hpm, hqm⟩ :=
    cycle_split sentinel nodes node hnodup hmem
  rw [hcycle, List.chain'_split, List.chain'_cons, List.chain'_cons] at hchain
  obtain ⟨_, hpn, hnq, _⟩ := hchain
  rw [hpn.2, hnq.1]
  exact ⟨hpm, hqm, hp, hq⟩

/-- `node_remove` of a node of a list leaves the list without that node. -/
theorem node_remove_is_list (memory : Nat → Node) (sentinel : Nat) (nodes : List Nat)
    (node : Nat) (hlist : is_list memory sentinel nodes) (hmem : node ∈ nodes) :
    is_list (node_remove memory node) sentinel (nodes.erase node) := by
  obtain ⟨hnodup, hchain⟩ := hlist
  obtain ⟨front, back, p, q, hcycle, hcycle1, hfront, hfront_tail, hback_init, hback, hp, hq,
    _, _⟩ := cycle_split sentinel nodes node hnodup hmem
  rw [hcycle, List.chain'_split, List.chain'_cons, List.chain'_cons] at hchain
  obtain ⟨hchain_front, hpn, hnq, hchain_back⟩ := hchain
  have hprev : (memory node).prev = p := hpn.2
  have hnext : (memory node).next = q := hnq.1
  obtain ⟨_, hp_next, hq_prev, hsame_next, hsame_prev⟩ := node_remove_effect memory node
    (by rw [hnext]; exact hq) (by rw [hprev]; exact hp)
  rw [hprev, hnext] at hp_next hq_prev
  rw [hprev] at hsame_next
  rw [hnext] at hsame_prev
  refine ⟨?_, ?_⟩
  · rw [List.nodup_cons] at hnodup ⊢
    exact ⟨fun h => hnodup.1 (List.mem_of_mem_erase h), hnodup.2.erase node⟩
  · rw [hcycle1, List.chain'_split, List.chain'_cons]
    refine ⟨?_, ⟨hp_next, hq_prev⟩, ?_⟩
    · apply chain_linked_of_same memory _ _ hchain_front
      · intro x hx
        rw [List.dropLast_concat] at hx
        exact hsame_next x (hfront x hx).2 (hfront x hx).1
      · intro x hx
        exact hsame_prev x (hfront_tail x hx).2 (hfront_tail x hx).1
    · apply chain_linked_of_same memory _ _ hchain_back
      · intro x hx
        exact hsame_next x (hback_init x hx).2 (hback_init x hx).1
      · intro x hx
        rw [List.tail_cons] at hx
        exact hsame_prev x (hback x hx).2 (hback x hx).1

/-- `node_remove` of a node of one list leaves every list alone that shares no `Node`
object with that list. -/
theorem node_remove_other_list (memory : Nat → Node) (sentinel : Nat) (nodes : List Nat)
    (node : Nat) (other_sentinel : Nat) (other_nodes : List Nat)
    (hlist : is_list memory sentinel nodes) (hmem : node ∈ nodes)
    (hother : is_list memory other_sentinel other_nodes)
    (hdisjoint : ∀ x ∈ other_sentinel :: other_nodes, x ∉ sentinel :: nodes) :
    is_list (node_remove memory node) other_sentinel other_nodes := by
  obtain ⟨hpm, hqm, hp, hq⟩ := neighbours_of_node memory sentinel nodes node hlist hmem
  obtain ⟨_, _, _, hsame_next, hsame_prev⟩ := node_remove_effect memory node hq hp
  have hne : ∀ x ∈ other_sentinel :: other_nodes ++ [other_sentinel],
      x ≠ node ∧ x ≠ (memory node).prev ∧ x ≠ (memory node).next := by
    intro x hx
    have hx1 : x ∈ other_sentinel :: other_nodes := by
      simp only [List.cons_append, List.mem_cons, List.mem_append, List.mem_singleton] at hx ⊢
      tauto
    have := hdisjoint x hx1
    refine ⟨?_, ?_, ?_⟩
    · intro h
      exact this (h ▸ List.mem_cons_of_mem _ hmem)
    · intro h
      exact this (h ▸ hpm)
    · intro h
      exact this (h ▸ hqm)
  refine ⟨hother.1, chain_linked_of_same memory _ _ hother.2 ?_ ?_⟩
  · intro x hx
    have h := hne x (List.mem_of_mem_dropLast hx)
    exact hsame_next x h.1 h.2.1
  · intro x hx
    have h := hne x (List.mem_of_mem_tail hx)
    exact hsame_prev x h.1 h.2.2

/-- C15: let the `global_node` of a pending request be a node of the global list and its
`client_node` a node of the list of its owner, the one client or zombie that the request
points to, and let the `pending_request_count` of the owner be the length of that list.
After `pending_request_remove_and_free` both lists are circular doubly linked lists again,
each holding the nodes it held before, in their order, but for the node of the request,
which is in neither list; and the `pending_request_count` of the owner is one less than
before and is the length of the list of the owner. -/
theorem pending_request_remove_and_free_keeps_lists (memory : PendingMemory)
    (pending_request : PendingRequestObject) (global_sentinel owner_sentinel owner : Nat)
    (global_nodes owner_nodes : List Nat)
    (hglobal : is_list memory.node global_sentinel global_nodes)
    (howner : is_list memory.node owner_sentinel owner_nodes)
    (hdisjoint : ∀ x ∈ owner_sentinel :: owner_nodes, x ∉ global_sentinel :: global_nodes)
    (hglobal_node : pending_request.global_node ∈ global_nodes)
    (hclient_node : pending_request.client_node ∈ owner_nodes)
    (hpointer : (pending_request.client = some owner ∧ pending_request.zombie = none) ∨
      (pending_request.client = none ∧ pending_request.zombie = some owner))
    (hcount : memory.pending_request_count owner = owner_nodes.length) :
    is_list (pending_request_remove_and_free_nodes memory pending_request).node
      global_sentinel (global_nodes.erase pending_request.global_node) ∧
    is_list (pending_request_remove_and_free_nodes memory pending_request).node
      owner_sentinel (owner_nodes.erase pending_request.client_node) ∧
    pending_request.global_node ∉ global_nodes.erase pending_request.global_node ∧
    pending_request.client_node ∉ owner_nodes.erase pending_request.client_node ∧
    (pending_request_remove_and_free_nodes memory pending_request).pending_request_count owner
      = memory.pending_request_count owner - 1 ∧
    (pending_request_remove_and_free_nodes memory pending_request).pending_request_count owner
      = (owner_nodes.erase pending_request.client_node).length := by
  have hglobal1 := node_remove_is_list memory.node global_sentinel global_nodes
    pending_request.global_node hglobal hglobal_node
  have howner1 := node_remove_other_list memory.node global_sentinel global_nodes
    pending_request.global_node owner_sentinel owner_nodes hglobal hglobal_node howner
    hdisjoint
  have howner2 := node_remove_is_list _ owner_sentinel owner_nodes
    pending_request.client_node howner1 hclient_node
  have hglobal2 := node_remove_other_list _ owner_sentinel owner_nodes
    pending_request.client_node global_sentinel
    (global_nodes.erase pending_request.global_node) howner1 hclient_node hglobal1
    (by
      intro x hx hx2
      apply hdisjoint x hx2
      rcases List.mem_cons.1 hx with h | h
      · rw [h]
        exact List.mem_cons_self _ _
      · exact List.mem_cons_of_mem _ (List.mem_of_mem_erase h))
  have hcount1 : (pending_request_remove_and_free_nodes memory
      pending_request).pending_request_count owner
      = memory.pending_request_count owner - 1 := by
    unfold pending_request_remove_and_free_nodes
    rcases hpointer with ⟨h1, h2⟩ | ⟨h1, h2⟩ <;> simp [h1, h2]
  refine ⟨hglobal2, howner2, ?_, ?_, hcount1, ?_⟩
  · rw [(List.nodup_cons.1 hglobal.1).2.mem_erase_iff]
    exact fun h => h.1 rfl
  · rw [(List.nodup_cons.1 howner.1).2.mem_erase_iff]
    exact fun h => h.1 rfl
  · rw [hcount1, hcount, List.length_erase_of_mem hclient_node]
    have : 0 < owner_nodes.length := List.length_pos_of_mem hclient_node
    omega

/-- C15, at the memory with the global list `[1, 2]` and the list `[11, 12]` of the client
at address 100, for the pending request with the nodes 1 and 11: afterwards the lists are
`[2]` and `[12]` and the client has one pending request. -/
theorem pending_request_remove_and_free_keeps_lists_witness :
    is_list (pending_request_remove_and_free_nodes example_pending_memory
      ⟨1, 11, some 100, none⟩).node 0 [2] ∧
    is_list (pending_request_remove_and_free_nodes example_pending_memory
      ⟨1, 11, some 100, none⟩).node 10 [12] ∧
    (pending_request_remove_and_free_nodes example_pending_memory
      ⟨1, 11, some 100, none⟩).pending_request_count 100 = 1 :=
  have h := pending_request_remove_and_free_keeps_lists example_pending_memory
    ⟨1, 11, some 100, none⟩ 0 10 100 [1, 2] [11, 12]
    (by simp [is_list, linked, example_pending_memory])
    (by simp [is_list, linked, example_pending_memory])
    (by decide) (by decide) (by decide) (Or.inl ⟨rfl, rfl⟩) rfl
  ⟨h.1, h.2.1, h.2.2.2.2.1⟩

/-! ## The request buffer and the handling of requests

`client_handle_request` neither reads nor writes the fields of the client that belong to
the request buffer. -/

theorem cleanup_set_request_buffer (daemon : Daemon)
    (pending_request : Option PendingRequest) (buffer : List Byte) (used : Nat)
    (checked : Bool) :
    client_dispatch_response_cleanup (daemon.set_request_buffer buffer used checked)
        pending_request
      = (client_dispatch_response_cleanup daemon pending_request).set_request_buffer buffer
          used checked := by
  cases pending_request <;> rfl

theorem client_dispatch_response_set_request_buffer (daemon : Daemon)
    (pending_request : Option PendingRequest) (response : Packet)
    (force ignore_authentication : Bool) (outcome : IOWrite) (buffer : List Byte)
    (used : Nat) (checked : Bool) :
    client_dispatch_response (daemon.set_request_buffer buffer used checked) pending_request
        response force ignore_authentication outcome
      = (client_dispatch_response daemon pending_request response force
          ignore_authentication outcome).set_request_buffer buffer used checked := by
  unfold client_dispatch_response
  have hstate : (daemon.set_request_buffer buffer used checked).client.authentication_state
      = daemon.client.authentication_state := rfl
  have hpending : (daemon.set_request_buffer buffer used checked).client.pending_requests
      = daemon.client.pending_requests := rfl
  have hdisconnected : (daemon.set_request_buffer buffer used checked).client.disconnected
      = daemon.client.disconnected := rfl
  rw [hstate, hpending, hdisconnected]
  by_cases h1 : (!ignore_authentication &&
      daemon.client.authentication_state != ClientAuthenticationState.DISABLED &&
      daemon.client.authentication_state != ClientAuthenticationState.DONE) = true
  · rw [if_pos h1, if_pos h1]
    exact cleanup_set_request_buffer _ _ _ _ _
  · rw [if_neg h1, if_neg h1]
    have hrest : ∀ pending_request1 : Option PendingRequest,
        (if daemon.client.disconnected = true then
            client_dispatch_response_cleanup (daemon.set_request_buffer buffer used checked)
              pending_request1
          else if (force || pending_request1.isSome) = true then
            client_dispatch_response_cleanup
              { daemon.set_request_buffer buffer used checked with
                client :=
                  { (daemon.set_request_buffer buffer used checked).client with
                    response_writer :=
                      (writer_write
                        (daemon.set_request_buffer buffer used checked).client.response_writer
                        response outcome).writer
                    disconnected := daemon.client.disconnected ||
                      (writer_write
                        (daemon.set_request_buffer buffer used checked).client.response_writer
                        response outcome).recipient_disconnect }
                writer_writes :=
                  (daemon.set_request_buffer buffer used checked).writer_writes ++ [response] }
              pending_request1
          else client_dispatch_response_cleanup
            (daemon.set_request_buffer buffer used checked) pending_request1)
        = (if daemon.client.disconnected = true then
            client_dispatch_response_cleanup daemon pending_request1
          else if (force || pending_request1.isSome) = true then
            client_dispatch_response_cleanup
              { daemon with
                client :=
                  { daemon.client with
                    response_writer :=
                      (writer_write daemon.client.response_writer response outcome).writer
                    disconnected := daemon.client.disconnected ||
                      (writer_write daemon.client.response_writer response
                        outcome).recipient_disconnect }
                writer_writes := daemon.writer_writes ++ [response] }
              pending_request1
          else client_dispatch_response_cleanup daemon pending_request1).set_request_buffer
            buffer used checked := by
      intro pending_request1
      by_cases h2 : daemon.client.disconnected = true
      · rw [if_pos h2, if_pos h2]
        exact cleanup_set_request_buffer _ _ _ _ _
      · rw [if_neg h2, if_neg h2]
        by_cases h3 : (force || pending_request1.isSome) = true
        · rw [if_pos h3, if_pos h3]
          cases pending_request1 <;> rfl
        · rw [if_neg h3, if_neg h3]
          exact cleanup_set_request_buffer _ _ _ _ _
    by_cases hs : (!force && pending_request.isNone) = true
    · simp only [if_pos hs]
      cases List.find? (fun candidate : PendingRequest =>
          packet_is_matching_response response candidate.header)
          daemon.client.pending_requests with
      | none => exact cleanup_set_request_buffer _ _ _ _ _
      | some found => exact hrest _
    · simp only [if_neg hs]
      exact hrest _

theorem get_nonce_set_request_buffer (daemon : Daemon) (request : Packet)
    (outcome : IOWrite) (buffer : List Byte) (used : Nat) (checked : Bool) :
    client_handle_get_authentication_nonce_request
        (daemon.set_request_buffer buffer used checked) request outcome
      = (client_handle_get_authentication_nonce_request daemon request
          outcome).set_request_buffer buffer used checked := by
  unfold client_handle_get_authentication_nonce_request
  have hstate : (daemon.set_request_buffer buffer used checked).client.authentication_state
      = daemon.client.authentication_state := rfl
  rw [hstate]
  by_cases h1 : (daemon.client.authentication_state == ClientAuthenticationState.DISABLED)
      = true
  · rw [if_pos h1, if_pos h1]
    rfl
  · rw [if_neg h1, if_neg h1]
    by_cases h2 : (daemon.client.authentication_state == ClientAuthenticationState.DONE)
        = true
    · simp only [if_pos h2]
      have e : (daemon.set_request_buffer buffer used checked).set_authentication_state
          ClientAuthenticationState.ENABLED
          = (daemon.set_authentication_state
              ClientAuthenticationState.ENABLED).set_request_buffer buffer used checked := rfl
      rw [e]
      generalize daemon.set_authentication_state ClientAuthenticationState.ENABLED = daemon1
      have hstate1 : (daemon1.set_request_buffer buffer used
          checked).client.authentication_state = daemon1.client.authentication_state := rfl
      rw [hstate1]
      by_cases h3 : (daemon1.client.authentication_state != ClientAuthenticationState.ENABLED)
          = true
      · rw [if_pos h3, if_pos h3]
        rfl
      · rw [if_neg h3, if_neg h3]
        have hresponse : get_authentication_nonce_response
            (daemon1.set_request_buffer buffer used checked).client request
            = get_authentication_nonce_response daemon1.client request := rfl
        rw [hresponse, client_dispatch_response_set_request_buffer]
        rfl
    · simp only [if_neg h2]
      rw [hstate]
      by_cases h3 : (daemon.client.authentication_state != ClientAuthenticationState.ENABLED)
          = true
      · rw [if_pos h3, if_pos h3]
        rfl
      · rw [if_neg h3, if_neg h3]
        have hresponse : get_authentication_nonce_response
            (daemon.set_request_buffer buffer used checked).client request
            = get_authentication_nonce_response daemon.client request := rfl
        rw [hresponse, client_dispatch_response_set_request_buffer]
        rfl

theorem authenticate_set_request_buffer (hmac_sha1 : List Byte → List Byte → List Byte)
    (secret : List Byte) (daemon : Daemon) (request : Packet) (outcome : IOWrite)
    (buffer : List Byte) (used : Nat) (checked : Bool) :
    client_handle_authenticate_request hmac_sha1 secret
        (daemon.set_request_buffer buffer used checked) request outcome
      = (client_handle_authenticate_request hmac_sha1 secret daemon request
          outcome).set_request_buffer buffer used checked := by
  unfold client_handle_authenticate_request
  have hstate : (daemon.set_request_buffer buffer used checked).client.authentication_state
      = daemon.client.authentication_state := rfl
  have hnonce : (daemon.set_request_buffer buffer used checked).client.authentication_nonce
      = daemon.client.authentication_nonce := rfl
  rw [hstate, hnonce]
  by_cases h1 : (daemon.client.authentication_state == ClientAuthenticationState.DISABLED)
      = true
  · rw [if_pos h1, if_pos h1]
    rfl
  · rw [if_neg h1, if_neg h1]
    by_cases h2 : (daemon.client.authentication_state != ClientAuthenticationState.NONCE_SEND)
        = true
    · rw [if_pos h2, if_pos h2]
      rfl
    · rw [if_neg h2, if_neg h2]
      dsimp only
      by_cases h3 : memcmp_ne ((request.payload.drop 4).take SHA1_DIGEST_LENGTH)
          (hmac_sha1 secret (daemon.client.authentication_nonce.bytes ++ request.payload.take 4))
          SHA1_DIGEST_LENGTH = true
      · rw [if_pos h3, if_pos h3]
        rfl
      · rw [if_neg h3, if_neg h3]
        by_cases h4 : packet_header_get_response_expected request.header = true
        · rw [if_pos h4, if_pos h4]
          have e : (daemon.set_request_buffer buffer used checked).set_authentication_state
              ClientAuthenticationState.DONE
              = (daemon.set_authentication_state
                  ClientAuthenticationState.DONE).set_request_buffer buffer used checked := rfl
          rw [e, client_dispatch_response_set_request_buffer]
        · rw [if_neg h4, if_neg h4]
          rfl

/-- `client_handle_request` neither reads nor writes the request buffer of the client. -/
theorem client_handle_request_set_request_buffer
    (hmac_sha1 : List Byte → List Byte → List Byte) (secret : List Byte) (daemon : Daemon)
    (request : Packet) (outcome : IOWrite) (buffer : List Byte) (used : Nat)
    (checked : Bool) :
    client_handle_request hmac_sha1 secret (daemon.set_request_buffer buffer used checked)
        request outcome
      = (client_handle_request hmac_sha1 secret daemon request outcome).set_request_buffer
          buffer used checked := by
  unfold client_handle_request
  have hstate : (daemon.set_request_buffer buffer used checked).client.authentication_state
      = daemon.client.authentication_state := rfl
  have hexpects : (if packet_header_get_response_expected request.header = true then
        network_client_expects_response (daemon.set_request_buffer buffer used checked)
          request
      else daemon.set_request_buffer buffer used checked)
      = (if packet_header_get_response_expected request.header = true then
          network_client_expects_response daemon request
        else daemon).set_request_buffer buffer used checked := by
    split_ifs <;> rfl
  rw [hstate]
  dsimp only
  rw [hexpects]
  generalize (if packet_header_get_response_expected request.header = true then
      network_client_expects_response daemon request else daemon) = daemon1
  by_cases h1 : (uint32_from_le request.header.uid == UID_BRICK_DAEMON) = true
  · rw [if_pos h1, if_pos h1]
    by_cases h2 : (request.header.function_id.val == FUNCTION_GET_AUTHENTICATION_NONCE) = true
    · rw [if_pos h2, if_pos h2]
      by_cases h3 : (request.header.length.val != sizeof_GetAuthenticationNonceRequest) = true
      · rw [if_pos h3, if_pos h3]
        rfl
      · rw [if_neg h3, if_neg h3]
        exact get_nonce_set_request_buffer _ _ _ _ _ _
    · rw [if_neg h2, if_neg h2]
      by_cases h4 : (request.header.function_id.val == FUNCTION_AUTHENTICATE) = true
      · rw [if_pos h4, if_pos h4]
        by_cases h5 : (request.header.length.val != sizeof_AuthenticateRequest) = true
        · rw [if_pos h5, if_pos h5]
          rfl
        · rw [if_neg h5, if_neg h5]
          exact authenticate_set_request_buffer _ _ _ _ _ _ _ _
      · rw [if_neg h4, if_neg h4]
        by_cases h6 : packet_header_get_response_expected request.header = true
        · rw [if_pos h6, if_pos h6]
          exact client_dispatch_response_set_request_buffer _ _ _ _ _ _ _ _ _
        · rw [if_neg h6, if_neg h6]
  · rw [if_neg h1, if_neg h1]
    by_cases h7 : (daemon.client.authentication_state == ClientAuthenticationState.DISABLED ||
        daemon.client.authentication_state == ClientAuthenticationState.DONE) = true
    · rw [if_pos h7, if_pos h7]
      rfl
    · rw [if_neg h7, if_neg h7]

theorem set_request_buffer_self (daemon : Daemon) :
    daemon.set_request_buffer daemon.client.request_buffer daemon.client.request_buffer_used
      daemon.client.request_header_checked = daemon := rfl

/-- `client_handle_request` leaves the request buffer of the client as it is. -/
theorem client_handle_request_request_buffer
    (hmac_sha1 : List Byte → List Byte → List Byte) (secret : List Byte) (daemon : Daemon)
    (request : Packet) (outcome : IOWrite) :
    (client_handle_request hmac_sha1 secret daemon request outcome).client.request_buffer
      = daemon.client.request_buffer ∧
    (client_handle_request hmac_sha1 secret daemon request outcome).client.request_buffer_used
      = daemon.client.request_buffer_used ∧
    (client_handle_request hmac_sha1 secret daemon request
        outcome).client.request_header_checked = daemon.client.request_header_checked := by
  have h := client_handle_request_set_request_buffer hmac_sha1 secret daemon request outcome
    daemon.client.request_buffer daemon.client.request_buffer_used
    daemon.client.request_header_checked
  rw [set_request_buffer_self] at h
  refine ⟨?_, ?_, ?_⟩
  · rw [h]
    rfl
  · rw [h]
    rfl
  · rw [h]
    rfl

theorem set_request_buffer_client (daemon : Daemon) (buffer : List Byte) (used : Nat)
    (checked : Bool) :
    (daemon.set_request_buffer buffer used checked).client.request_buffer = buffer ∧
    (daemon.set_request_buffer buffer used checked).client.request_buffer_used = used ∧
    (daemon.set_request_buffer buffer used checked).client.request_header_checked = checked ∧
    (daemon.set_request_buffer buffer used checked).client.disconnected
      = daemon.client.disconnected :=
  ⟨rfl, rfl, rfl, rfl⟩

theorem set_request_buffer_twice (daemon : Daemon) (buffer buffer1 : List Byte)
    (used used1 : Nat) (checked checked1 : Bool) :
    (daemon.set_request_buffer buffer used checked).set_request_buffer buffer1 used1 checked1
      = daemon.set_request_buffer buffer1 used1 checked1 := rfl

theorem memcpy_nil (source : List Byte) (length : Nat) :
    memcpy [] source length = source.take length := by
  simp [memcpy]

/-- One pass through the loop of `client_handle_read` when the buffer starts with a whole
frame whose header is valid: the frame is taken out of the buffer. -/
theorem client_handle_read_loop_frame (hmac_sha1 : List Byte → List Byte → List Byte)
    (secret : List Byte) (write_outcome : Nat → IOWrite) (fuel : Nat)
    (session : ClientSession)
    (hconnected : session.daemon.client.disconnected = false)
    (hused : sizeof_PacketHeader ≤ session.daemon.client.request_buffer_used)
    (hvalid : (packet_header_is_valid_request
      (Packet.of_bytes session.daemon.client.request_buffer).header).1 = true)
    (hlength : (Packet.of_bytes session.daemon.client.request_buffer).header.length.val
      ≤ session.daemon.client.request_buffer_used) :
    client_handle_read_loop hmac_sha1 secret write_outcome (fuel + 1) session
      = client_handle_read_loop hmac_sha1 secret write_outcome fuel
          (session.take_frame hmac_sha1 secret write_outcome) := by
  have hpos : 0 < session.daemon.client.request_buffer_used := by
    simp only [sizeof_PacketHeader] at hused
    omega
  rw [client_handle_read_loop]
  have h1 : (!session.daemon.client.disconnected &&
      decide (session.daemon.client.request_buffer_used > 0)) = true := by
    simp [hconnected, hpos]
  have h2 : ¬ session.daemon.client.request_buffer_used < sizeof_PacketHeader := by omega
  have h3 : ¬ (!session.daemon.client.request_header_checked &&
      !(packet_header_is_valid_request
        (Packet.of_bytes session.daemon.client.request_buffer).header).1) = true := by
    simp [hvalid]
  have h4 : ¬ session.daemon.client.request_buffer_used
      < (Packet.of_bytes session.daemon.client.request_buffer).header.length.val := by omega
  simp only [h1, if_true, if_neg h2, if_neg h3, if_neg h4]
  refine congrArg _ ?_
  unfold ClientSession.take_frame
  by_cases hprobe : ((Packet.of_bytes session.daemon.client.request_buffer).header.function_id.val
      == FUNCTION_DISCONNECT_PROBE) = true
  · simp only [if_pos hprobe, (set_request_buffer_client _ _ _ _).1,
      (set_request_buffer_client _ _ _ _).2.1, set_request_buffer_twice]
  · simp only [if_neg hprobe, ClientSession.handle_request, memcpy_nil]
    rw [client_handle_request_set_request_buffer]
    simp only [(set_request_buffer_client _ _ _ _).1,
      (set_request_buffer_client _ _ _ _).2.1, set_request_buffer_twice]

theorem valid_request_length (header : PacketHeader)
    (hvalid : (packet_header_is_valid_request header).1 = true) :
    sizeof_PacketHeader ≤ header.length.val ∧ header.length.val ≤ sizeof_Packet := by
  unfold packet_header_is_valid_request at hvalid
  by_cases h1 : header.length.val < sizeof_PacketHeader
  · rw [if_pos h1] at hvalid
    exact absurd hvalid (by simp)
  · rw [if_neg h1] at hvalid
    by_cases h2 : header.length.val > sizeof_Packet
    · rw [if_pos h2] at hvalid
      exact absurd hvalid (by simp)
    · exact ⟨by omega, by omega⟩

theorem memmove_length (buffer : List Byte) (length used : Nat) (hlength : length ≤ used)
    (hused : used ≤ buffer.length) :
    (memmove buffer length (used - length)).length = buffer.length := by
  simp only [memmove, List.length_append, List.length_take, List.length_drop]
  omega

theorem memmove_take (buffer : List Byte) (length used : Nat) (hlength : length ≤ used)
    (hused : used ≤ buffer.length) :
    (memmove buffer length (used - length)).take (used - length)
      = (buffer.take used).drop length := by
  have h : ((buffer.drop length).take (used - length)).length = used - length := by
    simp only [List.length_take, List.length_drop]
    omega
  unfold memmove
  rw [List.take_append_of_le_length (by omega), List.take_of_length_le (by omega),
    List.drop_take]

/-- The session after a frame has been taken out of the request buffer. -/
theorem take_frame_client (hmac_sha1 : List Byte → List Byte → List Byte)
    (secret : List Byte) (write_outcome : Nat → IOWrite) (session : ClientSession) :
    (session.take_frame hmac_sha1 secret write_outcome).daemon.client.request_buffer
      = memmove session.daemon.client.request_buffer
          (Packet.of_bytes session.daemon.client.request_buffer).header.length.val
          (session.daemon.client.request_buffer_used
            - (Packet.of_bytes session.daemon.client.request_buffer).header.length.val) ∧
    (session.take_frame hmac_sha1 secret write_outcome).daemon.client.request_buffer_used
      = session.daemon.client.request_buffer_used
          - (Packet.of_bytes session.daemon.client.request_buffer).header.length.val ∧
    (session.take_frame hmac_sha1 secret write_outcome).daemon.client.request_header_checked
      = false :=
  ⟨rfl, rfl, rfl⟩

theorem take_frame_invariant (hmac_sha1 : List Byte → List Byte → List Byte)
    (secret : List Byte) (write_outcome : Nat → IOWrite) (session : ClientSession)
    (hinvariant : request_buffer_invariant session.daemon.client)
    (hlength : (Packet.of_bytes session.daemon.client.request_buffer).header.length.val
      ≤ session.daemon.client.request_buffer_used) :
    request_buffer_invariant
      (session.take_frame hmac_sha1 secret write_outcome).daemon.client := by
  obtain ⟨h1, h2, h3⟩ := take_frame_client hmac_sha1 secret write_outcome session
  obtain ⟨i1, i2, _⟩ := hinvariant
  refine ⟨?_, ?_, ?_⟩
  · rw [h1, memmove_length _ _ _ hlength (by omega)]
    exact i1
  · rw [h2]
    omega
  · intro h
    rw [h3] at h
    exact absurd h (by simp)

/-- The loop of `client_handle_read` comes to its end within as many passes as there are
bytes in the buffer, and leaves less than one frame in the buffer of a client that it
does not mark disconnected. -/
theorem client_handle_read_loop_invariant (hmac_sha1 : List Byte → List Byte → List Byte)
    (secret : List Byte) (write_outcome : Nat → IOWrite) :
    ∀ (fuel : Nat) (session : ClientSession),
      request_buffer_invariant session.daemon.client →
      session.daemon.client.request_buffer_used < fuel →
      ∃ result, client_handle_read_loop hmac_sha1 secret write_outcome fuel session
          = some result ∧
        request_buffer_invariant result.daemon.client ∧
        (result.daemon.client.disconnected = false → awaits_bytes result.daemon.client) := by
  intro fuel
  induction fuel with
  | zero =>
    intro session _ h
    exact absurd h (Nat.not_lt_zero _)
  | succ fuel ih =>
    intro session hinvariant hfuel
    by_cases hrun : (!session.daemon.client.disconnected &&
        decide (session.daemon.client.request_buffer_used > 0)) = true
    · have hconnected : session.daemon.client.disconnected = false := by
        simp only [Bool.and_eq_true, Bool.not_eq_true', decide_eq_true_eq] at hrun
        exact hrun.1
      by_cases hheader : session.daemon.client.request_buffer_used < sizeof_PacketHeader
      · refine ⟨session, ?_, hinvariant, fun _ => Or.inl hheader⟩
        rw [client_handle_read_loop]
        simp only [hrun, if_true, if_pos hheader]
      · by_cases hcheck : (!session.daemon.client.request_header_checked &&
            !(packet_header_is_valid_request
              (Packet.of_bytes session.daemon.client.request_buffer).header).1) = true
        · refine ⟨{ session with daemon := session.daemon.disconnect }, ?_, ?_, ?_⟩
          · rw [client_handle_read_loop]
            simp only [hrun, if_true, if_neg hheader, if_pos hcheck]
          · refine ⟨hinvariant.1, hinvariant.2.1, ?_⟩
            intro h
            have h1 : session.daemon.client.request_header_checked = true := h
            rw [h1] at hcheck
            exact absurd hcheck (by simp)
          · intro h
            exact absurd h (by simp [Daemon.disconnect])
        · have hvalid : (packet_header_is_valid_request
              (Packet.of_bytes session.daemon.client.request_buffer).header).1 = true := by
            cases hchecked : session.daemon.client.request_header_checked
            · rw [hchecked] at hcheck
              simpa using hcheck
            · exact (hinvariant.2.2 hchecked).2
          by_cases hlength : session.daemon.client.request_buffer_used
              < (Packet.of_bytes session.daemon.client.request_buffer).header.length.val
          · refine ⟨{ session with
                daemon := session.daemon.set_request_buffer
                  session.daemon.client.request_buffer
                  session.daemon.client.request_buffer_used true }, ?_, ?_, ?_⟩
            · rw [client_handle_read_loop]
              simp only [hrun, if_true, if_neg hheader, if_neg hcheck, if_pos hlength]
            · have hwhole : sizeof_PacketHeader ≤ session.daemon.client.request_buffer_used := by
                omega
              exact ⟨hinvariant.1, hinvariant.2.1, fun _ => ⟨hwhole, hvalid⟩⟩
            · intro _
              exact Or.inr ⟨rfl, hlength⟩
          · rw [client_handle_read_loop_frame hmac_sha1 secret write_outcome fuel session
              hconnected (by omega) hvalid (by omega)]
            apply ih
            · exact take_frame_invariant hmac_sha1 secret write_outcome session hinvariant
                (by omega)
            · rw [(take_frame_client hmac_sha1 secret write_outcome session).2.1]
              have := (valid_request_length _ hvalid).1
              simp only [sizeof_PacketHeader] at this
              omega
    · refine ⟨session, ?_, hinvariant, ?_⟩
      · rw [client_handle_read_loop]
        simp only [hrun, Bool.false_eq_true, if_false]
      · intro hconnected
        left
        simp only [hconnected, Bool.not_false, Bool.true_and, decide_eq_true_eq] at hrun
        simp only [sizeof_PacketHeader]
        omega

theorem getD_take_append (buffer rest : List Byte) (used i : Nat) (hi : i < used)
    (hused : used ≤ buffer.length) :
    (buffer.take used ++ rest).getD i 0 = buffer.getD i 0 := by
  rw [List.getD_eq_getElem?_getD, List.getD_eq_getElem?_getD,
    List.getElem?_append_left (by rw [List.length_take]; omega), List.getElem?_take_of_lt hi]

/-- The header that is read from a buffer is made of its first eight bytes. -/
theorem header_of_bytes_take_append (buffer rest : List Byte) (used : Nat)
    (hheader : sizeof_PacketHeader ≤ used) (hused : used ≤ buffer.length) :
    (Packet.of_bytes (buffer.take used ++ rest)).header = (Packet.of_bytes buffer).header := by
  simp only [sizeof_PacketHeader] at hheader
  simp only [Packet.of_bytes]
  rw [getD_take_append buffer rest used 0 (by omega) hused,
    getD_take_append buffer rest used 1 (by omega) hused,
    getD_take_append buffer rest used 2 (by omega) hused,
    getD_take_append buffer rest used 3 (by omega) hused,
    getD_take_append buffer rest used 4 (by omega) hused,
    getD_take_append buffer rest used 5 (by omega) hused,
    getD_take_append buffer rest used 6 (by omega) hused,
    getD_take_append buffer rest used 7 (by omega) hused]

/-- `client_handle_read` when `io_read` has stored the bytes `chunk` (at least one). -/
theorem client_handle_read_data (hmac_sha1 : List Byte → List Byte → List Byte)
    (secret : List Byte) (write_outcome : Nat → IOWrite) (fuel : Nat)
    (session : ClientSession) (bytes : List Byte)
    (hchunk : bytes.take (sizeof_Packet - session.daemon.client.request_buffer_used) ≠ []) :
    client_handle_read hmac_sha1 secret write_outcome fuel session (IORead.data bytes)
      = client_handle_read_loop hmac_sha1 secret write_outcome fuel
          { session with
            daemon := session.daemon.set_request_buffer
              (session.daemon.client.request_buffer.take
                  session.daemon.client.request_buffer_used
                ++ bytes.take (sizeof_Packet - session.daemon.client.request_buffer_used)
                ++ session.daemon.client.request_buffer.drop
                  (session.daemon.client.request_buffer_used
                    + (bytes.take
                      (sizeof_Packet - session.daemon.client.request_buffer_used)).length))
              (session.daemon.client.request_buffer_used
                + (bytes.take
                  (sizeof_Packet - session.daemon.client.request_buffer_used)).length)
              session.daemon.client.request_header_checked } := by
  have hpos : 0 < (bytes.take
      (sizeof_Packet - session.daemon.client.request_buffer_used)).length :=
    List.length_pos.2 hchunk
  unfold client_handle_read
  simp only [io_read]
  have h1 : ¬ ((((bytes.take
      (sizeof_Packet - session.daemon.client.request_buffer_used)).length : Nat) : Int) == 0)
      = true := by
    simp only [beq_iff_eq]
    omega
  have h2 : ¬ ((((bytes.take
      (sizeof_Packet - session.daemon.client.request_buffer_used)).length : Nat) : Int) < 0) := by
    omega
  rw [if_neg h1, if_neg h2, Int.toNat_ofNat]

/-- `client_handle_read` when `io_read` returns 0. -/
theorem client_handle_read_closed (hmac_sha1 : List Byte → List Byte → List Byte)
    (secret : List Byte) (write_outcome : Nat → IOWrite) (fuel : Nat)
    (session : ClientSession) (bytes : List Byte)
    (hchunk : bytes.take (sizeof_Packet - session.daemon.client.request_buffer_used) = []) :
    client_handle_read hmac_sha1 secret write_outcome fuel session (IORead.data bytes)
      = some { session with daemon := session.daemon.disconnect } := by
  unfold client_handle_read
  simp only [io_read, hchunk, List.length_nil, Nat.cast_zero, beq_self_eq_true, if_true]

/-- `client_handle_read` when `io_read` returns a negative value. -/
theorem client_handle_read_failed (hmac_sha1 : List Byte → List Byte → List Byte)
    (secret : List Byte) (write_outcome : Nat → IOWrite) (fuel : Nat)
    (session : ClientSession) (read : IORead) (hread : ∀ bytes, read ≠ IORead.data bytes) :
    client_handle_read hmac_sha1 secret write_outcome fuel session read = some session ∨
    client_handle_read hmac_sha1 secret write_outcome fuel session read
      = some { session with daemon := session.daemon.disconnect } := by
  unfold client_handle_read
  cases read with
  | data bytes => exact absurd rfl (hread bytes)
  | io_continue => left; rfl
  | interrupted => left; rfl
  | would_block => left; rfl
  | connection_reset => right; rfl
  | error => right; rfl

/-- One call of `client_handle_read` keeps what holds of the request buffer between the
calls, and leaves less than one frame in the buffer of a client that is not marked
disconnected. -/
theorem client_handle_read_invariant (hmac_sha1 : List Byte → List Byte → List Byte)
    (secret : List Byte) (write_outcome : Nat → IOWrite) (fuel : Nat)
    (session : ClientSession) (read : IORead) (hfuel : sizeof_Packet < fuel)
    (hinvariant : request_buffer_invariant session.daemon.client)
    (hawaits : session.daemon.client.disconnected = false →
      awaits_bytes session.daemon.client) :
    ∃ result, client_handle_read hmac_sha1 secret write_outcome fuel session read
        = some result ∧
      request_buffer_invariant result.daemon.client ∧
      (result.daemon.client.disconnected = false → awaits_bytes result.daemon.client) := by
  have hdisconnect : request_buffer_invariant
      ({ session with daemon := session.daemon.disconnect } : ClientSession).daemon.client ∧
      (({ session with daemon := session.daemon.disconnect } :
          ClientSession).daemon.client.disconnected = false →
        awaits_bytes
          ({ session with daemon := session.daemon.disconnect } :
            ClientSession).daemon.client) :=
    ⟨hinvariant, fun h => absurd h (by simp [Daemon.disconnect])⟩
  by_cases hdata : ∃ bytes, read = IORead.data bytes
  · obtain ⟨bytes, hbytes⟩ := hdata
    subst hbytes
    by_cases hchunk : bytes.take (sizeof_Packet - session.daemon.client.request_buffer_used)
        = []
    · rw [client_handle_read_closed _ _ _ _ _ _ hchunk]
      exact ⟨_, rfl, hdisconnect⟩
    · rw [client_handle_read_data _ _ _ _ _ _ hchunk]
      obtain ⟨i1, i2, i3⟩ := hinvariant
      have hlength : (bytes.take
          (sizeof_Packet - session.daemon.client.request_buffer_used)).length
          ≤ sizeof_Packet - session.daemon.client.request_buffer_used := by
        rw [List.length_take]
        exact Nat.min_le_left _ _
      apply client_handle_read_loop_invariant
      · refine ⟨?_, ?_, ?_⟩
        · show (session.daemon.client.request_buffer.take
              session.daemon.client.request_buffer_used
            ++ bytes.take (sizeof_Packet - session.daemon.client.request_buffer_used)
            ++ session.daemon.client.request_buffer.drop
              (session.daemon.client.request_buffer_used
                + (bytes.take
                  (sizeof_Packet - session.daemon.client.request_buffer_used)).length)).length
            = sizeof_Packet
          simp only [List.length_append, List.length_drop, i1]
          rw [List.length_take, i1, min_eq_left i2]
          omega
        · show session.daemon.client.request_buffer_used
            + (bytes.take (sizeof_Packet - session.daemon.client.request_buffer_used)).length
            ≤ sizeof_Packet
          omega
        · intro hchecked
          have hchecked1 : session.daemon.client.request_header_checked = true := hchecked
          obtain ⟨h1, h2⟩ := i3 hchecked1
          refine ⟨?_, ?_⟩
          · show sizeof_PacketHeader ≤ session.daemon.client.request_buffer_used
              + (bytes.take
                (sizeof_Packet - session.daemon.client.request_buffer_used)).length
            omega
          · show (packet_header_is_valid_request (Packet.of_bytes
              (session.daemon.client.request_buffer.take
                  session.daemon.client.request_buffer_used
                ++ bytes.take (sizeof_Packet - session.daemon.client.request_buffer_used)
                ++ session.daemon.client.request_buffer.drop
                  (session.daemon.client.request_buffer_used
                    + (bytes.take (sizeof_Packet
                      - session.daemon.client.request_buffer_used)).length))).header).1 = true
            rw [List.append_assoc, header_of_bytes_take_append _ _ _ h1 (by omega)]
            exact h2
      · show session.daemon.client.request_buffer_used
          + (bytes.take (sizeof_Packet - session.daemon.client.request_buffer_used)).length
          < fuel
        omega
  · have hread : ∀ bytes, read ≠ IORead.data bytes := fun bytes h => hdata ⟨bytes, h⟩
    rcases client_handle_read_failed hmac_sha1 secret write_outcome fuel session read hread
      with h | h
    · exact ⟨_, h, hinvariant, hawaits⟩
    · exact ⟨_, h, hdisconnect⟩

/-! ## The bound of the request buffer (C13) -/

/-- A client that is not marked disconnected and whose buffer holds less than one frame
has room for at least one more byte. -/
theorem awaits_bytes_room (client : Client) (hinvariant : request_buffer_invariant client)
    (hawaits : awaits_bytes client) :
    1 ≤ sizeof_Packet - client.request_buffer_used := by
  obtain ⟨_, _, i3⟩ := hinvariant
  rcases hawaits with h | ⟨hchecked, h⟩
  · simp only [sizeof_PacketHeader] at h
    simp only [sizeof_Packet]
    omega
  · have := (valid_request_length _ (i3 hchecked).2).2
    omega

/-- C13: after every call of `client_handle_read` (made with enough fuel for its loop,
which then comes to its end), `request_buffer_used` is at most 80; and if the client is
not marked disconnected, the buffer holds less than one frame, that is, less than 8 bytes,
or a header that has been checked and less than `header.length` bytes, so that the next
`io_read` is asked for at least one byte. This holds for every sequence of calls, whatever
the `io_read` calls do, from a state of the request buffer as `client_create` leaves
it. -/
theorem client_handle_read_buffer_bound (hmac_sha1 : List Byte → List Byte → List Byte)
    (secret : List Byte) (write_outcome : Nat → IOWrite) (fuel : Nat)
    (session : ClientSession) (reads : List IORead) (hfuel : sizeof_Packet < fuel)
    (hinvariant : request_buffer_invariant session.daemon.client)
    (hawaits : session.daemon.client.disconnected = false →
      awaits_bytes session.daemon.client) :
    ∃ result, client_handle_reads hmac_sha1 secret write_outcome fuel session reads
        = some result ∧
      result.daemon.client.request_buffer_used ≤ 80 ∧
      (result.daemon.client.disconnected = false →
        (result.daemon.client.request_buffer_used < 8 ∨
          (result.daemon.client.request_header_checked = true ∧
            result.daemon.client.request_buffer_used
              < (Packet.of_bytes result.daemon.client.request_buffer).header.length.val)) ∧
        1 ≤ sizeof_Packet - result.daemon.client.request_buffer_used) ∧
      request_buffer_invariant result.daemon.client := by
  induction reads generalizing session with
  | nil =>
    refine ⟨session, rfl, hinvariant.2.1, ?_, hinvariant⟩
    intro hconnected
    exact ⟨hawaits hconnected, awaits_bytes_room _ hinvariant (hawaits hconnected)⟩
  | cons read reads ih =>
    obtain ⟨session1, hread, hinvariant1, hawaits1⟩ := client_handle_read_invariant hmac_sha1
      secret write_outcome fuel session read hfuel hinvariant hawaits
    obtain ⟨result, hresult, hbound⟩ := ih session1 hinvariant1 hawaits1
    refine ⟨result, ?_, hbound⟩
    rw [client_handle_reads, hread]
    exact hresult

/-- C13, at a client that has just been created and three reads: 5 bytes, a read that
would block, and 9 further bytes that complete a frame of 8 bytes and leave 6 bytes in the
buffer. -/
theorem client_handle_read_buffer_bound_witness :
    ∃ result, client_handle_reads example_hmac_sha1 [115] (fun _ => IOWrite.accept 80) 81
        (example_session ClientAuthenticationState.DISABLED)
        [IORead.data [2, 0, 0, 0, 8], IORead.would_block,
          IORead.data [1, 0x18, 0, 2, 0, 0, 0, 8, 1]] = some result ∧
      result.daemon.client.request_buffer_used ≤ 80 ∧
      (result.daemon.client.disconnected = false →
        1 ≤ sizeof_Packet - result.daemon.client.request_buffer_used) :=
  have h := client_handle_read_buffer_bound example_hmac_sha1 [115]
    (fun _ => IOWrite.accept 80) 81 (example_session ClientAuthenticationState.DISABLED)
    [IORead.data [2, 0, 0, 0, 8], IORead.would_block,
      IORead.data [1, 0x18, 0, 2, 0, 0, 0, 8, 1]]
    (by decide)
    ⟨by decide, by decide, fun h => absurd h (by decide)⟩
    (fun _ => Or.inl (by decide))
  h.elim fun result hresult => ⟨result, hresult.1, hresult.2.1, fun hc => (hresult.2.2.1 hc).2⟩

/-! ## Sessions that differ in the request buffer only -/

theorem same_handling_refl (a : ClientSession) : a.same_handling a := ⟨rfl, rfl⟩

theorem same_handling_symm {a b : ClientSession} (h : a.same_handling b) :
    b.same_handling a := ⟨h.1.symm, h.2.symm⟩

theorem same_handling_trans {a b c : ClientSession} (h1 : a.same_handling b)
    (h2 : b.same_handling c) : a.same_handling c := ⟨h1.1.trans h2.1, h1.2.trans h2.2⟩

theorem same_handling_disconnected {a b : ClientSession} (h : a.same_handling b) :
    a.daemon.client.disconnected = b.daemon.client.disconnected := by
  have h1 : (a.daemon.set_request_buffer [] 0 false).client.disconnected
      = (b.daemon.set_request_buffer [] 0 false).client.disconnected := by rw [h.2]
  exact h1

theorem same_handling_set_request_buffer (session : ClientSession) (buffer : List Byte)
    (used : Nat) (checked : Bool) :
    ClientSession.same_handling
      { session with daemon := session.daemon.set_request_buffer buffer used checked }
      session := ⟨rfl, rfl⟩

theorem same_handling_handle_request (hmac_sha1 : List Byte → List Byte → List Byte)
    (secret : List Byte) (write_outcome : Nat → IOWrite) {a b : ClientSession}
    (h : a.same_handling b) (request : Packet) :
    (a.handle_request hmac_sha1 secret write_outcome request).same_handling
      (b.handle_request hmac_sha1 secret write_outcome request) := by
  refine ⟨?_, ?_⟩
  · simp only [ClientSession.handle_request, h.1]
  · simp only [ClientSession.handle_request]
    rw [← client_handle_request_set_request_buffer, ← client_handle_request_set_request_buffer,
      h.1, h.2]

theorem dispatch_frames_disconnected (hmac_sha1 : List Byte → List Byte → List Byte)
    (secret : List Byte) (write_outcome : Nat → IOWrite) (session : ClientSession)
    (frames : List (List Byte)) (h : session.daemon.client.disconnected = true) :
    dispatch_frames hmac_sha1 secret write_outcome session frames = session := by
  cases frames with
  | nil => rfl
  | cons frame rest =>
    rw [dispatch_frames, if_pos h]

theorem dispatch_frames_append (hmac_sha1 : List Byte → List Byte → List Byte)
    (secret : List Byte) (write_outcome : Nat → IOWrite) (first second : List (List Byte)) :
    ∀ session : ClientSession,
      dispatch_frames hmac_sha1 secret write_outcome session (first ++ second)
        = dispatch_frames hmac_sha1 secret write_outcome
            (dispatch_frames hmac_sha1 secret write_outcome session first) second := by
  induction first with
  | nil =>
    intro session
    rfl
  | cons frame rest ih =>
    intro session
    rw [List.cons_append, dispatch_frames, dispatch_frames]
    by_cases h : session.daemon.client.disconnected = true
    · rw [if_pos h, if_pos h, dispatch_frames_disconnected _ _ _ _ _ h]
    · rw [if_neg h, if_neg h]
      split_ifs
      · exact ih _
      · exact ih _

theorem same_handling_dispatch_frames (hmac_sha1 : List Byte → List Byte → List Byte)
    (secret : List Byte) (write_outcome : Nat → IOWrite) (frames : List (List Byte)) :
    ∀ a b : ClientSession, a.same_handling b →
      (dispatch_frames hmac_sha1 secret write_outcome a frames).same_handling
        (dispatch_frames hmac_sha1 secret write_outcome b frames) := by
  induction frames with
  | nil =>
    intro a b h
    exact h
  | cons frame rest ih =>
    intro a b h
    rw [dispatch_frames, dispatch_frames, same_handling_disconnected h]
    by_cases hd : b.daemon.client.disconnected = true
    · rw [if_pos hd, if_pos hd]
      exact h
    · rw [if_neg hd, if_neg hd]
      split_ifs
      · exact ih a b h
      · exact ih _ _ (same_handling_handle_request hmac_sha1 secret write_outcome h _)

/-! ## Whole frames in the request buffer -/

theorem header_of_bytes_append (bytes rest : List Byte)
    (hheader : sizeof_PacketHeader ≤ bytes.length) :
    (Packet.of_bytes (bytes ++ rest)).header = (Packet.of_bytes bytes).header := by
  have h := header_of_bytes_take_append bytes rest bytes.length hheader (le_refl _)
  rw [List.take_length] at h
  exact h

theorem header_of_bytes_take (buffer : List Byte) (used : Nat)
    (hheader : sizeof_PacketHeader ≤ used) (hused : used ≤ buffer.length) :
    (Packet.of_bytes (buffer.take used)).header = (Packet.of_bytes buffer).header := by
  have h := header_of_bytes_take_append buffer [] used hheader hused
  rw [List.append_nil] at h
  exact h

theorem pending_bytes_length (client : Client)
    (hinvariant : request_buffer_invariant client) :
    client.pending_bytes.length = client.request_buffer_used := by
  unfold Client.pending_bytes
  rw [List.length_take, hinvariant.1]
  exact min_eq_left hinvariant.2.1

theorem valid_frame_iff (frame : List Byte) :
    valid_frame frame = true ↔
      (packet_header_is_valid_request (Packet.of_bytes frame).header).1 = true ∧
      frame.length = (Packet.of_bytes frame).header.length.val := by
  simp [valid_frame]

/-- A valid frame at the front of the bytes that are in use: what `client_handle_read`
reads from the buffer. -/
theorem frame_at_front (client : Client) (frame rest : List Byte)
    (hinvariant : request_buffer_invariant client)
    (hpending : client.pending_bytes = frame ++ rest)
    (hvalid : valid_frame frame = true) :
    (Packet.of_bytes client.request_buffer).header = (Packet.of_bytes frame).header ∧
    (Packet.of_bytes frame).header.length.val = frame.length ∧
    sizeof_PacketHeader ≤ frame.length ∧
    frame.length ≤ client.request_buffer_used ∧
    client.request_buffer.take frame.length = frame ∧
    (packet_header_is_valid_request (Packet.of_bytes frame).header).1 = true := by
  obtain ⟨hheader, hlength⟩ := (valid_frame_iff frame).1 hvalid
  have hlow : sizeof_PacketHeader ≤ frame.length := by
    rw [hlength]
    exact (valid_request_length _ hheader).1
  have hused : frame.length ≤ client.request_buffer_used := by
    rw [← pending_bytes_length client hinvariant, hpending, List.length_append]
    omega
  have htake : client.request_buffer.take frame.length = frame := by
    have h : (client.pending_bytes).take frame.length = frame := by
      rw [hpending, List.take_left']
      rfl
    unfold Client.pending_bytes at h
    rw [List.take_take, min_eq_left hused] at h
    exact h
  refine ⟨?_, hlength.symm, hlow, hused, htake, hheader⟩
  rw [← header_of_bytes_take client.request_buffer frame.length hlow
    (by rw [hinvariant.1]; exact le_trans hused hinvariant.2.1), htake]

/-- Taking a valid frame out of the buffer is handling that frame, and leaves the bytes
behind the frame in the buffer. -/
theorem take_frame_of_frame (hmac_sha1 : List Byte → List Byte → List Byte)
    (secret : List Byte) (write_outcome : Nat → IOWrite) (session : ClientSession)
    (frame rest : List Byte)
    (hinvariant : request_buffer_invariant session.daemon.client)
    (hconnected : session.daemon.client.disconnected = false)
    (hpending : session.daemon.client.pending_bytes = frame ++ rest)
    (hvalid : valid_frame frame = true) :
    (session.take_frame hmac_sha1 secret write_outcome).same_handling
      (dispatch_frames hmac_sha1 secret write_outcome session [frame]) ∧
    (session.take_frame hmac_sha1 secret write_outcome).daemon.client.pending_bytes = rest := by
  obtain ⟨hheader, hlength, hlow, hused, htake, _⟩ :=
    frame_at_front session.daemon.client frame rest hinvariant hpending hvalid
  refine ⟨?_, ?_⟩
  · have hdispatch : dispatch_frames hmac_sha1 secret write_outcome session [frame]
        = if (Packet.of_bytes frame).header.function_id.val == FUNCTION_DISCONNECT_PROBE then
            session
          else session.handle_request hmac_sha1 secret write_outcome (Packet.of_bytes frame) := by
      rw [dispatch_frames, if_neg (by simp [hconnected])]
      split_ifs <;> rfl
    rw [hdispatch]
    unfold ClientSession.take_frame
    simp only [hheader, hlength, htake]
    exact same_handling_set_request_buffer _ _ _ _
  · unfold Client.pending_bytes
    rw [(take_frame_client hmac_sha1 secret write_outcome session).1,
      (take_frame_client hmac_sha1 secret write_outcome session).2.1, hheader, hlength,
      memmove_take _ _ _ hused (by rw [hinvariant.1]; exact hinvariant.2.1)]
    have h : session.daemon.client.request_buffer.take
        session.daemon.client.request_buffer_used = frame ++ rest := hpending
    rw [h, List.drop_left']
    rfl

/-- The loop of `client_handle_read` when the bytes in use are less than one frame: nothing
is handled. -/
theorem client_handle_read_loop_incomplete (hmac_sha1 : List Byte → List Byte → List Byte)
    (secret : List Byte) (write_outcome : Nat → IOWrite) (fuel : Nat)
    (session : ClientSession)
    (hinvariant : request_buffer_invariant session.daemon.client)
    (hincomplete : incomplete_frame session.daemon.client.pending_bytes) :
    ∃ result, client_handle_read_loop hmac_sha1 secret write_outcome (fuel + 1) session
        = some result ∧
      result.same_handling session ∧
      request_buffer_invariant result.daemon.client ∧
      result.daemon.client.pending_bytes = session.daemon.client.pending_bytes ∧
      (result.daemon.client.disconnected = false → awaits_bytes result.daemon.client) := by
  have hlength := pending_bytes_length session.daemon.client hinvariant
  by_cases hrun : (!session.daemon.client.disconnected &&
      decide (session.daemon.client.request_buffer_used > 0)) = true
  · by_cases hheader : session.daemon.client.request_buffer_used < sizeof_PacketHeader
    · refine ⟨session, ?_, same_handling_refl _, hinvariant, rfl, fun _ => Or.inl hheader⟩
      rw [client_handle_read_loop]
      simp only [hrun, if_true, if_pos hheader]
    · rcases hincomplete with h | ⟨hvalid, hshort⟩
      · rw [hlength] at h
        exact absurd h hheader
      · have hsame : (Packet.of_bytes session.daemon.client.pending_bytes).header
            = (Packet.of_bytes session.daemon.client.request_buffer).header :=
          header_of_bytes_take _ _ (by omega) (by rw [hinvariant.1]; exact hinvariant.2.1)
        rw [hsame] at hvalid hshort
        rw [hlength] at hshort
        have hcheck : ¬ (!session.daemon.client.request_header_checked &&
            !(packet_header_is_valid_request
              (Packet.of_bytes session.daemon.client.request_buffer).header).1) = true := by
          simp [hvalid]
        refine ⟨{ session with
            daemon := session.daemon.set_request_buffer
              session.daemon.client.request_buffer
              session.daemon.client.request_buffer_used true }, ?_,
          same_handling_set_request_buffer _ _ _ _, ?_, rfl, ?_⟩
        · rw [client_handle_read_loop]
          simp only [hrun, if_true, if_neg hheader, if_neg hcheck, if_pos hshort]
        · have hwhole : sizeof_PacketHeader ≤ session.daemon.client.request_buffer_used := by
            omega
          exact ⟨hinvariant.1, hinvariant.2.1, fun _ => ⟨hwhole, hvalid⟩⟩
        · intro _
          exact Or.inr ⟨rfl, hshort⟩
  · refine ⟨session, ?_, same_handling_refl _, hinvariant, rfl, ?_⟩
    · rw [client_handle_read_loop]
      simp only [hrun, Bool.false_eq_true, if_false]
    · intro hconnected
      left
      simp only [hconnected, Bool.not_false, Bool.true_and, decide_eq_true_eq] at hrun
      simp only [sizeof_PacketHeader]
      omega

/-- The loop of `client_handle_read` when the bytes in use are the whole frames `frames`
and then less than one frame: the frames are handled one after the other, and what is
less than a frame stays in the buffer. -/
theorem client_handle_read_loop_frames (hmac_sha1 : List Byte → List Byte → List Byte)
    (secret : List Byte) (write_outcome : Nat → IOWrite) (frames : List (List Byte)) :
    ∀ (fuel : Nat) (session : ClientSession) (rest : List Byte),
      (∀ frame ∈ frames, valid_frame frame = true) →
      request_buffer_invariant session.daemon.client →
      session.daemon.client.pending_bytes = frames.flatten ++ rest →
      incomplete_frame rest →
      frames.length < fuel →
      ∃ result, client_handle_read_loop hmac_sha1 secret write_outcome fuel session
          = some result ∧
        result.same_handling
          (dispatch_frames hmac_sha1 secret write_outcome session frames) ∧
        request_buffer_invariant result.daemon.client ∧
        (result.daemon.client.disconnected = false →
          result.daemon.client.pending_bytes = rest ∧
          awaits_bytes result.daemon.client) := by
  induction frames with
  | nil =>
    intro fuel session rest _ hinvariant hpending hincomplete hfuel
    obtain ⟨fuel1, hfuel1⟩ : ∃ fuel1, fuel = fuel1 + 1 := ⟨fuel - 1, by omega⟩
    subst hfuel1
    rw [List.flatten_nil, List.nil_append] at hpending
    obtain ⟨result, h1, h2, h3, h4, h5⟩ := client_handle_read_loop_incomplete hmac_sha1 secret
      write_outcome fuel1 session hinvariant (hpending ▸ hincomplete)
    exact ⟨result, h1, h2, h3, fun hc => ⟨h4.trans hpending, h5 hc⟩⟩
  | cons frame frames ih =>
    intro fuel session rest hvalid hinvariant hpending hincomplete hfuel
    obtain ⟨fuel1, hfuel1⟩ : ∃ fuel1, fuel = fuel1 + 1 :=
      ⟨fuel - 1, by simp only [List.length_cons] at hfuel; omega⟩
    subst hfuel1
    cases hconnected : session.daemon.client.disconnected
    · rw [List.flatten_cons, List.append_assoc] at hpending
      have hframe := hvalid frame (List.mem_cons_self _ _)
      obtain ⟨hheader, hlength, hlow, hused, _, hvalid_header⟩ :=
        frame_at_front session.daemon.client frame _ hinvariant hpending hframe
      obtain ⟨hsame, hpending1⟩ := take_frame_of_frame hmac_sha1 secret write_outcome session
        frame _ hinvariant hconnected hpending hframe
      rw [client_handle_read_loop_frame hmac_sha1 secret write_outcome fuel1 session
        hconnected (le_trans hlow hused) (by rw [hheader]; exact hvalid_header)
        (by rw [hheader, hlength]; exact hused)]
      obtain ⟨result, h1, h2, h3, h4⟩ := ih fuel1
        (session.take_frame hmac_sha1 secret write_outcome) rest
        (fun f hf => hvalid f (List.mem_cons_of_mem _ hf))
        (take_frame_invariant hmac_sha1 secret write_outcome session hinvariant
          (by rw [hheader, hlength]; exact hused))
        hpending1 hincomplete (by simp only [List.length_cons] at hfuel; omega)
      refine ⟨result, h1, ?_, h3, h4⟩
      apply same_handling_trans h2
      have happend := dispatch_frames_append hmac_sha1 secret write_outcome [frame] frames
        session
      rw [List.singleton_append] at happend
      rw [happend]
      exact same_handling_dispatch_frames hmac_sha1 secret write_outcome frames _ _ hsame
    · refine ⟨session, ?_, ?_, hinvariant, ?_⟩
      · rw [client_handle_read_loop]
        simp [hconnected]
      · rw [dispatch_frames_disconnected _ _ _ _ _ hconnected]
        exact same_handling_refl _
      · intro h
        rw [hconnected] at h
        exact absurd h (by simp)

/-! ## A stream of frames, read in pieces -/

/-- What has been delivered of a stream of frames is a number of whole frames and less
than the next frame. -/
theorem flatten_prefix_split (frames : List (List Byte)) :
    ∀ (delivered rest : List Byte), delivered ++ rest = frames.flatten →
      ∃ (complete remaining : List (List Byte)) (part : List Byte),
        frames = complete ++ remaining ∧ delivered = complete.flatten ++ part ∧
        part ++ rest = remaining.flatten ∧
        (∀ frame ∈ remaining.head?, part.length < frame.length) := by
  induction frames with
  | nil =>
    intro delivered rest h
    rw [List.flatten_nil, List.append_eq_nil] at h
    exact ⟨[], [], [], rfl, by rw [h.1]; rfl, by rw [h.2]; rfl, by simp⟩
  | cons frame frames ih =>
    intro delivered rest h
    rw [List.flatten_cons] at h
    by_cases hshort : delivered.length < frame.length
    · refine ⟨[], frame :: frames, delivered, rfl, rfl, ?_, ?_⟩
      · rw [List.flatten_cons]
        exact h
      · intro f hf
        simp only [List.head?_cons, Option.mem_def, Option.some.injEq] at hf
        rw [← hf]
        exact hshort
    · have hsplit : ∃ delivered1, delivered = frame ++ delivered1 ∧
          delivered1 ++ rest = frames.flatten := by
        rcases List.append_eq_append_iff.1 h with ⟨a, h1, h2⟩ | ⟨c, h1, h2⟩
        · have ha : a = [] := by
            have hl := congrArg List.length h1
            rw [List.length_append] at hl
            exact List.length_eq_zero.1 (by omega)
          subst ha
          rw [List.append_nil] at h1
          rw [List.nil_append] at h2
          exact ⟨[], by rw [h1, List.append_nil], by rw [h2]; rfl⟩
        · exact ⟨c, h1, h2.symm⟩
      obtain ⟨delivered1, hd, hrest⟩ := hsplit
      obtain ⟨complete, remaining, part, h1, h2, h3, h4⟩ := ih delivered1 rest hrest
      refine ⟨frame :: complete, remaining, part, ?_, ?_, h3, h4⟩
      · rw [h1]
        rfl
      · rw [hd, h2, List.flatten_cons, List.append_assoc]

theorem frames_length_bound (frames : List (List Byte))
    (hvalid : ∀ frame ∈ frames, valid_frame frame = true) :
    8 * frames.length ≤ frames.flatten.length := by
  induction frames with
  | nil => simp
  | cons frame frames ih =>
    have h1 := (valid_frame_iff frame).1 (hvalid frame (List.mem_cons_self _ _))
    have h2 := (valid_request_length _ h1.1).1
    have h3 := ih (fun f hf => hvalid f (List.mem_cons_of_mem _ hf))
    simp only [sizeof_PacketHeader] at h2
    rw [List.flatten_cons, List.length_append, List.length_cons]
    omega

/-- Less than a valid frame, taken from its front, is less than one frame for
`client_handle_read`. -/
theorem incomplete_frame_of_front (part rest : List Byte) (remaining : List (List Byte))
    (hvalid : ∀ frame ∈ remaining, valid_frame frame = true)
    (hrest : part ++ rest = remaining.flatten)
    (hshort : ∀ frame ∈ remaining.head?, part.length < frame.length) :
    incomplete_frame part := by
  cases remaining with
  | nil =>
    rw [List.flatten_nil, List.append_eq_nil] at hrest
    left
    rw [hrest.1]
    simp [sizeof_PacketHeader]
  | cons frame frames =>
    have hlt : part.length < frame.length := hshort frame (by simp)
    by_cases hheader : part.length < sizeof_PacketHeader
    · exact Or.inl hheader
    · right
      obtain ⟨h1, h2⟩ := (valid_frame_iff frame).1 (hvalid frame (List.mem_cons_self _ _))
      rw [List.flatten_cons] at hrest
      have hfront : ∃ tail, frame = part ++ tail := by
        rcases List.append_eq_append_iff.1 hrest with ⟨a, h3, _⟩ | ⟨c, h3, _⟩
        · exact ⟨a, h3⟩
        · have hl := congrArg List.length h3
          rw [List.length_append] at hl
          omega
      obtain ⟨tail, htail⟩ := hfront
      have hsame : (Packet.of_bytes frame).header = (Packet.of_bytes part).header := by
        rw [htail]
        exact header_of_bytes_append part tail (by omega)
      rw [← hsame]
      exact ⟨h1, by rw [← h2]; exact hlt⟩

theorem disconnect_of_disconnected (daemon : Daemon)
    (h : daemon.client.disconnected = true) : daemon.disconnect = daemon := by
  obtain ⟨client, pending_requests, allocated, writer_writes, hardware_requests⟩ := daemon
  obtain ⟨disconnected, b, c, d, e, f, g, i, j⟩ := client
  simp only at h
  subst h
  rfl

/-- The session in which `client_handle_read` starts its loop after `io_read` has stored
the bytes `chunk` behind the bytes in use. -/
theorem read_data_session (session : ClientSession) (chunk : List Byte)
    (hinvariant : request_buffer_invariant session.daemon.client)
    (hroom : chunk.length ≤ sizeof_Packet - session.daemon.client.request_buffer_used) :
    request_buffer_invariant
      (session.daemon.set_request_buffer
        (session.daemon.client.request_buffer.take session.daemon.client.request_buffer_used
          ++ chunk
          ++ session.daemon.client.request_buffer.drop
            (session.daemon.client.request_buffer_used + chunk.length))
        (session.daemon.client.request_buffer_used + chunk.length)
        session.daemon.client.request_header_checked).client ∧
    (session.daemon.set_request_buffer
        (session.daemon.client.request_buffer.take session.daemon.client.request_buffer_used
          ++ chunk
          ++ session.daemon.client.request_buffer.drop
            (session.daemon.client.request_buffer_used + chunk.length))
        (session.daemon.client.request_buffer_used + chunk.length)
        session.daemon.client.request_header_checked).client.pending_bytes
      = session.daemon.client.pending_bytes ++ chunk := by
  obtain ⟨i1, i2, i3⟩ := hinvariant
  have htake : (session.daemon.client.request_buffer.take
      session.daemon.client.request_buffer_used).length
      = session.daemon.client.request_buffer_used := by
    rw [List.length_take, i1]
    exact min_eq_left i2
  refine ⟨⟨?_, ?_, ?_⟩, ?_⟩
  · show (session.daemon.client.request_buffer.take session.daemon.client.request_buffer_used
        ++ chunk
        ++ session.daemon.client.request_buffer.drop
          (session.daemon.client.request_buffer_used + chunk.length)).length = sizeof_Packet
    simp only [List.length_append, List.length_drop, i1, htake]
    omega
  · show session.daemon.client.request_buffer_used + chunk.length ≤ sizeof_Packet
    omega
  · intro hchecked
    have hchecked1 : session.daemon.client.request_header_checked = true := hchecked
    obtain ⟨h1, h2⟩ := i3 hchecked1
    refine ⟨?_, ?_⟩
    · show sizeof_PacketHeader ≤ session.daemon.client.request_buffer_used + chunk.length
      omega
    · show (packet_header_is_valid_request (Packet.of_bytes
        (session.daemon.client.request_buffer.take session.daemon.client.request_buffer_used
          ++ chunk
          ++ session.daemon.client.request_buffer.drop
            (session.daemon.client.request_buffer_used + chunk.length))).header).1 = true
      rw [List.append_assoc, header_of_bytes_take_append _ _ _ h1 (by omega)]
      exact h2
  · show (session.daemon.client.request_buffer.take session.daemon.client.request_buffer_used
        ++ chunk
        ++ session.daemon.client.request_buffer.drop
          (session.daemon.client.request_buffer_used + chunk.length)).take
        (session.daemon.client.request_buffer_used + chunk.length)
      = session.daemon.client.request_buffer.take session.daemon.client.request_buffer_used
        ++ chunk
    rw [List.take_append_of_le_length (by rw [List.length_append, htake])]
    rw [List.take_of_length_le (by rw [List.length_append, htake])]

theorem client_handle_read_loop_disconnected
    (hmac_sha1 : List Byte → List Byte → List Byte) (secret : List Byte)
    (write_outcome : Nat → IOWrite) (fuel : Nat) (session : ClientSession)
    (hdisconnected : session.daemon.client.disconnected = true) :
    client_handle_read_loop hmac_sha1 secret write_outcome (fuel + 1) session
      = some session := by
  rw [client_handle_read_loop]
  simp only [hdisconnected, Bool.not_true, Bool.false_and, Bool.false_eq_true, if_false]

/-- `client_handle_read` for a client that is marked disconnected handles no request and
leaves the client marked disconnected. -/
theorem client_handle_read_disconnected (hmac_sha1 : List Byte → List Byte → List Byte)
    (secret : List Byte) (write_outcome : Nat → IOWrite) (fuel : Nat)
    (session : ClientSession) (read : IORead)
    (hdisconnected : session.daemon.client.disconnected = true) :
    ∃ result, client_handle_read hmac_sha1 secret write_outcome (fuel + 1) session read
        = some result ∧
      result.same_handling session ∧ result.daemon.client.disconnected = true := by
  have hdisconnect : ({ session with daemon := session.daemon.disconnect } : ClientSession)
      = session := by
    rw [disconnect_of_disconnected _ hdisconnected]
  by_cases hdata : ∃ bytes, read = IORead.data bytes
  · obtain ⟨bytes, hbytes⟩ := hdata
    subst hbytes
    by_cases hchunk : bytes.take (sizeof_Packet - session.daemon.client.request_buffer_used)
        = []
    · rw [client_handle_read_closed _ _ _ _ _ _ hchunk, hdisconnect]
      exact ⟨session, rfl, same_handling_refl _, hdisconnected⟩
    · rw [client_handle_read_data _ _ _ _ _ _ hchunk]
      exact ⟨_, client_handle_read_loop_disconnected _ _ _ _ _ hdisconnected,
        same_handling_set_request_buffer session _ _ _, hdisconnected⟩
  · have hread : ∀ bytes, read ≠ IORead.data bytes := fun bytes h => hdata ⟨bytes, h⟩
    rcases client_handle_read_failed hmac_sha1 secret write_outcome (fuel + 1) session read
      hread with h | h
    · exact ⟨_, h, same_handling_refl _, hdisconnected⟩
    · rw [hdisconnect] at h
      exact ⟨_, h, same_handling_refl _, hdisconnected⟩

/-- When the stream is used up, all frames have been handled. -/
theorem dispatch_frames_nothing_left (hmac_sha1 : List Byte → List Byte → List Byte)
    (secret : List Byte) (write_outcome : Nat → IOWrite) (session : ClientSession)
    (frames : List (List Byte))
    (h : session.daemon.client.disconnected = false →
      session.daemon.client.pending_bytes = frames.flatten ∧
      (∀ frame ∈ frames.head?, session.daemon.client.pending_bytes.length < frame.length)) :
    session.same_handling (dispatch_frames hmac_sha1 secret write_outcome session frames) := by
  cases hconnected : session.daemon.client.disconnected
  · obtain ⟨h1, h2⟩ := h hconnected
    cases frames with
    | nil => exact same_handling_refl _
    | cons frame rest =>
      have h3 := h2 frame (by simp)
      rw [h1, List.flatten_cons, List.length_append] at h3
      omega
  · rw [dispatch_frames_disconnected _ _ _ _ _ hconnected]
    exact same_handling_refl _

/-- Reading a stream of valid frames in pieces handles the frames one after the other. -/
theorem client_read_stream_frames (hmac_sha1 : List Byte → List Byte → List Byte)
    (secret : List Byte) (write_outcome : Nat → IOWrite) (fuel : Nat)
    (hfuel : sizeof_Packet < fuel) :
    ∀ (available : List Nat), (∀ a ∈ available, 1 ≤ a) →
      ∀ (session : ClientSession) (stream : List Byte) (frames : List (List Byte)),
        (∀ frame ∈ frames, valid_frame frame = true) →
        (session.daemon.client.disconnected = false →
          stream.length ≤ available.length ∧
          request_buffer_invariant session.daemon.client ∧
          awaits_bytes session.daemon.client ∧
          session.daemon.client.pending_bytes ++ stream = frames.flatten ∧
          (∀ frame ∈ frames.head?,
            session.daemon.client.pending_bytes.length < frame.length)) →
        ∃ result, client_read_stream hmac_sha1 secret write_outcome fuel session stream
            available = some result ∧
          result.same_handling
            (dispatch_frames hmac_sha1 secret write_outcome session frames) := by
  obtain ⟨fuel1, hfuel1⟩ : ∃ fuel1, fuel = fuel1 + 1 := ⟨fuel - 1, by omega⟩
  intro available
  induction available with
  | nil =>
    intro _ session stream frames _ h
    refine ⟨session, rfl, ?_⟩
    apply dispatch_frames_nothing_left
    intro hconnected
    obtain ⟨h1, _, _, h4, h5⟩ := h hconnected
    have hstream : stream = [] := List.length_eq_zero.1 (by simpa using h1)
    rw [hstream, List.append_nil] at h4
    exact ⟨h4, h5⟩
  | cons a rest ih =>
    intro havailable session stream frames hvalid h
    have hrest : ∀ a ∈ rest, 1 ≤ a := fun x hx => havailable x (List.mem_cons_of_mem _ hx)
    have ha : 1 ≤ a := havailable a (List.mem_cons_self _ _)
    by_cases hempty : stream = []
    · refine ⟨session, ?_, ?_⟩
      · rw [client_read_stream, hempty]
        rfl
      · apply dispatch_frames_nothing_left
        intro hconnected
        obtain ⟨_, _, _, h4, h5⟩ := h hconnected
        rw [hempty, List.append_nil] at h4
        exact ⟨h4, h5⟩
    · have hnonempty : stream.isEmpty = false := by
        cases stream with
        | nil => exact absurd rfl hempty
        | cons _ _ => rfl
      have hstream_pos : 0 < stream.length := List.length_pos.2 hempty
      rw [client_read_stream]
      simp only [hnonempty, Bool.false_eq_true, if_false]
      cases hconnected : session.daemon.client.disconnected
      · obtain ⟨hlength, hinvariant, hawaits, hstream, hhead⟩ := h hconnected
        have hroom := awaits_bytes_room _ hinvariant hawaits
        have hused := pending_bytes_length _ hinvariant
        have htake : (stream.take a).take
            (sizeof_Packet - session.daemon.client.request_buffer_used)
            = stream.take (min a (sizeof_Packet - session.daemon.client.request_buffer_used)) := by
          rw [List.take_take, Nat.min_comm]
        have hchunk_length : (stream.take
            (min a (sizeof_Packet - session.daemon.client.request_buffer_used))).length
            = min (min a (sizeof_Packet - session.daemon.client.request_buffer_used))
              stream.length := List.length_take _ _
        have hchunk : (stream.take a).take
            (sizeof_Packet - session.daemon.client.request_buffer_used) ≠ [] := by
          rw [htake]
          apply List.ne_nil_of_length_pos
          rw [hchunk_length]
          omega
        rw [client_handle_read_data _ _ _ _ _ _ hchunk, htake]
        obtain ⟨hinvariant0, hpending0⟩ := read_data_session session
          (stream.take (min a (sizeof_Packet - session.daemon.client.request_buffer_used)))
          hinvariant (by rw [hchunk_length]; omega)
        obtain ⟨session1, hsession1⟩ : ∃ session1 : ClientSession, session1 =
            { session with
              daemon := session.daemon.set_request_buffer
                (session.daemon.client.request_buffer.take
                    session.daemon.client.request_buffer_used
                  ++ stream.take
                    (min a (sizeof_Packet - session.daemon.client.request_buffer_used))
                  ++ session.daemon.client.request_buffer.drop
                    (session.daemon.client.request_buffer_used
                      + (stream.take (min a (sizeof_Packet
                        - session.daemon.client.request_buffer_used))).length))
                (session.daemon.client.request_buffer_used
                  + (stream.take (min a (sizeof_Packet
                    - session.daemon.client.request_buffer_used))).length)
                session.daemon.client.request_header_checked } := ⟨_, rfl⟩
        rw [← hsession1]
        have hinvariant1 : request_buffer_invariant session1.daemon.client := by
          rw [hsession1]
          exact hinvariant0
        have hpending1 : session1.daemon.client.pending_bytes
            = session.daemon.client.pending_bytes ++ stream.take
              (min a (sizeof_Packet - session.daemon.client.request_buffer_used)) := by
          rw [hsession1]
          exact hpending0
        have hsame0 : session1.same_handling session := by
          rw [hsession1]
          exact same_handling_set_request_buffer session _ _ _
        obtain ⟨complete, remaining, part, hframes, hdelivered, hpart, hshort⟩ :=
          flatten_prefix_split frames
            (session.daemon.client.pending_bytes ++ stream.take
              (min a (sizeof_Packet - session.daemon.client.request_buffer_used)))
            (stream.drop (min a (sizeof_Packet - session.daemon.client.request_buffer_used)))
            (by rw [List.append_assoc, List.take_append_drop]; exact hstream)
        have hvalid_complete : ∀ frame ∈ complete, valid_frame frame = true := fun f hf =>
          hvalid f (by rw [hframes]; exact List.mem_append_left _ hf)
        have hvalid_remaining : ∀ frame ∈ remaining, valid_frame frame = true := fun f hf =>
          hvalid f (by rw [hframes]; exact List.mem_append_right _ hf)
        have hincomplete := incomplete_frame_of_front part _ remaining hvalid_remaining hpart hshort
        have hcount : complete.length < fuel := by
          have h1 := frames_length_bound complete hvalid_complete
          have h2 : session1.daemon.client.request_buffer_used
              = complete.flatten.length + part.length := by
            rw [← pending_bytes_length _ hinvariant1, hpending1, hdelivered,
              List.length_append]
          have h3 : session1.daemon.client.request_buffer_used ≤ sizeof_Packet :=
            hinvariant1.2.1
          omega
        obtain ⟨result1, hloop, hsame1, hinvariant2, hconnected2⟩ :=
          client_handle_read_loop_frames hmac_sha1 secret write_outcome complete fuel session1
            part hvalid_complete hinvariant1 (hpending1.trans hdelivered) hincomplete hcount
        rw [hloop]
        obtain ⟨result, hresult, hsame⟩ := ih hrest result1
          (stream.drop (min a (sizeof_Packet - session.daemon.client.request_buffer_used)))
          remaining hvalid_remaining
          (by
            intro hc
            obtain ⟨h1, h2⟩ := hconnected2 hc
            refine ⟨?_, hinvariant2, h2, by rw [h1]; exact hpart, by rw [h1]; exact hshort⟩
            rw [List.length_drop]
            simp only [List.length_cons] at hlength
            omega)
        refine ⟨result, hresult, ?_⟩
        apply same_handling_trans hsame
        apply same_handling_trans
          (same_handling_dispatch_frames hmac_sha1 secret write_outcome remaining _ _ hsame1)
        rw [← dispatch_frames_append, ← hframes]
        exact same_handling_dispatch_frames hmac_sha1 secret write_outcome frames _ _ hsame0
      · subst hfuel1
        obtain ⟨result1, hread, hsame1, hdisconnected1⟩ := client_handle_read_disconnected
          hmac_sha1 secret write_outcome fuel1 session (IORead.data (stream.take a))
          hconnected
        rw [hread]
        obtain ⟨result, hresult, hsame⟩ := ih hrest result1
          (stream.drop (min a (sizeof_Packet - session.daemon.client.request_buffer_used)))
          frames hvalid
          (by
            intro hc
            rw [hdisconnected1] at hc
            exact absurd hc (by simp))
        refine ⟨result, hresult, ?_⟩
        rw [dispatch_frames_disconnected _ _ _ _ _ hdisconnected1] at hsame
        rw [dispatch_frames_disconnected _ _ _ _ _ hconnected]
        exact same_handling_trans hsame hsame1

/-! ## Stream reassembly (C12) -/

/-- A packet read from at least eight bytes consists of exactly these bytes. -/
theorem of_bytes_bytes (bytes : List Byte) (h : sizeof_PacketHeader ≤ bytes.length) :
    (Packet.of_bytes bytes).bytes = bytes := by
  simp only [sizeof_PacketHeader] at h
  match bytes, h with
  | b0 :: b1 :: b2 :: b3 :: b4 :: b5 :: b6 :: b7 :: rest, _ => rfl

/-- The requests that `dispatch_frames` passes on are the frames that are no disconnect
probes, in their order, up to the one after which the client is marked disconnected; they
are all of them if the client is not marked disconnected in the end. -/
theorem dispatch_frames_requests (hmac_sha1 : List Byte → List Byte → List Byte)
    (secret : List Byte) (write_outcome : Nat → IOWrite) (frames : List (List Byte)) :
    ∀ session : ClientSession,
      (∃ k, (dispatch_frames hmac_sha1 secret write_outcome session frames).requests
        = session.requests
          ++ ((frames.filter is_request_frame).map Packet.of_bytes).take k) ∧
      ((dispatch_frames hmac_sha1 secret write_outcome session
          frames).daemon.client.disconnected = false →
        (dispatch_frames hmac_sha1 secret write_outcome session frames).requests
          = session.requests ++ (frames.filter is_request_frame).map Packet.of_bytes) := by
  induction frames with
  | nil =>
    intro session
    exact ⟨⟨0, by simp [dispatch_frames]⟩, fun _ => by simp [dispatch_frames]⟩
  | cons frame frames ih =>
    intro session
    rw [dispatch_frames]
    by_cases hd : session.daemon.client.disconnected = true
    · rw [if_pos hd]
      refine ⟨⟨0, by simp⟩, ?_⟩
      intro h
      rw [hd] at h
      exact absurd h (by simp)
    · rw [if_neg hd]
      by_cases hprobe : ((Packet.of_bytes frame).header.function_id.val
          == FUNCTION_DISCONNECT_PROBE) = true
      · rw [if_pos hprobe]
        have hfilter : (frame :: frames).filter is_request_frame
            = frames.filter is_request_frame := by
          rw [List.filter_cons_of_neg]
          simp [is_request_frame, hprobe]
        rw [hfilter]
        exact ih session
      · rw [if_neg hprobe]
        have hfilter : (frame :: frames).filter is_request_frame
            = frame :: frames.filter is_request_frame := by
          rw [List.filter_cons_of_pos]
          simp only [is_request_frame, Bool.not_eq_true'] 
          simpa using hprobe
        rw [hfilter]
        obtain ⟨⟨k, hk⟩, hall⟩ := ih
          (session.handle_request hmac_sha1 secret write_outcome (Packet.of_bytes frame))
        refine ⟨⟨k + 1, ?_⟩, ?_⟩
        · rw [hk]
          simp [ClientSession.handle_request]
        · intro h
          rw [hall h]
          simp [ClientSession.handle_request]

/-- C12: let a byte stream be made of frames with valid request headers, and let it be
taken from the socket by successive calls of `client_handle_read` for a client with an
empty request buffer, each call reading at least one byte (as many as have arrived and as
`io_read` is asked for), until the stream is used up. Then, however the stream is cut into
reads, the requests passed to `client_handle_request` are those that handling the frames
one by one passes on: the frames that are no disconnect probes, in the order of the
stream, up to and including the first one after which the client is marked disconnected,
each as a packet of exactly the bytes of its frame. -/
theorem stream_reassembly (hmac_sha1 : List Byte → List Byte → List Byte)
    (secret : List Byte) (write_outcome : Nat → IOWrite) (fuel : Nat)
    (session : ClientSession) (frames : List (List Byte)) (available : List Nat)
    (hfuel : sizeof_Packet < fuel)
    (hinvariant : request_buffer_invariant session.daemon.client)
    (hempty : session.daemon.client.request_buffer_used = 0)
    (hframes : ∀ frame ∈ frames, valid_frame frame = true)
    (havailable : ∀ a ∈ available, 1 ≤ a)
    (hall : frames.flatten.length ≤ available.length) :
    ∃ result, client_read_stream hmac_sha1 secret write_outcome fuel session frames.flatten
        available = some result ∧
      result.requests
        = (dispatch_frames hmac_sha1 secret write_outcome session frames).requests ∧
      result.daemon.client.disconnected
        = (dispatch_frames hmac_sha1 secret write_outcome session
            frames).daemon.client.disconnected ∧
      (∃ k, result.requests = session.requests
        ++ ((frames.filter is_request_frame).map Packet.of_bytes).take k) ∧
      (result.daemon.client.disconnected = false →
        result.requests
          = session.requests ++ (frames.filter is_request_frame).map Packet.of_bytes) ∧
      (∀ frame ∈ frames, (Packet.of_bytes frame).bytes = frame ∧
        frame.length = (Packet.of_bytes frame).header.length.val) := by
  have hpending : session.daemon.client.pending_bytes = [] := by
    unfold Client.pending_bytes
    rw [hempty]
    rfl
  obtain ⟨result, hresult, hsame⟩ := client_read_stream_frames hmac_sha1 secret write_outcome
    fuel hfuel available havailable session frames.flatten frames hframes
    (by
      intro _
      refine ⟨hall, hinvariant, Or.inl (by rw [hempty]; decide), by rw [hpending]; rfl, ?_⟩
      intro frame hframe
      rw [hpending]
      have hmem : frame ∈ frames := List.mem_of_mem_head? hframe
      have h1 := (valid_frame_iff frame).1 (hframes frame hmem)
      have h2 := (valid_request_length _ h1.1).1
      simp only [sizeof_PacketHeader] at h2
      rw [List.length_nil]
      omega)
  obtain ⟨hfront, hcomplete⟩ := dispatch_frames_requests hmac_sha1 secret write_outcome frames
    session
  have hdisconnected := same_handling_disconnected hsame
  refine ⟨result, hresult, hsame.1, hdisconnected, ?_, ?_, ?_⟩
  · rw [hsame.1]
    exact hfront
  · intro h
    rw [hsame.1]
    exact hcomplete (by rw [← hdisconnected]; exact h)
  · intro frame hframe
    have h1 := (valid_frame_iff frame).1 (hframes frame hframe)
    have h2 := (valid_request_length _ h1.1).1
    exact ⟨of_bytes_bytes frame (by rw [h1.2]; exact h2), h1.2⟩

/-- C12, at a client that has just been created (authentication disabled) and the stream
of a disconnect probe of 8 bytes and a request of 10 bytes, read one byte at a time: the
request is the one packet passed to `client_handle_request`. -/
theorem stream_reassembly_witness :
    ∃ result, client_read_stream example_hmac_sha1 [115] (fun _ => IOWrite.accept 80) 81
        (example_session ClientAuthenticationState.DISABLED)
        (example_probe_frame ++ example_request_frame) (List.replicate 18 1) = some result ∧
      result.requests = [Packet.of_bytes example_request_frame] :=
  have h := stream_reassembly example_hmac_sha1 [115] (fun _ => IOWrite.accept 80) 81
    (example_session ClientAuthenticationState.DISABLED)
    [example_probe_frame, example_request_frame] (List.replicate 18 1)
    (by decide)
    ⟨by decide, by decide, fun h => absurd h (by decide)⟩
    rfl (by decide) (by decide) (by decide)
  h.elim fun result hresult =>
    ⟨result, by simpa using hresult.1, by
      have h1 := hresult.2.2.2.2.1
      have h2 := hresult.2.2.1
      rw [h2] at h1
      exact h1 (by decide)⟩

/-! ## `crc16` and the change of one byte (C21) -/

set_option maxRecDepth 1000000 in
/-- No two entries of `table_crc_lo` are equal. -/
theorem table_crc_lo_nodup : table_crc_lo.Nodup := by
  decide

set_option maxRecDepth 100000 in
theorem table_crc_lo_length : table_crc_lo.length = 256 := by
  decide

/-- Two indices below 256 with the same entry of `table_crc_lo` are equal. -/
theorem table_crc_lo_injective (i j : Nat) (hi : i < 256) (hj : j < 256)
    (h : table_crc_lo.getD i 0 = table_crc_lo.getD j 0) : i = j := by
  have hi1 : i < table_crc_lo.length := by rw [table_crc_lo_length]; exact hi
  have hj1 : j < table_crc_lo.length := by rw [table_crc_lo_length]; exact hj
  rw [List.getD_eq_getElem _ _ hi1, List.getD_eq_getElem _ _ hj1] at h
  exact (List.Nodup.getElem_inj_iff table_crc_lo_nodup).1 h

theorem xor_byte_lt (a b : Byte) : a.val ^^^ b.val < 256 :=
  Nat.xor_lt_two_pow (n := 8) a.is_lt b.is_lt

/-- One pass of the loop of `crc16` loses nothing of `crc_hi`, `crc_lo` and the byte: for
the same byte, different values of `crc_hi` and `crc_lo` stay different. -/
theorem crc16_step_injective (byte : Byte) (crc1 crc2 : Byte × Byte)
    (h : crc16_step crc1 byte = crc16_step crc2 byte) : crc1 = crc2 := by
  obtain ⟨hi1, lo1⟩ := crc1
  obtain ⟨hi2, lo2⟩ := crc2
  simp only [crc16_step, Prod.mk.injEq] at h
  obtain ⟨hhi, hlo⟩ := h
  have hindex := table_crc_lo_injective _ _ (xor_byte_lt hi1 byte) (xor_byte_lt hi2 byte) hlo
  have h1 : hi1 = hi2 := Fin.ext (Nat.xor_left_injective hindex)
  subst h1
  have h2 := congrArg Fin.val hhi
  simp only [u8] at h2
  rw [Nat.mod_eq_of_lt (xor_byte_lt lo1 _), Nat.mod_eq_of_lt (xor_byte_lt lo2 _)] at h2
  have h3 : lo1 = lo2 := Fin.ext (Nat.xor_left_injective h2)
  rw [h3]

/-- For the same `crc_hi` and `crc_lo`, different bytes give different results. -/
theorem crc16_step_byte_injective (crc : Byte × Byte) (byte1 byte2 : Byte)
    (h : crc16_step crc byte1 = crc16_step crc byte2) : byte1 = byte2 := by
  simp only [crc16_step, Prod.mk.injEq] at h
  have hindex := table_crc_lo_injective _ _ (xor_byte_lt crc.1 byte1)
    (xor_byte_lt crc.1 byte2) h.2
  exact Fin.ext (Nat.xor_right_injective hindex)

theorem crc16_foldl_injective (bytes : List Byte) (crc1 crc2 : Byte × Byte)
    (h : bytes.foldl crc16_step crc1 = bytes.foldl crc16_step crc2) : crc1 = crc2 := by
  induction bytes generalizing crc1 crc2 with
  | nil => exact h
  | cons byte rest ih =>
    rw [List.foldl_cons, List.foldl_cons] at h
    exact crc16_step_injective byte _ _ (ih _ _ h)

/-- C21: `crc16` detects every change of a single byte. For every buffer of 1 to 65535
bytes (the lengths that the `uint16_t` parameter `buffer_length` can hold), every index
`i` into it and every byte `v` other than the byte at `i`, the `crc16` of the buffer with
`v` at `i` is not the `crc16` of the buffer. -/
theorem crc16_detects_single_byte_change (buffer : List Byte) (i : Nat) (v : Byte)
    (_hlow : 1 ≤ buffer.length) (_hhigh : buffer.length ≤ 65535) (hi : i < buffer.length)
    (hv : v ≠ buffer.getD i 0) :
    crc16 (buffer.set i v) buffer.length ≠ crc16 buffer buffer.length := by
  intro h
  rw [crc16_eq, crc16_eq] at h
  have hlength : (buffer.set i v).length = buffer.length := List.length_set _ _ _
  rw [List.take_of_length_le (le_of_eq hlength), List.take_of_length_le (le_refl _)] at h
  have h1 := Fin.is_lt ((buffer.set i v).foldl crc16_step (0xFF, 0xFF)).2
  have h2 := Fin.is_lt (buffer.foldl crc16_step (0xFF, 0xFF)).2
  have hstate : (buffer.set i v).foldl crc16_step (0xFF, 0xFF)
      = buffer.foldl crc16_step (0xFF, 0xFF) := by
    apply Prod.ext
    · apply Fin.ext
      omega
    · apply Fin.ext
      omega
  have hsplit : buffer = buffer.take i ++ buffer.getD i 0 :: buffer.drop (i + 1) := by
    rw [List.getD_eq_getElem _ _ hi]
    simp
  have hset : buffer.set i v = buffer.take i ++ v :: buffer.drop (i + 1) := by
    rw [List.set_eq_take_append_cons_drop, if_pos hi]
  rw [hset] at hstate
  nth_rewrite 3 [hsplit] at hstate
  rw [List.foldl_append, List.foldl_append, List.foldl_cons, List.foldl_cons] at hstate
  exact hv (crc16_step_byte_injective _ _ _ (crc16_foldl_injective _ _ _ hstate))

/-- C21 at the buffer 01 02 03, with 07 in the place of 02. -/
theorem crc16_detects_single_byte_change_witness :
    crc16 ([1, 2, 3].set 1 7) 3 ≠ crc16 [1, 2, 3] 3 :=
  crc16_detects_single_byte_change [1, 2, 3] 1 7 (by decide) (by decide) (by decide)
    (by decide)

/-! ## The Base58 alphabet -/

set_option maxRecDepth 100000 in
theorem base58_alphabet_length : _base58_alphabet.length = 58 := by decide

set_option maxRecDepth 100000 in
theorem base58_alphabet_strlen : strlen _base58_alphabet = 58 := by decide

set_option maxRecDepth 100000 in
theorem base58_alphabet_no_nul : NUL ∉ _base58_alphabet := by decide

set_option maxRecDepth 100000 in
/-- The alphabet has none of the characters 0, l, I and O. -/
theorem base58_alphabet_omits : '0' ∉ _base58_alphabet ∧ 'l' ∉ _base58_alphabet ∧
    'I' ∉ _base58_alphabet ∧ 'O' ∉ _base58_alphabet := by decide

set_option maxRecDepth 100000 in
theorem base58_alphabet_indexOf :
    ∀ digit : Fin 58, _base58_alphabet.indexOf (_base58_alphabet.getD digit.val NUL)
      = digit.val := by decide

theorem base58_alphabet_getD_mem (digit : Nat) (hdigit : digit < 58) :
    _base58_alphabet.getD digit NUL ∈ _base58_alphabet := by
  rw [List.getD_eq_getElem _ _ (by rw [base58_alphabet_length]; exact hdigit)]
  exact List.getElem_mem _

theorem indexOf_base58_alphabet_lt (c : Char) (hc : c ∈ _base58_alphabet) :
    _base58_alphabet.indexOf c < 58 := by
  rw [← base58_alphabet_length]
  exact List.indexOf_lt_length.2 hc

theorem strchr_of_mem (c : Char) (hc : c ∈ _base58_alphabet) :
    strchr _base58_alphabet c = some (_base58_alphabet.indexOf c) := by
  have hnul : c ≠ NUL := fun h => base58_alphabet_no_nul (h ▸ hc)
  unfold strchr
  rw [if_neg (by simpa using hnul), base58_alphabet_strlen,
    if_pos (indexOf_base58_alphabet_lt c hc)]

theorem strchr_of_not_mem (c : Char) (hc : c ∉ _base58_alphabet) (hnul : c ≠ NUL) :
    strchr _base58_alphabet c = none := by
  unfold strchr
  rw [if_neg (by simpa using hnul), base58_alphabet_strlen, if_neg]
  rw [List.indexOf_eq_length.2 hc, base58_alphabet_length]
  exact Nat.lt_irrefl _

theorem strlen_append_nul (s : List Char) (n : Nat) (hs : NUL ∉ s) :
    strlen (s ++ List.replicate n NUL) = s.length := by
  unfold strlen
  induction s with
  | nil =>
    cases n with
    | zero => rfl
    | succ n => simp [List.replicate_succ, List.takeWhile_cons]
  | cons c rest ih =>
    have hc : c ≠ NUL := fun h => hs (h ▸ List.mem_cons_self _ _)
    have hrest : NUL ∉ rest := fun h => hs (List.mem_cons_of_mem _ h)
    rw [List.cons_append, List.takeWhile_cons, if_pos (by simpa using hc), List.length_cons,
      ih hrest, List.length_cons]

theorem no_nul_of_base58 (s : List Char) (hs : ∀ c ∈ s, c ∈ _base58_alphabet) : NUL ∉ s :=
  fun h => base58_alphabet_no_nul (hs NUL h)

/-! ## `base58_decode` on the strings of a value in range -/

theorem base58_number_drop_le (s : List Char) (n : Nat) :
    base58_number (s.drop n) ≤ base58_number s := by
  induction s generalizing n with
  | nil => simp [base58_number]
  | cons c rest ih =>
    cases n with
    | zero => exact le_refl _
    | succ n =>
      rw [List.drop_succ_cons]
      exact le_trans (ih n) (by simp only [base58_number]; omega)

/-- The product `k * base` of `base58_decode` does not wrap when the digit `k` at the
power `58 ^ m` belongs to a number of at most `UINT32_MAX`. -/
theorem base58_product_exact (k m rest : Nat) (h : k * 58 ^ m + rest ≤ UINT32_MAX) :
    (k * (58 ^ m % 2 ^ 32)) % 2 ^ 32 = k * 58 ^ m := by
  have hmax : UINT32_MAX < 2 ^ 32 := by decide
  rcases Nat.eq_zero_or_pos k with hk | hk
  · rw [hk, Nat.zero_mul, Nat.zero_mul]
    rfl
  · have hpow : 58 ^ m ≤ k * 58 ^ m := Nat.le_mul_of_pos_left _ hk
    generalize 58 ^ m = p at h hpow ⊢
    have hp : p % 2 ^ 32 = p := Nat.mod_eq_of_lt (by omega)
    rw [hp, Nat.mod_eq_of_lt (by omega)]

theorem base58_decode_loop_succ (base58 : List Char) (i value base : Nat) :
    base58_decode_loop base58 (i + 1) value base
      = match strchr _base58_alphabet (base58.getD i NUL) with
        | none => { rc := -1, errno := some Base58Errno.EINVAL, value := value }
        | some k =>
          if value > UINT32_MAX - (k * base) % 2 ^ 32 then
            { rc := -1, errno := some Base58Errno.ERANGE, value := value }
          else
            base58_decode_loop base58 i ((value + (k * base) % 2 ^ 32) % 2 ^ 32)
              ((base * 58) % 2 ^ 32) := rfl

/-- The `for` loop of `base58_decode` on a buffer that holds, behind the characters
`front`, the string `s` over the alphabet, whose value is at most `UINT32_MAX`: the loop
adds up `s` without an error and goes on with the last character of `front`. -/
theorem base58_decode_loop_digits (front s pad : List Char)
    (hs : ∀ c ∈ s, c ∈ _base58_alphabet) (hvalue : base58_number s ≤ UINT32_MAX) (n : Nat)
    (hn : n ≤ s.length) :
    base58_decode_loop (front ++ s ++ pad) (front.length + n) (base58_number (s.drop n))
        (58 ^ (s.length - n) % 2 ^ 32)
      = base58_decode_loop (front ++ s ++ pad) front.length (base58_number s)
        (58 ^ s.length % 2 ^ 32) := by
  induction n with
  | zero => simp
  | succ n ih =>
    have hlt : n < s.length := hn
    have hread : (front ++ s ++ pad).getD (front.length + n) NUL = s[n] := by
      rw [List.getD_eq_getElem _ _ (by simp only [List.length_append]; omega),
        List.getElem_append_left (by rw [List.length_append]; omega),
        List.getElem_append_right (by omega)]
      simp
    have hdrop : s.drop n = s[n] :: s.drop (n + 1) := List.drop_eq_getElem_cons hlt
    have hnumber : base58_number (s.drop n)
        = _base58_alphabet.indexOf s[n] * 58 ^ (s.length - (n + 1))
          + base58_number (s.drop (n + 1)) := by
      rw [hdrop]
      simp only [base58_number, List.length_drop]
    have hle : base58_number (s.drop n) ≤ UINT32_MAX :=
      le_trans (base58_number_drop_le s n) hvalue
    rw [hnumber] at hle
    have hproduct := base58_product_exact _ _ _ hle
    have hmax : UINT32_MAX < 2 ^ 32 := by decide
    rw [← Nat.add_assoc, base58_decode_loop_succ, hread,
      strchr_of_mem _ (hs _ (List.getElem_mem _))]
    dsimp only
    rw [hproduct, if_neg (by omega)]
    have hvalue1 : (base58_number (s.drop (n + 1))
        + _base58_alphabet.indexOf s[n] * 58 ^ (s.length - (n + 1))) % 2 ^ 32
        = base58_number (s.drop n) := by
      rw [hnumber, Nat.mod_eq_of_lt (by omega)]
      omega
    have hbase : 58 ^ (s.length - (n + 1)) % 2 ^ 32 * 58 % 2 ^ 32
        = 58 ^ (s.length - n) % 2 ^ 32 := by
      have e : s.length - n = (s.length - (n + 1)) + 1 := by omega
      rw [e, pow_succ 58 (s.length - (n + 1)), Nat.mod_mul_mod]
    rw [hvalue1, hbase]
    exact ih (by omega)

/-- The loop of `base58_decode` over the whole of a string over the alphabet whose value is
at most `UINT32_MAX`. -/
theorem base58_decode_loop_string (front s pad : List Char)
    (hs : ∀ c ∈ s, c ∈ _base58_alphabet) (hvalue : base58_number s ≤ UINT32_MAX) :
    base58_decode_loop (front ++ s ++ pad) (front.length + s.length) 0 1
      = base58_decode_loop (front ++ s ++ pad) front.length (base58_number s)
        (58 ^ s.length % 2 ^ 32) := by
  have h := base58_decode_loop_digits front s pad hs hvalue s.length (le_refl _)
  rw [List.drop_length, Nat.sub_self] at h
  exact h

/-- `base58_decode` of a buffer that holds a non-empty string over the alphabet whose
value is at most `UINT32_MAX`, followed by any number of NUL characters: the function
returns 0 and stores that value. -/
theorem base58_decode_in_range (s : List Char) (n : Nat) (hne : s ≠ [])
    (hs : ∀ c ∈ s, c ∈ _base58_alphabet) (hvalue : base58_number s ≤ UINT32_MAX) :
    base58_decode (s ++ List.replicate n NUL)
      = { rc := 0, errno := none, value := base58_number s } := by
  have hlength : 0 < s.length := List.length_pos.2 hne
  unfold base58_decode
  rw [strlen_append_nul s n (no_nul_of_base58 s hs)]
  dsimp only
  rw [if_neg (by omega)]
  have hcount : ((s.length : Int) - 1).toNat + 1 = s.length := by omega
  rw [hcount]
  have h := base58_decode_loop_string [] s (List.replicate n NUL) hs hvalue
  simp only [List.nil_append, List.length_nil, Nat.zero_add] at h
  rw [h]
  rfl

/-! ## `base58_decode` on strings with a character outside the alphabet -/

/-- When one of the characters that the loop of `base58_decode` still has to read is not
found in the alphabet, the loop ends with -1, and with EINVAL or ERANGE as `errno`. -/
theorem base58_decode_loop_invalid (buffer : List Char) (n value base : Nat)
    (h : ∃ j, j < n ∧ strchr _base58_alphabet (buffer.getD j NUL) = none) :
    (base58_decode_loop buffer n value base).rc = -1 ∧
    ((base58_decode_loop buffer n value base).errno = some Base58Errno.EINVAL ∨
     (base58_decode_loop buffer n value base).errno = some Base58Errno.ERANGE) := by
  induction n generalizing value base with
  | zero =>
    obtain ⟨j, hj, _⟩ := h
    exact absurd hj (Nat.not_lt_zero _)
  | succ n ih =>
    rw [base58_decode_loop_succ]
    rcases Option.eq_none_or_eq_some (strchr _base58_alphabet (buffer.getD n NUL))
      with hnone | ⟨k, hsome⟩
    · rw [hnone]
      exact ⟨rfl, Or.inl rfl⟩
    · rw [hsome]
      dsimp only
      by_cases hrange : value > UINT32_MAX - (k * base) % 2 ^ 32
      · rw [if_pos hrange]
        exact ⟨rfl, Or.inr rfl⟩
      · rw [if_neg hrange]
        apply ih
        obtain ⟨j, hj, hnone⟩ := h
        refine ⟨j, ?_, hnone⟩
        rcases Nat.lt_succ_iff_lt_or_eq.1 hj with hlt | heq
        · exact hlt
        · rw [heq, hsome] at hnone
          exact absurd hnone (by simp)

/-- `base58_decode` of a string (without NUL) that has a character outside the alphabet
returns -1, with EINVAL or ERANGE as `errno`. -/
theorem base58_decode_invalid (s : List Char) (hnul : NUL ∉ s)
    (h : ∃ c ∈ s, c ∉ _base58_alphabet) :
    (base58_decode s).rc = -1 ∧
    ((base58_decode s).errno = some Base58Errno.EINVAL ∨
     (base58_decode s).errno = some Base58Errno.ERANGE) := by
  obtain ⟨c, hc, hout⟩ := h
  have hlength : strlen s = s.length := by
    have h := strlen_append_nul s 0 hnul
    rwa [List.replicate_zero, List.append_nil] at h
  have hpos : 0 < s.length := List.length_pos_of_mem hc
  unfold base58_decode
  rw [hlength]
  dsimp only
  rw [if_neg (by omega)]
  apply base58_decode_loop_invalid
  obtain ⟨j, hj, hget⟩ := List.getElem_of_mem hc
  refine ⟨j, by omega, ?_⟩
  rw [List.getD_eq_getElem _ _ hj, hget]
  exact strchr_of_not_mem c hout (fun h => hnul (h ▸ hc))

/-- `base58_decode` of a string (without NUL) in which the characters `back` behind a
character `c` outside the alphabet are a number of at most `UINT32_MAX`: the loop gets to
`c` and the function returns -1 with EINVAL. -/
theorem base58_decode_invalid_einval (front back : List Char) (c : Char)
    (hfront : NUL ∉ front) (hc : c ∉ _base58_alphabet) (hnul : c ≠ NUL)
    (hback : ∀ d ∈ back, d ∈ _base58_alphabet) (hvalue : base58_number back ≤ UINT32_MAX) :
    base58_decode (front ++ c :: back)
      = { rc := -1, errno := some Base58Errno.EINVAL, value := base58_number back } := by
  have hno : NUL ∉ front ++ c :: back := by
    intro h
    rcases List.mem_append.1 h with h1 | h1
    · exact hfront h1
    · rcases List.mem_cons.1 h1 with h2 | h2
      · exact hnul h2.symm
      · exact no_nul_of_base58 back hback h2
  have hlength : strlen (front ++ c :: back) = (front ++ c :: back).length := by
    have h := strlen_append_nul _ 0 hno
    rwa [List.replicate_zero, List.append_nil] at h
  unfold base58_decode
  rw [hlength]
  dsimp only
  rw [if_neg (by simp only [List.length_append, List.length_cons]; omega)]
  have hcount : (((front ++ c :: back).length : Int) - 1).toNat + 1
      = (front ++ [c]).length + back.length := by
    simp only [List.length_append, List.length_cons, List.length_nil]
    omega
  have hbuffer : front ++ c :: back = (front ++ [c]) ++ back ++ [] := by simp
  rw [hcount, hbuffer, base58_decode_loop_string (front ++ [c]) back [] hback hvalue]
  have hlast : (front ++ [c]).length = front.length + 1 := by simp
  have hread : (front ++ [c] ++ back ++ []).getD front.length NUL = c := by
    rw [← hbuffer, List.getD_eq_getElem?_getD, List.getElem?_append_right (le_refl _),
      Nat.sub_self]
    simp
  rw [hlast, base58_decode_loop_succ, hread, strchr_of_not_mem c hc hnul]

/-! ## What `base58_decode` returns (C30) -/

/-- C30, as amended: for a string `s` (the characters in front of the terminating NUL),
`base58_decode` returns -1 with EINVAL if `s` is empty; it returns 0 and stores the value
of `s` as a big-endian base-58 number if `s` is a non-empty string over the alphabet whose
value is at most `UINT32_MAX`; and it returns -1 if `s` has a character outside the
alphabet, with EINVAL or ERANGE as `errno`: with EINVAL if the characters behind such a
character are a number of at most `UINT32_MAX`, because the loop reads the string from its
end and stops at the first error. -/
theorem base58_decode_cases (s : List Char) (hnul : NUL ∉ s) :
    (s = [] → base58_decode s = { rc := -1, errno := some Base58Errno.EINVAL, value := 0 }) ∧
    (s ≠ [] → (∀ c ∈ s, c ∈ _base58_alphabet) → base58_number s ≤ UINT32_MAX →
      base58_decode s = { rc := 0, errno := none, value := base58_number s }) ∧
    ((∃ c ∈ s, c ∉ _base58_alphabet) →
      (base58_decode s).rc = -1 ∧
      ((base58_decode s).errno = some Base58Errno.EINVAL ∨
       (base58_decode s).errno = some Base58Errno.ERANGE)) ∧
    (∀ front c back, s = front ++ c :: back → c ∉ _base58_alphabet →
      (∀ d ∈ back, d ∈ _base58_alphabet) → base58_number back ≤ UINT32_MAX →
      base58_decode s
        = { rc := -1, errno := some Base58Errno.EINVAL, value := base58_number back }) := by
  refine ⟨?_, ?_, ?_, ?_⟩
  · intro hempty
    rw [hempty]
    rfl
  · intro hne hs hvalue
    have h := base58_decode_in_range s 0 hne hs hvalue
    rwa [List.replicate_zero, List.append_nil] at h
  · exact base58_decode_invalid s hnul
  · intro front c back hsplit hc hback hvalue
    rw [hsplit]
    have hfront : NUL ∉ front := fun h => hnul (hsplit ▸ List.mem_append_left _ h)
    have hcnul : c ≠ NUL := fun h =>
      hnul (hsplit ▸ List.mem_append_right _ (h ▸ List.mem_cons_self _ _))
    exact base58_decode_invalid_einval front back c hfront hc hcnul hback hvalue

set_option maxRecDepth 100000 in
/-- C30, amended, at the string `7xwQ9g` of the value `UINT32_MAX` and at the string
`2?3`. -/
theorem base58_decode_cases_witness :
    base58_decode ['7', 'x', 'w', 'Q', '9', 'g']
      = { rc := 0, errno := none, value := 4294967295 } ∧
    base58_decode ['2', '?', '3']
      = { rc := -1, errno := some Base58Errno.EINVAL, value := 2 } :=
  have h := base58_decode_cases ['7', 'x', 'w', 'Q', '9', 'g'] (by decide)
  have h1 := base58_decode_cases ['2', '?', '3'] (by decide)
  ⟨h.2.1 (by decide) (by decide) (by decide),
    h1.2.2.2 ['2'] '?' ['3'] rfl (by decide) (by decide) (by decide)⟩

set_option maxRecDepth 100000 in
/-- C30, counterexample: the string `?7ZZZZZ` has the character `?`, which is outside the
alphabet, and `base58_decode` returns -1 with ERANGE for it, not with EINVAL: the loop
reads the string from its end and finds that `7ZZZZZ` is out of range before it gets to
`?`. -/
theorem base58_decode_invalid_character_erange :
    (∃ c ∈ ['?', '7', 'Z', 'Z', 'Z', 'Z', 'Z'], c ∉ _base58_alphabet) ∧
    base58_decode ['?', '7', 'Z', 'Z', 'Z', 'Z', 'Z']
      = { rc := -1, errno := some Base58Errno.ERANGE, value := 656356767 } := by
  refine ⟨⟨'?', by decide, by decide⟩, by decide⟩

set_option maxRecDepth 100000 in
/-- The range check of `base58_decode` computes `UINT32_MAX - k * base` with a product
that has wrapped: the string `811111` is the number `7 * 58 ^ 5 = 4594497376`, which is
more than `UINT32_MAX`, and `base58_decode` returns 0 for it and stores 299530080. -/
theorem base58_decode_accepts_out_of_range :
    (∀ c ∈ ['8', '1', '1', '1', '1', '1'], c ∈ _base58_alphabet) ∧
    base58_number ['8', '1', '1', '1', '1', '1'] = 4594497376 ∧
    UINT32_MAX < base58_number ['8', '1', '1', '1', '1', '1'] ∧
    base58_decode ['8', '1', '1', '1', '1', '1']
      = { rc := 0, errno := none, value := 299530080 } := by
  refine ⟨by decide, by decide, by decide, by decide⟩

/-! ## `base58_encode` and the round trip (C29) -/

theorem base58_number_append (front back : List Char) :
    base58_number (front ++ back)
      = base58_number front * 58 ^ back.length + base58_number back := by
  induction front with
  | nil => simp [base58_number]
  | cons c rest ih =>
    rw [List.cons_append]
    simp only [base58_number]
    rw [ih, List.length_append, pow_add]
    ring

theorem base58_alphabet_indexOf_getD (digit : Nat) (hdigit : digit < 58) :
    _base58_alphabet.indexOf (_base58_alphabet.getD digit NUL) = digit :=
  base58_alphabet_indexOf ⟨digit, hdigit⟩

/-- The `while` loop of `base58_encode` ends with a value below 58 and has then appended
the lower digits of the value to `reverse`, the lowest one first. -/
theorem base58_encode_loop_digits (value : Nat) (reverse : List Char) :
    ∃ low : List Char,
      (base58_encode_loop value reverse).2 = reverse ++ low ∧
      (∀ c ∈ low, c ∈ _base58_alphabet) ∧
      (base58_encode_loop value reverse).1 < 58 ∧
      value = (base58_encode_loop value reverse).1 * 58 ^ low.length
        + base58_number low.reverse ∧
      (value < 58 → low = []) ∧
      (58 ≤ value → 0 < (base58_encode_loop value reverse).1) := by
  induction value using Nat.strong_induction_on generalizing reverse with
  | _ value ih =>
    rw [base58_encode_loop]
    by_cases h : value ≥ 58
    · rw [if_pos h]
      dsimp only
      have hdigit : value % 58 < 58 := Nat.mod_lt _ (by decide)
      obtain ⟨low, h1, h2, h3, h4, h5, h6⟩ := ih (value / 58) (by omega)
        (reverse ++ [_base58_alphabet.getD (value % 58) NUL])
      refine ⟨_base58_alphabet.getD (value % 58) NUL :: low, ?_, ?_, h3, ?_, ?_, ?_⟩
      · rw [h1, List.append_assoc]
        rfl
      · intro c hc
        rcases List.mem_cons.1 hc with hc1 | hc1
        · rw [hc1]
          exact base58_alphabet_getD_mem _ hdigit
        · exact h2 c hc1
      · rw [List.reverse_cons, base58_number_append]
        simp only [base58_number, List.length_cons, List.length_nil, pow_zero, pow_one,
          Nat.mul_one, Nat.add_zero, base58_alphabet_indexOf_getD _ hdigit]
        have hsplit : value = 58 * (value / 58) + value % 58 := (Nat.div_add_mod _ _).symm
        generalize (base58_encode_loop (value / 58)
          (reverse ++ [_base58_alphabet.getD (value % 58) NUL])).1 = top at h4 ⊢
        rw [pow_succ]
        nth_rewrite 1 [hsplit]
        rw [h4]
        ring
      · intro hlt
        omega
      · intro _
        by_cases hnext : 58 ≤ value / 58
        · exact h6 hnext
        · have hlow : low = [] := h5 (by omega)
          rw [hlow] at h4
          simp only [List.length_nil, pow_zero, Nat.mul_one, List.reverse_nil, base58_number,
            Nat.add_zero] at h4
          omega
    · rw [if_neg h]
      refine ⟨[], by simp, by simp, by omega, by simp [base58_number], fun _ => rfl, ?_⟩
      intro h1
      omega

/-- The loop `for (k = 0; k <= i; ++k) base58[k] = reverse[i - k]` stores the characters
of `reverse[0..i]` in reverse order. -/
theorem reverse_copy_loop (reverse : List Char) (i : Nat) (hlength : reverse.length = i + 1) :
    (List.range (i + 1)).map (fun k => reverse.getD (i - k) NUL) = reverse.reverse := by
  apply List.ext_getElem
  · rw [List.length_map, List.length_range, List.length_reverse, hlength]
  · intro k h1 h2
    rw [List.length_map, List.length_range] at h1
    rw [List.getElem_map, List.getElem_range, List.getElem_reverse,
      List.getD_eq_getElem _ _ (by omega)]
    congr 1
    omega

/-- The buffer that `base58_encode` fills: a string of 1 to 6 characters of the alphabet,
whose value is `value`, followed by NUL characters. -/
theorem base58_encode_string (BASE58_MAX_LENGTH value : Nat) (hvalue : value < 2 ^ 32) :
    ∃ s : List Char,
      base58_encode BASE58_MAX_LENGTH value
        = s ++ List.replicate (BASE58_MAX_LENGTH - s.length) NUL ∧
      1 ≤ s.length ∧ s.length ≤ 6 ∧
      (∀ c ∈ s, c ∈ _base58_alphabet) ∧
      (58 ≤ value → s.head? ≠ some '1') ∧
      (value < 58 → s.length = 1) ∧
      base58_number s = value := by
  obtain ⟨low, h1, h2, h3, h4, h5, h6⟩ := base58_encode_loop_digits value []
  rw [List.nil_append] at h1
  refine ⟨_base58_alphabet.getD (base58_encode_loop value []).1 NUL :: low.reverse,
    ?_, ?_, ?_, ?_, ?_, ?_, ?_⟩
  · unfold base58_encode
    dsimp only
    rw [reverse_copy_loop _ _ (by rw [List.length_append]; rfl), h1, List.reverse_append,
      List.length_cons, List.length_reverse]
    rfl
  · rw [List.length_cons]
    omega
  · rw [List.length_cons, List.length_reverse]
    by_cases hsmall : value < 58
    · rw [h5 hsmall]
      decide
    · have htop := h6 (by omega)
      have hpow : 58 ^ low.length ≤ (base58_encode_loop value []).1 * 58 ^ low.length :=
        Nat.le_mul_of_pos_left _ htop
      have hlt : 58 ^ low.length < 58 ^ 6 := by
        have h64 : (2 : Nat) ^ 32 < 58 ^ 6 := by decide
        omega
      have := (Nat.pow_lt_pow_iff_right (by decide : 1 < 58)).1 hlt
      omega
  · intro c hc
    rcases List.mem_cons.1 hc with hc1 | hc1
    · rw [hc1]
      exact base58_alphabet_getD_mem _ h3
    · exact h2 c (List.mem_reverse.1 hc1)
  · intro hlarge hhead
    have htop := h6 hlarge
    rw [List.head?_cons, Option.some.injEq] at hhead
    have hindex := base58_alphabet_indexOf_getD _ h3
    rw [hhead] at hindex
    have hone : _base58_alphabet.indexOf '1' = 0 := by decide
    omega
  · intro hsmall
    rw [h5 hsmall]
    rfl
  · simp only [base58_number, base58_alphabet_indexOf_getD _ h3, List.length_reverse]
    exact h4.symm

/-- C29: for every 32-bit unsigned value, `base58_encode` fills the buffer with a string
of 1 to 6 characters of the alphabet of 58 characters (which has none of 0, l, I and O),
followed by NUL characters up to `BASE58_MAX_LENGTH` (at least one, as the constant is more
than 6); the first character of the string is not `1` unless the value is below 58; and
`base58_decode` of the buffer returns 0 and stores the value. -/
theorem base58_round_trip (BASE58_MAX_LENGTH value : Nat) (hmax : 6 < BASE58_MAX_LENGTH)
    (hvalue : value < 2 ^ 32) :
    ∃ s : List Char,
      base58_encode BASE58_MAX_LENGTH value
        = s ++ List.replicate (BASE58_MAX_LENGTH - s.length) NUL ∧
      0 < BASE58_MAX_LENGTH - s.length ∧
      1 ≤ s.length ∧ s.length ≤ 6 ∧
      (∀ c ∈ s, c ∈ _base58_alphabet ∧ c ≠ '0' ∧ c ≠ 'l' ∧ c ≠ 'I' ∧ c ≠ 'O') ∧
      _base58_alphabet.length = 58 ∧
      (58 ≤ value → s.head? ≠ some '1') ∧
      base58_decode (base58_encode BASE58_MAX_LENGTH value)
        = { rc := 0, errno := none, value := value } := by
  obtain ⟨s, h1, h2, h3, h4, h5, _, h7⟩ := base58_encode_string BASE58_MAX_LENGTH value hvalue
  refine ⟨s, h1, by omega, h2, h3, ?_, base58_alphabet_length, h5, ?_⟩
  · intro c hc
    have hmem := h4 c hc
    have homits := base58_alphabet_omits
    refine ⟨hmem, ?_, ?_, ?_, ?_⟩
    · exact fun h => homits.1 (h ▸ hmem)
    · exact fun h => homits.2.1 (h ▸ hmem)
    · exact fun h => homits.2.2.1 (h ▸ hmem)
    · exact fun h => homits.2.2.2 (h ▸ hmem)
  · have hne : s ≠ [] := fun h => by rw [h] at h2; exact absurd h2 (by decide)
    have hle : base58_number s ≤ UINT32_MAX := by
      rw [h7]
      have : UINT32_MAX = 2 ^ 32 - 1 := by decide
      omega
    rw [h1, base58_decode_in_range s _ hne h4 hle, h7]

/-- C29 at `BASE58_MAX_LENGTH = 8` and the value `UINT32_MAX`. -/
theorem base58_round_trip_witness :
    (6 : Nat) < 8 ∧ 4294967295 < 2 ^ 32 ∧
    base58_decode (base58_encode 8 4294967295)
      = { rc := 0, errno := none, value := 4294967295 } :=
  ⟨by decide, by decide,
    (base58_round_trip 8 4294967295 (by decide) (by decide)).elim
      (fun _ h => h.2.2.2.2.2.2.2)⟩

/-! ## Options of a configuration file (C24) -/

theorem strcasecmp_equal_self (name : String) : strcasecmp_equal name name = true := by
  unfold strcasecmp_equal
  exact beq_self_eq_true _

theorem has_name_set_value (line : ConfFileLine) (name : String) (value : Option String) :
    ConfFileLine.has_name { line with value := value } name = line.has_name name := rfl

/-- The loop of `conf_file_get_option_value` passes the lines that do not have the name. -/
theorem conf_file_get_option_value_loop_skip (lines : List ConfFileLine) (name : String)
    (m n : Nat) (hmn : m ≤ n)
    (hskip : ∀ i line, m ≤ i → i < n → lines[i]? = some line → line.has_name name = false) :
    conf_file_get_option_value_loop lines name n
      = conf_file_get_option_value_loop lines name m := by
  induction n with
  | zero =>
    have : m = 0 := by omega
    rw [this]
  | succ n ih =>
    rcases Nat.lt_or_ge n m with hlt | hge
    · have : m = n + 1 := by omega
      rw [this]
    · rw [conf_file_get_option_value_loop, array_get_natCast]
      rcases Option.eq_none_or_eq_some lines[n]? with hnone | ⟨line, hsome⟩
      · rw [hnone]
        exact ih hge (fun i line h1 h2 => hskip i line h1 (by omega))
      · rw [hsome]
        dsimp only
        rw [hskip n line hge (by omega) hsome, if_neg (by simp)]
        exact ih hge (fun i line h1 h2 => hskip i line h1 (by omega))

/-- The loop of `conf_file_set_option_value` passes the lines that do not have the name. -/
theorem conf_file_set_option_value_loop_skip (lines : List ConfFileLine)
    (name value : String) (allocation : ConfFileAllocation) (m n : Nat) (hmn : m ≤ n)
    (hskip : ∀ i line, m ≤ i → i < n → lines[i]? = some line → line.has_name name = false) :
    conf_file_set_option_value_loop lines name value allocation n
      = conf_file_set_option_value_loop lines name value allocation m := by
  induction n with
  | zero =>
    have : m = 0 := by omega
    rw [this]
  | succ n ih =>
    rcases Nat.lt_or_ge n m with hlt | hge
    · have : m = n + 1 := by omega
      rw [this]
    · rw [conf_file_set_option_value_loop, array_get_natCast]
      rcases Option.eq_none_or_eq_some lines[n]? with hnone | ⟨line, hsome⟩
      · rw [hnone]
        exact ih hge (fun i line h1 h2 => hskip i line h1 (by omega))
      · rw [hsome]
        dsimp only
        rw [hskip n line hge (by omega) hsome, if_neg (by simp)]
        exact ih hge (fun i line h1 h2 => hskip i line h1 (by omega))

theorem getElem?_behind (front back : List ConfFileLine) (line found : ConfFileLine)
    (i : Nat) (hi : front.length + 1 ≤ i) (h : (front ++ line :: back)[i]? = some found) :
    found ∈ back := by
  rw [List.getElem?_append_right (by omega)] at h
  have e : i - front.length = (i - front.length - 1) + 1 := by omega
  rw [e, List.getElem?_cons_succ] at h
  exact List.getElem?_mem h

/-- `conf_file_get_option_value` returns `NULL` if no line has the name. -/
theorem conf_file_get_option_value_none (lines : List ConfFileLine) (name : String)
    (hnone : ∀ line ∈ lines, line.has_name name = false) :
    conf_file_get_option_value lines name = none := by
  unfold conf_file_get_option_value
  rw [conf_file_get_option_value_loop_skip lines name 0 lines.length (Nat.zero_le _)
    (fun i line _ _ h => hnone line (List.getElem?_mem h))]
  rfl

/-- `conf_file_get_option_value` returns the value of the last line that has the name. -/
theorem conf_file_get_option_value_last (front back : List ConfFileLine)
    (line : ConfFileLine) (name : String) (hline : line.has_name name = true)
    (hback : ∀ l ∈ back, l.has_name name = false) :
    conf_file_get_option_value (front ++ line :: back) name = line.value := by
  unfold conf_file_get_option_value
  rw [conf_file_get_option_value_loop_skip _ name (front.length + 1) _
    (by simp only [List.length_append, List.length_cons]; omega)
    (fun i found h1 _ h => hback found (getElem?_behind front back line found i h1 h)),
    conf_file_get_option_value_loop, array_get_natCast,
    List.getElem?_append_right (le_refl _), Nat.sub_self]
  simp only [List.getElem?_cons_zero]
  rw [if_pos hline]

/-- `conf_file_set_option_value` when no line has the name. -/
theorem conf_file_set_option_value_none (lines : List ConfFileLine) (name value : String)
    (allocation : ConfFileAllocation)
    (hnone : ∀ line ∈ lines, line.has_name name = false) :
    conf_file_set_option_value lines name value allocation
      = if !allocation.strdup1 || !allocation.strdup2 then (lines, -1)
        else if !allocation.array_append then (lines, -1)
        else (lines ++ [{ raw := none, name := some name, value := some value }], 0) := by
  unfold conf_file_set_option_value
  rw [conf_file_set_option_value_loop_skip lines name value allocation 0 lines.length
    (Nat.zero_le _) (fun i line _ _ h => hnone line (List.getElem?_mem h))]
  rfl

/-- `conf_file_set_option_value` when `line` is the last line that has the name. -/
theorem conf_file_set_option_value_last (front back : List ConfFileLine)
    (line : ConfFileLine) (name value : String) (allocation : ConfFileAllocation)
    (hline : line.has_name name = true) (hback : ∀ l ∈ back, l.has_name name = false) :
    conf_file_set_option_value (front ++ line :: back) name value allocation
      = if !allocation.strdup1 then (front ++ line :: back, -1)
        else (front ++ { line with value := some value } :: back, 0) := by
  unfold conf_file_set_option_value
  rw [conf_file_set_option_value_loop_skip _ name value allocation (front.length + 1) _
    (by simp only [List.length_append, List.length_cons]; omega)
    (fun i found h1 _ h => hback found (getElem?_behind front back line found i h1 h)),
    conf_file_set_option_value_loop, array_get_natCast,
    List.getElem?_append_right (le_refl _), Nat.sub_self]
  simp only [List.getElem?_cons_zero]
  rw [if_pos hline]
  by_cases h : (!allocation.strdup1) = true
  · rw [if_pos h, if_pos h]
  · rw [if_neg h, if_neg h]
    simp

/-- The lines are without a line of the name, or there is a last line of the name. -/
theorem last_line_of_name (lines : List ConfFileLine) (name : String) :
    (∀ line ∈ lines, line.has_name name = false) ∨
    ∃ front line back, lines = front ++ line :: back ∧ line.has_name name = true ∧
      ∀ l ∈ back, l.has_name name = false := by
  induction lines with
  | nil => exact Or.inl (by simp)
  | cons head rest ih =>
    rcases ih with hnone | ⟨front, line, back, hsplit, hline, hback⟩
    · rcases Bool.eq_false_or_eq_true (head.has_name name) with hhead | hhead
      · exact Or.inr ⟨[], head, rest, rfl, hhead, hnone⟩
      · left
        intro line hmem
        rcases List.mem_cons.1 hmem with h | h
        · rw [h]
          exact hhead
        · exact hnone line h
    · exact Or.inr ⟨head :: front, line, back, by rw [hsplit]; rfl, hline, hback⟩

/-- C24: `conf_file_get_option_value` returns the value of the last line whose name equals
the name without regard to case, or `NULL` if there is none. After a successful
`conf_file_set_option_value(name, value)`, `conf_file_get_option_value(name)` returns the
value; the lines are the lines before with the value of the last line of that name
replaced, or, if there was no such line, with one name/value line appended at the end; and
every line that does not have the name (a raw line or a line with another name) is at the
same index as before. -/
theorem conf_file_option_lookup_and_update (lines : List ConfFileLine) (name value : String)
    (allocation : ConfFileAllocation) :
    ((∀ line ∈ lines, line.has_name name = false) →
      conf_file_get_option_value lines name = none) ∧
    (∀ front line back, lines = front ++ line :: back → line.has_name name = true →
      (∀ l ∈ back, l.has_name name = false) →
      conf_file_get_option_value lines name = line.value) ∧
    ((conf_file_set_option_value lines name value allocation).2 = 0 →
      conf_file_get_option_value (conf_file_set_option_value lines name value allocation).1
          name = some value ∧
      ((∃ front line back, lines = front ++ line :: back ∧ line.has_name name = true ∧
          (∀ l ∈ back, l.has_name name = false) ∧
          (conf_file_set_option_value lines name value allocation).1
            = front ++ { line with value := some value } :: back) ∨
        ((∀ line ∈ lines, line.has_name name = false) ∧
          (conf_file_set_option_value lines name value allocation).1
            = lines ++ [{ raw := none, name := some name, value := some value }])) ∧
      (∀ (i : Nat) (line : ConfFileLine), lines[i]? = some line → line.has_name name = false →
        (conf_file_set_option_value lines name value allocation).1[i]? = some line)) := by
  refine ⟨conf_file_get_option_value_none lines name, ?_, ?_⟩
  · intro front line back hsplit hline hback
    rw [hsplit]
    exact conf_file_get_option_value_last front back line name hline hback
  · intro hrc
    rcases last_line_of_name lines name with hnone | ⟨front, line, back, hsplit, hline, hback⟩
    · rw [conf_file_set_option_value_none lines name value allocation hnone] at hrc ⊢
      by_cases h1 : (!allocation.strdup1 || !allocation.strdup2) = true
      · rw [if_pos h1] at hrc
        exact absurd hrc (by decide : ¬ ((-1 : Int) = 0))
      · rw [if_neg h1] at hrc ⊢
        by_cases h2 : (!allocation.array_append) = true
        · rw [if_pos h2] at hrc
          exact absurd hrc (by decide : ¬ ((-1 : Int) = 0))
        · rw [if_neg h2]
          refine ⟨?_, Or.inr ⟨hnone, rfl⟩, ?_⟩
          · exact conf_file_get_option_value_last lines [] _ name
              (by simp only [ConfFileLine.has_name]; exact strcasecmp_equal_self name)
              (by simp)
          · intro i line hget _
            have hi : i < lines.length := (List.getElem?_eq_some_iff.1 hget).1
            show (lines ++ _)[i]? = some line
            rw [List.getElem?_append_left hi, hget]
    · rw [hsplit] at hrc ⊢
      rw [conf_file_set_option_value_last front back line name value allocation hline hback]
        at hrc ⊢
      by_cases h1 : (!allocation.strdup1) = true
      · rw [if_pos h1] at hrc
        exact absurd hrc (by decide : ¬ ((-1 : Int) = 0))
      · rw [if_neg h1]
        refine ⟨?_, Or.inl ⟨front, line, back, rfl, hline, hback, rfl⟩, ?_⟩
        · exact conf_file_get_option_value_last front back _ name
            (by rw [has_name_set_value]; exact hline) hback
        · intro i found hget hfound
          show (front ++ _ :: back)[i]? = some found
          rcases Nat.lt_trichotomy i front.length with hlt | heq | hgt
          · rw [List.getElem?_append_left hlt] at hget ⊢
            exact hget
          · rw [heq, List.getElem?_append_right (le_refl _), Nat.sub_self,
              List.getElem?_cons_zero, Option.some.injEq] at hget
            rw [← hget, hline] at hfound
            exact absurd hfound (by decide)
          · rw [List.getElem?_append_right (by omega)] at hget ⊢
            have e : i - front.length = (i - front.length - 1) + 1 := by omega
            rw [e, List.getElem?_cons_succ] at hget ⊢
            exact hget

/-- C24 at a file with a comment and the options `a`, `B` and `A`, in that order: the
option `a` has the value of the line `A`; setting `a` changes that line only; setting `c`
appends a line. -/
theorem conf_file_option_lookup_and_update_witness :
    conf_file_get_option_value example_conf_file "a" = some "3" ∧
    (conf_file_set_option_value example_conf_file "a" "7" ⟨true, true, true⟩).1
      = [⟨some "# comment", none, none⟩, ⟨none, some "a", some "1"⟩,
          ⟨none, some "B", some "2"⟩, ⟨none, some "A", some "7"⟩] ∧
    conf_file_get_option_value
      (conf_file_set_option_value example_conf_file "a" "7" ⟨true, true, true⟩).1 "a"
      = some "7" ∧
    conf_file_get_option_value
      (conf_file_set_option_value example_conf_file "c" "7" ⟨true, true, true⟩).1 "c"
      = some "7" :=
  have h := conf_file_option_lookup_and_update example_conf_file "a" "7" ⟨true, true, true⟩
  have h1 := conf_file_option_lookup_and_update example_conf_file "c" "7" ⟨true, true, true⟩
  ⟨h.2.1 [⟨some "# comment", none, none⟩, ⟨none, some "a", some "1"⟩,
      ⟨none, some "B", some "2"⟩] ⟨none, some "A", some "3"⟩ [] rfl (by decide) (by decide),
    by decide, (h.2.2 (by decide)).1, (h1.2.2 (by decide)).1⟩

/-! ## `array_resize` and the memory of new items (C25) -/

/-- C25, failing input: a relocatable array of items of one byte is created, one item is
appended and set to 0xAA, and the array is resized to 0 items. `array_resize(array, 1,
NULL)` then returns 0 and sets `count` to 1, and the new item at index 0 is the byte 0xAA,
not a zero byte: shrinking has left the bytes of the removed item in the block, and
growing within the allocated block does not set them to zero. -/
theorem array_resize_new_item_not_zeroed :
    example_shrunk_array.count = 0 ∧
    (example_shrunk_array.array_resize 1).2 = 0 ∧
    (example_shrunk_array.array_resize 1).1.count = 1 ∧
    (example_shrunk_array.array_resize 1).1.array_get 0 = [0xAA] ∧
    (example_shrunk_array.array_resize 1).1.array_get 0 ≠ [0] := by
  decide

theorem GROW_ALLOCATION_ge (size : Int) (hsize : 0 < size) : size ≤ GROW_ALLOCATION size := by
  unfold GROW_ALLOCATION
  rw [Int.tdiv_eq_ediv (by omega) (by decide)]
  omega

theorem memset_zero_fresh (bytes : List Byte) (n : Nat) :
    memset_zero (bytes ++ List.replicate n 0) bytes.length n
      = bytes ++ List.replicate n 0 := by
  unfold memset_zero
  simp

/-- An item that lies within the block and behind an offset from which all bytes are zero
consists of zero bytes. -/
theorem item_zero (bytes : List Byte) (size first i : Nat)
    (hzero : ∀ byte ∈ bytes.drop (size * first), byte = 0) (hi : first ≤ i)
    (hlength : size * i + size ≤ bytes.length) :
    (bytes.drop (size * i)).take size = List.replicate size 0 := by
  apply List.eq_replicate_iff.2
  refine ⟨?_, ?_⟩
  · rw [List.length_take, List.length_drop]
    omega
  · intro byte hbyte
    apply hzero
    have h1 : byte ∈ bytes.drop (size * i) := List.mem_of_mem_take hbyte
    have e : size * i = size * first + size * (i - first) := by
      rw [← Nat.mul_add]
      congr 1
      omega
    rw [e, ← List.drop_drop] at h1
    exact List.mem_of_mem_drop h1

/-- `array_resize` to a larger count, for an array that has only zero bytes behind its
items: the function returns 0, sets `count`, leaves the items that were there as they
are, and each new item consists of `size` zero bytes. -/
theorem array_resize_grow (array : ArrayObject) (count : Int)
    (hinvariant : array.zero_behind_items) (hcount : array.count < count) :
    (array.array_resize count).2 = 0 ∧
    (array.array_resize count).1.count = count ∧
    (∀ i : Int, 0 ≤ i → i < array.count →
      (array.array_resize count).1.array_get i = array.array_get i) ∧
    (∀ i : Int, array.count ≤ i → i < count →
      (array.array_resize count).1.array_get i = List.replicate array.size.toNat 0) := by
  obtain ⟨hsize, hlow, hhigh, hlength, hzero⟩ := hinvariant
  obtain ⟨allocated1, count1, size1, bytes⟩ := array
  simp only at hsize hlow hhigh hlength hzero hcount
  obtain ⟨size, hs⟩ := Int.eq_ofNat_of_zero_le (le_of_lt hsize)
  obtain ⟨old, hc⟩ := Int.eq_ofNat_of_zero_le hlow
  obtain ⟨allocated, ha⟩ := Int.eq_ofNat_of_zero_le (le_trans hlow hhigh)
  subst hs hc ha
  have hsize1 : 0 < size := by omega
  have hhigh1 : old ≤ allocated := by omega
  rw [← Nat.cast_mul, Int.toNat_natCast] at hlength hzero
  -- the block after `array_reserve`
  have hreserve : ∃ more : Nat, ∃ reserved : Int,
      (ArrayObject.array_reserve ⟨allocated, old, size, bytes⟩ count)
        = (⟨reserved, old, size, bytes ++ List.replicate more 0⟩, 0) ∧
      count ≤ reserved ∧
      (bytes ++ List.replicate more 0).length = (reserved * (size : Int)).toNat := by
    unfold ArrayObject.array_reserve
    dsimp only
    by_cases h : (allocated : Int) ≥ count
    · rw [if_pos h]
      refine ⟨0, allocated, by simp, h, ?_⟩
      rw [List.replicate_zero, List.append_nil, hlength, ← Nat.cast_mul, Int.toNat_natCast]
    · rw [if_neg h]
      have hgrow := GROW_ALLOCATION_ge count (by omega)
      obtain ⟨reserved, hr⟩ := Int.eq_ofNat_of_zero_le
        (show 0 ≤ GROW_ALLOCATION count by omega)
      rw [hr] at hgrow ⊢
      refine ⟨reserved * size - allocated * size, reserved, ?_, hgrow, ?_⟩
      · simp only [← Nat.cast_mul, Int.toNat_natCast]
        have htake : bytes.take (allocated * size) = bytes :=
          List.take_of_length_le (le_of_eq hlength)
        have hmore : (((reserved : Int) - allocated) * size).toNat
            = reserved * size - allocated * size := by
          have hle : allocated ≤ reserved := by omega
          rw [← Nat.cast_sub hle, ← Nat.cast_mul, Int.toNat_natCast, Nat.sub_mul]
        rw [htake, hmore]
        nth_rewrite 2 [← hlength]
        rw [memset_zero_fresh]
      · rw [List.length_append, List.length_replicate, hlength, ← Nat.cast_mul,
          Int.toNat_natCast]
        have hle : allocated * size ≤ reserved * size :=
          Nat.mul_le_mul_right _ (by omega)
        omega
  obtain ⟨more, reserved, hreserved, hle, hlength1⟩ := hreserve
  have hresize : ArrayObject.array_resize ⟨allocated, old, size, bytes⟩ count
      = (⟨reserved, count, size, bytes ++ List.replicate more 0⟩, 0) := by
    unfold ArrayObject.array_resize
    dsimp only
    rw [if_pos hcount, hreserved]
    rfl
  rw [hresize]
  refine ⟨rfl, rfl, ?_, ?_⟩
  · intro i hi0 hi
    dsimp only at hi
    obtain ⟨index, hindex⟩ := Int.eq_ofNat_of_zero_le hi0
    subst hindex
    have hlt : index < old := by omega
    simp only [ArrayObject.array_get, ← Nat.cast_mul, Int.toNat_natCast]
    have hitem : size * index + size ≤ bytes.length := by
      rw [hlength]
      calc size * index + size = size * (index + 1) := by ring
        _ ≤ size * allocated := Nat.mul_le_mul_left _ (by omega)
        _ = allocated * size := Nat.mul_comm _ _
    rw [List.drop_append_of_le_length (by omega),
      List.take_append_of_le_length (by rw [List.length_drop]; omega)]
  · intro i hi0 hi
    dsimp only at hi0
    obtain ⟨index, hindex⟩ := Int.eq_ofNat_of_zero_le (le_trans hlow hi0)
    subst hindex
    obtain ⟨reserved1, hr⟩ := Int.eq_ofNat_of_zero_le
      (show 0 ≤ reserved by omega)
    subst hr
    rw [← Nat.cast_mul, Int.toNat_natCast] at hlength1
    simp only [ArrayObject.array_get, ← Nat.cast_mul, Int.toNat_natCast]
    refine item_zero _ size old index ?_ (by omega) ?_
    · intro byte hbyte
      rw [List.drop_append_eq_append_drop] at hbyte
      rcases List.mem_append.1 hbyte with h | h
      · exact hzero byte h
      · exact List.eq_of_mem_replicate (List.mem_of_mem_drop h)
    · rw [hlength1]
      calc size * index + size = size * (index + 1) := by ring
        _ ≤ size * reserved1 := Nat.mul_le_mul_left _ (by omega)
        _ = reserved1 * size := Nat.mul_comm _ _

set_option maxRecDepth 100000 in
/-- `array_resize` from 0 to 20 items on a new array of items of 2 bytes: each of the
items consists of two zero bytes. -/
theorem array_resize_grow_witness :
    ∀ i : Int, (array_create 0 2).count ≤ i → i < 20 →
      ((array_create 0 2).array_resize 20).1.array_get i
        = List.replicate (array_create 0 2).size.toNat 0 :=
  (array_resize_grow (array_create 0 2) 20
    ⟨by decide, by decide, by decide, by decide, by decide⟩ (by decide)).2.2.2

/-! ## Pending requests of requests to the daemon (C27) -/

/-- `client_dispatch_response(client, NULL, response, false, ...)` when the client may
receive the response and has a pending request that matches: the first such request is
removed, whether the client is marked disconnected or not. -/
theorem client_dispatch_response_found_count (daemon : Daemon) (response : Packet)
    (ignore_authentication : Bool) (outcome : IOWrite) (found : PendingRequest)
    (hauth : ignore_authentication = true ∨
      daemon.client.authentication_state = ClientAuthenticationState.DISABLED ∨
      daemon.client.authentication_state = ClientAuthenticationState.DONE)
    (hfind : daemon.client.pending_requests.find?
      (fun candidate => packet_is_matching_response response candidate.header) = some found) :
    (client_dispatch_response daemon none response false ignore_authentication
        outcome).client.pending_request_count = daemon.client.pending_request_count - 1 ∧
    (client_dispatch_response daemon none response false ignore_authentication
        outcome).client.pending_requests = daemon.client.pending_requests.erase found := by
  rcases Bool.eq_false_or_eq_true daemon.client.disconnected with h | h
  · rw [client_dispatch_response_found_disconnected daemon response ignore_authentication
      outcome found hauth hfind h]
    exact ⟨rfl, rfl⟩
  · rw [client_dispatch_response_found daemon response ignore_authentication outcome found
      hauth hfind h]
    exact ⟨rfl, rfl⟩

/-- The response to a request that has just been registered as pending, dispatched to a
client that may receive it, takes one pending request off the list of the client again. -/
theorem dispatch_registered_count (daemon : Daemon) (response : Packet)
    (ignore_authentication : Bool) (outcome : IOWrite) (old : List PendingRequest)
    (added : PendingRequest) (count : Int)
    (hmatch : packet_is_matching_response response added.header = true)
    (hlist : daemon.client.pending_requests = old ++ [added])
    (hcount : daemon.client.pending_request_count = count + 1)
    (hauth : ignore_authentication = true ∨
      daemon.client.authentication_state = ClientAuthenticationState.DISABLED ∨
      daemon.client.authentication_state = ClientAuthenticationState.DONE) :
    (client_dispatch_response daemon none response false ignore_authentication
        outcome).client.pending_request_count = count ∧
    (client_dispatch_response daemon none response false ignore_authentication
        outcome).client.pending_requests.length = old.length := by
  obtain ⟨found, hfind⟩ := find_append_last
    (fun candidate : PendingRequest => packet_is_matching_response response candidate.header)
    old added hmatch
  rw [← hlist] at hfind
  obtain ⟨h1, h2⟩ := client_dispatch_response_found_count daemon response
    ignore_authentication outcome found hauth hfind
  rw [h1, h2, hcount, List.length_erase_of_mem (List.mem_of_find?_eq_some hfind), hlist]
  refine ⟨by omega, by simp⟩

/-- C27 as stated fails for a client that has not authenticated: a client in state ENABLED
without pending requests gets a request to the daemon with function ID 3 and the
response-expected bit set. The client is not marked disconnected, and the pending request
that was registered for the request is still there: `pending_request_count` is 1. -/
theorem unknown_function_request_stays_pending :
    uint32_from_le (example_unknown_request 0x18).header.uid = 1 ∧
    packet_header_get_response_expected (example_unknown_request 0x18).header = true ∧
    (example_daemon ClientAuthenticationState.ENABLED).client.pending_request_count = 0 ∧
    (client_handle_request example_hmac_sha1 [115]
      (example_daemon ClientAuthenticationState.ENABLED) (example_unknown_request 0x18)
      (IOWrite.accept 8)).client.disconnected = false ∧
    (client_handle_request example_hmac_sha1 [115]
      (example_daemon ClientAuthenticationState.ENABLED) (example_unknown_request 0x18)
      (IOWrite.accept 8)).client.pending_request_count = 1 ∧
    (client_handle_request example_hmac_sha1 [115]
      (example_daemon ClientAuthenticationState.ENABLED) (example_unknown_request 0x18)
      (IOWrite.accept 8)).client.pending_requests
      = [⟨0, (example_unknown_request 0x18).header⟩] :=
  ⟨rfl, rfl, rfl, rfl, rfl, rfl⟩

/-- `client_handle_request` for a GET_AUTH_NONCE or AUTHENTICATE request of another length
than that of the request structure marks the client disconnected. -/
theorem client_handle_request_wrong_length (hmac_sha1 : List Byte → List Byte → List Byte)
    (secret : List Byte) (daemon : Daemon) (request : Packet) (outcome : IOWrite)
    (huid : uint32_from_le request.header.uid = 1)
    (hcase : (request.header.function_id.val = 1 ∧ request.header.length.val ≠ 8) ∨
      (request.header.function_id.val = 2 ∧ request.header.length.val ≠ 32)) :
    (client_handle_request hmac_sha1 secret daemon request outcome).client.disconnected
      = true := by
  unfold client_handle_request
  rcases hcase with ⟨hf, hl⟩ | ⟨hf, hl⟩
  · simp only [huid, hf, UID_BRICK_DAEMON, FUNCTION_GET_AUTHENTICATION_NONCE,
      sizeof_GetAuthenticationNonceRequest, beq_self_eq_true, if_true]
    rw [if_pos (by simpa using hl)]
    rfl
  · simp only [huid, hf, UID_BRICK_DAEMON, FUNCTION_GET_AUTHENTICATION_NONCE,
      FUNCTION_AUTHENTICATE, sizeof_AuthenticateRequest, beq_self_eq_true, if_true]
    rw [if_neg (by decide), if_pos (by simpa using hl)]
    rfl

/-- `client_handle_authenticate_request` in state NONCE_SEND with a digest whose 20 bytes
are those of the expected HMAC. -/
theorem authenticate_accepted_digest (hmac_sha1 : List Byte → List Byte → List Byte)
    (secret : List Byte) (daemon : Daemon) (request : Packet) (outcome : IOWrite)
    (hstate : daemon.client.authentication_state = ClientAuthenticationState.NONCE_SEND)
    (hdigest : (request.payload.drop 4).take 20
      = (hmac_sha1 secret
          (daemon.client.authentication_nonce.bytes ++ request.payload.take 4)).take 20) :
    client_handle_authenticate_request hmac_sha1 secret daemon request outcome
      = if packet_header_get_response_expected request.header then
          client_dispatch_response
            (daemon.set_authentication_state ClientAuthenticationState.DONE) none
            (authenticate_response request) false false outcome
        else daemon.set_authentication_state ClientAuthenticationState.DONE := by
  unfold client_handle_authenticate_request
  have hcmp : memcmp_ne ((request.payload.drop 4).take SHA1_DIGEST_LENGTH)
      (hmac_sha1 secret (daemon.client.authentication_nonce.bytes ++ request.payload.take 4))
      SHA1_DIGEST_LENGTH = false := by
    simp only [memcmp_ne, SHA1_DIGEST_LENGTH, ← hdigest, List.take_take, min_self,
      bne_self_eq_false]
  simp [hstate, hcmp]

/-- C27, as amended: when `client_handle_request` has handled a request to the daemon
(UID 1) with the response-expected bit set and the client is not marked disconnected
afterwards, then `pending_request_count` and the length of the list of pending requests of
the client are as before the call if the request is a GET_AUTH_NONCE or an AUTHENTICATE
request, or if the client is in state DISABLED or DONE. For a request with another
function ID to a client in state ENABLED or NONCE_SEND the pending request that was
registered stays in the list: `pending_request_count` is one more than before. -/
theorem daemon_request_pending_count (hmac_sha1 : List Byte → List Byte → List Byte)
    (secret : List Byte) (daemon : Daemon) (request : Packet) (outcome : IOWrite)
    (huid : uint32_from_le request.header.uid = 1)
    (hexpected : packet_header_get_response_expected request.header = true)
    (hconnected : (client_handle_request hmac_sha1 secret daemon request
      outcome).client.disconnected = false) :
    ((request.header.function_id.val = 1 ∨ request.header.function_id.val = 2 ∨
        daemon.client.authentication_state = ClientAuthenticationState.DISABLED ∨
        daemon.client.authentication_state = ClientAuthenticationState.DONE) →
      (client_handle_request hmac_sha1 secret daemon request
        outcome).client.pending_request_count = daemon.client.pending_request_count ∧
      (client_handle_request hmac_sha1 secret daemon request
        outcome).client.pending_requests.length = daemon.client.pending_requests.length) ∧
    (request.header.function_id.val ≠ 1 → request.header.function_id.val ≠ 2 →
      daemon.client.authentication_state = ClientAuthenticationState.ENABLED ∨
        daemon.client.authentication_state = ClientAuthenticationState.NONCE_SEND →
      (client_handle_request hmac_sha1 secret daemon request
        outcome).client.pending_request_count = daemon.client.pending_request_count + 1 ∧
      (client_handle_request hmac_sha1 secret daemon request
        outcome).client.pending_requests
        = daemon.client.pending_requests ++ [⟨daemon.allocated, request.header⟩]) := by
  have hlist : (network_client_expects_response daemon request).client.pending_requests
      = daemon.client.pending_requests ++ [⟨daemon.allocated, request.header⟩] := rfl
  have hcount : (network_client_expects_response daemon request).client.pending_request_count
      = daemon.client.pending_request_count + 1 := rfl
  have hstate1 : (network_client_expects_response daemon request).client.authentication_state
      = daemon.client.authentication_state := rfl
  by_cases hf1 : request.header.function_id.val = 1
  · refine ⟨fun _ => ?_, fun h => absurd hf1 h⟩
    by_cases hl : request.header.length.val = 8
    · rw [client_handle_request_get_nonce hmac_sha1 secret daemon request outcome huid hf1 hl,
        if_pos hexpected] at hconnected ⊢
      rcases hstate : daemon.client.authentication_state with _ | _ | _ | _
      · rw [get_nonce_rejected _ request outcome (Or.inl (hstate1.trans hstate))] at hconnected
        exact absurd hconnected (by simp [Daemon.disconnect])
      · rw [get_nonce_enabled _ request outcome (hstate1.trans hstate)]
        exact dispatch_registered_count _ _ true outcome _ _ _
          (get_authentication_nonce_response_matches _ request) hlist hcount (Or.inl rfl)
      · rw [get_nonce_rejected _ request outcome (Or.inr (hstate1.trans hstate))] at hconnected
        exact absurd hconnected (by simp [Daemon.disconnect])
      · rw [get_nonce_done _ request outcome (hstate1.trans hstate)]
        exact dispatch_registered_count _ _ true outcome _ _ _
          (get_authentication_nonce_response_matches _ request) hlist hcount (Or.inl rfl)
    · rw [client_handle_request_wrong_length hmac_sha1 secret daemon request outcome huid
        (Or.inl ⟨hf1, hl⟩)] at hconnected
      exact absurd hconnected (by decide)
  · by_cases hf2 : request.header.function_id.val = 2
    · refine ⟨fun _ => ?_, fun _ h => absurd hf2 h⟩
      by_cases hl : request.header.length.val = 32
      · rw [client_handle_request_authenticate hmac_sha1 secret daemon request outcome huid
          hf2 hl, if_pos hexpected] at hconnected ⊢
        by_cases hcase : (network_client_expects_response daemon
              request).client.authentication_state ≠ ClientAuthenticationState.NONCE_SEND ∨
            (request.payload.drop 4).take 20
              ≠ (hmac_sha1 secret
                  ((network_client_expects_response daemon
                    request).client.authentication_nonce.bytes
                    ++ request.payload.take 4)).take 20
        · rw [authenticate_rejected hmac_sha1 secret _ request outcome hcase] at hconnected
          exact absurd hconnected (by simp [Daemon.disconnect])
        · rw [not_or, not_not, not_not] at hcase
          rw [authenticate_accepted_digest hmac_sha1 secret _ request outcome hcase.1 hcase.2,
            if_pos hexpected]
          exact dispatch_registered_count _ _ false outcome _ _ _
            (authenticate_response_matches request) hlist hcount (Or.inr (Or.inr rfl))
      · rw [client_handle_request_wrong_length hmac_sha1 secret daemon request outcome huid
          (Or.inr ⟨hf2, hl⟩)] at hconnected
        exact absurd hconnected (by decide)
    · rw [client_handle_request_unknown hmac_sha1 secret daemon request outcome huid hf1 hf2,
        if_pos hexpected] at hconnected ⊢
      refine ⟨fun hcase => ?_, fun _ _ hstate => ?_⟩
      · have hauth : daemon.client.authentication_state = ClientAuthenticationState.DISABLED ∨
            daemon.client.authentication_state = ClientAuthenticationState.DONE := by
          rcases hcase with h | h | h | h
          · exact absurd h hf1
          · exact absurd h hf2
          · exact Or.inl h
          · exact Or.inr h
        exact dispatch_registered_count _ _ false outcome _ _ _
          (function_not_supported_response_matches request) hlist hcount (Or.inr hauth)
      · rw [client_dispatch_response_unauthenticated
          (network_client_expects_response daemon request) _ outcome hstate]
        exact ⟨rfl, rfl⟩

/-- C27, as amended, at a client in state DONE that gets a request to the daemon with
function ID 3 and the response-expected bit set: the pending request is removed again. -/
theorem daemon_request_pending_count_witness :
    (client_handle_request example_hmac_sha1 [115]
      (example_daemon ClientAuthenticationState.DONE) (example_unknown_request 0x18)
      (IOWrite.accept 8)).client.pending_request_count = 0 ∧
    (client_handle_request example_hmac_sha1 [115]
      (example_daemon ClientAuthenticationState.DONE) (example_unknown_request 0x18)
      (IOWrite.accept 8)).client.pending_requests.length = 0 :=
  (daemon_request_pending_count example_hmac_sha1 [115]
    (example_daemon ClientAuthenticationState.DONE) (example_unknown_request 0x18)
    (IOWrite.accept 8) rfl rfl rfl).1 (Or.inr (Or.inr (Or.inr rfl)))

/-! ## Requests queued for the slaves (C22) -/

/-- The item that `red_rs485_extension_dispatch_to_rs485` queues for a request of at most
`sizeof(Packet)` bytes: `tries_left` is 10, and the packet holds the first `header.length`
bytes of the request, followed by zero bytes. -/
theorem queued_request_fields (request : Packet)
    (hlength : request.header.length.val ≤ sizeof_Packet)
    (hsize : request.payload.length = 72) :
    (queued_request request).tries_left.val = RS485_FRAME_TRIES_DATA ∧
    (queued_request request).packet.bytes
      = request.bytes.take request.header.length.val
        ++ List.replicate (sizeof_Packet - request.header.length.val) 0 := by
  have hbytes : request.bytes.length = 80 := packet_bytes_length request hsize
  have hitem : ((List.replicate (sizeof_Packet + 1) (0 : Byte)).set sizeof_Packet
      (u8 RS485_FRAME_TRIES_DATA)) = List.replicate 80 0 ++ [10] := by decide
  simp only [sizeof_Packet] at hlength
  have htake : (request.bytes.take request.header.length.val).length
      = request.header.length.val := by
    rw [List.length_take, hbytes]
    omega
  have hdrop : (List.replicate 80 (0 : Byte) ++ [10]).drop request.header.length.val
      = List.replicate (80 - request.header.length.val) 0 ++ [10] := by
    rw [List.drop_append_of_le_length (by rw [List.length_replicate]; exact hlength),
      List.drop_replicate]
  have hobject : memcpy ((List.replicate (sizeof_Packet + 1) (0 : Byte)).set sizeof_Packet
      (u8 RS485_FRAME_TRIES_DATA)) request.bytes request.header.length.val
      = (request.bytes.take request.header.length.val
          ++ List.replicate (80 - request.header.length.val) 0) ++ [10] := by
    rw [hitem]
    unfold memcpy
    rw [hdrop, List.append_assoc]
  have hfront : (request.bytes.take request.header.length.val
      ++ List.replicate (80 - request.header.length.val) (0 : Byte)).length = 80 := by
    rw [List.length_append, htake, List.length_replicate]
    omega
  refine ⟨?_, ?_⟩
  · simp only [queued_request]
    rw [hobject, List.getD_eq_getElem?_getD, sizeof_Packet,
      List.getElem?_append_right (by rw [hfront]), hfront]
    rfl
  · simp only [queued_request]
    rw [hobject, sizeof_Packet, List.take_left' hfront,
      of_bytes_bytes _ (by rw [hfront]; decide)]

theorem dispatch_to_recipient_none (request : Packet) (data : Nat) (slaves : List RS485Slave)
    (hnone : ∀ slave ∈ slaves, slave.address.val ≠ data) :
    dispatch_to_recipient request data slaves = slaves := by
  induction slaves with
  | nil => rfl
  | cons slave rest ih =>
    have h1 : slave.address.val ≠ data := hnone slave (List.mem_cons_self _ _)
    rw [dispatch_to_recipient, if_neg (by simpa using h1),
      ih (fun other h => hnone other (List.mem_cons_of_mem _ h))]

/-- The second loop of `red_rs485_extension_dispatch_to_rs485` changes the first slave
with the address, and that one only. -/
theorem dispatch_to_recipient_first (request : Packet) (data : Nat)
    (front rest : List RS485Slave) (slave : RS485Slave)
    (hfront : ∀ other ∈ front, other.address.val ≠ data)
    (hslave : slave.address.val = data) :
    dispatch_to_recipient request data (front ++ slave :: rest)
      = front
        ++ { slave with packet_queue := queue_push slave.packet_queue (queued_request request) }
          :: rest := by
  induction front with
  | nil =>
    rw [List.nil_append, dispatch_to_recipient, if_pos (by simpa using hslave)]
    rfl
  | cons head tail ih =>
    have h1 : head.address.val ≠ data := hfront head (List.mem_cons_self _ _)
    rw [List.cons_append, dispatch_to_recipient, if_neg (by simpa using h1),
      ih (fun other h => hfront other (List.mem_cons_of_mem _ h))]
    rfl

/-- A list with an element for which `p` holds splits at the first such element. -/
theorem split_at_first {α : Type} (p : α → Prop) (items : List α)
    (h : ∃ item ∈ items, p item) :
    ∃ front item rest, items = front ++ item :: rest ∧ p item ∧ ∀ other ∈ front, ¬ p other := by
  classical
  induction items with
  | nil =>
    obtain ⟨item, hmem, _⟩ := h
    exact absurd hmem (List.not_mem_nil _)
  | cons head tail ih =>
    by_cases hhead : p head
    · exact ⟨[], head, tail, rfl, hhead, fun _ h => absurd h (List.not_mem_nil _)⟩
    · obtain ⟨item, hmem, hitem⟩ := h
      have htail : ∃ item ∈ tail, p item := by
        rcases List.mem_cons.1 hmem with h1 | h1
        · exact absurd (h1 ▸ hitem) hhead
        · exact ⟨item, h1, hitem⟩
      obtain ⟨front, found, rest, hsplit, hfound, hfront⟩ := ih htail
      refine ⟨head :: front, found, rest, by rw [hsplit]; rfl, hfound, ?_⟩
      intro other hother
      rcases List.mem_cons.1 hother with h1 | h1
      · rw [h1]
        exact hhead
      · exact hfront other h1

/-- The queues after the second loop of `red_rs485_extension_dispatch_to_rs485`: each is
the queue before, with or without one item behind it. -/
theorem dispatch_to_recipient_keeps (request : Packet) (data : Nat)
    (slaves : List RS485Slave) (i : Nat) (slave : RS485Slave)
    (hslave : slaves[i]? = some slave) :
    ∃ after, (dispatch_to_recipient request data slaves)[i]? = some after ∧
      after.address = slave.address ∧ after.sequence = slave.sequence ∧
      ∃ added, after.packet_queue.items = slave.packet_queue.items ++ added := by
  induction slaves generalizing i with
  | nil => exact absurd hslave (by simp)
  | cons head tail ih =>
    rw [dispatch_to_recipient]
    by_cases hhead : (head.address.val == data) = true
    · rw [if_pos hhead]
      cases i with
      | zero =>
        rw [List.getElem?_cons_zero, Option.some.injEq] at hslave
        rw [← hslave]
        exact ⟨{ head with
            packet_queue := queue_push head.packet_queue (queued_request request) },
          List.getElem?_cons_zero, rfl, rfl, [queued_request request], rfl⟩
      | succ i =>
        rw [List.getElem?_cons_succ] at hslave ⊢
        exact ⟨slave, hslave, rfl, rfl, [], (List.append_nil _).symm⟩
    · rw [if_neg hhead]
      cases i with
      | zero =>
        rw [List.getElem?_cons_zero, Option.some.injEq] at hslave
        rw [← hslave]
        exact ⟨head, List.getElem?_cons_zero, rfl, rfl, [], (List.append_nil _).symm⟩
      | succ i =>
        rw [List.getElem?_cons_succ] at hslave ⊢
        exact ih i hslave

/-- C22: `red_rs485_extension_dispatch_to_rs485` queues an item with `tries_left` 10 that
holds the first `header.length` bytes of the request. For a request with a UID other than
0 and a recipient whose `opaque` is the address of a configured slave, the item is put
behind the queue of the first slave with that address, and nothing else changes. For a
request with UID 0 the item is put behind the queue of every slave. In every case each
queue is afterwards the queue before, with or without items behind it: no item that was
queued is moved or removed. -/
theorem dispatch_to_rs485_enqueues (slaves : List RS485Slave) (request : Packet)
    (recipient : Recipient) (hlength : request.header.length.val ≤ sizeof_Packet)
    (hsize : request.payload.length = 72) :
    ((queued_request request).tries_left.val = 10 ∧
      (queued_request request).packet.bytes.take request.header.length.val
        = request.bytes.take request.header.length.val) ∧
    (uint32_from_le request.header.uid ≠ 0 →
      (∃ slave ∈ slaves, slave.address.val = recipient.data) →
      ∃ front slave rest, slaves = front ++ slave :: rest ∧
        slave.address.val = recipient.data ∧
        (∀ other ∈ front, other.address.val ≠ recipient.data) ∧
        red_rs485_extension_dispatch_to_rs485 slaves request (some recipient)
          = (front ++
              { slave with
                packet_queue := ⟨slave.packet_queue.items ++ [queued_request request]⟩ }
              :: rest, 0)) ∧
    (uint32_from_le request.header.uid = 0 →
      red_rs485_extension_dispatch_to_rs485 slaves request (some recipient)
        = (slaves.map (fun slave =>
            { slave with
              packet_queue := ⟨slave.packet_queue.items ++ [queued_request request]⟩ }),
            0)) ∧
    (∀ (i : Nat) (slave : RS485Slave), slaves[i]? = some slave →
      ∃ after,
        (red_rs485_extension_dispatch_to_rs485 slaves request (some recipient)).1[i]?
          = some after ∧
        after.address = slave.address ∧ after.sequence = slave.sequence ∧
        ∃ added, after.packet_queue.items = slave.packet_queue.items ++ added) := by
  obtain ⟨htries, hpacket⟩ := queued_request_fields request hlength hsize
  refine ⟨⟨htries, ?_⟩, ?_, ?_, ?_⟩
  · have hbytes : request.bytes.length = 80 := packet_bytes_length request hsize
    simp only [sizeof_Packet] at hlength
    rw [hpacket, List.take_append_of_le_length (by rw [List.length_take]; omega),
      List.take_take, min_self]
  · intro huid hconfigured
    obtain ⟨front, slave, rest, hsplit, hslave, hfront⟩ :=
      split_at_first (fun slave : RS485Slave => slave.address.val = recipient.data) slaves
        hconfigured
    refine ⟨front, slave, rest, hsplit, hslave, hfront, ?_⟩
    unfold red_rs485_extension_dispatch_to_rs485
    rw [if_neg (by simpa using huid)]
    dsimp only
    rw [hsplit, dispatch_to_recipient_first request recipient.data front rest slave hfront
      hslave]
    rfl
  · intro huid
    unfold red_rs485_extension_dispatch_to_rs485
    rw [if_pos (by simp [huid])]
    rfl
  · intro i slave hslave
    unfold red_rs485_extension_dispatch_to_rs485
    by_cases huid : (uint32_from_le request.header.uid == 0
        || (some recipient).isNone) = true
    · rw [if_pos huid]
      dsimp only
      rw [List.getElem?_map, hslave]
      exact ⟨_, rfl, rfl, rfl, [queued_request request], rfl⟩
    · rw [if_neg huid]
      exact dispatch_to_recipient_keeps request recipient.data slaves i slave hslave

/-- C22 at the two slaves 4 and 5 with empty queues and a request of 8 bytes with a UID
other than 0, for the recipient with `opaque` 5: the request is queued for slave 5. -/
theorem dispatch_to_rs485_enqueues_witness :
    red_rs485_extension_dispatch_to_rs485 [⟨4, 0, ⟨[]⟩⟩, ⟨5, 0, ⟨[]⟩⟩] example_rs485_packet
        (some ⟨⟨0x11, 0x22, 0x33, 0x44⟩, 5⟩)
      = ([⟨4, 0, ⟨[]⟩⟩, ⟨5, 0, ⟨[queued_request example_rs485_packet]⟩⟩], 0) ∧
    (queued_request example_rs485_packet).tries_left.val = 10 :=
  have h := dispatch_to_rs485_enqueues [⟨4, 0, ⟨[]⟩⟩, ⟨5, 0, ⟨[]⟩⟩] example_rs485_packet
    ⟨⟨0x11, 0x22, 0x33, 0x44⟩, 5⟩ (by decide) (by decide)
  ⟨by decide, h.1.1⟩
/-! ## The current slave of the master -/

/-- The current slave is the entry of `slaves` at the index
`master_current_slave_to_process`. -/
theorem current_slave_eq (state : RS485State) (slave : RS485Slave)
    (h : state.current_slave = some slave) :
    0 ≤ state.master_current_slave_to_process ∧
    state.master_current_slave_to_process < state.slave_num ∧
    state.slaves[state.master_current_slave_to_process.toNat]? = some slave := by
  unfold RS485State.current_slave at h
  by_cases hneg : state.master_current_slave_to_process < 0
  · rw [if_pos hneg] at h
    exact absurd h (by simp)
  · rw [if_neg hneg] at h
    have hlt := (List.getElem?_eq_some_iff.1 h).1
    refine ⟨by omega, ?_, h⟩
    unfold RS485State.slave_num
    omega

theorem update_current_slave_eq (state : RS485State) (update : RS485Slave → RS485Slave)
    (slave : RS485Slave) (h : state.current_slave = some slave) :
    state.update_current_slave update
      = { state with
          slaves := state.slaves.set state.master_current_slave_to_process.toNat
            (update slave) } := by
  unfold RS485State.update_current_slave
  rw [h]

theorem current_slave_update (state : RS485State) (update : RS485Slave → RS485Slave)
    (slave : RS485Slave) (h : state.current_slave = some slave) :
    (state.update_current_slave update).current_slave = some (update slave) := by
  obtain ⟨h1, h2, h3⟩ := current_slave_eq state slave h
  rw [update_current_slave_eq state update slave h]
  unfold RS485State.current_slave
  dsimp only
  rw [if_neg (by omega), List.getElem?_set_self (List.getElem?_eq_some_iff.1 h3).1]

/-- Two changes of the current slave in a row are one change. -/
theorem update_current_slave_twice (state : RS485State)
    (first second : RS485Slave → RS485Slave) (slave : RS485Slave)
    (h : state.current_slave = some slave) :
    (state.update_current_slave first).update_current_slave second
      = state.update_current_slave (fun slave => second (first slave)) := by
  rw [update_current_slave_eq _ second _ (current_slave_update state first slave h),
    update_current_slave_eq state first slave h, update_current_slave_eq state _ slave h]
  simp only [List.set_set]

/-! ## A request that has timed out (C23) -/

/-- `pop_packet_from_slave_queue` for a slave with an item at the head of its queue. -/
theorem pop_packet_from_slave_queue_head (slave : RS485Slave) (head : RS485ExtensionPacket)
    (tail : List RS485ExtensionPacket) (hqueue : slave.packet_queue.items = head :: tail) :
    pop_packet_from_slave_queue slave
      = { slave with
          packet_queue :=
            if u8 (head.tries_left.val + 255) = 0 then ⟨tail⟩
            else ⟨{ head with tries_left := u8 (head.tries_left.val + 255) } :: tail⟩ } := by
  have hpeek : queue_peek slave.packet_queue = some head := by
    simp [queue_peek, Queue.count, hqueue]
  unfold pop_packet_from_slave_queue
  rw [hpeek]
  dsimp only
  rw [hqueue, List.tail_cons]
  by_cases h : u8 (head.tries_left.val + 255) = 0
  · rw [if_pos (by simpa using h), if_pos h]
    rfl
  · rw [if_neg (by simpa using h), if_neg h]

theorem pop_packet_from_slave_queue_empty (slave : RS485Slave)
    (hqueue : slave.packet_queue.items = []) : pop_packet_from_slave_queue slave = slave := by
  have hpeek : queue_peek slave.packet_queue = none := by
    simp [queue_peek, Queue.count, hqueue]
  unfold pop_packet_from_slave_queue
  rw [hpeek]

/-- The item at the head of a queue with `tries_left` of `tries` is still there, with what
is left of `tries`, after fewer than `tries` timeouts, and is removed by timeout number
`tries`. -/
theorem pop_packet_from_slave_queue_iterate (packet : Packet)
    (tail : List RS485ExtensionPacket) (tries : Nat) (htries : tries < 256) :
    ∀ (k : Nat) (slave : RS485Slave),
      slave.packet_queue.items = ⟨packet, u8 tries⟩ :: tail → k ≤ tries → 0 < tries →
      ((pop_packet_from_slave_queue^[k] slave).address = slave.address ∧
        (pop_packet_from_slave_queue^[k] slave).sequence = slave.sequence) ∧
      (k < tries →
        (pop_packet_from_slave_queue^[k] slave).packet_queue.items
          = ⟨packet, u8 (tries - k)⟩ :: tail) ∧
      (k = tries → (pop_packet_from_slave_queue^[k] slave).packet_queue.items = tail) := by
  intro k
  induction k with
  | zero =>
    intro slave hqueue _ hpos
    exact ⟨⟨rfl, rfl⟩, fun _ => hqueue, fun h => absurd h (by omega)⟩
  | succ k ih =>
    intro slave hqueue hk hpos
    obtain ⟨⟨h1, h2⟩, h3, _⟩ := ih slave hqueue (by omega) hpos
    have hitems := h3 (by omega)
    rw [Function.iterate_succ_apply',
      pop_packet_from_slave_queue_head _ _ _ hitems]
    have hvalue : (u8 (tries - k)).val + 255 = (tries - k - 1) + 256 := by
      simp only [u8]
      rw [Nat.mod_eq_of_lt (by omega)]
      omega
    have hnext : u8 ((u8 (tries - k)).val + 255) = u8 (tries - (k + 1)) := by
      apply Fin.ext
      rw [hvalue]
      simp only [u8, Nat.add_mod_right]
      congr 1
    dsimp only
    rw [hnext]
    refine ⟨⟨h1, h2⟩, ?_, ?_⟩
    · intro hlt
      have hne : u8 (tries - (k + 1)) ≠ 0 := by
        intro h
        have := congrArg Fin.val h
        simp only [u8] at this
        rw [Nat.mod_eq_of_lt (by omega)] at this
        have h0 : ((0 : Byte) : Nat) = 0 := rfl
        omega
      rw [if_neg hne]
    · intro heq
      have hzero : u8 (tries - (k + 1)) = 0 := by
        rw [heq, Nat.sub_self]
        rfl
      rw [if_pos hzero]

/-- `is_current_request_empty` holds if and only if the frame that was sent last has UID
0, length 8 and function ID 0. -/
theorem is_current_request_empty_iff (state : RS485State) :
    state.is_current_request_empty = true ↔
      uint32_from_le ⟨state.current_request_as_byte_array.getD 3 0,
        state.current_request_as_byte_array.getD 4 0,
        state.current_request_as_byte_array.getD 5 0,
        state.current_request_as_byte_array.getD 6 0⟩ = 0 ∧
      state.current_request_as_byte_array.getD 7 0 = 8 ∧
      state.current_request_as_byte_array.getD 8 0 = 0 := by
  unfold RS485State.is_current_request_empty
  simp [and_assoc]

/-- `master_timeout_handler` when the time for the response to a request has passed. -/
theorem master_timeout_handler_request (state : RS485State) (now later : Nat)
    (written : Bool) (slave : RS485Slave)
    (hinterval : state.master_poll_interval = false)
    (helapsed : state.TIMEOUT ≤ state.time_passed now)
    (hslave : state.current_slave = some slave) :
    state.master_timeout_handler now later written
      = { state with
          slaves := state.slaves.set state.master_current_slave_to_process.toNat
            (pop_packet_from_slave_queue
              (if state.is_current_request_empty then increment_sequence slave else slave))
          master_poll_interval := true
          master_timer := state.MASTER_POLL_SLAVE_INTERVAL
          last_timer_enable_at_us := later } := by
  have hslave1 : state.disable_master_timer.current_slave = some slave := hslave
  have hempty : state.disable_master_timer.is_current_request_empty
      = state.is_current_request_empty := rfl
  have htime : state.disable_master_timer.time_passed now = state.time_passed now := rfl
  have hTIMEOUT : state.disable_master_timer.TIMEOUT = state.TIMEOUT := rfl
  unfold RS485State.master_timeout_handler
  dsimp only
  have hflag : state.disable_master_timer.master_poll_interval = false := hinterval
  rw [hflag, if_neg (by decide), htime, hTIMEOUT, if_neg (by omega), hempty]
  by_cases h : state.is_current_request_empty = true
  · rw [if_pos h, if_pos h,
      update_current_slave_twice _ _ _ slave hslave1,
      update_current_slave_eq _ _ slave hslave1]
    rfl
  · rw [if_neg h, if_neg h, update_current_slave_eq _ _ slave hslave1]
    rfl

/-- C23: when `master_timeout_handler` runs with `master_poll_interval` false and the time
passed is at least `TIMEOUT`, then `tries_left` of the item at the head of the queue of the
current slave goes down by one and the item is removed if and only if that makes it zero;
the sequence number of the slave goes up by one (modulo 256) if and only if the frame that
was sent last is an empty one (UID 0, length 8, function ID 0); the other slaves are as
before; and the timer is set to the interval between two polls, with
`master_poll_interval` true. So an item with `tries_left` 10 is removed by the tenth
timeout and is still there after fewer, and an item with `tries_left` 1 is removed by the
first. -/
theorem master_timeout_handler_request_timeout (state : RS485State) (now later : Nat)
    (written : Bool) (slave : RS485Slave)
    (hinterval : state.master_poll_interval = false)
    (helapsed : state.TIMEOUT ≤ state.time_passed now)
    (hslave : state.current_slave = some slave) :
    (∃ after,
      (state.master_timeout_handler now later written).slaves
        = state.slaves.set state.master_current_slave_to_process.toNat after ∧
      after = pop_packet_from_slave_queue
        (if state.is_current_request_empty then increment_sequence slave else slave) ∧
      after.address = slave.address ∧
      after.sequence
        = (if state.is_current_request_empty then u8 (slave.sequence.val + 1)
          else slave.sequence) ∧
      (slave.packet_queue.items = [] → after.packet_queue.items = []) ∧
      (∀ head tail, slave.packet_queue.items = head :: tail →
        after.packet_queue.items
          = if u8 (head.tries_left.val + 255) = 0 then tail
            else { head with tries_left := u8 (head.tries_left.val + 255) } :: tail)) ∧
    (state.is_current_request_empty = true ↔
      uint32_from_le ⟨state.current_request_as_byte_array.getD 3 0,
        state.current_request_as_byte_array.getD 4 0,
        state.current_request_as_byte_array.getD 5 0,
        state.current_request_as_byte_array.getD 6 0⟩ = 0 ∧
      state.current_request_as_byte_array.getD 7 0 = 8 ∧
      state.current_request_as_byte_array.getD 8 0 = 0) ∧
    (∀ j : Nat, j ≠ state.master_current_slave_to_process.toNat →
      (state.master_timeout_handler now later written).slaves[j]? = state.slaves[j]?) ∧
    (state.master_timeout_handler now later written).master_poll_interval = true ∧
    (state.master_timeout_handler now later written).master_timer
      = state.MASTER_POLL_SLAVE_INTERVAL ∧
    (state.master_timeout_handler now later written).master_current_slave_to_process
      = state.master_current_slave_to_process ∧
    (∀ packet tail, slave.packet_queue.items = ⟨packet, 10⟩ :: tail →
      (∀ k, k < 10 →
        (pop_packet_from_slave_queue^[k] slave).packet_queue.items
          = ⟨packet, u8 (10 - k)⟩ :: tail) ∧
      (pop_packet_from_slave_queue^[10] slave).packet_queue.items = tail) ∧
    (∀ packet tail, slave.packet_queue.items = ⟨packet, 1⟩ :: tail →
      (pop_packet_from_slave_queue slave).packet_queue.items = tail) := by
  rw [master_timeout_handler_request state now later written slave hinterval helapsed hslave]
  refine ⟨⟨_, rfl, rfl, ?_, ?_, ?_, ?_⟩, is_current_request_empty_iff state, ?_, rfl, rfl, rfl,
    ?_, ?_⟩
  · by_cases h : state.is_current_request_empty = true
    · rw [if_pos h]
      rcases hitems : slave.packet_queue.items with _ | ⟨head, tail⟩
      · rw [pop_packet_from_slave_queue_empty _ (by exact hitems)]
        rfl
      · rw [pop_packet_from_slave_queue_head _ head tail (by exact hitems)]
        rfl
    · rw [if_neg h]
      rcases hitems : slave.packet_queue.items with _ | ⟨head, tail⟩
      · rw [pop_packet_from_slave_queue_empty _ hitems]
      · rw [pop_packet_from_slave_queue_head _ head tail hitems]
  · by_cases h : state.is_current_request_empty = true
    · rw [if_pos h, if_pos h]
      rcases hitems : slave.packet_queue.items with _ | ⟨head, tail⟩
      · rw [pop_packet_from_slave_queue_empty _ (by exact hitems)]
        rfl
      · rw [pop_packet_from_slave_queue_head _ head tail (by exact hitems)]
        rfl
    · rw [if_neg h, if_neg h]
      rcases hitems : slave.packet_queue.items with _ | ⟨head, tail⟩
      · rw [pop_packet_from_slave_queue_empty _ hitems]
      · rw [pop_packet_from_slave_queue_head _ head tail hitems]
  · intro hempty
    have h1 : (if state.is_current_request_empty = true then increment_sequence slave
        else slave).packet_queue.items = [] := by
      by_cases h : state.is_current_request_empty = true
      · rw [if_pos h]
        exact hempty
      · rw [if_neg h]
        exact hempty
    rw [pop_packet_from_slave_queue_empty _ h1]
    exact h1
  · intro head tail hitems
    have h1 : (if state.is_current_request_empty = true then increment_sequence slave
        else slave).packet_queue.items = head :: tail := by
      by_cases h : state.is_current_request_empty = true
      · rw [if_pos h]
        exact hitems
      · rw [if_neg h]
        exact hitems
    rw [pop_packet_from_slave_queue_head _ head tail h1]
    dsimp only
    by_cases h : u8 (head.tries_left.val + 255) = 0
    · rw [if_pos h, if_pos h]
    · rw [if_neg h, if_neg h]
  · intro j hj
    dsimp only
    rw [List.getElem?_set_ne (Ne.symm hj)]
  · intro packet tail hitems
    have hiterate := pop_packet_from_slave_queue_iterate packet tail 10 (by decide)
    refine ⟨fun k hk => ?_, ?_⟩
    · exact (hiterate k slave hitems (by omega) (by decide)).2.1 hk
    · exact (hiterate 10 slave hitems (le_refl _) (by decide)).2.2 rfl
  · intro packet tail hitems
    exact (pop_packet_from_slave_queue_iterate packet tail 1 (by decide) 1 slave hitems
      (le_refl _) (by decide)).2.2 rfl

/-- C23 at a master whose current slave 4 has been sent an empty request, which is the one
item of its queue: the request is removed, the sequence number of slave 4 goes up to 1,
and the timer is set to the interval between two polls. -/
theorem master_timeout_handler_request_timeout_witness :
    (example_rs485_state.master_timeout_handler 100000 100001 true).slaves
      = [⟨4, 1, ⟨[]⟩⟩, ⟨5, 0, ⟨[]⟩⟩] ∧
    (example_rs485_state.master_timeout_handler 100000 100001 true).master_poll_interval
      = true ∧
    (example_rs485_state.master_timeout_handler 100000 100001 true).master_timer
      = 40000000 :=
  have h := master_timeout_handler_request_timeout example_rs485_state 100000 100001 true
    ⟨4, 0, ⟨[empty_request]⟩⟩ (by decide) (by decide) (by decide)
  ⟨by decide, h.2.2.2.1, h.2.2.2.2.1⟩
/-! ## What the functions of the master leave alone -/

theorem update_current_slave_slaves (state : RS485State) (update : RS485Slave → RS485Slave) :
    ∃ slaves, state.update_current_slave update = { state with slaves := slaves } ∧
      slaves.length = state.slaves.length := by
  unfold RS485State.update_current_slave
  rcases Option.eq_none_or_eq_some state.current_slave with h | ⟨slave, h⟩
  · rw [h]
    exact ⟨state.slaves, rfl, rfl⟩
  · rw [h]
    exact ⟨_, rfl, List.length_set _ _ _⟩

/-- `seq_pop_poll` changes the slaves, but not their number, and sets the timer to the
interval between two polls. -/
theorem seq_pop_poll_eq (state : RS485State) (now : Nat) :
    ∃ slaves, state.seq_pop_poll now
        = { state with
            slaves := slaves
            master_poll_interval := true
            master_timer := state.MASTER_POLL_SLAVE_INTERVAL
            last_timer_enable_at_us := now } ∧
      slaves.length = state.slaves.length := by
  unfold RS485State.seq_pop_poll
  dsimp only
  by_cases h : state.is_current_request_empty = true
  · rw [if_pos h]
    obtain ⟨slaves1, h1, hl1⟩ := update_current_slave_slaves state increment_sequence
    obtain ⟨slaves2, h2, hl2⟩ := update_current_slave_slaves
      (state.update_current_slave increment_sequence) pop_packet_from_slave_queue
    rw [h2, h1]
    rw [h1] at hl2
    exact ⟨slaves2, rfl, hl2.trans hl1⟩
  · rw [if_neg h]
    obtain ⟨slaves1, h1, hl1⟩ := update_current_slave_slaves state
      pop_packet_from_slave_queue
    rw [h1]
    exact ⟨slaves1, rfl, hl1⟩

theorem seq_pop_poll_fields (state : RS485State) (now : Nat) :
    (state.seq_pop_poll now).slaves.length = state.slaves.length ∧
    (state.seq_pop_poll now).master_current_slave_to_process
      = state.master_current_slave_to_process ∧
    (state.seq_pop_poll now).master_poll_interval = true ∧
    (state.seq_pop_poll now).master_timer = state.MASTER_POLL_SLAVE_INTERVAL ∧
    (state.seq_pop_poll now).crc_error_count_value = state.crc_error_count_value ∧
    (state.seq_pop_poll now).added_recipients = state.added_recipients ∧
    (state.seq_pop_poll now).dispatched_responses = state.dispatched_responses ∧
    (state.seq_pop_poll now).compared = state.compared := by
  obtain ⟨slaves, h, hlength⟩ := seq_pop_poll_eq state now
  rw [h]
  exact ⟨hlength, rfl, rfl, rfl, rfl, rfl, rfl, rfl⟩

/-- `send_packet` changes neither the slaves nor the index of the current slave. -/
theorem send_packet_keeps (state : RS485State) (written : Bool) (now : Nat) :
    (state.send_packet written now).slaves = state.slaves ∧
    (state.send_packet written now).master_current_slave_to_process
      = state.master_current_slave_to_process ∧
    (state.send_packet written now).compared = state.compared ∧
    (state.send_packet written now).added_recipients = state.added_recipients ∧
    (state.send_packet written now).dispatched_responses = state.dispatched_responses := by
  unfold RS485State.send_packet
  rcases Option.eq_none_or_eq_some state.current_slave with h | ⟨slave, h⟩
  · rw [h]
    exact ⟨rfl, rfl, rfl, rfl, rfl⟩
  · rw [h]
    dsimp only
    rcases Option.eq_none_or_eq_some (Brickd.send_packet slave) with h1 | ⟨frame, h1⟩
    · rw [h1]
      exact ⟨rfl, rfl, rfl, rfl, rfl⟩
    · rw [h1]
      dsimp only
      by_cases h2 : (!written) = true
      · rw [if_pos h2]
        exact ⟨rfl, rfl, rfl, rfl, rfl⟩
      · rw [if_neg h2]
        exact ⟨rfl, rfl, rfl, rfl, rfl⟩

/-- `master_poll_slave` goes on to the next slave, and from the last one to the first. -/
theorem master_poll_slave_index (state : RS485State) (written : Bool) (now : Nat) :
    (state.master_poll_slave written now).master_current_slave_to_process
      = if state.master_current_slave_to_process + 1 ≥ state.slave_num then 0
        else state.master_current_slave_to_process + 1 := by
  unfold RS485State.master_poll_slave
  dsimp only
  generalize hstate1 : ({ state with
      sent_ack_of_data_packet := 0
      receive_buffer_used := 0
      receive_buffer := List.replicate RECEIVE_BUFFER_SIZE 0
      master_current_slave_to_process :=
        if state.master_current_slave_to_process + 1
            ≥ RS485State.slave_num { state with
                sent_ack_of_data_packet := 0
                receive_buffer_used := 0
                receive_buffer := List.replicate RECEIVE_BUFFER_SIZE 0 } then 0
        else state.master_current_slave_to_process + 1 } : RS485State) = state1
  have hindex : state1.master_current_slave_to_process
      = if state.master_current_slave_to_process + 1 ≥ state.slave_num then 0
        else state.master_current_slave_to_process + 1 := by
    rw [← hstate1]
    rfl
  rcases Option.eq_none_or_eq_some state1.current_slave with h | ⟨slave, h⟩
  · rw [h]
    exact hindex
  · rw [h]
    dsimp only
    by_cases hcount : (slave.packet_queue.count == 0) = true
    · rw [if_pos hcount, (send_packet_keeps _ written now).2.1]
      obtain ⟨slaves, h1, _⟩ := update_current_slave_slaves state1
        (fun slave => { slave with packet_queue := queue_push slave.packet_queue empty_request })
      rw [h1]
      exact hindex
    · rw [if_neg hcount, (send_packet_keeps _ written now).2.1]
      exact hindex

/-- For an index of a slave, or -1, the next index is the index plus one modulo the number
of slaves. -/
theorem next_slave_index (index slave_num : Int) (hlow : -1 ≤ index)
    (hhigh : index < slave_num) :
    (if index + 1 ≥ slave_num then 0 else index + 1) = (index + 1) % slave_num := by
  by_cases h : index + 1 ≥ slave_num
  · rw [if_pos h]
    have e : index + 1 = slave_num := by omega
    rw [e, Int.emod_self]
  · rw [if_neg h, Int.emod_eq_of_lt (by omega) (by omega)]

/-! ## A response with a wrong checksum (C26) -/

/-- `_receive.packet.header.length` is the byte at offset 7 of `_receive.buffer`. -/
theorem receive_packet_length (state : RS485State) :
    state.receive_packet.header.length = state.receive_buffer.getD 7 0 := by
  unfold RS485State.receive_packet Packet.of_bytes
  simp only [RS485_FRAME_HEADER_LENGTH, sizeof_Packet, List.getD_eq_getElem?_getD]
  rw [List.getElem?_take_of_lt (by decide), List.getElem?_drop]

/-- `verify_buffer` for a complete frame when the send verification is not pending: the
statements behind the send verification are run. -/
theorem verify_buffer_response (state : RS485State) (written : Bool) (now depth : Nat)
    (hused : 8 ≤ state.receive_buffer_used)
    (hcomplete : RS485_FRAME_HEADER_LENGTH + (state.receive_buffer.getD 7 0).val
      + RS485_FRAME_FOOTER_LENGTH ≤ state.receive_buffer_used)
    (hflag : state.send_verify_flag = 0) :
    RS485State.verify_buffer written now (depth + 1) state
      = some (state.verify_response
          (RS485_FRAME_HEADER_LENGTH + (state.receive_buffer.getD 7 0).val
            + RS485_FRAME_FOOTER_LENGTH) written now) := by
  unfold RS485State.verify_buffer
  rw [if_neg (by omega)]
  dsimp only
  rw [receive_packet_length, if_neg (by omega), hflag, if_neg (by decide)]

/-- C26: when `verify_buffer` finds a complete frame in the receive buffer, the send
verification is not pending (`send_verify_flag == 0`) and the `crc16` of the frame without
its last two bytes is not the number that these two bytes make (high byte first), then
`crc_error_count_value` goes up by one (modulo 2^64, as it is a `uint64_t`), neither
`stack_add_recipient` nor `network_dispatch_response` is called, the timer is set to the
interval between two polls with `master_poll_interval` true, and `master_poll_slave`
called afterwards makes the slave at the index `(current + 1) mod slave_num` the current
slave. -/
theorem verify_buffer_crc_mismatch (state : RS485State) (written : Bool) (now depth : Nat)
    (hused : 8 ≤ state.receive_buffer_used)
    (hcomplete : RS485_FRAME_HEADER_LENGTH + (state.receive_buffer.getD 7 0).val
      + RS485_FRAME_FOOTER_LENGTH ≤ state.receive_buffer_used)
    (hflag : state.send_verify_flag = 0)
    (hcrc : crc16 state.receive_buffer
        (RS485_FRAME_HEADER_LENGTH + (state.receive_buffer.getD 7 0).val
          + RS485_FRAME_FOOTER_LENGTH - RS485_FRAME_FOOTER_LENGTH)
      ≠ (((state.receive_buffer.getD
            (RS485_FRAME_HEADER_LENGTH + (state.receive_buffer.getD 7 0).val
              + RS485_FRAME_FOOTER_LENGTH - 2) 0).val <<< 8) |||
          (state.receive_buffer.getD
            (RS485_FRAME_HEADER_LENGTH + (state.receive_buffer.getD 7 0).val
              + RS485_FRAME_FOOTER_LENGTH - 1) 0).val) % 2 ^ 16)
    (hlow : -1 ≤ state.master_current_slave_to_process)
    (hhigh : state.master_current_slave_to_process < state.slave_num) :
    ∃ result, RS485State.verify_buffer written now (depth + 1) state = some result ∧
      result.crc_error_count_value = (state.crc_error_count_value + 1) % 2 ^ 64 ∧
      (state.crc_error_count_value + 1 < 2 ^ 64 →
        result.crc_error_count_value = state.crc_error_count_value + 1) ∧
      result.added_recipients = state.added_recipients ∧
      result.dispatched_responses = state.dispatched_responses ∧
      result.master_poll_interval = true ∧
      result.master_timer = state.MASTER_POLL_SLAVE_INTERVAL ∧
      result.master_current_slave_to_process = state.master_current_slave_to_process ∧
      result.slave_num = state.slave_num ∧
      ∀ (written1 : Bool) (now1 : Nat),
        (result.master_poll_slave written1 now1).master_current_slave_to_process
          = (state.master_current_slave_to_process + 1) % state.slave_num := by
  rw [verify_buffer_response state written now depth hused hcomplete hflag]
  refine ⟨_, rfl, ?_⟩
  unfold RS485State.verify_response
  dsimp only
  rw [if_pos (by simpa using hcrc)]
  obtain ⟨h1, h2, h3, h4, h5, h6, h7, _⟩ := seq_pop_poll_fields
    (RS485State.disable_master_timer
      { state with crc_error_count_value := (state.crc_error_count_value + 1) % 2 ^ 64 }) now
  have hnum : ((RS485State.disable_master_timer
      { state with
        crc_error_count_value := (state.crc_error_count_value + 1) % 2 ^ 64 }).seq_pop_poll
      now).slave_num = state.slave_num := by
    unfold RS485State.slave_num
    rw [h1]
    rfl
  refine ⟨h5, fun h => ?_, h6, h7, h3, h4, h2, hnum, ?_⟩
  · rw [h5]
    exact Nat.mod_eq_of_lt h
  · intro written1 now1
    rw [master_poll_slave_index, hnum, h2]
    exact next_slave_index _ _ hlow hhigh

/-- C26 at a master with the slaves 4 and 5 that waits for the response of slave 4 (index
0) and has received a frame of 13 bytes with a wrong checksum: the count of CRC errors goes
from 0 to 1, nothing is passed on, the timer is set to the interval between two polls, and
`master_poll_slave` goes on to the slave at index 1. -/
theorem verify_buffer_crc_mismatch_witness :
    ∃ result, RS485State.verify_buffer true 2000 1 example_rs485_state = some result ∧
      result.crc_error_count_value = 1 ∧
      result.added_recipients = [] ∧
      result.dispatched_responses = [] ∧
      result.master_poll_interval = true ∧
      result.master_timer = 40000000 ∧
      (result.master_poll_slave true 3000).master_current_slave_to_process = 1 :=
  (verify_buffer_crc_mismatch example_rs485_state true 2000 0 (by decide) (by decide)
    (by decide) (by decide) (by decide) (by decide)).elim
    (fun result h => ⟨result, h.1, h.2.2.1 (by decide), h.2.2.2.1, h.2.2.2.2.1,
      h.2.2.2.2.2.1, h.2.2.2.2.2.2.1, h.2.2.2.2.2.2.2.2.2 true 3000⟩)
/-! ## The send verification of `verify_buffer` (C28) -/

theorem update_current_slave_compared (state : RS485State)
    (update : RS485Slave → RS485Slave) :
    (state.update_current_slave update).compared = state.compared := by
  obtain ⟨slaves, h, _⟩ := update_current_slave_slaves state update
  rw [h]

theorem seq_pop_poll_compared (state : RS485State) (now : Nat) :
    (state.seq_pop_poll now).compared = state.compared :=
  (seq_pop_poll_fields state now).2.2.2.2.2.2.2

theorem send_packet_compared (state : RS485State) (written : Bool) (now : Nat) :
    (state.send_packet written now).compared = state.compared :=
  (send_packet_keeps state written now).2.2.1

/-- The statements of `verify_buffer` behind the send verification compare nothing with
`current_request_as_byte_array` in a loop. -/
theorem verify_response_compared (state : RS485State) (frame_length : Nat) (written : Bool)
    (now : Nat) :
    (state.verify_response frame_length written now).compared = state.compared := by
  unfold RS485State.verify_response
  dsimp only
  repeat' split
  all_goals
    simp only [seq_pop_poll_compared, send_packet_compared, update_current_slave_compared,
      RS485State.disable_master_timer, RS485State.arm_master_poll_slave_interval_timer]

/-- The loop of the send verification reads at indices from `i` on and below `i + steps`,
and the two arrays hold the same bytes at the indices that it has passed. -/
theorem send_verify_loop_reads (receive_buffer current_request : List Byte) :
    ∀ (steps i j : Nat), j ∈ (send_verify_loop receive_buffer current_request i steps).2 →
      i ≤ j ∧ j < i + steps ∧
      ∀ m, i ≤ m → m < j → receive_buffer.getD m 0 = current_request.getD m 0 := by
  intro steps
  induction steps with
  | zero =>
    intro i j hj
    exact absurd hj (List.not_mem_nil _)
  | succ steps ih =>
    intro i j hj
    rw [send_verify_loop] at hj
    by_cases h : (receive_buffer.getD i 0 != current_request.getD i 0) = true
    · rw [if_pos h] at hj
      have hji : j = i := by simpa using hj
      refine ⟨by omega, by omega, fun m h1 h2 => ?_⟩
      omega
    · rw [if_neg h] at hj
      rcases List.mem_cons.1 hj with hji | hrest
      · refine ⟨by omega, by omega, fun m h1 h2 => ?_⟩
        omega
      · obtain ⟨h1, h2, h3⟩ := ih (i + 1) j hrest
        refine ⟨by omega, by omega, fun m hm1 hm2 => ?_⟩
        rcases Nat.eq_or_lt_of_le hm1 with heq | hlt
        · rw [← heq]
          simpa using h
        · exact h3 m (by omega) hm2

/-- `verify_buffer` when the send verification is not pending returns without a nested
call, and has compared nothing in a loop. -/
theorem verify_buffer_not_pending (state : RS485State) (written : Bool) (now depth : Nat)
    (hflag : state.send_verify_flag = 0) :
    ∃ result, RS485State.verify_buffer written now (depth + 1) state = some result ∧
      result.compared = state.compared := by
  unfold RS485State.verify_buffer
  by_cases h1 : state.receive_buffer_used < 8
  · rw [if_pos h1]
    exact ⟨state, rfl, rfl⟩
  · rw [if_neg h1]
    dsimp only
    by_cases h2 : state.receive_buffer_used < RS485_FRAME_HEADER_LENGTH +
        state.receive_packet.header.length.val + RS485_FRAME_FOOTER_LENGTH
    · rw [if_pos h2]
      exact ⟨state, rfl, rfl⟩
    · rw [if_neg h2, hflag, if_neg (by decide)]
      exact ⟨_, rfl, verify_response_compared _ _ _ _⟩

/-- C28: for a saved frame `current_request_as_byte_array` of 85 bytes whose length byte
(offset 7) is at most 80, a receive buffer of 1024 bytes of any content and any
`_receive_buffer_used` from 0 to 1024, `verify_buffer` returns with at most one nested
call (a depth of recursion of 2 is enough), and the loop of the send verification has read
`current_request_as_byte_array` at indices below 85 only and `_receive.buffer` at indices
below `_receive_buffer_used` only. -/
theorem verify_buffer_send_verification_in_bounds (state : RS485State) (written : Bool)
    (now depth : Nat)
    (_hrequest : state.current_request_as_byte_array.length
      = sizeof_Packet + RS485_FRAME_OVERHEAD)
    (hlength : (state.current_request_as_byte_array.getD 7 0).val ≤ sizeof_Packet)
    (_hbuffer : state.receive_buffer.length = RECEIVE_BUFFER_SIZE)
    (_hused : state.receive_buffer_used ≤ RECEIVE_BUFFER_SIZE) :
    ∃ result reads, RS485State.verify_buffer written now (depth + 2) state = some result ∧
      result.compared = state.compared ++ reads ∧
      ∀ i ∈ reads, i < sizeof_Packet + RS485_FRAME_OVERHEAD ∧ i < state.receive_buffer_used := by
  by_cases hflag : state.send_verify_flag = 0
  · obtain ⟨result, h1, h2⟩ := verify_buffer_not_pending state written now (depth + 1) hflag
    exact ⟨result, [], h1, by rw [h2, List.append_nil], fun i h => absurd h (List.not_mem_nil _)⟩
  · unfold RS485State.verify_buffer
    by_cases h1 : state.receive_buffer_used < 8
    · rw [if_pos h1]
      exact ⟨state, [], rfl, (List.append_nil _).symm,
        fun i h => absurd h (List.not_mem_nil _)⟩
    · rw [if_neg h1]
      dsimp only
      by_cases h2 : state.receive_buffer_used < RS485_FRAME_HEADER_LENGTH +
          state.receive_packet.header.length.val + RS485_FRAME_FOOTER_LENGTH
      · rw [if_pos h2]
        exact ⟨state, [], rfl, (List.append_nil _).symm,
          fun i h => absurd h (List.not_mem_nil _)⟩
      · rw [if_neg h2, if_pos (by simpa using hflag)]
        -- the indices that the loop reads
        have hreads : ∀ i ∈ (send_verify_loop state.receive_buffer
            state.current_request_as_byte_array 0
            (RS485_FRAME_HEADER_LENGTH + state.receive_packet.header.length.val
              + RS485_FRAME_FOOTER_LENGTH)).2,
            i < sizeof_Packet + RS485_FRAME_OVERHEAD ∧ i < state.receive_buffer_used := by
          intro i hi
          obtain ⟨_, hlt, hsame⟩ := send_verify_loop_reads _ _ _ 0 i hi
          refine ⟨?_, by omega⟩
          simp only [sizeof_Packet, RS485_FRAME_OVERHEAD, RS485_FRAME_HEADER_LENGTH,
            RS485_FRAME_FOOTER_LENGTH] at hlt hlength ⊢
          by_cases h7 : 7 < i
          · have hbyte := hsame 7 (Nat.zero_le _) h7
            rw [receive_packet_length, hbyte] at hlt
            omega
          · omega
        generalize send_verify_loop state.receive_buffer state.current_request_as_byte_array 0
          (RS485_FRAME_HEADER_LENGTH + state.receive_packet.header.length.val
            + RS485_FRAME_FOOTER_LENGTH) = loop at hreads ⊢
        obtain ⟨mismatch, reads⟩ := loop
        dsimp only at hreads ⊢
        cases mismatch with
        | some offset =>
          dsimp only
          exact ⟨_, reads, rfl, seq_pop_poll_compared _ _, hreads⟩
        | none =>
          dsimp only
          by_cases h3 : state.sent_ack_of_data_packet > 0
          · rw [if_pos h3]
            refine ⟨_, reads, rfl, ?_, hreads⟩
            by_cases h4 : (state.sent_ack_of_data_packet == 1) = true
            · simp only [RS485State.disable_master_timer, h4, if_true,
                RS485State.arm_master_poll_slave_interval_timer,
                update_current_slave_compared]
            · simp only [RS485State.disable_master_timer, h4,
                RS485State.arm_master_poll_slave_interval_timer]
              rfl
          · rw [if_neg h3]
            by_cases h5 : (state.receive_buffer_used == RS485_FRAME_HEADER_LENGTH +
                state.receive_packet.header.length.val + RS485_FRAME_FOOTER_LENGTH) = true
            · rw [if_pos h5]
              exact ⟨_, reads, rfl, rfl, hreads⟩
            · rw [if_neg h5]
              by_cases h6 : state.receive_buffer_used > RS485_FRAME_HEADER_LENGTH +
                  state.receive_packet.header.length.val + RS485_FRAME_FOOTER_LENGTH
              · rw [if_pos h6]
                by_cases h8 : state.receive_buffer_used - (RS485_FRAME_HEADER_LENGTH +
                    state.receive_packet.header.length.val + RS485_FRAME_FOOTER_LENGTH) ≥ 8
                · rw [if_pos h8]
                  obtain ⟨result, hresult, hcompared⟩ := verify_buffer_not_pending
                    { state with
                      compared := state.compared ++ reads
                      send_verify_flag := 0
                      receive_buffer := memmove state.receive_buffer
                        (RS485_FRAME_HEADER_LENGTH + state.receive_packet.header.length.val
                          + RS485_FRAME_FOOTER_LENGTH)
                        (state.receive_buffer_used - (RS485_FRAME_HEADER_LENGTH +
                          state.receive_packet.header.length.val
                          + RS485_FRAME_FOOTER_LENGTH))
                      receive_buffer_used := state.receive_buffer_used -
                        (RS485_FRAME_HEADER_LENGTH + state.receive_packet.header.length.val
                          + RS485_FRAME_FOOTER_LENGTH) }
                    written now depth rfl
                  exact ⟨result, reads, hresult, hcompared, hreads⟩
                · rw [if_neg h8]
                  exact ⟨_, reads, rfl, rfl, hreads⟩
              · rw [if_neg h6]
                exact ⟨_, reads, rfl, seq_pop_poll_compared _ _, hreads⟩

set_option maxRecDepth 1000000 in
/-- C28 at a master whose receive buffer holds the 13 bytes of the request that it has
sent, followed by a response of 13 bytes: `verify_buffer` returns with a depth of recursion
of 2, and does not with a depth of 1, as the response is handled by a nested call. -/
theorem verify_buffer_send_verification_in_bounds_witness :
    (∃ result reads,
      RS485State.verify_buffer true 2000 2 example_rs485_echo_state = some result ∧
      result.compared = example_rs485_echo_state.compared ++ reads ∧
      ∀ i ∈ reads, i < sizeof_Packet + RS485_FRAME_OVERHEAD ∧
        i < example_rs485_echo_state.receive_buffer_used) ∧
    RS485State.verify_buffer true 2000 1 example_rs485_echo_state = none :=
  ⟨verify_buffer_send_verification_in_bounds example_rs485_echo_state true 2000 0
    (by decide) (by decide) (by decide) (by decide), by decide⟩

/-! ## Arrays that `array_resize` has not shrunk -/

/-- `array_reserve` for an array that has only zero bytes behind its items: zero bytes are
put behind the block, if it is not large enough. -/
theorem array_reserve_eq (array : ArrayObject) (reserve : Int)
    (hinvariant : array.zero_behind_items) :
    ∃ (more : Nat) (reserved : Int),
      array.array_reserve reserve
        = ({ array with
            allocated := reserved
            bytes := array.bytes ++ List.replicate more 0 }, 0) ∧
      reserve ≤ reserved ∧ array.allocated ≤ reserved ∧
      (array.bytes ++ List.replicate more 0).length = (reserved * array.size).toNat := by
  obtain ⟨hsize, hlow, hhigh, hlength, _⟩ := hinvariant
  obtain ⟨allocated1, count1, size1, bytes⟩ := array
  simp only at hsize hlow hhigh hlength
  obtain ⟨size, hs⟩ := Int.eq_ofNat_of_zero_le (le_of_lt hsize)
  obtain ⟨allocated, ha⟩ := Int.eq_ofNat_of_zero_le (le_trans hlow hhigh)
  subst hs ha
  rw [← Nat.cast_mul, Int.toNat_natCast] at hlength
  unfold ArrayObject.array_reserve
  dsimp only
  by_cases h : (allocated : Int) ≥ reserve
  · rw [if_pos h]
    refine ⟨0, allocated, by simp, h, le_refl _, ?_⟩
    rw [List.replicate_zero, List.append_nil, hlength, ← Nat.cast_mul, Int.toNat_natCast]
  · rw [if_neg h]
    have hgrow := GROW_ALLOCATION_ge reserve (by omega)
    obtain ⟨reserved, hr⟩ := Int.eq_ofNat_of_zero_le
      (show 0 ≤ GROW_ALLOCATION reserve by omega)
    rw [hr] at hgrow ⊢
    refine ⟨reserved * size - allocated * size, reserved, ?_, hgrow, by omega, ?_⟩
    · simp only [← Nat.cast_mul, Int.toNat_natCast]
      have htake : bytes.take (allocated * size) = bytes :=
        List.take_of_length_le (le_of_eq hlength)
      have hmore : (((reserved : Int) - allocated) * size).toNat
          = reserved * size - allocated * size := by
        have hle : allocated ≤ reserved := by omega
        rw [← Nat.cast_sub hle, ← Nat.cast_mul, Int.toNat_natCast, Nat.sub_mul]
      rw [htake, hmore]
      nth_rewrite 2 [← hlength]
      rw [memset_zero_fresh]
    · rw [List.length_append, List.length_replicate, hlength, ← Nat.cast_mul,
        Int.toNat_natCast]
      have hle : allocated * size ≤ reserved * size :=
        Nat.mul_le_mul_right _ (by omega)
      omega

/-- Zero bytes behind an offset stay zero bytes behind a larger offset and when zero bytes
are put behind the block. -/
theorem zero_behind_append (bytes : List Byte) (first later more : Nat)
    (hzero : ∀ byte ∈ bytes.drop first, byte = 0) (hle : first ≤ later) :
    ∀ byte ∈ (bytes ++ List.replicate more 0).drop later, byte = 0 := by
  intro byte hbyte
  have e : later = first + (later - first) := by omega
  rw [e, ← List.drop_drop, List.drop_append_eq_append_drop] at hbyte
  rcases List.mem_append.1 (List.mem_of_mem_drop hbyte) with h | h
  · exact hzero byte h
  · exact List.eq_of_mem_replicate (List.mem_of_mem_drop h)

/-- The invariant with the fields of the array as natural numbers. -/
theorem zero_behind_items_iff (allocated count size : Nat) (bytes : List Byte) :
    ArrayObject.zero_behind_items ⟨allocated, count, size, bytes⟩ ↔
      0 < size ∧ count ≤ allocated ∧ bytes.length = allocated * size ∧
      ∀ byte ∈ bytes.drop (size * count), byte = 0 := by
  unfold ArrayObject.zero_behind_items
  simp only [← Nat.cast_mul, Int.toNat_natCast, Nat.cast_pos, Nat.cast_nonneg, Nat.cast_le,
    true_and]

/-- An array with the invariant has fields that are not negative. -/
theorem zero_behind_items_natural (array : ArrayObject) (h : array.zero_behind_items) :
    ∃ (allocated count size : Nat) (bytes : List Byte),
      array = ⟨allocated, count, size, bytes⟩ := by
  obtain ⟨hsize, hlow, hhigh, _, _⟩ := h
  obtain ⟨allocated1, count1, size1, bytes⟩ := array
  simp only at hsize hlow hhigh
  obtain ⟨size, hs⟩ := Int.eq_ofNat_of_zero_le (le_of_lt hsize)
  obtain ⟨count, hc⟩ := Int.eq_ofNat_of_zero_le hlow
  obtain ⟨allocated, ha⟩ := Int.eq_ofNat_of_zero_le (le_trans hlow hhigh)
  exact ⟨allocated, count, size, bytes, by rw [hs, hc, ha]⟩

theorem zero_behind_items_reserve (array : ArrayObject) (reserve : Int)
    (h : array.zero_behind_items) : (array.array_reserve reserve).1.zero_behind_items := by
  obtain ⟨more, reserved, heq, _, hle, hlength⟩ := array_reserve_eq array reserve h
  rw [heq]
  exact ⟨h.1, h.2.1, le_trans h.2.2.1 hle, hlength,
    zero_behind_append _ _ _ more h.2.2.2.2 (le_refl _)⟩

/-- `array_resize` to a count that is not smaller keeps the invariant. -/
theorem zero_behind_items_resize (array : ArrayObject) (count : Int)
    (h : array.zero_behind_items) (hcount : array.count ≤ count) :
    (array.array_resize count).1.zero_behind_items := by
  unfold ArrayObject.array_resize
  by_cases hlt : array.count < count
  · rw [if_pos hlt]
    obtain ⟨more, reserved, heq, hle, _, hlength⟩ := array_reserve_eq array count h
    rw [heq]
    dsimp only
    rw [if_neg (by decide)]
    refine ⟨h.1, le_trans h.2.1 hcount, hle, hlength, ?_⟩
    exact zero_behind_append _ _ _ more h.2.2.2.2
      (Int.toNat_le_toNat (Int.mul_le_mul_of_nonneg_left hcount (le_of_lt h.1)))
  · rw [if_neg hlt]
    have e : count = array.count := by omega
    rw [e]
    exact h

theorem zero_behind_items_append (array : ArrayObject) (h : array.zero_behind_items) :
    array.array_append.zero_behind_items := by
  unfold ArrayObject.array_append
  obtain ⟨more, reserved, heq, hle, _, hlength⟩ := array_reserve_eq array (array.count + 1) h
  rw [heq]
  dsimp only
  rw [if_neg (by decide)]
  have hlow := h.2.1
  have hnext : array.count ≤ array.count + 1 := by omega
  refine ⟨h.1, le_trans hlow hnext, hle, hlength, ?_⟩
  exact zero_behind_append _ _ _ more h.2.2.2.2
    (Int.toNat_le_toNat (Int.mul_le_mul_of_nonneg_left hnext (le_of_lt h.1)))

/-- Bytes written over a part of the block in front of an offset leave the block as long
as it was, and as it was from that offset on. -/
theorem drop_overwrite (bytes item : List Byte) (offset n : Nat)
    (hitem : offset + item.length ≤ n) (hlength : offset + item.length ≤ bytes.length) :
    (bytes.take offset ++ item ++ bytes.drop (offset + item.length)).length = bytes.length ∧
    (bytes.take offset ++ item ++ bytes.drop (offset + item.length)).drop n
      = bytes.drop n := by
  have hfront : (bytes.take offset ++ item).length = offset + item.length := by
    rw [List.length_append, List.length_take]
    omega
  refine ⟨?_, ?_⟩
  · rw [List.length_append, hfront, List.length_drop]
    omega
  · rw [List.drop_append_eq_append_drop, List.drop_of_length_le (by omega), hfront,
      List.nil_append, List.drop_drop]
    congr 1
    omega

/-- A write to an item of the array keeps the invariant. -/
theorem zero_behind_items_write (array : ArrayObject) (index : Int) (item : List Byte)
    (h : array.zero_behind_items) (hlow : 0 ≤ index) (hhigh : index < array.count)
    (hitem : item.length = array.size.toNat) :
    (array.write_item index item).zero_behind_items := by
  obtain ⟨allocated, count, size, bytes, harray⟩ := zero_behind_items_natural array h
  subst harray
  obtain ⟨i, hi⟩ := Int.eq_ofNat_of_zero_le hlow
  subst hi
  obtain ⟨hsize, hcount, hlength, hzero⟩ := (zero_behind_items_iff _ _ _ _).1 h
  simp only [Int.toNat_natCast] at hitem
  have hlt : i < count := by
    simp only at hhigh
    omega
  have hwithin : size * i + item.length ≤ size * count := by
    rw [hitem]
    calc size * i + size = size * (i + 1) := by ring
      _ ≤ size * count := Nat.mul_le_mul_left _ hlt
  have hblock : size * count ≤ bytes.length := by
    rw [hlength, Nat.mul_comm]
    exact Nat.mul_le_mul_right _ hcount
  have htake : item.take size = item := List.take_of_length_le (le_of_eq hitem)
  unfold ArrayObject.write_item
  simp only [← Nat.cast_mul, Int.toNat_natCast]
  rw [htake]
  obtain ⟨h1, h2⟩ := drop_overwrite bytes item (size * i) (size * count) hwithin
    (le_trans hwithin hblock)
  rw [hitem] at h1 h2
  refine (zero_behind_items_iff _ _ _ _).2 ⟨hsize, hcount, by rw [h1, hlength], ?_⟩
  rw [h2]
  exact hzero

/-- The block after `array_remove`, for the item at index `i` of `i + 1 + t` items: it is
as long as before and has zero bytes from the last item on. -/
theorem remove_bytes (bytes : List Byte) (size i t : Nat)
    (hlength : size * (i + 1 + t) ≤ bytes.length)
    (hzero : ∀ byte ∈ bytes.drop (size * (i + 1 + t)), byte = 0) :
    (memset_zero
      (if 0 < t * size then
        bytes.take (size * i) ++ (bytes.drop (size * (i + 1))).take (t * size)
          ++ bytes.drop (size * i + t * size)
      else bytes) (size * (i + t)) size).length = bytes.length ∧
    ∀ byte ∈ (memset_zero
      (if 0 < t * size then
        bytes.take (size * i) ++ (bytes.drop (size * (i + 1))).take (t * size)
          ++ bytes.drop (size * i + t * size)
      else bytes) (size * (i + t)) size).drop (size * (i + t)), byte = 0 := by
  have e1 : size * (i + 1 + t) = size * (i + t) + size := by ring
  have e2 : size * (i + t) = size * i + t * size := by ring
  have e3 : size * (i + 1) + t * size = size * (i + 1 + t) := by ring
  have hmoved : ∃ moved : List Byte, moved.length = bytes.length ∧
      moved.drop (size * (i + t)) = bytes.drop (size * (i + t)) ∧
      (if 0 < t * size then
        bytes.take (size * i) ++ (bytes.drop (size * (i + 1))).take (t * size)
          ++ bytes.drop (size * i + t * size)
      else bytes) = moved := by
    by_cases h : 0 < t * size
    · rw [if_pos h]
      have hitem : ((bytes.drop (size * (i + 1))).take (t * size)).length = t * size := by
        rw [List.length_take, List.length_drop]
        omega
      obtain ⟨h1, h2⟩ := drop_overwrite bytes ((bytes.drop (size * (i + 1))).take (t * size))
        (size * i) (size * (i + t)) (by rw [hitem]; omega) (by rw [hitem]; omega)
      rw [hitem] at h1 h2
      exact ⟨_, h1, h2, rfl⟩
    · rw [if_neg h]
      exact ⟨bytes, rfl, rfl, rfl⟩
  obtain ⟨moved, hm1, hm2, hm3⟩ := hmoved
  rw [hm3]
  unfold memset_zero
  have hmin : min size (moved.length - size * (i + t)) = size := by
    rw [hm1]
    omega
  have htake : (moved.take (size * (i + t))).length = size * (i + t) := by
    rw [List.length_take, hm1]
    omega
  rw [hmin]
  refine ⟨?_, ?_⟩
  · rw [List.length_append, List.length_append, htake, List.length_replicate,
      List.length_drop, hm1]
    omega
  · intro byte hbyte
    rw [List.append_assoc, List.drop_left' htake] at hbyte
    rcases List.mem_append.1 hbyte with h | h
    · exact List.eq_of_mem_replicate h
    · apply hzero
      rw [e1, ← List.drop_drop, ← hm2, List.drop_drop]
      exact h

/-- `array_remove` of an item of the array keeps the invariant. -/
theorem zero_behind_items_remove (array : ArrayObject) (index : Int)
    (h : array.zero_behind_items) (hlow : 0 ≤ index) (hhigh : index < array.count) :
    (array.array_remove index).zero_behind_items := by
  obtain ⟨allocated, count, size, bytes, harray⟩ := zero_behind_items_natural array h
  subst harray
  obtain ⟨i, hi⟩ := Int.eq_ofNat_of_zero_le hlow
  subst hi
  obtain ⟨hsize, hcount, hlength, hzero⟩ := (zero_behind_items_iff _ _ _ _).1 h
  have hlt : i < count := by
    simp only at hhigh
    omega
  obtain ⟨t, ht⟩ : ∃ t, count = i + 1 + t := ⟨count - i - 1, by omega⟩
  subst ht
  have hblock : size * (i + 1 + t) ≤ bytes.length := by
    rw [hlength, Nat.mul_comm]
    exact Nat.mul_le_mul_right _ hcount
  obtain ⟨h1, h2⟩ := remove_bytes bytes size i t hblock hzero
  have htail : (((i + 1 + t : Nat) : Int) - (i : Nat) - 1) * (size : Nat)
      = ((t * size : Nat) : Int) := by
    push_cast
    ring
  have hlast : ((size : Nat) : Int) * (((i + 1 + t : Nat) : Int) - 1)
      = ((size * (i + t) : Nat) : Int) := by
    push_cast
    ring
  have hnext : ((size : Nat) : Int) * (((i : Nat) : Int) + 1) = ((size * (i + 1) : Nat) : Int) := by
    push_cast
    ring
  have hcount1 : ((i + 1 + t : Nat) : Int) - 1 = ((i + t : Nat) : Int) := by
    push_cast
    ring
  unfold ArrayObject.array_remove
  simp only [htail, hlast, hnext, hcount1, ← Nat.cast_mul, Int.toNat_natCast, gt_iff_lt,
    Nat.cast_pos]
  exact (zero_behind_items_iff _ _ _ _).2 ⟨hsize, by omega, by rw [h1, hlength], h2⟩

theorem zero_behind_items_create (reserve size : Int) (hreserve : 0 ≤ reserve)
    (hsize : 0 < size) : (array_create reserve size).zero_behind_items := by
  unfold array_create
  have hgrow : 0 ≤ GROW_ALLOCATION reserve := by
    unfold GROW_ALLOCATION
    by_cases h : 0 < reserve
    · rw [Int.tdiv_eq_ediv (by omega) (by decide)]
      omega
    · have e : reserve = 0 := by omega
      rw [e]
      decide
  refine ⟨hsize, le_refl _, hgrow, by simp, ?_⟩
  intro byte hbyte
  exact List.eq_of_mem_replicate (List.mem_of_mem_drop hbyte)

/-- Each operation on an array other than an `array_resize` that removes items keeps the
invariant. -/
theorem zero_behind_items_apply (array : ArrayObject) (operation : ArrayOperation)
    (h : array.zero_behind_items) (hgrows : operation.grows array) :
    (array.apply operation).zero_behind_items := by
  cases operation with
  | reserve reserve => exact zero_behind_items_reserve array reserve h
  | resize count =>
    simp only [ArrayObject.apply]
    have hcount : array.count ≤ count := hgrows
    rw [if_pos (le_trans h.2.1 hcount)]
    exact zero_behind_items_resize array count h hcount
  | append => exact zero_behind_items_append array h
  | remove index =>
    simp only [ArrayObject.apply]
    by_cases hindex : 0 ≤ index ∧ index < array.count
    · rw [if_pos hindex]
      exact zero_behind_items_remove array index h hindex.1 hindex.2
    · rw [if_neg hindex]
      exact h
  | write index item =>
    simp only [ArrayObject.apply]
    by_cases hindex : 0 ≤ index ∧ index < array.count
    · rw [if_pos hindex]
      exact zero_behind_items_write array index item h hindex.1 hindex.2 hgrows
    · rw [if_neg hindex]
      exact h

theorem zero_behind_items_run (operations : List ArrayOperation) :
    ∀ array : ArrayObject, array.zero_behind_items → array.grows operations →
      (operations.foldl ArrayObject.apply array).zero_behind_items := by
  induction operations with
  | nil => exact fun _ h _ => h
  | cons operation rest ih =>
    intro array h hgrows
    rw [List.foldl_cons]
    exact ih _ (zero_behind_items_apply array operation h hgrows.1) hgrows.2

/-- What C25 says holds for every array of relocatable items that is reached from
`array_create` by operations among which `array_resize` has removed no item: a call of
`array_resize` with a larger count returns 0, sets `count`, leaves the items that were
there as they are, and each new item consists of `size` zero bytes. -/
theorem array_resize_grow_reached (reserve size count : Int)
    (operations : List ArrayOperation) (hreserve : 0 ≤ reserve) (hsize : 0 < size)
    (hgrows : (array_create reserve size).grows operations)
    (hcount : (operations.foldl ArrayObject.apply (array_create reserve size)).count < count) :
    ((operations.foldl ArrayObject.apply (array_create reserve size)).array_resize count).2
      = 0 ∧
    ((operations.foldl ArrayObject.apply (array_create reserve size)).array_resize
      count).1.count = count ∧
    (∀ i : Int, 0 ≤ i →
      i < (operations.foldl ArrayObject.apply (array_create reserve size)).count →
      ((operations.foldl ArrayObject.apply (array_create reserve size)).array_resize
        count).1.array_get i
        = (operations.foldl ArrayObject.apply (array_create reserve size)).array_get i) ∧
    (∀ i : Int, (operations.foldl ArrayObject.apply (array_create reserve size)).count ≤ i →
      i < count →
      ((operations.foldl ArrayObject.apply (array_create reserve size)).array_resize
        count).1.array_get i
        = List.replicate
          (operations.foldl ArrayObject.apply (array_create reserve size)).size.toNat 0) :=
  array_resize_grow _ count
    (zero_behind_items_run operations _ (zero_behind_items_create reserve size hreserve hsize)
      hgrows) hcount

set_option maxRecDepth 100000 in
/-- An array of items of one byte: two items appended and set to 0xAA and 0xBB, the first
one removed, the array resized to 3 items. The two new items are zero bytes. -/
theorem array_resize_grow_reached_witness :
    ∀ i : Int,
      ([ArrayOperation.append, ArrayOperation.write 0 [0xAA], ArrayOperation.append,
        ArrayOperation.write 1 [0xBB], ArrayOperation.remove 0].foldl ArrayObject.apply
          (array_create 0 1)).count ≤ i →
      i < 3 →
      (([ArrayOperation.append, ArrayOperation.write 0 [0xAA], ArrayOperation.append,
        ArrayOperation.write 1 [0xBB], ArrayOperation.remove 0].foldl ArrayObject.apply
          (array_create 0 1)).array_resize 3).1.array_get i
        = List.replicate
          ([ArrayOperation.append, ArrayOperation.write 0 [0xAA], ArrayOperation.append,
            ArrayOperation.write 1 [0xBB], ArrayOperation.remove 0].foldl ArrayObject.apply
              (array_create 0 1)).size.toNat 0 :=
  (array_resize_grow_reached 0 1 3
    [ArrayOperation.append, ArrayOperation.write 0 [0xAA], ArrayOperation.append,
      ArrayOperation.write 1 [0xBB], ArrayOperation.remove 0]
    (by decide) (by decide) ⟨trivial, rfl, trivial, rfl, trivial, trivial⟩
    (by decide)).2.2.2
/-- Between two timeouts of a request the master comes back to the slave with
`master_poll_slave`, which sends the item at the head of a queue that is not empty again
and leaves the slaves as they are. -/
theorem master_poll_slave_keeps_queued (state : RS485State) (written : Bool) (now : Nat)
    (slave : RS485Slave)
    (hnext : RS485State.current_slave
      { state with
        master_current_slave_to_process :=
          if state.master_current_slave_to_process + 1 ≥ state.slave_num then 0
          else state.master_current_slave_to_process + 1 } = some slave)
    (hqueued : slave.packet_queue.items ≠ []) :
    (state.master_poll_slave written now).slaves = state.slaves := by
  unfold RS485State.master_poll_slave
  dsimp only
  have hcurrent : RS485State.current_slave
      { state with
        sent_ack_of_data_packet := 0
        receive_buffer_used := 0
        receive_buffer := List.replicate RECEIVE_BUFFER_SIZE 0
        master_current_slave_to_process :=
          if state.master_current_slave_to_process + 1
              ≥ RS485State.slave_num { state with
                  sent_ack_of_data_packet := 0
                  receive_buffer_used := 0
                  receive_buffer := List.replicate RECEIVE_BUFFER_SIZE 0 } then 0
          else state.master_current_slave_to_process + 1 } = some slave := hnext
  rw [hcurrent]
  dsimp only
  have hcount : (slave.packet_queue.count == 0) = false := by
    simp only [Queue.count, beq_eq_false_iff_ne, ne_eq, List.length_eq_zero]
    exact hqueued
  rw [hcount, if_neg (by decide), (send_packet_keeps _ written now).1]

end Brickd
